import Mathlib

/-!
# Arrangement_2: observer protocol, user-visible counts and halfedge invariants

A shallow embedding of `Arrangement_2/include/CGAL/Arrangement_2.h`.

* The observer registry (`std::list<Observer*>`) is a `List Observer`; an observer
  pointer is a natural number (pointer identity).  A notifier runs one hook on each
  observer; the hooks are effects of the observers, so a notifier is embedded as the
  function that appends the calls it makes to a call log.
* `Size` is an unsigned machine integer of `w` bits; its width comes from the `Dcel`
  template parameter, so `w` is a parameter of every function computed in `Size`.
* The `Dcel` template parameter (the record store) is not part of the header; its
  records and primitive edits are modelled from the specification, in the section
  "Topological record store".
-/

namespace CGAL

/-! ## Observers -/

/-- An observer pointer (`Observer*`); only its identity matters. -/
abbrev Observer := Nat

/-- The 24 kinds of change the arrangement reports to its observers. -/
inductive Event_kind
  | assign
  | clear
  | global_change
  | create_vertex
  | create_vertex_at_infinity
  | create_edge
  | modify_vertex
  | modify_edge
  | split_edge
  | split_fictitious_edge
  | split_face
  | split_hole
  | add_hole
  | add_isolated_vertex
  | merge_edge
  | merge_fictitious_edge
  | merge_face
  | merge_hole
  | move_hole
  | move_isolated_vertex
  | remove_vertex
  | remove_vertex_at_infinity
  | remove_edge
  | remove_hole
  deriving DecidableEq, Repr

/-- Whether a hook is the `before_...` or the `after_...` method of an observer. -/
inductive Phase
  | before
  | after
  deriving DecidableEq, Repr

/-- One call `(*iter)->before_K (...)` or `(*iter)->after_K (...)` made by a notifier.
The arguments of the hook are the notifier's own arguments, passed on unchanged to
every observer, and are not recorded. -/
structure Call where
  phase : Phase
  kind : Event_kind
  observer : Observer
  deriving DecidableEq, Repr

/-- The loop `for (iter = observers.begin(); iter != end; ++iter) hook (*iter)`:
the list is walked from its first entry to its last. -/
def for_each_observer (hook : Observer → Call) : List Observer → List Call → List Call
  | [], log => log
  | o :: rest, log => for_each_observer hook rest (log ++ [hook o])

/-- The loop `for (iter = observers.rbegin(); iter != end; ++iter) hook (*iter)`
with `end = observers.rend()`: the list is walked from its last entry to its first. -/
def for_each_observer_rev (hook : Observer → Call) : List Observer → List Call → List Call
  | [], log => log
  | o :: rest, log => for_each_observer_rev hook rest log ++ [hook o]

/-- Function `_register_observer`: `observers.push_back (p_obs)`. -/
def _register_observer (observers : List Observer) (p_obs : Observer) : List Observer :=
  observers ++ [p_obs]

/-- Function `_unregister_observer`: walk the list from the front; at the first entry equal to
`p_obs` erase that entry and return `true`; return `false` when the end is reached. -/
def _unregister_observer : List Observer → Observer → Bool × List Observer
  | [], _ => (false, [])
  | o :: rest, p_obs =>
    if o = p_obs then (true, rest)
    else ((_unregister_observer rest p_obs).1, o :: (_unregister_observer rest p_obs).2)

/-! ### The notifiers, one definition per function of the header -/

def _notify_before_assign (observers : List Observer) (log : List Call) : List Call :=
  for_each_observer (fun o => ⟨.before, .assign, o⟩) observers log

def _notify_after_assign (observers : List Observer) (log : List Call) : List Call :=
  for_each_observer_rev (fun o => ⟨.after, .assign, o⟩) observers log

def _notify_before_clear (observers : List Observer) (log : List Call) : List Call :=
  for_each_observer (fun o => ⟨.before, .clear, o⟩) observers log

def _notify_after_clear (observers : List Observer) (log : List Call) : List Call :=
  for_each_observer_rev (fun o => ⟨.after, .clear, o⟩) observers log

def _notify_before_global_change (observers : List Observer) (log : List Call) : List Call :=
  for_each_observer (fun o => ⟨.before, .global_change, o⟩) observers log

def _notify_after_global_change (observers : List Observer) (log : List Call) : List Call :=
  for_each_observer_rev (fun o => ⟨.after, .global_change, o⟩) observers log

def _notify_before_create_vertex (observers : List Observer) (log : List Call) : List Call :=
  for_each_observer (fun o => ⟨.before, .create_vertex, o⟩) observers log

def _notify_after_create_vertex (observers : List Observer) (log : List Call) : List Call :=
  for_each_observer_rev (fun o => ⟨.after, .create_vertex, o⟩) observers log

def _notify_before_create_vertex_at_infinity (observers : List Observer) (log : List Call) :
    List Call :=
  for_each_observer (fun o => ⟨.before, .create_vertex_at_infinity, o⟩) observers log

def _notify_after_create_vertex_at_infinity (observers : List Observer) (log : List Call) :
    List Call :=
  for_each_observer_rev (fun o => ⟨.after, .create_vertex_at_infinity, o⟩) observers log

def _notify_before_create_edge (observers : List Observer) (log : List Call) : List Call :=
  for_each_observer (fun o => ⟨.before, .create_edge, o⟩) observers log

def _notify_after_create_edge (observers : List Observer) (log : List Call) : List Call :=
  for_each_observer_rev (fun o => ⟨.after, .create_edge, o⟩) observers log

def _notify_before_modify_vertex (observers : List Observer) (log : List Call) : List Call :=
  for_each_observer (fun o => ⟨.before, .modify_vertex, o⟩) observers log

def _notify_after_modify_vertex (observers : List Observer) (log : List Call) : List Call :=
  for_each_observer_rev (fun o => ⟨.after, .modify_vertex, o⟩) observers log

def _notify_before_modify_edge (observers : List Observer) (log : List Call) : List Call :=
  for_each_observer (fun o => ⟨.before, .modify_edge, o⟩) observers log

def _notify_after_modify_edge (observers : List Observer) (log : List Call) : List Call :=
  for_each_observer_rev (fun o => ⟨.after, .modify_edge, o⟩) observers log

def _notify_before_split_edge (observers : List Observer) (log : List Call) : List Call :=
  for_each_observer (fun o => ⟨.before, .split_edge, o⟩) observers log

def _notify_after_split_edge (observers : List Observer) (log : List Call) : List Call :=
  for_each_observer_rev (fun o => ⟨.after, .split_edge, o⟩) observers log

def _notify_before_split_fictitious_edge (observers : List Observer) (log : List Call) :
    List Call :=
  for_each_observer (fun o => ⟨.before, .split_fictitious_edge, o⟩) observers log

def _notify_after_split_fictitious_edge (observers : List Observer) (log : List Call) :
    List Call :=
  for_each_observer_rev (fun o => ⟨.after, .split_fictitious_edge, o⟩) observers log

def _notify_before_split_face (observers : List Observer) (log : List Call) : List Call :=
  for_each_observer (fun o => ⟨.before, .split_face, o⟩) observers log

def _notify_after_split_face (observers : List Observer) (log : List Call) : List Call :=
  for_each_observer_rev (fun o => ⟨.after, .split_face, o⟩) observers log

def _notify_before_split_hole (observers : List Observer) (log : List Call) : List Call :=
  for_each_observer (fun o => ⟨.before, .split_hole, o⟩) observers log

def _notify_after_split_hole (observers : List Observer) (log : List Call) : List Call :=
  for_each_observer_rev (fun o => ⟨.after, .split_hole, o⟩) observers log

def _notify_before_add_hole (observers : List Observer) (log : List Call) : List Call :=
  for_each_observer (fun o => ⟨.before, .add_hole, o⟩) observers log

def _notify_after_add_hole (observers : List Observer) (log : List Call) : List Call :=
  for_each_observer_rev (fun o => ⟨.after, .add_hole, o⟩) observers log

def _notify_before_add_isolated_vertex (observers : List Observer) (log : List Call) :
    List Call :=
  for_each_observer (fun o => ⟨.before, .add_isolated_vertex, o⟩) observers log

def _notify_after_add_isolated_vertex (observers : List Observer) (log : List Call) :
    List Call :=
  for_each_observer_rev (fun o => ⟨.after, .add_isolated_vertex, o⟩) observers log

def _notify_before_merge_edge (observers : List Observer) (log : List Call) : List Call :=
  for_each_observer (fun o => ⟨.before, .merge_edge, o⟩) observers log

def _notify_after_merge_edge (observers : List Observer) (log : List Call) : List Call :=
  for_each_observer_rev (fun o => ⟨.after, .merge_edge, o⟩) observers log

def _notify_before_merge_fictitious_edge (observers : List Observer) (log : List Call) :
    List Call :=
  for_each_observer (fun o => ⟨.before, .merge_fictitious_edge, o⟩) observers log

def _notify_after_merge_fictitious_edge (observers : List Observer) (log : List Call) :
    List Call :=
  for_each_observer_rev (fun o => ⟨.after, .merge_fictitious_edge, o⟩) observers log

def _notify_before_merge_face (observers : List Observer) (log : List Call) : List Call :=
  for_each_observer (fun o => ⟨.before, .merge_face, o⟩) observers log

def _notify_after_merge_face (observers : List Observer) (log : List Call) : List Call :=
  for_each_observer_rev (fun o => ⟨.after, .merge_face, o⟩) observers log

def _notify_before_merge_hole (observers : List Observer) (log : List Call) : List Call :=
  for_each_observer (fun o => ⟨.before, .merge_hole, o⟩) observers log

def _notify_after_merge_hole (observers : List Observer) (log : List Call) : List Call :=
  for_each_observer_rev (fun o => ⟨.after, .merge_hole, o⟩) observers log

def _notify_before_move_hole (observers : List Observer) (log : List Call) : List Call :=
  for_each_observer (fun o => ⟨.before, .move_hole, o⟩) observers log

def _notify_after_move_hole (observers : List Observer) (log : List Call) : List Call :=
  for_each_observer_rev (fun o => ⟨.after, .move_hole, o⟩) observers log

def _notify_before_move_isolated_vertex (observers : List Observer) (log : List Call) :
    List Call :=
  for_each_observer (fun o => ⟨.before, .move_isolated_vertex, o⟩) observers log

def _notify_after_move_isolated_vertex (observers : List Observer) (log : List Call) :
    List Call :=
  for_each_observer_rev (fun o => ⟨.after, .move_isolated_vertex, o⟩) observers log

def _notify_before_remove_vertex (observers : List Observer) (log : List Call) : List Call :=
  for_each_observer (fun o => ⟨.before, .remove_vertex, o⟩) observers log

def _notify_after_remove_vertex (observers : List Observer) (log : List Call) : List Call :=
  for_each_observer_rev (fun o => ⟨.after, .remove_vertex, o⟩) observers log

def _notify_before_remove_vertex_at_infinity (observers : List Observer) (log : List Call) :
    List Call :=
  for_each_observer (fun o => ⟨.before, .remove_vertex_at_infinity, o⟩) observers log

def _notify_after_remove_vertex_at_infinity (observers : List Observer) (log : List Call) :
    List Call :=
  for_each_observer_rev (fun o => ⟨.after, .remove_vertex_at_infinity, o⟩) observers log

def _notify_before_remove_edge (observers : List Observer) (log : List Call) : List Call :=
  for_each_observer (fun o => ⟨.before, .remove_edge, o⟩) observers log

def _notify_after_remove_edge (observers : List Observer) (log : List Call) : List Call :=
  for_each_observer_rev (fun o => ⟨.after, .remove_edge, o⟩) observers log

def _notify_before_remove_hole (observers : List Observer) (log : List Call) : List Call :=
  for_each_observer (fun o => ⟨.before, .remove_hole, o⟩) observers log

def _notify_after_remove_hole (observers : List Observer) (log : List Call) : List Call :=
  for_each_observer_rev (fun o => ⟨.after, .remove_hole, o⟩) observers log

/-- The before-notifier of each event kind. -/
def notify_before : Event_kind → List Observer → List Call → List Call
  | .assign => _notify_before_assign
  | .clear => _notify_before_clear
  | .global_change => _notify_before_global_change
  | .create_vertex => _notify_before_create_vertex
  | .create_vertex_at_infinity => _notify_before_create_vertex_at_infinity
  | .create_edge => _notify_before_create_edge
  | .modify_vertex => _notify_before_modify_vertex
  | .modify_edge => _notify_before_modify_edge
  | .split_edge => _notify_before_split_edge
  | .split_fictitious_edge => _notify_before_split_fictitious_edge
  | .split_face => _notify_before_split_face
  | .split_hole => _notify_before_split_hole
  | .add_hole => _notify_before_add_hole
  | .add_isolated_vertex => _notify_before_add_isolated_vertex
  | .merge_edge => _notify_before_merge_edge
  | .merge_fictitious_edge => _notify_before_merge_fictitious_edge
  | .merge_face => _notify_before_merge_face
  | .merge_hole => _notify_before_merge_hole
  | .move_hole => _notify_before_move_hole
  | .move_isolated_vertex => _notify_before_move_isolated_vertex
  | .remove_vertex => _notify_before_remove_vertex
  | .remove_vertex_at_infinity => _notify_before_remove_vertex_at_infinity
  | .remove_edge => _notify_before_remove_edge
  | .remove_hole => _notify_before_remove_hole

/-- The after-notifier of each event kind. -/
def notify_after : Event_kind → List Observer → List Call → List Call
  | .assign => _notify_after_assign
  | .clear => _notify_after_clear
  | .global_change => _notify_after_global_change
  | .create_vertex => _notify_after_create_vertex
  | .create_vertex_at_infinity => _notify_after_create_vertex_at_infinity
  | .create_edge => _notify_after_create_edge
  | .modify_vertex => _notify_after_modify_vertex
  | .modify_edge => _notify_after_modify_edge
  | .split_edge => _notify_after_split_edge
  | .split_fictitious_edge => _notify_after_split_fictitious_edge
  | .split_face => _notify_after_split_face
  | .split_hole => _notify_after_split_hole
  | .add_hole => _notify_after_add_hole
  | .add_isolated_vertex => _notify_after_add_isolated_vertex
  | .merge_edge => _notify_after_merge_edge
  | .merge_fictitious_edge => _notify_after_merge_fictitious_edge
  | .merge_face => _notify_after_merge_face
  | .merge_hole => _notify_after_merge_hole
  | .move_hole => _notify_after_move_hole
  | .move_isolated_vertex => _notify_after_move_isolated_vertex
  | .remove_vertex => _notify_after_remove_vertex
  | .remove_vertex_at_infinity => _notify_after_remove_vertex_at_infinity
  | .remove_edge => _notify_after_remove_edge
  | .remove_hole => _notify_after_remove_hole

/-- One mutating operation as its observers see it: the before-notification, the edit
of the structure (which makes no observer call), then the matching after-notification. -/
def notify_event (k : Event_kind) (observers : List Observer) (log : List Call) : List Call :=
  notify_after k observers (notify_before k observers log)

/-- The calls a before-notifier is expected to make: one per registration, in
registration order. -/
def before_calls (k : Event_kind) (observers : List Observer) : List Call :=
  observers.map (fun o => ⟨.before, k, o⟩)

/-- The calls an after-notifier is expected to make: one per registration, in reverse
registration order. -/
def after_calls (k : Event_kind) (observers : List Observer) : List Call :=
  observers.reverse.map (fun o => ⟨.after, k, o⟩)

/-! ## Topological record store -/

/-- Modelled from the spec: the boundary classification of a vertex along one axis
(finite / approaches -oo / approaches +oo); the enumeration itself is declared in
`Arr_enums.h`, which is not part of the header. -/
inductive Boundary_type
  | MINUS_INFINITY
  | NO_BOUNDARY
  | PLUS_INFINITY
  deriving DecidableEq, Repr

/-- Modelled from the spec: flat arena-style storage with stable identifiers.  A record
lives in a slot of the arena and its handle is the index of the slot; removing a record
empties its slot, so the handles of all other records stay valid. -/
abbrev Arena (α : Type) := List (Option α)

namespace Arena

variable {α : Type}

/-- Modelled from the spec: the record a handle of the store refers to, or `none` for a
handle without a live record. -/
def get (s : Arena α) (i : Nat) : Option α := (s.get? i).join

/-- Modelled from the spec: update the record of a live handle of the store in place. -/
def modify (s : Arena α) (i : Nat) (f : α → α) : Arena α :=
  match get s i with
  | some a => s.set i (some (f a))
  | none => s

/-- Modelled from the spec: remove the record of a handle of the store. -/
def free (s : Arena α) (i : Nat) : Arena α := s.set i none

/-- Modelled from the spec: create a record in the store; its handle is the index of the
new slot, `s.length`. -/
def alloc (s : Arena α) (a : α) : Arena α := s ++ [some a]

/-- Modelled from the spec: the live records of the store, in the order of the store. -/
def records (s : Arena α) : List α := s.filterMap id

/-- Modelled from the spec: the number of live records of the store. -/
def size (s : Arena α) : Nat := (records s).length

end Arena

/-- Modelled from the spec: what a vertex refers to, one incident halfedge (if not
isolated; null for a vertex not yet connected) or an isolated-vertex record (if
isolated), never both. -/
inductive Vertex_incidence
  | halfedge (he : Option Nat)
  | isolated (iv : Nat)
  deriving DecidableEq, Repr

/-- Modelled from the spec: the incident-face-or-hole reference of a halfedge. -/
inductive Halfedge_component
  | face (f : Nat)
  | hole (ho : Nat)
  deriving DecidableEq, Repr

/-- Modelled from the spec: the DCEL vertex record (`Dcel::Vertex`), with an optional
owned point (absent: the vertex is at infinity or fictitious), a boundary
classification per axis and the incidence reference. -/
structure DVertex (Point : Type) where
  p_pt : Option Point
  inf_x : Boundary_type
  inf_y : Boundary_type
  inc : Vertex_incidence
  deriving DecidableEq, Repr

/-- Modelled from the spec: the DCEL halfedge record (`Dcel::Halfedge`), with the owned
optional curve (absent: fictitious boundary edge), the twin, the next and previous
halfedge along its boundary cycle, the target vertex and the incident-face-or-hole
reference. -/
structure DHalfedge (Curve : Type) where
  p_cv : Option Curve
  opposite : Nat
  prev : Nat
  next : Nat
  vertex : Nat
  comp : Halfedge_component
  deriving DecidableEq, Repr

/-- Modelled from the spec: the DCEL face record (`Dcel::Face`), with the unbounded
flag, the optional outer-boundary halfedge (absent: the fictitious face), the holes
(each a representative halfedge of an inner boundary cycle) and the isolated vertices
contained in the face. -/
structure DFace where
  unbounded : Bool
  halfedge : Option Nat
  holes : List Nat
  isolated_vertices : List Nat
  deriving DecidableEq, Repr

/-- Modelled from the spec: the hole record (`Dcel::Hole`) a halfedge on an inner
boundary refers to; it names the face that contains the hole. -/
structure DHole where
  face : Nat
  deriving DecidableEq, Repr

/-- Modelled from the spec: the isolated-vertex record (`Dcel::Isolated_vertex`); it
names the face that contains the vertex. -/
structure DIso_vert where
  face : Nat
  deriving DecidableEq, Repr

/-- Modelled from the spec: the record store (`Dcel`), which owns the vertices, the
halfedges and the faces, plus the hole and isolated-vertex records. -/
structure Dcel (Point Curve : Type) where
  vertices : Arena (DVertex Point)
  halfedges : Arena (DHalfedge Curve)
  faces : Arena DFace
  holes : Arena DHole
  iso_verts : Arena DIso_vert
  deriving DecidableEq, Repr

namespace Dcel

variable {Point Curve : Type}

/-- Modelled from the spec: `dcel.size_of_vertices()`, the number of vertex records the
store owns. -/
def size_of_vertices (d : Dcel Point Curve) : Nat := d.vertices.size

/-- Modelled from the spec: `dcel.size_of_halfedges()`, the number of halfedge records the
store owns. -/
def size_of_halfedges (d : Dcel Point Curve) : Nat := d.halfedges.size

/-- Modelled from the spec: `dcel.size_of_faces()`, the number of face records the
store owns. -/
def size_of_faces (d : Dcel Point Curve) : Nat := d.faces.size

/-- Modelled from the spec: `dcel.size_of_holes()`, the number of hole records the
store owns. -/
def size_of_holes (d : Dcel Point Curve) : Nat := d.holes.size

/-- Modelled from the spec: `dcel.size_of_isolated_vertices()`, the number of isolated-vertex records the
store owns. -/
def size_of_isolated_vertices (d : Dcel Point Curve) : Nat := d.iso_verts.size

/-- Modelled from the spec: creation of a twin halfedge pair from two vertices.  The
two new halfedges are each other's twin, share the optional curve `cv` and form a closed
cycle of their own; the first is directed from `v1` to `v2` and is the one returned. -/
def new_edge (d : Dcel Point Curve) (v1 v2 : Nat) (cv : Option Curve)
    (c : Halfedge_component) : Dcel Point Curve × Nat :=
  let n := d.halfedges.length
  let hs1 := d.halfedges.alloc ⟨cv, n + 1, n + 1, n + 1, v2, c⟩
  let hs2 := hs1.alloc ⟨cv, n, n, n, v1, c⟩
  ({ d with halfedges := hs2 }, n)

/-- Modelled from the spec: the primitive splice operation on the next/prev circular
lists.  The successors of `a` and `b` are exchanged, and the predecessor links of the
two successors follow; this joins the cycles of `a` and `b` when they differ and cuts
their common cycle in two when they agree. -/
def splice (d : Dcel Point Curve) (a b : Nat) : Dcel Point Curve :=
  match d.halfedges.get a, d.halfedges.get b with
  | some ra, some rb =>
    let hs1 := d.halfedges.modify a (fun r => { r with next := rb.next })
    let hs2 := hs1.modify b (fun r => { r with next := ra.next })
    let hs3 := hs2.modify rb.next (fun r => { r with prev := a })
    let hs4 := hs3.modify ra.next (fun r => { r with prev := b })
    { d with halfedges := hs4 }
  | _, _ => d

/-- Modelled from the spec: removal of a twin halfedge pair.  The pair is removed once
it has been spliced out of every other cycle, that is when the two halfedges follow
each other; otherwise the store is left as it is. -/
def delete_edge (d : Dcel Point Curve) (h : Nat) : Dcel Point Curve :=
  match d.halfedges.get h with
  | some r =>
    match d.halfedges.get r.opposite with
    | some t =>
      if r.next = r.opposite ∧ t.next = h then
        { d with halfedges := (d.halfedges.free h).free r.opposite }
      else d
    | none => d
  | none => d

/-- Modelled from the spec: the two halves of a twin pair share the same optional
curve, so setting the curve of an edge sets it on both halfedges. -/
def set_curve (d : Dcel Point Curve) (h : Nat) (cv : Option Curve) : Dcel Point Curve :=
  match d.halfedges.get h with
  | some r =>
    let hs1 := d.halfedges.modify h (fun x => { x with p_cv := cv })
    let hs2 := hs1.modify r.opposite (fun x => { x with p_cv := cv })
    { d with halfedges := hs2 }
  | none => d

/-- Modelled from the spec: set the target vertex of a halfedge. -/
def set_vertex (d : Dcel Point Curve) (h v : Nat) : Dcel Point Curve :=
  { d with halfedges := d.halfedges.modify h (fun x => { x with vertex := v }) }

/-- Modelled from the spec: set the incident-face-or-hole reference of a halfedge. -/
def set_component (d : Dcel Point Curve) (h : Nat) (c : Halfedge_component) :
    Dcel Point Curve :=
  { d with halfedges := d.halfedges.modify h (fun x => { x with comp := c }) }

end Dcel

/-! ## The arrangement -/

/-- The data members of `Arrangement_2` that the embedded functions read: the DCEL, the
four fictitious corner vertices, the number of vertices at infinity, the fictitious
face and the observers.  (The allocators and the traits adaptor are left out.) -/
structure Arrangement_2 (Point Curve : Type) where
  dcel : Dcel Point Curve
  v_bl : Nat
  v_tl : Nat
  v_br : Nat
  v_tr : Nat
  n_inf_verts : Nat
  un_face : Nat
  observers : List Observer
  deriving DecidableEq, Repr

/-- Subtraction of the unsigned `w`-bit type `Size`: the result wraps around. -/
def Size_sub (w a b : Nat) : Nat := (a + 2 ^ w - b % 2 ^ w) % 2 ^ w

/-- Multiplication of the unsigned `w`-bit type `Size`: the result wraps around. -/
def Size_mul (w a b : Nat) : Nat := (a * b) % 2 ^ w

namespace Arrangement_2

variable {Point Curve : Type}

/-- Function `is_empty`: `dcel.size_of_vertices() == 4 && dcel.size_of_halfedges() == 8`. -/
def is_empty (arr : Arrangement_2 Point Curve) : Bool :=
  arr.dcel.size_of_vertices == 4 && arr.dcel.size_of_halfedges == 8

/-- Function `number_of_vertices`: `dcel.size_of_vertices() - n_inf_verts`. -/
def number_of_vertices (w : Nat) (arr : Arrangement_2 Point Curve) : Nat :=
  Size_sub w arr.dcel.size_of_vertices arr.n_inf_verts

/-- Function `number_of_vertices_at_infinity`: `n_inf_verts - 4`. -/
def number_of_vertices_at_infinity (w : Nat) (arr : Arrangement_2 Point Curve) : Nat :=
  Size_sub w arr.n_inf_verts 4

/-- Function `number_of_isolated_vertices`: `dcel.size_of_isolated_vertices()`. -/
def number_of_isolated_vertices (arr : Arrangement_2 Point Curve) : Nat :=
  arr.dcel.size_of_isolated_vertices

/-- Function `number_of_halfedges`: `dcel.size_of_halfedges() - 2*n_inf_verts`. -/
def number_of_halfedges (w : Nat) (arr : Arrangement_2 Point Curve) : Nat :=
  Size_sub w arr.dcel.size_of_halfedges (Size_mul w 2 arr.n_inf_verts)

/-- Function `number_of_edges`: `dcel.size_of_halfedges() / 2 - n_inf_verts`. -/
def number_of_edges (w : Nat) (arr : Arrangement_2 Point Curve) : Nat :=
  Size_sub w (arr.dcel.size_of_halfedges / 2) arr.n_inf_verts

/-- Function `number_of_faces`: `dcel.size_of_faces() - 1`. -/
def number_of_faces (w : Nat) (arr : Arrangement_2 Point Curve) : Nat :=
  Size_sub w arr.dcel.size_of_faces 1

end Arrangement_2

/-! ### The halfedge accessors of the header (`Arrangement_2::Halfedge`)

A handle is the index of a record; an accessor applied to a handle without a live
record has no result. -/

namespace Halfedge

variable {Point Curve : Type}

/-- The curve-or-null of a halfedge: the optional curve its DCEL record owns. -/
def curve (d : Dcel Point Curve) (h : Nat) : Option (Option Curve) :=
  (d.halfedges.get h).map (fun r => r.p_cv)

/-- Function `Halfedge::is_fictitious`: `Base::has_null_curve()`. -/
def is_fictitious (d : Dcel Point Curve) (h : Nat) : Option Bool :=
  (d.halfedges.get h).map (fun r => r.p_cv.isNone)

/-- Function `Halfedge::source`: `Base::opposite()->vertex()`. -/
def source (d : Dcel Point Curve) (h : Nat) : Option Nat :=
  (d.halfedges.get h).bind (fun r => (d.halfedges.get r.opposite).map (fun t => t.vertex))

/-- Function `Halfedge::target`: `Base::vertex()`. -/
def target (d : Dcel Point Curve) (h : Nat) : Option Nat :=
  (d.halfedges.get h).map (fun r => r.vertex)

/-- Function `Halfedge::twin`: `Base::opposite()`. -/
def twin (d : Dcel Point Curve) (h : Nat) : Option Nat :=
  (d.halfedges.get h).map (fun r => r.opposite)

/-- Function `Halfedge::prev`: `Base::prev()`. -/
def prev (d : Dcel Point Curve) (h : Nat) : Option Nat :=
  (d.halfedges.get h).map (fun r => r.prev)

/-- Function `Halfedge::next`: `Base::next()`. -/
def next (d : Dcel Point Curve) (h : Nat) : Option Nat :=
  (d.halfedges.get h).map (fun r => r.next)

end Halfedge

/-- Walk `k` steps from the halfedge `h` along `step` (`Halfedge::next` or
`Halfedge::prev`), one call after the other. -/
def walk (step : Nat → Option Nat) : Nat → Nat → Option Nat
  | 0, h => some h
  | k + 1, h => (walk step k h).bind step

/-- Modelled from the spec: `_construct_empty_arrangement`, whose body is not part of
the header.  The four corner vertices (bottom-left, top-left, bottom-right, top-right;
handles 0 to 3) are connected pairwise by fictitious halfedges into a rectangle: the
inner cycle 0, 2, 4, 6 bounds the unbounded face (handle 1) and the cycle of their twins
7, 5, 3, 1 is the one hole of the fictitious face (handle 0), which has no outer
boundary. -/
def _construct_empty_arrangement (Point Curve : Type) : Arrangement_2 Point Curve where
  dcel :=
    { vertices :=
        [ some ⟨none, .MINUS_INFINITY, .MINUS_INFINITY, .halfedge (some 6)⟩,
          some ⟨none, .MINUS_INFINITY, .PLUS_INFINITY, .halfedge (some 4)⟩,
          some ⟨none, .PLUS_INFINITY, .MINUS_INFINITY, .halfedge (some 0)⟩,
          some ⟨none, .PLUS_INFINITY, .PLUS_INFINITY, .halfedge (some 2)⟩ ]
      halfedges :=
        [ some ⟨none, 1, 6, 2, 2, .face 1⟩,
          some ⟨none, 0, 3, 7, 0, .hole 0⟩,
          some ⟨none, 3, 0, 4, 3, .face 1⟩,
          some ⟨none, 2, 5, 1, 2, .hole 0⟩,
          some ⟨none, 5, 2, 6, 1, .face 1⟩,
          some ⟨none, 4, 7, 3, 3, .hole 0⟩,
          some ⟨none, 7, 4, 0, 0, .face 1⟩,
          some ⟨none, 6, 1, 5, 1, .hole 0⟩ ]
      faces :=
        [ some ⟨true, none, [1], []⟩,
          some ⟨true, some 0, [], []⟩ ]
      holes := [ some ⟨0⟩ ]
      iso_verts := [] }
  v_bl := 0
  v_tl := 1
  v_br := 2
  v_tr := 3
  n_inf_verts := 4
  un_face := 0
  observers := []

namespace Dcel

variable {Point Curve : Type}

/-- Modelled from the spec: the states of the record store.  The store starts as the
empty arrangement and is edited by the primitives of the store: creation and removal
of a twin halfedge pair, the splice of the next/prev cycles, the setters of a halfedge,
and any edit of the vertex, face, hole and isolated-vertex records (which leave the
halfedge records as they are). -/
inductive Reachable : Dcel Point Curve → Prop
  | empty : Reachable (_construct_empty_arrangement Point Curve).dcel
  | new_edge (d : Dcel Point Curve) (v1 v2 : Nat) (cv : Option Curve)
      (c : Halfedge_component) : Reachable d → Reachable (d.new_edge v1 v2 cv c).1
  | splice (d : Dcel Point Curve) (a b : Nat) : Reachable d → Reachable (d.splice a b)
  | delete_edge (d : Dcel Point Curve) (h : Nat) : Reachable d → Reachable (d.delete_edge h)
  | set_curve (d : Dcel Point Curve) (h : Nat) (cv : Option Curve) :
      Reachable d → Reachable (d.set_curve h cv)
  | set_vertex (d : Dcel Point Curve) (h v : Nat) : Reachable d → Reachable (d.set_vertex h v)
  | set_component (d : Dcel Point Curve) (h : Nat) (c : Halfedge_component) :
      Reachable d → Reachable (d.set_component h c)
  | edit_other_records (d e : Dcel Point Curve) :
      Reachable d → e.halfedges = d.halfedges → Reachable e

/-- The link invariant of the halfedge records, in terms of the accessors of the
header: the twin of a halfedge points back and carries the same curve-or-null, the
successor of a halfedge has it as predecessor, and the predecessor of a halfedge has it
as successor. -/
def Linked (d : Dcel Point Curve) : Prop :=
  (∀ h t, Halfedge.twin d h = some t →
    Halfedge.twin d t = some h ∧ Halfedge.curve d t = Halfedge.curve d h) ∧
  (∀ h n, Halfedge.next d h = some n → Halfedge.prev d n = some h) ∧
  (∀ h p, Halfedge.prev d h = some p → Halfedge.next d p = some h)

end Dcel

/-- The successor of a handle, or the handle itself when it has no live record. -/
def next_or_self {Point Curve : Type} (d : Dcel Point Curve) (x : Nat) : Nat :=
  (Halfedge.next d x).getD x

/-- The predecessor of a handle, or the handle itself when it has no live record. -/
def prev_or_self {Point Curve : Type} (d : Dcel Point Curve) (x : Nat) : Nat :=
  (Halfedge.prev d x).getD x

/-! ## Traversals -/

/-- Modelled from the spec: a record sequence of the store (`dcel.vertices_begin()` to
`dcel.vertices_end()` and the like), the live records with their handles in the order of
the store. -/
def Arena.entries {α : Type} (s : Arena α) : List (Nat × α) :=
  (List.range s.length).filterMap (fun i => (s.get i).map (fun r => (i, r)))

namespace DVertex

variable {Point : Type}

/-- Modelled from the spec: `has_null_point()` of the DCEL vertex, true when the vertex
owns no point. -/
def has_null_point (v : DVertex Point) : Bool := v.p_pt.isNone

/-- Modelled from the spec: `is_isolated()` of the DCEL vertex, true when the vertex
refers to an isolated-vertex record. -/
def is_isolated (v : DVertex Point) : Bool :=
  match v.inc with
  | .isolated _ => true
  | .halfedge _ => false

end DVertex

namespace DHalfedge

variable {Curve : Type}

/-- Modelled from the spec: `has_null_curve()` of the DCEL halfedge, true when the
halfedge owns no curve. -/
def has_null_curve (he : DHalfedge Curve) : Bool := he.p_cv.isNone

/-- Modelled from the spec: `is_on_hole()` of the DCEL halfedge, true when the halfedge
refers to a hole record. -/
def is_on_hole (he : DHalfedge Curve) : Bool :=
  match he.comp with
  | .hole _ => true
  | .face _ => false

end DHalfedge

/-- Modelled from the spec: `is_unbounded()` of the DCEL face, its unbounded flag. -/
def DFace.is_unbounded (f : DFace) : Bool := f.unbounded

namespace Dcel

variable {Point Curve : Type}

/-- Modelled from the spec: the vertex sequence of the store, from
`dcel.vertices_begin()` to `dcel.vertices_end()`. -/
def vertex_sequence (d : Dcel Point Curve) : List (Nat × DVertex Point) := d.vertices.entries

/-- Modelled from the spec: the halfedge sequence of the store, from
`dcel.halfedges_begin()` to `dcel.halfedges_end()`. -/
def halfedge_sequence (d : Dcel Point Curve) : List (Nat × DHalfedge Curve) :=
  d.halfedges.entries

/-- Modelled from the spec: the edge sequence of the store, from `dcel.edges_begin()`
to `dcel.edges_end()`, one representative per twin pair.  Halfedges are created in twin
pairs that take two adjacent slots, and the representative is the first of the two. -/
def edge_sequence (d : Dcel Point Curve) : List (Nat × DHalfedge Curve) :=
  d.halfedges.entries.filter (fun e => e.1 % 2 = 0)

/-- Modelled from the spec: the face sequence of the store, from `dcel.faces_begin()`
to `dcel.faces_end()`. -/
def face_sequence (d : Dcel Point Curve) : List (Nat × DFace) := d.faces.entries

end Dcel

/-- Function `_Is_valid_vertex::operator()`: `! v.has_null_point()`. -/
def _Is_valid_vertex {Point : Type} (v : DVertex Point) : Bool := !v.has_null_point

/-- Function `_Is_valid_halfedge::operator()`: `! he.has_null_curve()`. -/
def _Is_valid_halfedge {Curve : Type} (he : DHalfedge Curve) : Bool := !he.has_null_curve

/-- Function `_Is_valid_face::operator()`: `f.halfedge() != NULL`. -/
def _Is_valid_face (f : DFace) : Bool := f.halfedge != none

/-- Function `_Is_unbounded_face::operator()`:
`f.is_unbounded() && f.halfedge() != NULL`. -/
def _Is_unbounded_face (f : DFace) : Bool := f.is_unbounded && f.halfedge != none

namespace I_Filtered_iterator

variable {α : Type}

/-- Modelled from the spec: the predicate-filtered iterator (`I_Filtered_iterator`,
declared in `HalfedgeDS_iterator.h`, not part of the header).  The position of an
iterator is the part of the sequence from its current entry to the end, and the
past-the-end iterator is the empty list.  This function moves a position forward to the
first entry the filter accepts, or to the end. -/
def skip (filt : α → Bool) : List α → List α
  | [] => []
  | x :: rest => if filt x then x :: rest else skip filt rest

/-- Modelled from the spec: the constructor `I_Filtered_iterator (iter, iend)` of the
filtered iterator, which starts at the first entry from `iter` on that the filter
accepts. -/
def make (filt : α → Bool) (iter : List α) : List α := skip filt iter

/-- Modelled from the spec: `operator++` of the filtered iterator, which leaves the
current entry and moves on to the next entry the filter accepts. -/
def increment (filt : α → Bool) : List α → List α
  | [] => []
  | _ :: rest => skip filt rest

/-- Modelled from the spec: one pass `for (it = begin; it != end; ++it)` over a filtered
range, collecting the entries `*it` it visits. -/
def pass (filt : α → Bool) : Nat → List α → List α
  | 0, _ => []
  | _, [] => []
  | fuel + 1, x :: rest => x :: pass filt fuel (increment filt (x :: rest))

end I_Filtered_iterator

namespace Arrangement_2

variable {Point Curve : Type}

/-- Function `vertices_begin`:
`Vertex_iterator (dcel.vertices_begin(), dcel.vertices_end())`. -/
def vertices_begin (arr : Arrangement_2 Point Curve) : List (Nat × DVertex Point) :=
  I_Filtered_iterator.make (fun e => _Is_valid_vertex e.2) arr.dcel.vertex_sequence

/-- Function `halfedges_begin`:
`Halfedge_iterator (dcel.halfedges_begin(), dcel.halfedges_end())`. -/
def halfedges_begin (arr : Arrangement_2 Point Curve) : List (Nat × DHalfedge Curve) :=
  I_Filtered_iterator.make (fun e => _Is_valid_halfedge e.2) arr.dcel.halfedge_sequence

/-- Function `edges_begin`: `Edge_iterator (dcel.edges_begin(), dcel.edges_end())`. -/
def edges_begin (arr : Arrangement_2 Point Curve) : List (Nat × DHalfedge Curve) :=
  I_Filtered_iterator.make (fun e => _Is_valid_halfedge e.2) arr.dcel.edge_sequence

/-- Function `faces_begin`: `Face_iterator (dcel.faces_begin(), dcel.faces_end())`. -/
def faces_begin (arr : Arrangement_2 Point Curve) : List (Nat × DFace) :=
  I_Filtered_iterator.make (fun e => _Is_valid_face e.2) arr.dcel.face_sequence

/-- Function `unbounded_faces_begin`:
`Unbounded_face_iterator (dcel.faces_begin(), dcel.faces_end())`. -/
def unbounded_faces_begin (arr : Arrangement_2 Point Curve) : List (Nat × DFace) :=
  I_Filtered_iterator.make (fun e => _Is_unbounded_face e.2) arr.dcel.face_sequence

/-- The vertex traversal: the pass from `vertices_begin()` to `vertices_end()`, with
enough steps for the whole sequence. -/
def vertices (arr : Arrangement_2 Point Curve) : List (Nat × DVertex Point) :=
  I_Filtered_iterator.pass (fun e => _Is_valid_vertex e.2) arr.dcel.vertex_sequence.length
    arr.vertices_begin

/-- The halfedge traversal: the pass from `halfedges_begin()` to `halfedges_end()`. -/
def halfedges (arr : Arrangement_2 Point Curve) : List (Nat × DHalfedge Curve) :=
  I_Filtered_iterator.pass (fun e => _Is_valid_halfedge e.2)
    arr.dcel.halfedge_sequence.length arr.halfedges_begin

/-- The edge traversal: the pass from `edges_begin()` to `edges_end()`. -/
def edges (arr : Arrangement_2 Point Curve) : List (Nat × DHalfedge Curve) :=
  I_Filtered_iterator.pass (fun e => _Is_valid_halfedge e.2) arr.dcel.edge_sequence.length
    arr.edges_begin

/-- The face traversal: the pass from `faces_begin()` to `faces_end()`. -/
def faces (arr : Arrangement_2 Point Curve) : List (Nat × DFace) :=
  I_Filtered_iterator.pass (fun e => _Is_valid_face e.2) arr.dcel.face_sequence.length
    arr.faces_begin

/-- The unbounded-face traversal: the pass from `unbounded_faces_begin()` to
`unbounded_faces_end()`. -/
def unbounded_faces (arr : Arrangement_2 Point Curve) : List (Nat × DFace) :=
  I_Filtered_iterator.pass (fun e => _Is_unbounded_face e.2) arr.dcel.face_sequence.length
    arr.unbounded_faces_begin

end Arrangement_2

/-! ### The vertex and face accessors of the header -/

namespace Vertex

variable {Point Curve : Type}

/-- Function `Vertex::is_at_infinity`: `Base::has_null_point()`. -/
def is_at_infinity (d : Dcel Point Curve) (v : Nat) : Option Bool :=
  (d.vertices.get v).map (fun r => r.has_null_point)

end Vertex

namespace Face

variable {Point Curve : Type}

/-- Function `Face::is_fictitious`: `Base::halfedge() == NULL`. -/
def is_fictitious (d : Dcel Point Curve) (f : Nat) : Option Bool :=
  (d.faces.get f).map (fun r => r.halfedge == none)

/-- The precondition of `Face::outer_ccb`: `Base::halfedge() != NULL`. -/
def outer_ccb_precondition (d : Dcel Point Curve) (f : Nat) : Option Bool :=
  (d.faces.get f).map (fun r => r.halfedge != none)

/-- Function `Face::outer_ccb`: the circulator at `Base::halfedge()`; no result when the
precondition fails. -/
def outer_ccb (d : Dcel Point Curve) (f : Nat) : Option Nat :=
  (d.faces.get f).bind (fun r => r.halfedge)

end Face

namespace Dcel

variable {Point Curve : Type}

/-- The pairing invariant of the halfedge records: the store holds an even number of
halfedge slots and the twin of the halfedge in slot `2k` is the one in slot `2k + 1`,
and conversely. -/
def Paired (d : Dcel Point Curve) : Prop :=
  d.halfedges.length % 2 = 0 ∧
  ∀ h t, Halfedge.twin d h = some t → t = if h % 2 = 0 then h + 1 else h - 1

end Dcel

/-! ## Boundary-aware comparisons (traits without unbounded curves) -/

/-- Modelled from the spec: the result of a comparison of the geometric traits
(`Comparison_result`, declared in the kernel headers, not part of the header):
`compare (p, q)` is `SMALLER` when p is smaller than q and `LARGER` when p is larger. -/
inductive Comparison_result
  | SMALLER
  | EQUAL
  | LARGER
  deriving DecidableEq, Repr

/-- Modelled from the spec: the geometric traits contract the core consumes, the three
comparators `compare_x_2_object()`, `compare_xy_2_object()` and
`compare_y_at_x_2_object()` of the traits adaptor. -/
structure Traits (Point Curve : Type) where
  compare_x : Point → Point → Comparison_result
  compare_xy : Point → Point → Comparison_result
  compare_y_at_x : Point → Curve → Comparison_result

namespace Dcel

variable {Point Curve : Type}

/-- Modelled from the spec: `v->point()` of the DCEL vertex, the point the vertex owns;
no result for a vertex without a point. -/
def point (d : Dcel Point Curve) (v : Nat) : Option Point :=
  (d.vertices.get v).bind (fun r => r.p_pt)

/-- Modelled from the spec: `v->boundary_in_y()` of the DCEL vertex. -/
def boundary_in_y (d : Dcel Point Curve) (v : Nat) : Option Boundary_type :=
  (d.vertices.get v).map (fun r => r.inf_y)

/-- Modelled from the spec: `v->boundary_in_x()` of the DCEL vertex. -/
def boundary_in_x (d : Dcel Point Curve) (v : Nat) : Option Boundary_type :=
  (d.vertices.get v).map (fun r => r.inf_x)

end Dcel

namespace Arrangement_2

variable {Point Curve : Type}

/-- Function `_compare_x_imp (p, v, Tag_false)`: `LARGER` for `v_bl` and `v_tl`,
`SMALLER` for `v_br` and `v_tr`, else `compare_x_2_object() (p, v->point())`. -/
def _compare_x_imp (arr : Arrangement_2 Point Curve) (traits : Traits Point Curve)
    (p : Point) (v : Nat) : Option Comparison_result :=
  if v = arr.v_bl ∨ v = arr.v_tl then some .LARGER
  else if v = arr.v_br ∨ v = arr.v_tr then some .SMALLER
  else (arr.dcel.point v).map (fun q => traits.compare_x p q)

/-- Function `_compare_x (p, v)`: the overload of `_compare_x_imp` selected by
`Has_boundary_category`; the `Tag_true` overload, whose body is not part of the header,
is the parameter `imp_true`. -/
def _compare_x (arr : Arrangement_2 Point Curve) (traits : Traits Point Curve)
    (imp_true : Point → Nat → Option Comparison_result) (has_boundary : Bool)
    (p : Point) (v : Nat) : Option Comparison_result :=
  if has_boundary then imp_true p v else arr._compare_x_imp traits p v

/-- Function `_compare_xy_imp (p, v, Tag_false)`: `LARGER` for `v_bl` and `v_tl`,
`SMALLER` for `v_br` and `v_tr`, else `compare_xy_2_object() (p, v->point())`. -/
def _compare_xy_imp (arr : Arrangement_2 Point Curve) (traits : Traits Point Curve)
    (p : Point) (v : Nat) : Option Comparison_result :=
  if v = arr.v_bl ∨ v = arr.v_tl then some .LARGER
  else if v = arr.v_br ∨ v = arr.v_tr then some .SMALLER
  else (arr.dcel.point v).map (fun q => traits.compare_xy p q)

/-- Function `_compare_xy (p, v)`: the overload of `_compare_xy_imp` selected by
`Has_boundary_category`; the `Tag_true` overload is the parameter `imp_true`. -/
def _compare_xy (arr : Arrangement_2 Point Curve) (traits : Traits Point Curve)
    (imp_true : Point → Nat → Option Comparison_result) (has_boundary : Bool)
    (p : Point) (v : Nat) : Option Comparison_result :=
  if has_boundary then imp_true p v else arr._compare_xy_imp traits p v

/-- The condition of the assertion in `_compare_y_at_x_imp (p, he, Tag_false)`:
`inf_y == he->opposite()->vertex()->boundary_in_y()` for
`inf_y = he->vertex()->boundary_in_y()`. -/
def _compare_y_at_x_assertion (arr : Arrangement_2 Point Curve) (he : Nat) : Option Bool :=
  (arr.dcel.halfedges.get he).bind (fun r =>
    (arr.dcel.boundary_in_y r.vertex).bind (fun inf_y =>
      (arr.dcel.halfedges.get r.opposite).bind (fun t =>
        (arr.dcel.boundary_in_y t.vertex).map (fun inf_y2 => inf_y == inf_y2))))

/-- Function `_compare_y_at_x_imp (p, he, Tag_false)`: with `inf_y` the y-boundary type
of the target of `he`, `LARGER` for `MINUS_INFINITY`, `SMALLER` for `PLUS_INFINITY`, else
`compare_y_at_x_2_object() (p, he->curve())`.  The flag `assertions` tells whether
`CGAL_assertion` is compiled in; when it is, a call that violates the assertion has no
result. -/
def _compare_y_at_x_imp (arr : Arrangement_2 Point Curve) (traits : Traits Point Curve)
    (assertions : Bool) (p : Point) (he : Nat) : Option Comparison_result :=
  (arr.dcel.halfedges.get he).bind (fun r =>
    (arr.dcel.boundary_in_y r.vertex).bind (fun inf_y =>
      if assertions && arr._compare_y_at_x_assertion he != some true then none
      else
        match inf_y with
        | .MINUS_INFINITY => some .LARGER
        | .PLUS_INFINITY => some .SMALLER
        | .NO_BOUNDARY => r.p_cv.map (fun cv => traits.compare_y_at_x p cv)))

/-- Function `_compare_y_at_x (p, he)`: the overload of `_compare_y_at_x_imp` selected by
`Has_boundary_category`; the `Tag_true` overload is the parameter `imp_true`. -/
def _compare_y_at_x (arr : Arrangement_2 Point Curve) (traits : Traits Point Curve)
    (imp_true : Point → Nat → Option Comparison_result) (has_boundary assertions : Bool)
    (p : Point) (he : Nat) : Option Comparison_result :=
  if has_boundary then imp_true p he else arr._compare_y_at_x_imp traits assertions p he

/-- Function `unbounded_face`: `p_he->opposite()->face()` for
`p_he = *(un_face->holes_begin())`; no result when the fictitious face has no hole or the
twin of `p_he` is itself on a hole. -/
def unbounded_face (arr : Arrangement_2 Point Curve) : Option Nat :=
  (arr.dcel.faces.get arr.un_face).bind (fun uf =>
    uf.holes.head?.bind (fun p_he =>
      (arr.dcel.halfedges.get p_he).bind (fun r =>
        (arr.dcel.halfedges.get r.opposite).bind (fun t =>
          match t.comp with
          | .face f => some f
          | .hole _ => none))))

end Arrangement_2

namespace Halfedge

variable {Point Curve : Type}

/-- Function `Halfedge::face` (non-const version): `Base::face()` when the halfedge is
not on a hole, else `Base::hole()->face()`. -/
def face (d : Dcel Point Curve) (h : Nat) : Option Nat :=
  (d.halfedges.get h).bind (fun r =>
    if !r.is_on_hole then
      match r.comp with
      | .face f => some f
      | .hole _ => none
    else
      match r.comp with
      | .hole ho => (d.holes.get ho).map (fun x => x.face)
      | .face _ => none)

/-- Function `Halfedge::face` (const version): `Base::face()` when the halfedge is not on
a hole, else `Base::hole()->face()`. -/
def face_const (d : Dcel Point Curve) (h : Nat) : Option Nat :=
  (d.halfedges.get h).bind (fun r =>
    if !r.is_on_hole then
      match r.comp with
      | .face f => some f
      | .hole _ => none
    else
      match r.comp with
      | .hole ho => (d.holes.get ho).map (fun x => x.face)
      | .face _ => none)

end Halfedge

namespace Vertex

variable {Point Curve : Type}

/-- The loop of `Vertex::degree`: `do { n++; he_curr = he_curr->next()->opposite(); }
while (he_curr != he_first)`, with `n` of the `w`-bit type `Size`; `fuel` bounds the
number of rounds, and there is no result when it runs out or a link dangles. -/
def degree_loop (d : Dcel Point Curve) (w : Nat) (he_first : Nat) :
    Nat → Nat → Nat → Option Nat
  | 0, _, _ => none
  | fuel + 1, he_curr, n =>
    match (Halfedge.next d he_curr).bind (Halfedge.twin d) with
    | none => none
    | some he_new =>
      if he_new = he_first then some ((n + 1) % 2 ^ w)
      else degree_loop d w he_first fuel he_new ((n + 1) % 2 ^ w)

/-- Function `Vertex::degree`: 0 for an isolated vertex, else the number of rounds of the
loop around the vertex from `Base::halfedge()` (0 when that halfedge is null). -/
def degree (d : Dcel Point Curve) (w fuel : Nat) (v : Nat) : Option Nat :=
  (d.vertices.get v).bind (fun r =>
    if r.is_isolated then some 0
    else
      match r.inc with
      | .halfedge (some he_first) => degree_loop d w he_first fuel he_first 0
      | .halfedge none => some 0
      | .isolated _ => some 0)

/-- The precondition of `Vertex::incident_halfedges`: `! this->is_isolated()`. -/
def incident_halfedges_precondition (d : Dcel Point Curve) (v : Nat) : Option Bool :=
  (d.vertices.get v).map (fun r => !r.is_isolated)

/-- Function `Vertex::incident_halfedges`: the circulator at `Base::halfedge()`; no
result when the precondition fails or the vertex has no halfedge. -/
def incident_halfedges (d : Dcel Point Curve) (v : Nat) : Option Nat :=
  (d.vertices.get v).bind (fun r =>
    match r.inc with
    | .halfedge he => he
    | .isolated _ => none)

/-- The precondition of `Vertex::face`: `this->is_isolated()`. -/
def face_precondition (d : Dcel Point Curve) (v : Nat) : Option Bool :=
  (d.vertices.get v).map (fun r => r.is_isolated)

/-- Function `Vertex::face`: `Base::isolated_vertex()->face()`; no result when the
precondition fails. -/
def face (d : Dcel Point Curve) (v : Nat) : Option Nat :=
  (d.vertices.get v).bind (fun r =>
    match r.inc with
    | .isolated iv => (d.iso_verts.get iv).map (fun x => x.face)
    | .halfedge _ => none)

end Vertex

/-- The twin of a handle, or the handle itself when it has no live record. -/
def twin_or_self {Point Curve : Type} (d : Dcel Point Curve) (x : Nat) : Nat :=
  (Halfedge.twin d x).getD x

/-- One round of the loop of `Vertex::degree`, `he_curr->next()->opposite()`, on
handles. -/
def around_vertex {Point Curve : Type} (d : Dcel Point Curve) (x : Nat) : Nat :=
  twin_or_self d (next_or_self d x)

/-- The traits of the examples: points are pairs of integers compared by coordinates,
and the relative position of a point and a curve is not looked at. -/
def example_traits : Traits (Int × Int) Unit where
  compare_x := fun p q =>
    if p.1 < q.1 then .SMALLER else if p.1 = q.1 then .EQUAL else .LARGER
  compare_xy := fun p q =>
    if p.1 < q.1 then .SMALLER
    else if p.1 = q.1 then
      (if p.2 < q.2 then .SMALLER else if p.2 = q.2 then .EQUAL else .LARGER)
    else .LARGER
  compare_y_at_x := fun _ _ => .EQUAL

/-! ## Insertion of an isolated vertex -/

namespace Arrangement_2

variable {Point Curve : Type}

/-- Modelled from the spec: `_create_vertex (p)`, declared in the header ("Create a new
vertex and associate it with the given point") with its body elsewhere.  The store gets
a new vertex record that owns `p`, is finite along both axes and is not yet connected;
the result is the new state and the handle of the vertex.  (The notification of the
observers around the creation is left out.) -/
def _create_vertex (arr : Arrangement_2 Point Curve) (p : Point) :
    Arrangement_2 Point Curve × Nat :=
  let v := arr.dcel.vertices.length
  let vs := arr.dcel.vertices.alloc ⟨some p, .NO_BOUNDARY, .NO_BOUNDARY, .halfedge none⟩
  ({ arr with dcel := { arr.dcel with vertices := vs } }, v)

/-- Modelled from the spec: `_insert_isolated_vertex (f, v)`, declared in the header
("Insert the given vertex as an isolated vertex inside the given face") with its body
elsewhere.  The store gets a new isolated-vertex record that names `f`, the vertex `v`
refers to that record, and `v` joins the isolated-vertex collection of `f`. -/
def _insert_isolated_vertex (arr : Arrangement_2 Point Curve) (f v : Nat) :
    Arrangement_2 Point Curve :=
  let iv := arr.dcel.iso_verts.length
  let ivs := arr.dcel.iso_verts.alloc ⟨f⟩
  let fs := arr.dcel.faces.modify f
    (fun x => { x with isolated_vertices := x.isolated_vertices ++ [v] })
  let vs := arr.dcel.vertices.modify v (fun x => { x with inc := .isolated iv })
  { arr with dcel := { arr.dcel with vertices := vs, faces := fs, iso_verts := ivs } }

/-- Modelled from the spec: `insert_in_face_interior (p, f)`, declared in the header
("Insert a point that forms an isolated vertex in the interior of a given face") with
its body elsewhere: a new vertex for `p`, attached to the isolated-vertex collection of
`f`; the result is the new state and the handle of the new vertex. -/
def insert_in_face_interior (arr : Arrangement_2 Point Curve) (p : Point) (f : Nat) :
    Arrangement_2 Point Curve × Nat :=
  let r := arr._create_vertex p
  (r.1._insert_isolated_vertex f r.2, r.2)

end Arrangement_2

/-- The scenario of the isolated vertex: the point (0,0) inserted into the unbounded
face of the empty arrangement (no result if the empty arrangement had no unbounded
face). -/
def insert_origin_in_empty : Option (Arrangement_2 (Int × Int) Unit × Nat) :=
  (_construct_empty_arrangement (Int × Int) Unit).unbounded_face.map
    (fun f => (_construct_empty_arrangement (Int × Int) Unit).insert_in_face_interior (0, 0) f)

/-! ## Splitting and merging edges -/

/-- Modelled from the spec: a face record in which one stored halfedge (the
outer-boundary halfedge or the representative of a hole) is replaced by another. -/
def DFace.replace_halfedge (f : DFace) (old new : Nat) : DFace :=
  { f with
    halfedge := if f.halfedge = some old then some new else f.halfedge
    holes := f.holes.map (fun x => if x = old then new else x) }

namespace Dcel

variable {Point Curve : Type}

/-- Modelled from the spec: the halfedge part of "Split edge" (replace one edge with two
sharing a new shared vertex; preserves incident-face/hole assignment on both sides).
The halfedge `he1` (twin `he2`, target `u`) and its twin stay, as the first piece with
the curve `cv1`, now up to the split vertex `v`.  A new twin pair carries the second
piece, from `v` to `u`, with the curve `cv2` and the face-or-hole references `c1` of
`he1` and `c2` of `he2`: the pair is created, each half is made a cycle of its own, and
two splices link the second half before `he2` and the first half, `he3`, after `he1`.
The result is the store and `he3`; the twin of `he3` is the handle after it. -/
def split_links (d : Dcel Point Curve) (he1 he2 v u : Nat) (cv1 cv2 : Curve)
    (c1 c2 : Halfedge_component) : Dcel Point Curve × Nat :=
  let d0 := d.set_curve he1 (some cv1)
  let ne := d0.new_edge v u (some cv2) c1
  let he3 := ne.2
  let he4 := he3 + 1
  let d1 := ne.1.set_component he4 c2
  let d2 := d1.splice he3 he4
  let d3 := d2.splice (prev_or_self d2 he2) he4
  let d4 := d3.splice he1 he3
  (d4.set_vertex he1 v, he3)

/-- Modelled from the spec: the halfedge part of "Merge edge" (two edges sharing a
common degree-2 vertex collapse into one), for `he1` followed by `he3` through the common
vertex, `he4` the twin of `he3` and `u` the target of `he3`.  The halfedge `he1` takes
over the target `u`; three splices unlink `he3` after `he1` and `he4` before the twin
of `he1` and join the two into a cycle of their own; then the pair is removed and the
edge that stays gets the curve `cv`. -/
def merge_links (d : Dcel Point Curve) (he1 he3 he4 u : Nat) (cv : Curve) :
    Dcel Point Curve :=
  let d1 := d.set_vertex he1 u
  let d2 := d1.splice he1 he3
  let d3 := d2.splice (prev_or_self d2 he4) he4
  let d4 := d3.splice he3 he4
  let d5 := d4.delete_edge he3
  d5.set_curve he1 (some cv)

/-- The halfedge handles the vertex and face records store (the incident halfedge of a
vertex, the outer-boundary halfedge and the hole representatives of a face) all have a
live record. -/
def stores_live_halfedges (d : Dcel Point Curve) : Bool :=
  d.vertices.records.all (fun r =>
    match r.inc with
    | .halfedge (some h) => (d.halfedges.get h).isSome
    | _ => true) &&
  d.faces.records.all (fun f =>
    (match f.halfedge with
      | some h => (d.halfedges.get h).isSome
      | none => true) &&
    f.holes.all (fun h => (d.halfedges.get h).isSome))

end Dcel

namespace Arrangement_2

variable {Point Curve : Type}

/-- Modelled from the spec: the overload `_split_edge (e, v, cv1, cv2)`, declared in the
header ("Split a given edge into two at a given vertex, and associate the given
x-monotone curves with the split edges") with its body elsewhere.  After the halfedge
part, the old target of `e` refers to the new halfedge `he3` if it referred to `e`, and
the split vertex `v` refers to the twin of `he3`; the result is the new state and "the
first split halfedge, whose source equals the source of e, and whose target is v", or
nothing if `e` or its twin has no record. -/
def _split_edge_at_vertex (arr : Arrangement_2 Point Curve) (e v : Nat) (cv1 cv2 : Curve) :
    Option (Arrangement_2 Point Curve × Nat) :=
  (arr.dcel.halfedges.get e).bind (fun r1 =>
    (arr.dcel.halfedges.get r1.opposite).map (fun r2 =>
      let sl := arr.dcel.split_links e r1.opposite v r1.vertex cv1 cv2 r1.comp r2.comp
      let he3 := sl.2
      let vs1 := sl.1.vertices.modify r1.vertex (fun x =>
        if x.inc = .halfedge (some e) then { x with inc := .halfedge (some he3) } else x)
      let vs2 := vs1.modify v (fun x => { x with inc := .halfedge (some (he3 + 1)) })
      ({ arr with dcel := { sl.1 with vertices := vs2 } }, e)))

/-- Modelled from the spec: the overload `_split_edge (e, p, cv1, cv2)`, declared in the
header ("Split a given edge into two at a given point") with its body elsewhere: a new
vertex for `p`, then the split at that vertex. -/
def _split_edge (arr : Arrangement_2 Point Curve) (e : Nat) (p : Point) (cv1 cv2 : Curve) :
    Option (Arrangement_2 Point Curve × Nat) :=
  let r := arr._create_vertex p
  r.1._split_edge_at_vertex e r.2 cv1 cv2

/-- Modelled from the spec: `split_edge (e, cv1, cv2)`, declared in the header with its
body elsewhere; the split point is the common end of `cv1` and `cv2`, which the traits
give (`split_point`). -/
def split_edge (arr : Arrangement_2 Point Curve) (split_point : Curve → Curve → Point)
    (e : Nat) (cv1 cv2 : Curve) : Option (Arrangement_2 Point Curve × Nat) :=
  arr._split_edge e (split_point cv1 cv2) cv1 cv2

/-- Modelled from the spec: the body of `merge_edge` once the halfedges are named so that
`he1` is followed by `he3` through the common vertex `v` (twins `he2` and `he4`).  The
vertex must have degree 2, that is `he3` follows `he1` and `he2` follows `he4`; else there
is no result.  After the halfedge part the faces that stored `he3` or `he4` store `he1`
or `he2`, the target of `he3` refers to `he1` if it referred to `he3`, and "the shared
vertex is deleted"; the result is the new state and the merged halfedge `he1`. -/
def merge_edge_oriented (arr : Arrangement_2 Point Curve) (he1 he3 : Nat) (cv : Curve) :
    Option (Arrangement_2 Point Curve × Nat) :=
  (Halfedge.twin arr.dcel he1).bind (fun he2 =>
    (Halfedge.twin arr.dcel he3).bind (fun he4 =>
      (Halfedge.target arr.dcel he1).bind (fun v =>
        (Halfedge.target arr.dcel he3).bind (fun u =>
          if Halfedge.next arr.dcel he1 = some he3 ∧ Halfedge.next arr.dcel he4 = some he2 then
            let fs1 := match Halfedge.face arr.dcel he1 with
              | some f => arr.dcel.faces.modify f (fun x => x.replace_halfedge he3 he1)
              | none => arr.dcel.faces
            let fs2 := match Halfedge.face arr.dcel he2 with
              | some f => fs1.modify f (fun x => x.replace_halfedge he4 he2)
              | none => fs1
            let vs1 := arr.dcel.vertices.modify u (fun x =>
              if x.inc = .halfedge (some he3) then { x with inc := .halfedge (some he1) }
              else x)
            let vs2 := vs1.free v
            let ml := arr.dcel.merge_links he1 he3 he4 u cv
            some ({ arr with dcel := { ml with vertices := vs2, faces := fs2 } }, he1)
          else none))))

/-- Modelled from the spec: `merge_edge (e1, e2, cv)`, declared in the header ("Merge two
edges to form a single edge, and associate the given x-monotone curve with the merged
edge"; each of `e1`, `e2` is "one of the pair of twin halfedges") with its body
elsewhere.  The halfedges of the two edges that follow each other through the common
vertex are picked by comparing the end vertices; there is no result when the edges share
no end. -/
def merge_edge (arr : Arrangement_2 Point Curve) (e1 e2 : Nat) (cv : Curve) :
    Option (Arrangement_2 Point Curve × Nat) :=
  (Halfedge.twin arr.dcel e1).bind (fun t1 =>
    (Halfedge.twin arr.dcel e2).bind (fun t2 =>
      if Halfedge.target arr.dcel e1 = Halfedge.source arr.dcel e2 then
        arr.merge_edge_oriented e1 e2 cv
      else if Halfedge.source arr.dcel e1 = Halfedge.source arr.dcel e2 then
        arr.merge_edge_oriented t1 e2 cv
      else if Halfedge.target arr.dcel e1 = Halfedge.target arr.dcel e2 then
        arr.merge_edge_oriented e1 t2 cv
      else if Halfedge.source arr.dcel e1 = Halfedge.target arr.dcel e2 then
        arr.merge_edge_oriented t1 t2 cv
      else none))

end Arrangement_2

/-! ## Insertion of a curve into the interior of a face -/

namespace Arrangement_2

variable {Point Curve : Type}

/-- Modelled from the spec: `_insert_in_face_interior (cv, f, v1, v2, res)`, declared in
the header ("both its endpoints correspond to free arrangement vertices ..., so a new
hole is formed in the face that contains the two vertices") with its body elsewhere.
The store gets a hole record that names `f` and one twin halfedge pair with the curve
`cv` on that hole; the first halfedge of the pair becomes a hole representative of `f`
and the two vertices refer to the halfedges that end at them.  The result is the new
state and the halfedge "directed from v1 to v2".  (The comparison result `res` only
records the direction of the curve and is left out.) -/
def _insert_in_face_interior (arr : Arrangement_2 Point Curve) (cv : Curve) (f v1 v2 : Nat) :
    Arrangement_2 Point Curve × Nat :=
  let ho := arr.dcel.holes.length
  let hos := arr.dcel.holes.alloc ⟨f⟩
  let ne := arr.dcel.new_edge v1 v2 (some cv) (.hole ho)
  let he := ne.2
  let fs := arr.dcel.faces.modify f (fun x => { x with holes := x.holes ++ [he] })
  let vs1 := arr.dcel.vertices.modify v1 (fun x => { x with inc := .halfedge (some (he + 1)) })
  let vs2 := vs1.modify v2 (fun x => { x with inc := .halfedge (some he) })
  ({ arr with dcel := { ne.1 with vertices := vs2, faces := fs, holes := hos } }, he)

/-- Modelled from the spec: the overload `insert_in_face_interior (cv, f)`, declared in
the header ("Insert an x-monotone curve into the arrangement as a new hole (inner
component) inside the given face") with its body elsewhere: two new vertices for the
end points of `cv`, which the traits give (`left`, `right`), and one twin halfedge
pair between them; the halfedge returned is directed from left to right. -/
def insert_curve_in_face_interior (arr : Arrangement_2 Point Curve)
    (left right : Curve → Point) (cv : Curve) (f : Nat) : Arrangement_2 Point Curve × Nat :=
  let r1 := arr._create_vertex (left cv)
  let r2 := r1.1._create_vertex (right cv)
  r2.1._insert_in_face_interior cv f r1.2 r2.2

end Arrangement_2

/-- The scenario of the round trip: the segment from (0,0) to (2,0) inserted into the
unbounded face (handle 1) of the empty arrangement; a curve is a segment, given by its
two end points. -/
def insert_segment_in_empty :
    Arrangement_2 (Int × Int) ((Int × Int) × (Int × Int)) × Nat :=
  (_construct_empty_arrangement (Int × Int) ((Int × Int) × (Int × Int))).insert_curve_in_face_interior
    (fun cv => cv.1) (fun cv => cv.2) ((0, 0), (2, 0)) 1

/-! ## The unbounded faces and the filter of the fictitious vertices -/

namespace Arrangement_2

variable {Point Curve : Type}

/-- Function `unbounded_face` (const version): `p_he->opposite()->face()` for
`p_he = *(un_face->holes_begin())`; no result when the fictitious face has no hole or the
twin of `p_he` is itself on a hole. -/
def unbounded_face_const (arr : Arrangement_2 Point Curve) : Option Nat :=
  (arr.dcel.faces.get arr.un_face).bind (fun uf =>
    uf.holes.head?.bind (fun p_he =>
      (arr.dcel.halfedges.get p_he).bind (fun r =>
        (arr.dcel.halfedges.get r.opposite).bind (fun t =>
          match t.comp with
          | .face f => some f
          | .hole _ => none))))

/-- The loop of `number_of_unbounded_faces`: `while (iter != end) { n_unb++; ++iter; }`
with `n_unb` of the `w`-bit type `Size`; the position `iter` is the rest of the filtered
range, `fuel` bounds the number of rounds, and there is no result when it runs out. -/
def number_of_unbounded_faces_loop (w : Nat) : Nat → List (Nat × DFace) → Nat → Option Nat
  | 0, _, _ => none
  | _ + 1, [], n_unb => some n_unb
  | fuel + 1, x :: rest, n_unb =>
    number_of_unbounded_faces_loop w fuel
      (I_Filtered_iterator.increment (fun e => _Is_unbounded_face e.2) (x :: rest))
      ((n_unb + 1) % 2 ^ w)

/-- Function `number_of_unbounded_faces`: the loop from `unbounded_faces_begin()` to
`unbounded_faces_end()`, started with `n_unb = 0`. -/
def number_of_unbounded_faces (w fuel : Nat) (arr : Arrangement_2 Point Curve) : Option Nat :=
  number_of_unbounded_faces_loop w fuel arr.unbounded_faces_begin 0

end Arrangement_2

/-- The data members of the functor `_Is_non_fictitious_vertex`: the four fictitious
vertices it was constructed with, each a DCEL vertex or `NULL`. -/
structure _Is_non_fictitious_vertex where
  v_bl : Option Nat
  v_tl : Option Nat
  v_br : Option Nat
  v_tr : Option Nat
  deriving DecidableEq, Repr

namespace _Is_non_fictitious_vertex

/-- The default constructor `_Is_non_fictitious_vertex ()`: the four members are
`NULL`. -/
def default : _Is_non_fictitious_vertex := ⟨none, none, none, none⟩

/-- The constructor `_Is_non_fictitious_vertex (bl, tl, br, tr)`. -/
def make (bl tl br tr : Nat) : _Is_non_fictitious_vertex := ⟨some bl, some tl, some br, some tr⟩

/-- Function `_Is_non_fictitious_vertex::operator()`:
`! v.has_null_point() || (&v != v_bl && &v != v_tl && &v != v_br && &v != v_tr)`; the
vertex is given by its handle (its address) and its record. -/
def call {Point : Type} (filt : _Is_non_fictitious_vertex) (v : Nat × DVertex Point) : Bool :=
  !v.2.has_null_point ||
    (some v.1 != filt.v_bl && some v.1 != filt.v_tl && some v.1 != filt.v_br &&
      some v.1 != filt.v_tr)

end _Is_non_fictitious_vertex

/-- The traits of the segment examples: a curve is a segment given by its two end
points, points are compared by coordinates, and a point is compared with a segment by
the y-coordinate of the left end of the segment. -/
def segment_traits : Traits (Int × Int) ((Int × Int) × (Int × Int)) where
  compare_x := fun p q =>
    if p.1 < q.1 then .SMALLER else if p.1 = q.1 then .EQUAL else .LARGER
  compare_xy := fun p q =>
    if p.1 < q.1 then .SMALLER
    else if p.1 = q.1 then
      (if p.2 < q.2 then .SMALLER else if p.2 = q.2 then .EQUAL else .LARGER)
    else .LARGER
  compare_y_at_x := fun p cv =>
    if p.2 < cv.1.2 then .SMALLER else if p.2 = cv.1.2 then .EQUAL else .LARGER

/-! ## Insertion of a curve at existing vertices -/

namespace Dcel

variable {Point Curve : Type}

/-- Modelled from the spec: the face an incident-face-or-hole reference leads to, the
face itself for an outer boundary and the face that contains the hole for a hole (the
hole record names it). -/
def component_face (d : Dcel Point Curve) : Halfedge_component → Option Nat
  | .face f => some f
  | .hole ho => (d.holes.get ho).map (fun x => x.face)

/-- Modelled from the spec: the incident-face-or-hole reference is set on every halfedge
of one boundary cycle.  The walk starts at `cur`, sets the reference of each halfedge it
meets and follows the successor, until the successor is `start` again; `fuel` bounds the
number of steps (the number of halfedge slots is enough). -/
def set_component_cycle (c : Halfedge_component) (start : Nat) :
    Nat → Nat → Dcel Point Curve → Dcel Point Curve
  | 0, _, d => d
  | fuel + 1, cur, d =>
    match Halfedge.next d cur with
    | some n =>
      if n = start then d.set_component cur c
      else set_component_cycle c start fuel n (d.set_component cur c)
    | none => d

/-- Modelled from the spec: the halfedge part of "Remove edge (removes a twin halfedge
pair)".  Two splices take the pair `he1`, `he2` out of its cycles, so that the
predecessor of each is followed by the successor of the other and the two follow each
other; then the pair is removed. -/
def unlink_edge (d : Dcel Point Curve) (he1 he2 : Nat) : Dcel Point Curve :=
  let d1 := d.splice (prev_or_self d he2) he1
  let d2 := d1.splice (prev_or_self d1 he1) he2
  d2.delete_edge he1

/-- Modelled from the spec: the halfedge part of `_split_fictitious_edge` ("Split a given
fictitious edge into two, forming a new vertex at infinity"), the split of `split_links`
for an edge without a curve.  The halfedge `he1` (twin `he2`, target `u`) and its twin
stay, as the first piece, now up to the vertex `v`.  A new twin pair without a curve is
the second piece, from `v` to `u`, with the face-or-hole references `c1` of `he1` and
`c2` of `he2`: the pair is created, each half is made a cycle of its own, and two splices
link the second half before `he2` and the first half, `he3`, after `he1`.  The result is
the store and `he3`; the twin of `he3` is the handle after it. -/
def split_fictitious_links (d : Dcel Point Curve) (he1 he2 v u : Nat)
    (c1 c2 : Halfedge_component) : Dcel Point Curve × Nat :=
  let ne := d.new_edge v u none c1
  let he3 := ne.2
  let he4 := he3 + 1
  let d1 := ne.1.set_component he4 c2
  let d2 := d1.splice he3 he4
  let d3 := d2.splice (prev_or_self d2 he2) he4
  let d4 := d3.splice he1 he3
  (d4.set_vertex he1 v, he3)

/-- Modelled from the spec: the halfedge part of `_remove_vertex_at_infinity` ("Remove a
vertex at infinity, causing its two incident fictitious edges to merge"), the merge of
`merge_links` for two edges without a curve: `he1` is followed by `he3` through the
vertex, `he4` is the twin of `he3` and `u` the target of `he3`.  The halfedge `he1` takes
over the target `u`; three splices unlink `he3` after `he1` and `he4` before the twin of
`he1` and join the two into a cycle of their own; then the pair is removed. -/
def merge_fictitious_links (d : Dcel Point Curve) (he1 he3 he4 u : Nat) :
    Dcel Point Curve :=
  let d1 := d.set_vertex he1 u
  let d2 := d1.splice he1 he3
  let d3 := d2.splice (prev_or_self d2 he4) he4
  let d4 := d3.splice he3 he4
  d4.delete_edge he3

/-- Two stores agree on the links of the halfedges: every handle has the same successor,
twin, target vertex and curve-or-null in both (and so is live in both or in neither);
the face-or-hole references may differ. -/
def same_links (d e : Dcel Point Curve) : Prop :=
  ∀ x, Halfedge.next d x = Halfedge.next e x ∧ Halfedge.twin d x = Halfedge.twin e x ∧
    Halfedge.target d x = Halfedge.target e x ∧ Halfedge.curve d x = Halfedge.curve e x

end Dcel

namespace Arrangement_2

variable {Point Curve : Type}

/-- Modelled from the spec: `_insert_from_vertex (cv, prev, v, res)`, declared in the
header ("one of its endpoints corresponds to a given arrangement vertex, given the exact
place for the curve in the circular list around this vertex.  The other endpoint
corresponds to a free vertex"; "We should represent cv as a pair of edges, one of them
should become prev's successor") with its body elsewhere.  The store gets one twin
halfedge pair with the curve `cv` between the target of `prev` and `v`, on the boundary
that `prev` lies on; one splice puts the pair after `prev`, and `v` refers to the
halfedge that ends at it.  The result is the new state and the halfedge "whose target is
the vertex v".  (The comparison result `res` only records the direction of the curve and
is left out.) -/
def _insert_from_vertex (arr : Arrangement_2 Point Curve) (cv : Curve) (prev v : Nat) :
    Option (Arrangement_2 Point Curve × Nat) :=
  (arr.dcel.halfedges.get prev).map (fun rp =>
    let ne := arr.dcel.new_edge rp.vertex v (some cv) rp.comp
    let he := ne.2
    let d1 := ne.1.splice prev (he + 1)
    let vs := d1.vertices.modify v (fun x => { x with inc := .halfedge (some he) })
    ({ arr with dcel := { d1 with vertices := vs } }, he))

/-- Modelled from the spec: the overload `insert_from_left_vertex (cv, prev)`, declared
in the header with its body elsewhere ("Insert curve anchored at one existing vertex,
free at the other ... vertex plus an explicit predecessor halfedge"): a new vertex for
the right end point of `cv`, which the traits give (`right`), and one twin halfedge pair
after `prev`; the halfedge returned is the one "whose target is the new vertex". -/
def insert_from_left_vertex (arr : Arrangement_2 Point Curve) (right : Curve → Point)
    (cv : Curve) (prev : Nat) : Option (Arrangement_2 Point Curve × Nat) :=
  let r := arr._create_vertex (right cv)
  r.1._insert_from_vertex cv prev r.2

/-- Modelled from the spec: the overload `insert_from_right_vertex (cv, prev)`, declared
in the header with its body elsewhere: a new vertex for the left end point of `cv`, which
the traits give (`left`), and one twin halfedge pair after `prev`; the halfedge returned
is the one "whose target is the new vertex". -/
def insert_from_right_vertex (arr : Arrangement_2 Point Curve) (left : Curve → Point)
    (cv : Curve) (prev : Nat) : Option (Arrangement_2 Point Curve × Nat) :=
  let r := arr._create_vertex (left cv)
  r.1._insert_from_vertex cv prev r.2

/-- Modelled from the spec: `_insert_at_vertices (cv, prev1, prev2, res, new_face,
both_unbounded)`, declared in the header ("the end vertices are given by the target
points of two given halfedges"; "in case a new face is formed, it will be the incident
face of the halfedge directed from the first vertex to the second vertex") with its body
elsewhere.  The store gets one twin halfedge pair with the curve `cv`, linked by two
splices after `prev1` and after `prev2`.  When the two lie on the same boundary, that
boundary is cut in two and a new face is created ("split one face into two"): the cycle
of the halfedge from the first to the second vertex becomes the outer boundary of the
new face, its twin stays on the old boundary and becomes its representative.  When they
lie on two boundaries, these become one ("merge two existing holes", or a hole that joins
the outer boundary): the hole that is absorbed loses its record and its representative.
Two different outer boundaries violate the precondition and give no result.  The result
is the new state, the halfedge "directed from prev1's target to prev2's target" and the
flag `new_face`. -/
def _insert_at_vertices (arr : Arrangement_2 Point Curve) (cv : Curve) (prev1 prev2 : Nat)
    (both_unbounded : Bool) : Option (Arrangement_2 Point Curve × Nat × Bool) :=
  let d := arr.dcel
  (d.halfedges.get prev1).bind (fun r1 =>
  (d.halfedges.get prev2).bind (fun r2 =>
    let he1 := d.halfedges.length
    let he2 := he1 + 1
    if r1.comp = r2.comp then
      (d.component_face r1.comp).map (fun f =>
        let d1 := (((d.new_edge r1.vertex r2.vertex (some cv) r1.comp).1.splice
          prev1 he2).splice prev2 he1)
        let nf := d.faces.length
        let d2 := (Dcel.set_component_cycle (.face nf) he1 d1.halfedges.length he1
          d1).set_component he2 r1.comp
        let fs1 := d.faces.alloc ⟨both_unbounded, some he1, [], []⟩
        let fs2 := match r1.comp with
          | .face f0 => fs1.modify f0 (fun x => { x with halfedge := some he2 })
          | .hole _ => fs1.modify f (fun x => { x with
              holes := x.holes.map (fun h =>
                if (d.halfedges.get h).map (fun r => r.comp) = some r1.comp then he2
                else h) })
        ({ arr with dcel := { d2 with faces := fs2 } }, he1, true))
    else
      let join := fun (c : Halfedge_component) (ha : Nat) =>
        let d1 := (((d.new_edge r1.vertex r2.vertex (some cv) c).1.splice
          prev1 he2).splice prev2 he1)
        let d2 := Dcel.set_component_cycle c he1 d1.halfedges.length he1 d1
        let fs := match d.holes.get ha with
          | some hr => d.faces.modify hr.face (fun x => { x with
              holes := x.holes.filter (fun h =>
                (d.halfedges.get h).map (fun r => r.comp) != some (.hole ha)) })
          | none => d.faces
        ({ arr with dcel := { d2 with faces := fs, holes := d.holes.free ha } }, he1, false)
      match r1.comp, r2.comp with
      | .face _, .face _ => none
      | c, .hole ha => some (join c ha)
      | .hole ha, c => some (join c ha)))

/-- Modelled from the spec: `_move_hole (from_face, to_face, hole)`, declared in the
header ("Move a given hole from one face to another") with its body elsewhere.  The
hole, given by its representative halfedge `h`, leaves the hole collection of one face
and joins that of the other, and its hole record names the new face. -/
def _move_hole (arr : Arrangement_2 Point Curve) (from_face to_face h : Nat) :
    Arrangement_2 Point Curve :=
  let d := arr.dcel
  let fs1 := d.faces.modify from_face (fun x => { x with holes := x.holes.erase h })
  let fs2 := fs1.modify to_face (fun x => { x with holes := x.holes ++ [h] })
  let hos := match (d.halfedges.get h).map (fun r => r.comp) with
    | some (.hole ho) => d.holes.modify ho (fun _ => ⟨to_face⟩)
    | _ => d.holes
  { arr with dcel := { d with faces := fs2, holes := hos } }

/-- Modelled from the spec: `_move_isolated_vertex (from_face, to_face, vit)`, declared
in the header ("Move a given isolated vertex from one face to another") with its body
elsewhere.  The vertex `v` leaves the isolated-vertex collection of one face and joins
that of the other, and its isolated-vertex record names the new face. -/
def _move_isolated_vertex (arr : Arrangement_2 Point Curve) (from_face to_face v : Nat) :
    Arrangement_2 Point Curve :=
  let d := arr.dcel
  let fs1 := d.faces.modify from_face
    (fun x => { x with isolated_vertices := x.isolated_vertices.erase v })
  let fs2 := fs1.modify to_face
    (fun x => { x with isolated_vertices := x.isolated_vertices ++ [v] })
  let ivs := match (d.vertices.get v).map (fun r => r.inc) with
    | some (.isolated iv) => d.iso_verts.modify iv (fun _ => ⟨to_face⟩)
    | _ => d.iso_verts
  { arr with dcel := { d with faces := fs2, iso_verts := ivs } }

/-- Modelled from the spec: `_relocate_holes_in_new_face (new_he)`, declared in the
header ("the new face lies to its left and the old face to its right") with its body
elsewhere.  Every hole of the old face that lies in the new face moves to it; the test
"which of the two faces now geometrically contains it" is the parameter `inside`, on the
representative of the hole.  The hole on which the twin of `new_he` lies bounds the new
face from outside and stays. -/
def _relocate_holes_in_new_face (arr : Arrangement_2 Point Curve) (inside : Nat → Bool)
    (new_he : Nat) : Arrangement_2 Point Curve :=
  match Halfedge.face arr.dcel new_he, Halfedge.twin arr.dcel new_he with
  | some nf, some t =>
    match arr.dcel.halfedges.get t, Halfedge.face arr.dcel t with
    | some r, some f =>
      match arr.dcel.faces.get f with
      | some x =>
        (x.holes.filter (fun h => inside h &&
            ((arr.dcel.halfedges.get h).map (fun y => y.comp) != some r.comp))).foldl
          (fun a h => a._move_hole f nf h) arr
      | none => arr
    | _, _ => arr
  | _, _ => arr

/-- Modelled from the spec: `_relocate_isolated_vertices_in_new_face (new_he)`, declared
in the header with its body elsewhere.  Every isolated vertex of the old face that lies
in the new face moves to it; the test is the parameter `inside`, on the vertex. -/
def _relocate_isolated_vertices_in_new_face (arr : Arrangement_2 Point Curve)
    (inside : Nat → Bool) (new_he : Nat) : Arrangement_2 Point Curve :=
  match Halfedge.face arr.dcel new_he,
      (Halfedge.twin arr.dcel new_he).bind (Halfedge.face arr.dcel) with
  | some nf, some f =>
    match arr.dcel.faces.get f with
    | some x =>
      (x.isolated_vertices.filter inside).foldl
        (fun a v => a._move_isolated_vertex f nf v) arr
    | none => arr
  | _, _ => arr

/-- Modelled from the spec: `_relocate_in_new_face (new_he)`, declared in the header
("Relocate all holes and isolated vertices to their proper position, immediately after a
face has split due to the insertion of a new halfedge") with its body elsewhere. -/
def _relocate_in_new_face (arr : Arrangement_2 Point Curve)
    (hole_inside vertex_inside : Nat → Bool) (new_he : Nat) : Arrangement_2 Point Curve :=
  (arr._relocate_holes_in_new_face hole_inside new_he)._relocate_isolated_vertices_in_new_face
    vertex_inside new_he

/-- Modelled from the spec: the overload `insert_at_vertices (cv, prev1, prev2)`,
declared in the header with its body elsewhere.  The parameter `prev1_inside` is the
answer of `_is_inside_new_face (prev1, prev2, cv)` ("(true) if prev1 lies in the interior
of the face we are about to create, (false) otherwise - in which case prev2 must lie
inside this new face"), which decides the order in which the two halfedges are passed
on; the parameter `both_unbounded` says whether a split makes two unbounded faces (the
check for fictitious halfedges along the two boundaries has its general body elsewhere);
after a face split the holes and isolated vertices are relocated (the two tests
`hole_inside` and `vertex_inside` are geometric and are parameters).  The halfedge
returned is the one "directed from prev1's target to prev2's target". -/
def insert_at_vertices (arr : Arrangement_2 Point Curve) (prev1_inside both_unbounded : Bool)
    (hole_inside vertex_inside : Nat → Bool) (cv : Curve) (prev1 prev2 : Nat) :
    Option (Arrangement_2 Point Curve × Nat) :=
  ((if prev1_inside then arr._insert_at_vertices cv prev1 prev2 both_unbounded
    else arr._insert_at_vertices cv prev2 prev1 both_unbounded)).map (fun r =>
      ((if r.2.2 then r.1._relocate_in_new_face hole_inside vertex_inside r.2.1 else r.1),
        (if prev1_inside then r.2.1 else r.2.1 + 1)))

end Arrangement_2

/-! ## Vertices at infinity -/

namespace Arrangement_2

variable {Point Curve : Type}

/-- Modelled from the spec: `_create_vertex_at_infinity (inf_x, inf_y)`, declared in the
header ("Create a new vertex at infinity") with its body elsewhere.  The store gets a new
vertex record without a point, with the two boundary classifications and not yet
connected, and the number of vertices at infinity grows by one; the result is the new
state and the handle of the vertex.  (The notification of the observers around the
creation is left out.) -/
def _create_vertex_at_infinity (arr : Arrangement_2 Point Curve)
    (inf_x inf_y : Boundary_type) : Arrangement_2 Point Curve × Nat :=
  let v := arr.dcel.vertices.length
  let vs := arr.dcel.vertices.alloc ⟨none, inf_x, inf_y, .halfedge none⟩
  ({ arr with dcel := { arr.dcel with vertices := vs }, n_inf_verts := arr.n_inf_verts + 1 }, v)

/-- Modelled from the spec: the overload `_split_fictitious_edge (e, v)`, declared in the
header ("Split a given fictitious edge into two, at a given vertex at infinity") with its
body elsewhere.  After the halfedge part, the old target of `e` refers to the new
halfedge `he3` if it referred to `e`, and the vertex `v` refers to `e`, which now ends at
it; the result is the new state and "the first split halfedge, whose source equals the
source of e, and whose target is v", or nothing if `e` or its twin has no record. -/
def _split_fictitious_edge_at_vertex (arr : Arrangement_2 Point Curve) (e v : Nat) :
    Option (Arrangement_2 Point Curve × Nat) :=
  (arr.dcel.halfedges.get e).bind (fun r1 =>
    (arr.dcel.halfedges.get r1.opposite).map (fun r2 =>
      let sl := arr.dcel.split_fictitious_links e r1.opposite v r1.vertex r1.comp r2.comp
      let he3 := sl.2
      let vs1 := sl.1.vertices.modify r1.vertex (fun x =>
        if x.inc = .halfedge (some e) then { x with inc := .halfedge (some he3) } else x)
      let vs2 := vs1.modify v (fun x => { x with inc := .halfedge (some e) })
      ({ arr with dcel := { sl.1 with vertices := vs2 } }, e)))

/-- Modelled from the spec: the overload `_split_fictitious_edge (e, inf_x, inf_y)`,
declared in the header ("Split a given fictitious edge into two, forming a new vertex at
infinity") with its body elsewhere: a new vertex at infinity, then the split at that
vertex. -/
def _split_fictitious_edge (arr : Arrangement_2 Point Curve) (e : Nat)
    (inf_x inf_y : Boundary_type) : Option (Arrangement_2 Point Curve × Nat) :=
  let r := arr._create_vertex_at_infinity inf_x inf_y
  r.1._split_fictitious_edge_at_vertex e r.2

/-- Modelled from the spec: `_remove_vertex_at_infinity (v)`, declared in the header
("Remove a vertex at infinity, causing its two incident fictitious edges to merge") with
its body elsewhere.  The halfedge `he1` the vertex refers to ends at it and is followed
by `he3` (twins `he2` and `he4`).  The two edges are merged when they are the only edges
at the vertex, that is when `he3` belongs to another edge than `he1` and `he2` follows
`he4`; else the state stays as it is ("Removing the last real edge anchored at a vertex
at infinity merges its two adjacent fictitious edges back together and deletes the
vertex").  After the halfedge part the faces that stored `he3` or `he4` store `he1` or
`he2`, the target of `he3` refers to `he1` if it referred to `he3`, the vertex record is
deleted and the number of vertices at infinity falls by one.  (The notification of the
observers around the removal is left out.) -/
def _remove_vertex_at_infinity (arr : Arrangement_2 Point Curve) (v : Nat) :
    Arrangement_2 Point Curve :=
  match Vertex.incident_halfedges arr.dcel v with
  | some he1 =>
    match Halfedge.twin arr.dcel he1, Halfedge.next arr.dcel he1 with
    | some he2, some he3 =>
      match Halfedge.twin arr.dcel he3, Halfedge.target arr.dcel he3 with
      | some he4, some u =>
        if he3 ≠ he1 ∧ he3 ≠ he2 ∧ Halfedge.next arr.dcel he4 = some he2 then
          let fs1 := match Halfedge.face arr.dcel he1 with
            | some f => arr.dcel.faces.modify f (fun x => x.replace_halfedge he3 he1)
            | none => arr.dcel.faces
          let fs2 := match Halfedge.face arr.dcel he2 with
            | some f => fs1.modify f (fun x => x.replace_halfedge he4 he2)
            | none => fs1
          let vs1 := arr.dcel.vertices.modify u (fun x =>
            if x.inc = .halfedge (some he3) then { x with inc := .halfedge (some he1) }
            else x)
          let vs2 := vs1.free v
          let ml := arr.dcel.merge_fictitious_links he1 he3 he4 u
          { arr with
            dcel := { ml with vertices := vs2, faces := fs2 }
            n_inf_verts := arr.n_inf_verts - 1 }
        else arr
      | _, _ => arr
    | _, _ => arr
  | none => arr

end Arrangement_2

/-! ## Insertion of a curve with unbounded ends -/

namespace Arrangement_2

variable {Point Curve : Type}

/-- Modelled from the spec: the overload `insert_in_face_interior (cv, fict_he1,
fict_he2)`, declared in the header ("Insert an unbounded x-monotone curve into the
arrangement inside a given unbounded face, given a fictitious halfedge(s) that contains
the unbounded end(s) of the curve") with its body elsewhere; `fict_he2` is absent when
one end of the curve is bounded.  Each unbounded end gets a new vertex at infinity, by a
split of the fictitious edge that contains it; the boundary classifications of the ends
(`inf_x1`, `inf_y1`, `inf_x2`, `inf_y2`) are given by the traits.

With one unbounded end, the bounded end gets a new vertex for its point (`end_point`,
given by the traits) and the curve is inserted from the vertex at infinity; the flag
`left_unbounded` says which end is the unbounded one.  With two unbounded ends, the edge
`fict_he1` contains the left end and is split first; when `fict_he2` is the same edge,
the right end lies on one of its two pieces, and the geometric test which one is the
parameter `on_second_piece`; then the curve is inserted between the two vertices at
infinity as in `insert_at_vertices`, after the halfedge the first vertex refers to and
after the first piece of the second split, and a split of the face makes two unbounded
faces.  The halfedge returned is the one "directed (lexicographically) from left to
right". -/
def insert_unbounded_curve_in_face_interior (arr : Arrangement_2 Point Curve)
    (left_unbounded : Bool) (end_point : Curve → Point)
    (inf_x1 inf_y1 inf_x2 inf_y2 : Curve → Boundary_type)
    (on_second_piece prev1_inside : Bool) (hole_inside vertex_inside : Nat → Bool)
    (cv : Curve) (fict_he1 : Nat) (fict_he2 : Option Nat) :
    Option (Arrangement_2 Point Curve × Nat) :=
  match fict_he2 with
  | none =>
    (arr._split_fictitious_edge fict_he1 (inf_x1 cv) (inf_y1 cv)).bind (fun s =>
      let r := s.1._create_vertex (end_point cv)
      (r.1._insert_from_vertex cv s.2 r.2).map (fun q =>
        (q.1, if left_unbounded then q.2 else q.2 + 1)))
  | some he2 =>
    (arr._split_fictitious_edge fict_he1 (inf_x1 cv) (inf_y1 cv)).bind (fun s1 =>
      (Halfedge.target s1.1.dcel s1.2).bind (fun v1 =>
        let second := if he2 = fict_he1 ∧ on_second_piece = true
          then arr.dcel.halfedges.length else he2
        (s1.1._split_fictitious_edge second (inf_x2 cv) (inf_y2 cv)).bind (fun s2 =>
          (Vertex.incident_halfedges s2.1.dcel v1).bind (fun fict_prev1 =>
            s2.1.insert_at_vertices prev1_inside true hole_inside vertex_inside cv
              fict_prev1 s2.2))))

/-- Modelled from the spec: the overload `insert_from_left_vertex (cv, prev, fict_he)`,
declared in the header ("its left endpoints corresponds to a given arrangement vertex
..., and whose right end is unbounded and lies on a given fictitious edge") with its body
elsewhere.  The right end gets a new vertex at infinity, by a split of `fict_he` (the
boundary classifications `inf_x`, `inf_y` of the end are given by the traits); then the
curve is inserted between the target of `prev` and the new vertex as in
`insert_at_vertices`, after `prev` and after the first piece of the split, and a split
of the face makes two unbounded faces.  The halfedge returned is the one "whose target is
the new vertex that was created". -/
def insert_from_left_vertex_unbounded (arr : Arrangement_2 Point Curve)
    (inf_x inf_y : Curve → Boundary_type) (prev1_inside : Bool)
    (hole_inside vertex_inside : Nat → Bool) (cv : Curve) (prev fict_he : Nat) :
    Option (Arrangement_2 Point Curve × Nat) :=
  (arr._split_fictitious_edge fict_he (inf_x cv) (inf_y cv)).bind (fun s =>
    s.1.insert_at_vertices prev1_inside true hole_inside vertex_inside cv prev s.2)

/-- Modelled from the spec: the overload `insert_from_right_vertex (cv, prev, fict_he)`,
declared in the header ("its right endpoints corresponds to a given arrangement vertex
..., and whose left end is unbounded and lies on a given fictitious edge") with its body
elsewhere.  The left end gets a new vertex at infinity, by a split of `fict_he`; then
the curve is inserted between the target of `prev` and the new vertex as in
`insert_at_vertices`.  The halfedge returned is the one "whose target is the new vertex
that was created". -/
def insert_from_right_vertex_unbounded (arr : Arrangement_2 Point Curve)
    (inf_x inf_y : Curve → Boundary_type) (prev1_inside : Bool)
    (hole_inside vertex_inside : Nat → Bool) (cv : Curve) (prev fict_he : Nat) :
    Option (Arrangement_2 Point Curve × Nat) :=
  (arr._split_fictitious_edge fict_he (inf_x cv) (inf_y cv)).bind (fun s =>
    s.1.insert_at_vertices prev1_inside true hole_inside vertex_inside cv prev s.2)

end Arrangement_2

/-! ## Insertion of a curve at vertices given by their handles -/

namespace Arrangement_2

variable {Point Curve : Type}

/-- Modelled from the spec: `_remove_isolated_vertex (v)`, declared in the header
("Remove an isolated vertex from the interior of its face (but not from the dcel)") with
its body elsewhere: the vertex leaves the isolated-vertex collection of its face and its
isolated-vertex record is deleted; the result is the new state and the face.  There is
no result when `v` is not an isolated vertex. -/
def _remove_isolated_vertex (arr : Arrangement_2 Point Curve) (v : Nat) :
    Option (Arrangement_2 Point Curve × Nat) :=
  (arr.dcel.vertices.get v).bind (fun r =>
    match r.inc with
    | .isolated iv =>
      (arr.dcel.iso_verts.get iv).map (fun x =>
        let fs := arr.dcel.faces.modify x.face
          (fun y => { y with isolated_vertices := y.isolated_vertices.erase v })
        let ivs := arr.dcel.iso_verts.free iv
        ({ arr with dcel := { arr.dcel with faces := fs, iso_verts := ivs } }, x.face))
    | .halfedge _ => none)

/-- Modelled from the spec: the overload `insert_from_left_vertex (cv, v)`, declared in
the header ("its left endpoint corresponds to a given arrangement vertex") with its body
elsewhere: "just the vertex (engine searches its clockwise circular order for the correct
slot)".  An isolated vertex `v` is a free vertex: it leaves the isolated vertices of its
face, and the curve becomes a new hole of that face, between `v` and a new vertex for the
right end point.  Else the place of the curve around `v` is located; the answer of
`_locate_around_vertex` ("a halfedge whose target is v ...  A NULL return value indicates
a precondition violation") is the parameter `located`, and the insertion goes on as with
that halfedge given.  The halfedge returned is the one "whose target is the new
vertex". -/
def insert_from_left_vertex_at_vertex (arr : Arrangement_2 Point Curve)
    (right : Curve → Point) (located : Option Nat) (cv : Curve) (v : Nat) :
    Option (Arrangement_2 Point Curve × Nat) :=
  (arr.dcel.vertices.get v).bind (fun rv =>
    if rv.is_isolated then
      (arr._remove_isolated_vertex v).map (fun s =>
        let r := s.1._create_vertex (right cv)
        r.1._insert_in_face_interior cv s.2 v r.2)
    else located.bind (fun prev => arr.insert_from_left_vertex right cv prev))

/-- Modelled from the spec: the overload `insert_from_right_vertex (cv, v)`, declared in
the header ("its right endpoint corresponds to a given arrangement vertex") with its body
elsewhere.  An isolated vertex `v` leaves the isolated vertices of its face, and the
curve becomes a new hole of that face, between a new vertex for the left end point and
`v`; else the place of the curve around `v` is located (`located`) and the insertion goes
on as with that halfedge given.  The halfedge returned is the one "whose target is the
new vertex". -/
def insert_from_right_vertex_at_vertex (arr : Arrangement_2 Point Curve)
    (left : Curve → Point) (located : Option Nat) (cv : Curve) (v : Nat) :
    Option (Arrangement_2 Point Curve × Nat) :=
  (arr.dcel.vertices.get v).bind (fun rv =>
    if rv.is_isolated then
      (arr._remove_isolated_vertex v).map (fun s =>
        let r := s.1._create_vertex (left cv)
        let q := r.1._insert_in_face_interior cv s.2 r.2 v
        (q.1, q.2 + 1))
    else located.bind (fun prev => arr.insert_from_right_vertex left cv prev))

/-- Modelled from the spec: the overload `insert_at_vertices (cv, h1, v2)`, declared in
the header ("given the exact place for the curve in one of the circular lists around a
vertex") with its body elsewhere.  An isolated vertex `v2` is a free vertex: it leaves
the isolated vertices of its face and the curve is inserted from the target of `h1`, after
`h1`.  Else the place of the curve around `v2` is located (`located2`) and the insertion
goes on as with both halfedges given.  The halfedge returned is the one "directed from
prev1 to v2". -/
def insert_at_vertices_at_vertex (arr : Arrangement_2 Point Curve)
    (prev1_inside both_unbounded : Bool) (hole_inside vertex_inside : Nat → Bool)
    (located2 : Option Nat) (cv : Curve) (h1 v2 : Nat) :
    Option (Arrangement_2 Point Curve × Nat) :=
  (arr.dcel.vertices.get v2).bind (fun rv2 =>
    if rv2.is_isolated then
      (arr._remove_isolated_vertex v2).bind (fun s => s.1._insert_from_vertex cv h1 v2)
    else located2.bind (fun prev2 =>
      arr.insert_at_vertices prev1_inside both_unbounded hole_inside vertex_inside cv h1
        prev2))

/-- Modelled from the spec: the overload `insert_at_vertices (cv, v1, v2)`, declared in
the header ("both its endpoints correspond to given arrangement vertices") with its body
elsewhere.  Two isolated vertices leave the isolated vertices of their face and the curve
becomes a new hole of the face of `v1`.  One isolated vertex leaves the isolated vertices
of its face and the curve is inserted from the other vertex, after the halfedge located
around it.  Else both places are located (`located1`, `located2`) and the insertion goes
on as with both halfedges given.  The halfedge returned is the one "directed from v1 to
v2". -/
def insert_at_vertices_at_vertices (arr : Arrangement_2 Point Curve)
    (prev1_inside both_unbounded : Bool) (hole_inside vertex_inside : Nat → Bool)
    (located1 located2 : Option Nat) (cv : Curve) (v1 v2 : Nat) :
    Option (Arrangement_2 Point Curve × Nat) :=
  (arr.dcel.vertices.get v1).bind (fun rv1 =>
  (arr.dcel.vertices.get v2).bind (fun rv2 =>
    if rv1.is_isolated then
      if rv2.is_isolated then
        (arr._remove_isolated_vertex v1).bind (fun s1 =>
          (s1.1._remove_isolated_vertex v2).map (fun s2 =>
            s2.1._insert_in_face_interior cv s1.2 v1 v2))
      else
        located2.bind (fun prev2 =>
          (arr._remove_isolated_vertex v1).bind (fun s1 =>
            (s1.1._insert_from_vertex cv prev2 v1).map (fun q => (q.1, q.2 + 1))))
    else if rv2.is_isolated then
      located1.bind (fun prev1 =>
        (arr._remove_isolated_vertex v2).bind (fun s2 =>
          s2.1._insert_from_vertex cv prev1 v2))
    else
      located1.bind (fun prev1 => located2.bind (fun prev2 =>
        arr.insert_at_vertices prev1_inside both_unbounded hole_inside vertex_inside cv
          prev1 prev2))))

end Arrangement_2

/-! ## Removal -/

namespace Arrangement_2

variable {Point Curve : Type}

/-- Modelled from the spec: `remove_isolated_vertex (v)`, declared in the header ("Remove
an isolated vertex from the interior of a given face ... return A handle for the face
containing v") with its body elsewhere: "detach from its face's isolated-vertex
collection, delete the vertex record, return the face handle".  (The notification of
the observers around the removal is left out.) -/
def remove_isolated_vertex (arr : Arrangement_2 Point Curve) (v : Nat) :
    Option (Arrangement_2 Point Curve × Nat) :=
  (arr._remove_isolated_vertex v).map (fun r =>
    ({ r.1 with dcel := { r.1.dcel with vertices := r.1.dcel.vertices.free v } }, r.2))

/-- Modelled from the spec: an end vertex of a removed edge.  A vertex that "becomes
isolated with no remaining incident edges" is removed when the flag is on, and else
becomes an isolated vertex of the face `f` ("isolated endpoints become isolated-vertex
records in the resulting face"); a vertex with other incident edges refers to one of
them, `p`, if it referred to the removed halfedge `he`, and, "if the endpoint was a
vertex at infinity", its removal is triggered instead (`_remove_vertex_at_infinity`,
which merges its two fictitious edges when no other edge is left at it). -/
def _remove_edge_end_vertex (arr : Arrangement_2 Point Curve) (v he p f : Nat)
    (isolated remove : Bool) : Arrangement_2 Point Curve :=
  if isolated then
    if remove then
      { arr with dcel := { arr.dcel with vertices := arr.dcel.vertices.free v } }
    else arr._insert_isolated_vertex f v
  else
    let a1 : Arrangement_2 Point Curve := { arr with dcel := { arr.dcel with
        vertices := arr.dcel.vertices.modify v (fun x =>
          { x with inc := if x.inc = .halfedge (some he) then .halfedge (some p) else x.inc }) } }
    if Vertex.is_at_infinity arr.dcel v = some true then a1._remove_vertex_at_infinity v
    else a1

/-- Modelled from the spec: the records of faces and holes in "Remove edge", after the
pair `he1`, `he2` has been unlinked.  The record `r1` of `he1` and `r2` of `he2` and
their faces `f1` and `f2` are those before the removal.

If the two sides bound two distinct faces, "the faces merge into one (the surviving face
absorbs the other's holes and isolated vertices)": the face on the side of `he1` is
merged into the face on the side of `he2`, unless `he1` lies on a hole, in which case
its face survives; the joined boundary gets the reference of the surviving side, and the
other face record is deleted.  If both sides bound the same face, a pair that follows
itself both ways is a hole of its own, which is eliminated with its record; a pair that
follows itself one way hangs on its boundary, which only loses it; else the boundary
falls in two, and the part that followed `he1` becomes a new hole of the face.  In each
case a stored representative that is removed is replaced by a halfedge that stays.  The
result is the new state and the remaining face. -/
def _remove_edge_faces (arr : Arrangement_2 Point Curve) (he1 : Nat)
    (r1 r2 : DHalfedge Curve) (f1 f2 : Nat) : Arrangement_2 Point Curve × Nat :=
  let he2 := r1.opposite
  let d := arr.dcel
  if f1 ≠ f2 then
    let keep := if r1.is_on_hole then f1 else f2
    let drop := if r1.is_on_hole then f2 else f1
    let c := if r1.is_on_hole then r1.comp else r2.comp
    let d1 := Dcel.set_component_cycle c r1.prev d.halfedges.length r1.prev d
    let a1 : Arrangement_2 Point Curve := { arr with dcel := d1 }
    match d.faces.get drop with
    | some x =>
      let a2 := x.holes.foldl (fun a h => a._move_hole drop keep h) a1
      let a3 := x.isolated_vertices.foldl (fun a v => a._move_isolated_vertex drop keep v) a2
      let fs := a3.dcel.faces.modify keep (fun y =>
        ({ y with unbounded := y.unbounded || x.unbounded }.replace_halfedge
          he1 r1.prev).replace_halfedge he2 r2.prev)
      ({ a3 with dcel := { a3.dcel with faces := fs.free drop } }, keep)
    | none => (a1, keep)
  else if r1.next = he2 ∧ r2.next = he1 then
    let fs := d.faces.modify f1 (fun y =>
      { y with holes := (y.holes.erase he1).erase he2 })
    let hos := match r1.comp with
      | .hole ho => d.holes.free ho
      | .face _ => d.holes
    ({ arr with dcel := { d with faces := fs, holes := hos } }, f1)
  else if r1.next = he2 then
    let fs := d.faces.modify f1 (fun y =>
      (y.replace_halfedge he1 r1.prev).replace_halfedge he2 r1.prev)
    ({ arr with dcel := { d with faces := fs } }, f1)
  else if r2.next = he1 then
    let fs := d.faces.modify f1 (fun y =>
      (y.replace_halfedge he1 r2.prev).replace_halfedge he2 r2.prev)
    ({ arr with dcel := { d with faces := fs } }, f1)
  else
    let nh := d.holes.length
    let d1 := Dcel.set_component_cycle (.hole nh) r1.next d.halfedges.length r1.next d
    let fs := d.faces.modify f1 (fun y =>
      { y with
        halfedge := if r1.comp = .face f1 then some r1.prev else y.halfedge
        holes := y.holes.map (fun h =>
          if (d.halfedges.get h).map (fun r => r.comp) = some r1.comp ∨ h = he1 ∨ h = he2
          then r1.prev else h) ++ [r1.next] })
    ({ arr with dcel := { d1 with faces := fs, holes := d.holes.alloc ⟨f1⟩ } }, f1)

/-- Modelled from the spec: `_remove_edge (e, remove_source, remove_target)`, declared in
the header ("Remove a pair of twin halfedges from the arrangement"; "In case the removal
causes the creation of a new hole, e should point at this hole"; "return A pointer to
the remaining face") with its body elsewhere.  The pair is unlinked and removed, the
records of the faces and holes follow, and then the two end vertices, first the target
and then the source: the target of `e` becomes isolated when `e` is followed by its twin,
the source when the twin is followed by `e`.  There is no result when `e` or its twin is
not live or has no incident face.
(The notification of the observers around the removal is left out.) -/
def _remove_edge (arr : Arrangement_2 Point Curve) (e : Nat)
    (remove_source remove_target : Bool) : Option (Arrangement_2 Point Curve × Nat) :=
  (arr.dcel.halfedges.get e).bind (fun r1 =>
  (arr.dcel.halfedges.get r1.opposite).bind (fun r2 =>
  (Halfedge.face arr.dcel e).bind (fun f1 =>
  (Halfedge.face arr.dcel r1.opposite).map (fun f2 =>
    let a1 : Arrangement_2 Point Curve :=
      { arr with dcel := arr.dcel.unlink_edge e r1.opposite }
    let a2 := a1._remove_edge_faces e r1 r2 f1 f2
    let a3 := a2.1._remove_edge_end_vertex r1.vertex e r2.prev a2.2
      (decide (r1.next = r1.opposite)) remove_target
    let a4 := a3._remove_edge_end_vertex r2.vertex r1.opposite r1.prev a2.2
      (decide (r2.next = e)) remove_source
    (a4, a2.2)))))

/-- Modelled from the spec: `remove_edge (e, remove_source, remove_target)`, declared in
the header ("Remove an edge from the arrangement ... e The edge to remove (one of the
pair of twin halfegdes)") with its body elsewhere.  When both sides of the edge bound the
same face, the removal may cut a boundary in two and create a new hole, and which half
of the pair points at that hole is "decided by the same inside/outside walk test as
insertion"; the answer of that geometric test is the parameter `e_at_hole`.  When it is
the twin of `e`, the source and the target change places, and the two flags with them.
When the two sides bound two faces, no hole is created and `e` itself is passed on. -/
def remove_edge (arr : Arrangement_2 Point Curve) (e_at_hole : Bool) (e : Nat)
    (remove_source remove_target : Bool) : Option (Arrangement_2 Point Curve × Nat) :=
  (Halfedge.twin arr.dcel e).bind (fun t =>
    if Halfedge.face arr.dcel e = Halfedge.face arr.dcel t ∧ e_at_hole = false then
      arr._remove_edge t remove_target remove_source
    else arr._remove_edge e remove_source remove_target)

end Arrangement_2

/-- The scenario of the insertions of curves: the segment from (2,0) to (3,2), inserted
from the right end vertex of the segment of `insert_segment_in_empty`, after the halfedge
that ends there (the state of that segment alone, if the insertion had no result). -/
def insert_two_segments_in_empty :
    Arrangement_2 (Int × Int) ((Int × Int) × (Int × Int)) :=
  match insert_segment_in_empty.1.insert_from_left_vertex (fun cv => cv.2) ((2, 0), (3, 2))
      insert_segment_in_empty.2 with
  | some r => r.1
  | none => insert_segment_in_empty.1

/-- The scenario of the curve from an isolated vertex: the point (0,0) inserted as an
isolated vertex into the unbounded face (handle 1) of the empty arrangement of
segments; the result is the state and the vertex. -/
def insert_isolated_origin_in_empty :
    Arrangement_2 (Int × Int) ((Int × Int) × (Int × Int)) × Nat :=
  (_construct_empty_arrangement (Int × Int) ((Int × Int) × (Int × Int))).insert_in_face_interior
    (0, 0) 1

/-- The scenario of the pairs of an insertion and its removal: the points (5,5) and (7,7)
inserted as isolated vertices into the unbounded face (handle 1) of
`insert_two_segments_in_empty`. -/
def insert_segments_and_points :
    Arrangement_2 (Int × Int) ((Int × Int) × (Int × Int)) :=
  ((insert_two_segments_in_empty.insert_in_face_interior (5, 5) 1).1.insert_in_face_interior
    (7, 7) 1).1

/-! ## Lemmas on the arena -/

theorem Arena.get_lt {α : Type} {s : Arena α} {i : Nat} {a : α} (h : s.get i = some a) :
    i < s.length := by
  unfold Arena.get at h
  by_contra hlt
  rw [List.get?_eq_none.mpr (by omega)] at h
  simp at h

theorem Arena.get_modify {α : Type} (s : Arena α) (i j : Nat) (f : α → α) :
    (s.modify i f).get j = (s.get j).map (if j = i then f else id) := by
  unfold Arena.modify
  cases hi : s.get i with
  | none =>
    by_cases hji : j = i
    · subst hji; simp [hi]
    · simp [hji]
  | some a =>
    have hlt := Arena.get_lt hi
    by_cases hji : j = i
    · subst hji
      simp [Arena.get, List.getElem?_set, hlt] at hi ⊢
      simp [hi]
    · simp [Arena.get, List.getElem?_set, hji, Ne.symm hji]

theorem Arena.get_free {α : Type} (s : Arena α) (i j : Nat) :
    (s.free i).get j = if j = i then none else s.get j := by
  unfold Arena.free Arena.get
  by_cases hji : j = i
  · subst hji
    by_cases hlt : j < s.length
    · simp [List.getElem?_set, hlt]
    · simp [List.getElem?_set, hlt]
  · simp [List.getElem?_set, hji, Ne.symm hji]

theorem Arena.get_alloc {α : Type} (s : Arena α) (a : α) (j : Nat) :
    (s.alloc a).get j = if j = s.length then some a else s.get j := by
  unfold Arena.alloc Arena.get
  by_cases hj : j = s.length
  · subst hj; simp
  · by_cases hlt : j < s.length
    · simp [List.getElem?_append_left, hlt, hj]
    · have : s.length < j := by omega
      simp [hj, List.getElem?_append_right, this.le]
      rw [List.getElem?_eq_none (by simp; omega), List.getElem?_eq_none (by omega)]

theorem Arena.length_alloc {α : Type} (s : Arena α) (a : α) :
    (s.alloc a).length = s.length + 1 := by
  simp [Arena.alloc]

/-! ## The accessors, record by record -/

theorem Halfedge.twin_eq_some {Point Curve : Type} {d : Dcel Point Curve} {h t : Nat} :
    Halfedge.twin d h = some t ↔ ∃ r, d.halfedges.get h = some r ∧ r.opposite = t := by
  simp [Halfedge.twin]

theorem Halfedge.next_eq_some {Point Curve : Type} {d : Dcel Point Curve} {h n : Nat} :
    Halfedge.next d h = some n ↔ ∃ r, d.halfedges.get h = some r ∧ r.next = n := by
  simp [Halfedge.next]

theorem Halfedge.prev_eq_some {Point Curve : Type} {d : Dcel Point Curve} {h p : Nat} :
    Halfedge.prev d h = some p ↔ ∃ r, d.halfedges.get h = some r ∧ r.prev = p := by
  simp [Halfedge.prev]

/-! ## The link invariant holds in every state of the record store -/

theorem Dcel.linked_empty (Point Curve : Type) :
    (_construct_empty_arrangement Point Curve).dcel.Linked := by
  refine ⟨?_, ?_, ?_⟩
  · intro h t ht
    obtain ⟨r, hr, -⟩ := Halfedge.twin_eq_some.mp ht
    have hlt := Arena.get_lt hr
    simp only [_construct_empty_arrangement, List.length_cons, List.length_nil] at hlt
    have h8 : h < 8 := by omega
    interval_cases h <;>
      simp [_construct_empty_arrangement, Arena.get, Halfedge.twin] at ht <;>
      subst ht <;>
      simp [_construct_empty_arrangement, Arena.get, Halfedge.twin, Halfedge.curve]
  · intro h t ht
    obtain ⟨r, hr, -⟩ := Halfedge.next_eq_some.mp ht
    have hlt := Arena.get_lt hr
    simp only [_construct_empty_arrangement, List.length_cons, List.length_nil] at hlt
    have h8 : h < 8 := by omega
    interval_cases h <;>
      simp [_construct_empty_arrangement, Arena.get, Halfedge.next] at ht <;>
      subst ht <;>
      simp [_construct_empty_arrangement, Arena.get, Halfedge.prev]
  · intro h t ht
    obtain ⟨r, hr, -⟩ := Halfedge.prev_eq_some.mp ht
    have hlt := Arena.get_lt hr
    simp only [_construct_empty_arrangement, List.length_cons, List.length_nil] at hlt
    have h8 : h < 8 := by omega
    interval_cases h <;>
      simp [_construct_empty_arrangement, Arena.get, Halfedge.prev] at ht <;>
      subst ht <;>
      simp [_construct_empty_arrangement, Arena.get, Halfedge.next]

theorem Dcel.linked_of_halfedges_eq {Point Curve : Type} {d e : Dcel Point Curve}
    (hd : d.Linked) (he : e.halfedges = d.halfedges) : e.Linked := by
  unfold Dcel.Linked Halfedge.twin Halfedge.curve Halfedge.next Halfedge.prev at *
  rw [he]
  exact hd

/-- A halfedge setter that leaves the twin, the curve, the successor and the predecessor
of every record as they are keeps the link invariant. -/
theorem Dcel.linked_of_accessors_eq {Point Curve : Type} {d e : Dcel Point Curve}
    (hd : d.Linked)
    (h1 : ∀ x, Halfedge.twin e x = Halfedge.twin d x)
    (h2 : ∀ x, Halfedge.curve e x = Halfedge.curve d x)
    (h3 : ∀ x, Halfedge.next e x = Halfedge.next d x)
    (h4 : ∀ x, Halfedge.prev e x = Halfedge.prev d x) : e.Linked := by
  unfold Dcel.Linked
  simp only [h1, h2, h3, h4]
  exact hd

theorem Dcel.linked_set_vertex {Point Curve : Type} (d : Dcel Point Curve) (h v : Nat)
    (hd : d.Linked) : (d.set_vertex h v).Linked := by
  apply Dcel.linked_of_accessors_eq hd <;> intro x <;>
    simp only [Dcel.set_vertex, Halfedge.twin, Halfedge.curve, Halfedge.next, Halfedge.prev,
      Arena.get_modify] <;>
    cases d.halfedges.get x <;> simp <;> split_ifs <;> rfl

theorem Dcel.linked_set_component {Point Curve : Type} (d : Dcel Point Curve) (h : Nat)
    (c : Halfedge_component) (hd : d.Linked) : (d.set_component h c).Linked := by
  apply Dcel.linked_of_accessors_eq hd <;> intro x <;>
    simp only [Dcel.set_component, Halfedge.twin, Halfedge.curve, Halfedge.next,
      Halfedge.prev, Arena.get_modify] <;>
    cases d.halfedges.get x <;> simp <;> split_ifs <;> rfl

theorem Dcel.linked_new_edge {Point Curve : Type} (d : Dcel Point Curve) (v1 v2 : Nat)
    (cv : Option Curve) (c : Halfedge_component) (hd : d.Linked) :
    (d.new_edge v1 v2 cv c).1.Linked := by
  obtain ⟨hd1, hd2, hd3⟩ := hd
  -- a handle met in the old store is below the two new ones
  have old : ∀ {y : Nat} {r : DHalfedge Curve}, d.halfedges.get y = some r →
      y ≠ d.halfedges.length + 1 ∧ y ≠ d.halfedges.length := by
    intro y r hy
    have := Arena.get_lt hy
    omega
  refine ⟨?_, ?_, ?_⟩
  · intro h t
    simp only [Dcel.new_edge, Halfedge.twin, Halfedge.curve, Arena.get_alloc,
      Arena.length_alloc]
    by_cases h1 : h = d.halfedges.length + 1
    · subst h1; simp; rintro rfl; simp
    · by_cases h0 : h = d.halfedges.length
      · subst h0; simp; rintro rfl; simp
      · simp only [h1, h0, if_false]
        intro ht
        obtain ⟨a, b⟩ := hd1 h t ht
        obtain ⟨r, hr, -⟩ := Halfedge.twin_eq_some.mp a
        obtain ⟨n1, n0⟩ := old hr
        simp only [n1, n0, if_false]
        exact ⟨a, b⟩
  · intro h t
    simp only [Dcel.new_edge, Halfedge.next, Halfedge.prev, Arena.get_alloc,
      Arena.length_alloc]
    by_cases h1 : h = d.halfedges.length + 1
    · subst h1; simp; rintro rfl; simp
    · by_cases h0 : h = d.halfedges.length
      · subst h0; simp; rintro rfl; simp
      · simp only [h1, h0, if_false]
        intro ht
        have a := hd2 h t ht
        obtain ⟨r, hr, -⟩ := Halfedge.prev_eq_some.mp a
        obtain ⟨n1, n0⟩ := old hr
        simp only [n1, n0, if_false]
        exact a
  · intro h t
    simp only [Dcel.new_edge, Halfedge.next, Halfedge.prev, Arena.get_alloc,
      Arena.length_alloc]
    by_cases h1 : h = d.halfedges.length + 1
    · subst h1; simp; rintro rfl; simp
    · by_cases h0 : h = d.halfedges.length
      · subst h0; simp; rintro rfl; simp
      · simp only [h1, h0, if_false]
        intro ht
        have a := hd3 h t ht
        obtain ⟨r, hr, -⟩ := Halfedge.next_eq_some.mp a
        obtain ⟨n1, n0⟩ := old hr
        simp only [n1, n0, if_false]
        exact a

theorem Dcel.linked_set_curve {Point Curve : Type} (d : Dcel Point Curve) (h : Nat)
    (cv : Option Curve) (hd : d.Linked) : (d.set_curve h cv).Linked := by
  cases hh : d.halfedges.get h with
  | none => simp only [Dcel.set_curve, hh]; exact hd
  | some rh =>
    obtain ⟨hd1, hd2, hd3⟩ := hd
    have e1 : ∀ x, Halfedge.twin (d.set_curve h cv) x = Halfedge.twin d x := by
      intro x
      simp only [Dcel.set_curve, hh, Halfedge.twin, Arena.get_modify]
      cases d.halfedges.get x <;> simp
      split_ifs <;> rfl
    have e3 : ∀ x, Halfedge.next (d.set_curve h cv) x = Halfedge.next d x := by
      intro x
      simp only [Dcel.set_curve, hh, Halfedge.next, Arena.get_modify]
      cases d.halfedges.get x <;> simp
      split_ifs <;> rfl
    have e4 : ∀ x, Halfedge.prev (d.set_curve h cv) x = Halfedge.prev d x := by
      intro x
      simp only [Dcel.set_curve, hh, Halfedge.prev, Arena.get_modify]
      cases d.halfedges.get x <;> simp
      split_ifs <;> rfl
    have e2 : ∀ x, Halfedge.curve (d.set_curve h cv) x =
        (d.halfedges.get x).map
          (fun r => if x = rh.opposite ∨ x = h then cv else r.p_cv) := by
      intro x
      simp only [Dcel.set_curve, hh, Halfedge.curve, Arena.get_modify]
      cases d.halfedges.get x with
      | none => simp
      | some r0 =>
        simp only [Option.map_some', Option.some.injEq]
        by_cases c2 : x = h
        · subst c2
          by_cases c1 : x = rh.opposite
          · simp [← c1]
          · simp [c1]
        · by_cases c1 : x = rh.opposite
          · simp [c1, c2]
          · simp [c1, c2]
    have hth : Halfedge.twin d h = some rh.opposite := by simp [Halfedge.twin, hh]
    obtain ⟨hback, -⟩ := hd1 h _ hth
    refine ⟨?_, ?_, ?_⟩
    · intro x t hxt
      rw [e1] at hxt ⊢
      obtain ⟨a, b⟩ := hd1 x t hxt
      refine ⟨a, ?_⟩
      rw [e2, e2]
      obtain ⟨rx, hrx, hrx1⟩ := Halfedge.twin_eq_some.mp hxt
      obtain ⟨rt, hrt, hrt1⟩ := Halfedge.twin_eq_some.mp a
      simp only [Halfedge.curve, hrx, hrt, Option.map_some', Option.some.injEq] at b ⊢
      -- the twin of x is one of the two halfedges exactly when x is
      have iff1 : (t = rh.opposite ∨ t = h) ↔ (x = rh.opposite ∨ x = h) := by
        constructor
        · rintro (c | c)
          · right
            rw [c, hback] at a
            exact (Option.some.inj a).symm
          · left
            rw [c, hth] at a
            exact (Option.some.inj a).symm
        · rintro (c | c)
          · right
            rw [c, hback] at hxt
            exact (Option.some.inj hxt).symm
          · left
            rw [c, hth] at hxt
            exact (Option.some.inj hxt).symm
      by_cases c : x = rh.opposite ∨ x = h
      · rw [if_pos c, if_pos (iff1.mpr c)]
      · rw [if_neg c, if_neg (fun c2 => c (iff1.mp c2))]
        exact b
    · intro x n hx
      rw [e3] at hx
      rw [e4]
      exact hd2 x n hx
    · intro x p hx
      rw [e4] at hx
      rw [e3]
      exact hd3 x p hx

theorem Dcel.linked_delete_edge {Point Curve : Type} (d : Dcel Point Curve) (h : Nat)
    (hd : d.Linked) : (d.delete_edge h).Linked := by
  cases hh : d.halfedges.get h with
  | none => simp only [Dcel.delete_edge, hh]; exact hd
  | some rh =>
    cases hth : d.halfedges.get rh.opposite with
    | none => simp only [Dcel.delete_edge, hh, hth]; exact hd
    | some th =>
      by_cases hc : rh.next = rh.opposite ∧ th.next = h
      · have hget : ∀ x, (d.delete_edge h).halfedges.get x =
            if x = rh.opposite ∨ x = h then none else d.halfedges.get x := by
          intro x
          simp only [Dcel.delete_edge, hh, hth]
          rw [if_pos hc]
          simp only [Arena.get_free]
          by_cases c1 : x = rh.opposite <;> by_cases c2 : x = h <;> simp [c1, c2]
        obtain ⟨hc1, hc2⟩ := hc
        obtain ⟨hd1, hd2, hd3⟩ := hd
        -- the four links between the two halfedges
        have t1 : Halfedge.twin d h = some rh.opposite := by simp [Halfedge.twin, hh]
        have t2 : Halfedge.twin d rh.opposite = some h := (hd1 _ _ t1).1
        have n1 : Halfedge.next d h = some rh.opposite := by simp [Halfedge.next, hh, hc1]
        have n2 : Halfedge.next d rh.opposite = some h := by simp [Halfedge.next, hth, hc2]
        have p1 : Halfedge.prev d rh.opposite = some h := hd2 _ _ n1
        have p2 : Halfedge.prev d h = some rh.opposite := hd2 _ _ n2
        -- an accessor of the new store agrees with the old one at a surviving halfedge
        have acc : ∀ (f : DHalfedge Curve → Nat) (x y : Nat),
            ((d.delete_edge h).halfedges.get x).map f = some y →
            ¬ (x = rh.opposite ∨ x = h) ∧ (d.halfedges.get x).map f = some y := by
          intro f x y hxy
          rw [hget] at hxy
          by_cases c : x = rh.opposite ∨ x = h
          · simp [c] at hxy
          · rw [if_neg c] at hxy
            exact ⟨c, hxy⟩
        have keep : ∀ {β : Type} (f : DHalfedge Curve → β) (x : Nat),
            ¬ (x = rh.opposite ∨ x = h) →
            ((d.delete_edge h).halfedges.get x).map f = (d.halfedges.get x).map f := by
          intro β f x c
          rw [hget, if_neg c]
        refine ⟨?_, ?_, ?_⟩
        · intro x t hxt
          obtain ⟨cx, hxt'⟩ := acc _ x t hxt
          obtain ⟨a, b⟩ := hd1 x t hxt'
          have ct : ¬ (t = rh.opposite ∨ t = h) := by
            rintro (c | c)
            · rw [c, t2] at a
              exact cx (Or.inr (Option.some.inj a).symm)
            · rw [c, t1] at a
              exact cx (Or.inl (Option.some.inj a).symm)
          exact ⟨(keep _ t ct).trans a, (keep _ t ct).trans (b.trans (keep _ x cx).symm)⟩
        · intro x n hxn
          obtain ⟨cx, hxn'⟩ := acc _ x n hxn
          have a := hd2 x n hxn'
          have cn : ¬ (n = rh.opposite ∨ n = h) := by
            rintro (c | c)
            · rw [c, p1] at a
              exact cx (Or.inr (Option.some.inj a).symm)
            · rw [c, p2] at a
              exact cx (Or.inl (Option.some.inj a).symm)
          exact (keep _ n cn).trans a
        · intro x p hxp
          obtain ⟨cx, hxp'⟩ := acc _ x p hxp
          have a := hd3 x p hxp'
          have cp : ¬ (p = rh.opposite ∨ p = h) := by
            rintro (c | c)
            · rw [c, n2] at a
              exact cx (Or.inr (Option.some.inj a).symm)
            · rw [c, n1] at a
              exact cx (Or.inl (Option.some.inj a).symm)
          exact (keep _ p cp).trans a
      · simp only [Dcel.delete_edge, hh, hth]
        rw [if_neg hc]
        exact hd

theorem Dcel.linked_splice {Point Curve : Type} (d : Dcel Point Curve) (a b : Nat)
    (hd : d.Linked) : (d.splice a b).Linked := by
  cases ha : d.halfedges.get a with
  | none => simp only [Dcel.splice, ha]; exact hd
  | some ra =>
    cases hb : d.halfedges.get b with
    | none => simp only [Dcel.splice, ha, hb]; exact hd
    | some rb =>
      obtain ⟨hd1, hd2, hd3⟩ := hd
      have e1 : ∀ x, Halfedge.twin (d.splice a b) x = Halfedge.twin d x := by
        intro x
        simp only [Dcel.splice, ha, hb, Halfedge.twin, Arena.get_modify]
        cases d.halfedges.get x <;> simp
        split_ifs <;> rfl
      have e2 : ∀ x, Halfedge.curve (d.splice a b) x = Halfedge.curve d x := by
        intro x
        simp only [Dcel.splice, ha, hb, Halfedge.curve, Arena.get_modify]
        cases d.halfedges.get x <;> simp
        split_ifs <;> rfl
      have e3 : ∀ x, Halfedge.next (d.splice a b) x = (d.halfedges.get x).map
          (fun r => if x = b then ra.next else if x = a then rb.next else r.next) := by
        intro x
        simp only [Dcel.splice, ha, hb, Halfedge.next, Arena.get_modify]
        cases d.halfedges.get x <;> simp
        split_ifs <;> rfl
      have e4 : ∀ x, Halfedge.prev (d.splice a b) x = (d.halfedges.get x).map
          (fun r => if x = ra.next then b else if x = rb.next then a else r.prev) := by
        intro x
        simp only [Dcel.splice, ha, hb, Halfedge.prev, Arena.get_modify]
        cases d.halfedges.get x <;> simp
        split_ifs <;> rfl
      have na : Halfedge.next d a = some ra.next := by simp [Halfedge.next, ha]
      have nb : Halfedge.next d b = some rb.next := by simp [Halfedge.next, hb]
      have pa := hd2 _ _ na
      have pb := hd2 _ _ nb
      obtain ⟨rna, hrna, hrna1⟩ := Halfedge.prev_eq_some.mp pa
      obtain ⟨rnb, hrnb, hrnb1⟩ := Halfedge.prev_eq_some.mp pb
      refine ⟨?_, ?_, ?_⟩
      · intro x t hxt
        rw [e1] at hxt ⊢
        rw [e2, e2]
        exact hd1 x t hxt
      · intro x n hxn
        rw [e3] at hxn
        rw [e4]
        cases hx : d.halfedges.get x with
        | none => simp [hx] at hxn
        | some r =>
          simp only [hx, Option.map_some', Option.some.injEq] at hxn
          by_cases c1 : x = b
          · rw [if_pos c1] at hxn
            subst hxn
            simp [hrna, c1]
          · rw [if_neg c1] at hxn
            by_cases c2 : x = a
            · rw [if_pos c2] at hxn
              subst hxn
              have hne : rb.next ≠ ra.next := by
                intro e
                rw [e, hrna] at hrnb
                cases hrnb
                exact c1 (c2.trans (hrna1.symm.trans hrnb1))
              simp [hrnb, hne, c2]
            · rw [if_neg c2] at hxn
              have hp := hd2 x n (by simp [Halfedge.next, hx, hxn])
              obtain ⟨rn, hrn, hrn1⟩ := Halfedge.prev_eq_some.mp hp
              have h1 : n ≠ ra.next := by
                intro e
                rw [e, hrna] at hrn
                cases hrn
                exact c2 (hrn1.symm.trans hrna1)
              have h2 : n ≠ rb.next := by
                intro e
                rw [e, hrnb] at hrn
                cases hrn
                exact c1 (hrn1.symm.trans hrnb1)
              simp [hrn, h1, h2, hrn1]
      · intro x p hxp
        rw [e4] at hxp
        rw [e3]
        cases hx : d.halfedges.get x with
        | none => simp [hx] at hxp
        | some r =>
          simp only [hx, Option.map_some', Option.some.injEq] at hxp
          by_cases c1 : x = ra.next
          · rw [if_pos c1] at hxp
            subst hxp
            simp [hb, c1]
          · rw [if_neg c1] at hxp
            by_cases c2 : x = rb.next
            · rw [if_pos c2] at hxp
              subst hxp
              have hne : a ≠ b := by
                intro e
                rw [e, hb] at ha
                cases ha
                exact c1 c2
              simp [ha, hne, c2]
            · rw [if_neg c2] at hxp
              have hn := hd3 x p (by simp [Halfedge.prev, hx, hxp])
              obtain ⟨rp, hrp, hrp1⟩ := Halfedge.next_eq_some.mp hn
              have h1 : p ≠ b := by
                intro e
                rw [e, hb] at hrp
                cases hrp
                exact c2 hrp1.symm
              have h2 : p ≠ a := by
                intro e
                rw [e, ha] at hrp
                cases hrp
                exact c1 hrp1.symm
              simp [hrp, h1, h2, hrp1]

/-- The link invariant holds in every state of the record store. -/
theorem Dcel.Reachable.linked {Point Curve : Type} {d : Dcel Point Curve}
    (hd : d.Reachable) : d.Linked := by
  induction hd with
  | empty => exact Dcel.linked_empty Point Curve
  | new_edge d v1 v2 cv c _ ih => exact Dcel.linked_new_edge d v1 v2 cv c ih
  | splice d a b _ ih => exact Dcel.linked_splice d a b ih
  | delete_edge d h _ ih => exact Dcel.linked_delete_edge d h ih
  | set_curve d h cv _ ih => exact Dcel.linked_set_curve d h cv ih
  | set_vertex d h v _ ih => exact Dcel.linked_set_vertex d h v ih
  | set_component d h c _ ih => exact Dcel.linked_set_component d h c ih
  | edit_other_records d e _ he ih => exact Dcel.linked_of_halfedges_eq ih he

/-! ## Halfedge invariants -/

theorem Halfedge.next_isSome {Point Curve : Type} (d : Dcel Point Curve) (x : Nat) :
    (Halfedge.next d x).isSome = (d.halfedges.get x).isSome := by
  simp [Halfedge.next]

theorem Halfedge.prev_isSome {Point Curve : Type} (d : Dcel Point Curve) (x : Nat) :
    (Halfedge.prev d x).isSome = (d.halfedges.get x).isSome := by
  simp [Halfedge.prev]

theorem prev_next_or_self {Point Curve : Type} {d : Dcel Point Curve} (hd : d.Linked)
    (x : Nat) : prev_or_self d (next_or_self d x) = x := by
  unfold prev_or_self next_or_self
  cases hx : Halfedge.next d x with
  | some n => simp [hd.2.1 x n hx]
  | none =>
    have h1 : (Halfedge.prev d x).isSome = false := by
      rw [Halfedge.prev_isSome, ← Halfedge.next_isSome, hx]; rfl
    cases hp : Halfedge.prev d x with
    | none => simp [hp]
    | some p => rw [hp] at h1; cases h1

theorem next_prev_or_self {Point Curve : Type} {d : Dcel Point Curve} (hd : d.Linked)
    (x : Nat) : next_or_self d (prev_or_self d x) = x := by
  unfold prev_or_self next_or_self
  cases hx : Halfedge.prev d x with
  | some n => simp [hd.2.2 x n hx]
  | none =>
    have h1 : (Halfedge.next d x).isSome = false := by
      rw [Halfedge.next_isSome, ← Halfedge.prev_isSome, hx]; rfl
    cases hp : Halfedge.next d x with
    | none => simp [hp]
    | some p => rw [hp] at h1; cases h1

theorem next_or_self_live {Point Curve : Type} {d : Dcel Point Curve} (hd : d.Linked)
    (x : Nat) (hx : (d.halfedges.get x).isSome) :
    Halfedge.next d x = some (next_or_self d x) ∧
      (d.halfedges.get (next_or_self d x)).isSome := by
  unfold next_or_self
  cases hn : Halfedge.next d x with
  | none => rw [← Halfedge.next_isSome, hn] at hx; cases hx
  | some n =>
    obtain ⟨r, hr, -⟩ := Halfedge.prev_eq_some.mp (hd.2.1 x n hn)
    simp [hr]

theorem prev_or_self_live {Point Curve : Type} {d : Dcel Point Curve} (hd : d.Linked)
    (x : Nat) (hx : (d.halfedges.get x).isSome) :
    Halfedge.prev d x = some (prev_or_self d x) ∧
      (d.halfedges.get (prev_or_self d x)).isSome := by
  unfold prev_or_self
  cases hn : Halfedge.prev d x with
  | none => rw [← Halfedge.prev_isSome, hn] at hx; cases hx
  | some n =>
    obtain ⟨r, hr, -⟩ := Halfedge.next_eq_some.mp (hd.2.2 x n hn)
    simp [hr]

theorem walk_next_eq_iterate {Point Curve : Type} {d : Dcel Point Curve} (hd : d.Linked)
    (h : Nat) (hh : (d.halfedges.get h).isSome) (k : Nat) :
    walk (Halfedge.next d) k h = some ((next_or_self d)^[k] h) ∧
      (d.halfedges.get ((next_or_self d)^[k] h)).isSome := by
  induction k with
  | zero => exact ⟨rfl, hh⟩
  | succ k ih =>
    obtain ⟨a, b⟩ := next_or_self_live hd _ ih.2
    rw [Function.iterate_succ_apply']
    refine ⟨?_, b⟩
    simp only [walk, ih.1, Option.some_bind]
    exact a

theorem walk_prev_eq_iterate {Point Curve : Type} {d : Dcel Point Curve} (hd : d.Linked)
    (h : Nat) (hh : (d.halfedges.get h).isSome) (k : Nat) :
    walk (Halfedge.prev d) k h = some ((prev_or_self d)^[k] h) ∧
      (d.halfedges.get ((prev_or_self d)^[k] h)).isSome := by
  induction k with
  | zero => exact ⟨rfl, hh⟩
  | succ k ih =>
    obtain ⟨a, b⟩ := prev_or_self_live hd _ ih.2
    rw [Function.iterate_succ_apply']
    refine ⟨?_, b⟩
    simp only [walk, ih.1, Option.some_bind]
    exact a

theorem Arena.get_append_singleton {α : Type} (s : Arena α) (a : Option α) (i : Nat) :
    Arena.get (s ++ [a]) i = if i = s.length then a else s.get i := by
  unfold Arena.get
  by_cases hi : i = s.length
  · subst hi; simp
  · by_cases hlt : i < s.length
    · simp [List.getElem?_append_left, hlt, hi]
    · have : s.length < i := by omega
      simp [hi, List.getElem?_append_right, this.le]
      rw [List.getElem?_eq_none (by simp; omega), List.getElem?_eq_none (by omega)]

/-- The live handles of an arena. -/
theorem Arena.card_live {α : Type} (s : Arena α) :
    ((Finset.range s.length).filter (fun i => (s.get i).isSome)).card = s.size := by
  induction s using List.reverseRecOn with
  | nil => rfl
  | append_singleton s a ih =>
    have hsize : Arena.size (s ++ [a]) = Arena.size s + (if a.isSome then 1 else 0) := by
      unfold Arena.size Arena.records
      rw [List.filterMap_append, List.length_append]
      cases a <;> simp
    have hold : (Finset.range s.length).filter (fun i => (Arena.get (s ++ [a]) i).isSome)
        = (Finset.range s.length).filter (fun i => (Arena.get s i).isSome) := by
      apply Finset.filter_congr
      intro i hi
      rw [Finset.mem_range] at hi
      rw [Arena.get_append_singleton, if_neg (by omega)]
    rw [hsize, List.length_append, List.length_singleton, Finset.range_succ,
      Finset.filter_insert, Arena.get_append_singleton, if_pos rfl]
    by_cases ha : a.isSome
    · rw [if_pos ha, if_pos ha, Finset.card_insert_of_not_mem, hold, ih]
      simp
    · rw [if_neg ha, if_neg ha, hold, ih]
      rfl

/-- In a linked store the walk along `next` from a live halfedge comes back to it. -/
theorem exists_next_period {Point Curve : Type} {d : Dcel Point Curve} (hd : d.Linked)
    (h : Nat) (hh : (d.halfedges.get h).isSome) :
    ∃ n, 0 < n ∧ n ≤ d.size_of_halfedges ∧ (next_or_self d)^[n] h = h := by
  have hinj : Function.Injective (next_or_self d) :=
    Function.LeftInverse.injective (prev_next_or_self hd)
  have hall : ∀ i : Nat, (d.halfedges.get ((next_or_self d)^[i] h)).isSome :=
    fun i => (walk_next_eq_iterate hd h hh i).2
  have hlive : ∀ x, (d.halfedges.get x).isSome → x < d.halfedges.length := by
    intro x hx
    cases hr : d.halfedges.get x with
    | none => rw [hr] at hx; cases hx
    | some r => exact Arena.get_lt hr
  have hmaps : ∀ i ∈ Finset.range (d.size_of_halfedges + 1),
      (next_or_self d)^[i] h ∈
        (Finset.range d.halfedges.length).filter (fun i => (d.halfedges.get i).isSome) := by
    intro i _
    rw [Finset.mem_filter, Finset.mem_range]
    exact ⟨hlive _ (hall i), hall i⟩
  have hcard : ((Finset.range d.halfedges.length).filter
      (fun i => (d.halfedges.get i).isSome)).card
      < (Finset.range (d.size_of_halfedges + 1)).card := by
    rw [Arena.card_live, Finset.card_range]
    exact Nat.lt_succ_self _
  obtain ⟨i, hi, j, hj, hij, heq⟩ :=
    Finset.exists_ne_map_eq_of_card_lt_of_maps_to hcard hmaps
  rw [Finset.mem_range] at hi hj
  -- the earlier of the two equal positions can be cancelled
  have cancel : ∀ a b : Nat, a < b → b < d.size_of_halfedges + 1 →
      (next_or_self d)^[a] h = (next_or_self d)^[b] h →
      ∃ n, 0 < n ∧ n ≤ d.size_of_halfedges ∧ (next_or_self d)^[n] h = h := by
    intro a b hab hb e
    refine ⟨b - a, by omega, by omega, ?_⟩
    have e2 : (next_or_self d)^[b] h = (next_or_self d)^[a] ((next_or_self d)^[b - a] h) := by
      rw [← Function.iterate_add_apply]
      congr 1
      omega
    rw [e2] at e
    exact (hinj.iterate a e).symm
  rcases Nat.lt_or_gt_of_ne hij with c | c
  · exact cancel i j c hj heq
  · exact cancel j i c hi heq.symm

/-! ## Observers: lemmas on the two loops -/

theorem for_each_observer_eq (hook : Observer → Call) (observers : List Observer)
    (log : List Call) : for_each_observer hook observers log = log ++ observers.map hook := by
  induction observers generalizing log with
  | nil => simp [for_each_observer]
  | cons o rest ih => simp [for_each_observer, ih]

theorem for_each_observer_rev_eq (hook : Observer → Call) (observers : List Observer)
    (log : List Call) :
    for_each_observer_rev hook observers log = log ++ observers.reverse.map hook := by
  induction observers with
  | nil => simp [for_each_observer_rev]
  | cons o rest ih => simp [for_each_observer_rev, ih]

theorem notify_before_eq (k : Event_kind) (observers : List Observer) (log : List Call) :
    notify_before k observers log = log ++ before_calls k observers := by
  cases k <;> exact for_each_observer_eq _ observers log

theorem notify_after_eq (k : Event_kind) (observers : List Observer) (log : List Call) :
    notify_after k observers log = log ++ after_calls k observers := by
  cases k <;> exact for_each_observer_rev_eq _ observers log

theorem count_map_call (ph : Phase) (k : Event_kind) (observers : List Observer)
    (o : Observer) :
    (observers.map (fun x => (⟨ph, k, x⟩ : Call))).count ⟨ph, k, o⟩ = observers.count o := by
  induction observers with
  | nil => rfl
  | cons a rest ih =>
    by_cases h : a = o
    · subst h; simp [ih]
    · have h2 : (⟨ph, k, a⟩ : Call) ≠ ⟨ph, k, o⟩ := by
        intro e; exact h (congrArg Call.observer e)
      simp [List.count_cons, ih, h, h2]

theorem count_before_calls (k : Event_kind) (observers : List Observer) (o : Observer) :
    (before_calls k observers).count ⟨.before, k, o⟩ = observers.count o :=
  count_map_call .before k observers o

theorem count_after_calls (k : Event_kind) (observers : List Observer) (o : Observer) :
    (after_calls k observers).count ⟨.after, k, o⟩ = observers.count o := by
  have hperm : (after_calls k observers).Perm (observers.map (fun x => ⟨.after, k, x⟩)) := by
    unfold after_calls
    exact (List.reverse_perm observers).map _
  rw [hperm.count_eq]
  exact count_map_call .after k observers o

theorem unregister_observer_split (observers : List Observer) (p : Observer)
    (hp : p ∈ observers) :
    ∃ front back, observers = front ++ p :: back ∧ p ∉ front ∧
      _unregister_observer observers p = (true, front ++ back) := by
  induction observers with
  | nil => cases hp
  | cons o rest ih =>
    by_cases h : o = p
    · subst h
      exact ⟨[], rest, rfl, by simp, by simp [_unregister_observer]⟩
    · have hp2 : p ∈ rest := by
        rcases List.mem_cons.mp hp with c | c
        · exact absurd c.symm h
        · exact c
      obtain ⟨front, back, e1, e2, e3⟩ := ih hp2
      refine ⟨o :: front, back, by simp [e1], ?_, ?_⟩
      · simp [e2, Ne.symm h]
      · simp [_unregister_observer, h, e3]

theorem unregister_observer_absent (observers : List Observer) (p : Observer)
    (hp : p ∉ observers) : _unregister_observer observers p = (false, observers) := by
  induction observers with
  | nil => rfl
  | cons o rest ih =>
    have h1 : o ≠ p := fun e => hp (by simp [e])
    have h2 : p ∉ rest := fun e => hp (by simp [e])
    simp [_unregister_observer, h1, ih h2]

/-! ## Size arithmetic -/

theorem Size_sub_of_le (w a b : Nat) (hb : b ≤ a) (ha : a < 2 ^ w) :
    Size_sub w a b = a - b := by
  unfold Size_sub
  have h1 : b % 2 ^ w = b := Nat.mod_eq_of_lt (by omega)
  rw [h1]
  have h2 : a + 2 ^ w - b = (a - b) + 2 ^ w := by omega
  rw [h2, Nat.add_mod_right]
  exact Nat.mod_eq_of_lt (by omega)

theorem Size_sub_self (w a : Nat) : Size_sub w a a = 0 := by
  unfold Size_sub
  have hpos : 0 < 2 ^ w := Nat.two_pow_pos w
  have hle : a % 2 ^ w ≤ a := Nat.mod_le _ _
  have hlt : a % 2 ^ w < 2 ^ w := Nat.mod_lt _ hpos
  have key : (a + 2 ^ w - a % 2 ^ w) = 2 ^ w * (a / 2 ^ w + 1) := by
    have := Nat.div_add_mod a (2 ^ w)
    have e : 2 ^ w * (a / 2 ^ w + 1) = 2 ^ w * (a / 2 ^ w) + 2 ^ w := by ring
    omega
  rw [key]
  exact Nat.mul_mod_right _ _

theorem Size_sub_double (w H N : Nat) (hH : H % 2 = 0) :
    Size_sub w H (Size_mul w 2 N) = Size_mul w 2 (Size_sub w (H / 2) N) := by
  unfold Size_sub Size_mul
  have hpos : 0 < 2 ^ w := Nat.two_pow_pos w
  have l1 : (2 * N % 2 ^ w) % 2 ^ w ≤ H + 2 ^ w :=
    le_trans (Nat.mod_lt _ hpos).le (by omega)
  have l2 : N % 2 ^ w ≤ H / 2 + 2 ^ w :=
    le_trans (Nat.mod_lt _ hpos).le (by omega)
  have hH2 : 2 * (H / 2) = H := by omega
  apply (ZMod.natCast_eq_natCast_iff' _ _ (2 ^ w)).mp
  have hz : ((2 ^ w : ℕ) : ZMod (2 ^ w)) = 0 := ZMod.natCast_self _
  have hHz : (H : ZMod (2 ^ w)) = 2 * ((H / 2 : ℕ) : ZMod (2 ^ w)) := by
    conv_lhs => rw [← hH2]
    push_cast
    rfl
  simp only [Nat.cast_sub l1, Nat.cast_sub l2, Nat.cast_mul, ZMod.natCast_mod, Nat.cast_add,
    hz, Nat.cast_ofNat, add_zero]
  rw [hHz]
  ring

/-! ## The claims -/

/-- C1. For every list of registered observers and every mutating event, the
before-notification invokes the observers in registration order and the matching
after-notification invokes them in reverse registration order; with A registered and
then B, one event yields the calls before(A), before(B), after(B), after(A). -/
theorem C1_observer_order (k : Event_kind) (observers : List Observer) (log : List Call)
    (A B : Observer) :
    notify_before k observers log = log ++ observers.map (fun o => ⟨.before, k, o⟩) ∧
    notify_after k observers log = log ++ observers.reverse.map (fun o => ⟨.after, k, o⟩) ∧
    notify_event k observers log =
      log ++ observers.map (fun o => ⟨.before, k, o⟩)
        ++ observers.reverse.map (fun o => ⟨.after, k, o⟩) ∧
    notify_event k (_register_observer (_register_observer [] A) B) [] =
      [⟨.before, k, A⟩, ⟨.before, k, B⟩, ⟨.after, k, B⟩, ⟨.after, k, A⟩] := by
  refine ⟨notify_before_eq k observers log, notify_after_eq k observers log, ?_, ?_⟩
  · simp [notify_event, notify_before_eq, notify_after_eq, before_calls, after_calls]
  · simp [notify_event, notify_before_eq, notify_after_eq, before_calls, after_calls,
      _register_observer]

/-- C2. Each of the 24 event kinds has a before-notifier and an after-notifier; the
before-notifier is the front-to-back loop over the observer list (its i-th call goes to
the i-th entry), the after-notifier is the back-to-front loop (its i-th call goes to the
i-th entry from the back), and each makes exactly one call per entry of the list, so an
observer is called as many times as it is registered (once when registered once). -/
theorem C2_every_event_kind (k : Event_kind) (observers : List Observer) (log : List Call)
    (o : Observer) (i : Nat) :
    notify_before k observers log
      = for_each_observer (fun x => ⟨.before, k, x⟩) observers log ∧
    notify_after k observers log
      = for_each_observer_rev (fun x => ⟨.after, k, x⟩) observers log ∧
    (notify_before k observers [])[i]?
      = (observers[i]?).map (fun x => ⟨.before, k, x⟩) ∧
    (i < observers.length → (notify_after k observers [])[i]?
      = (observers[observers.length - 1 - i]?).map (fun x => ⟨.after, k, x⟩)) ∧
    (notify_before k observers []).length = observers.length ∧
    (notify_after k observers []).length = observers.length ∧
    (notify_before k observers []).count ⟨.before, k, o⟩ = observers.count o ∧
    (notify_after k observers []).count ⟨.after, k, o⟩ = observers.count o := by
  refine ⟨?_, ?_, ?_, ?_, ?_, ?_, ?_, ?_⟩
  · cases k <;> rfl
  · cases k <;> rfl
  · simp [notify_before_eq, before_calls]
  · intro hi
    rw [notify_after_eq, List.nil_append, after_calls, List.getElem?_map,
      List.getElem?_reverse hi]
  · simp [notify_before_eq, before_calls]
  · simp [notify_after_eq, after_calls]
  · rw [notify_before_eq, List.nil_append]
    exact count_before_calls k observers o
  · rw [notify_after_eq, List.nil_append]
    exact count_after_calls k observers o

/-- C3. For every observer list and every observer p that does not occur in it,
`_unregister_observer (p)` returns false and leaves the list unchanged. -/
theorem C3_unregister_absent (observers : List Observer) (p : Observer)
    (hp : p ∉ observers) : _unregister_observer observers p = (false, observers) :=
  unregister_observer_absent observers p hp

theorem C3_unregister_absent_witness :
    (5 : Observer) ∉ [1, 2, 3] ∧ _unregister_observer [1, 2, 3] 5 = (false, [1, 2, 3]) :=
  ⟨by decide, C3_unregister_absent [1, 2, 3] 5 (by decide)⟩

/-- C4. For every observer list in which p occurs, `_unregister_observer (p)` returns
true and removes exactly the first occurrence of p: the list is `front ++ p :: back` with
p not in `front`, and it becomes `front ++ back`, one entry shorter, with every other
entry (a later occurrence of p included) kept in its place. -/
theorem C4_unregister_present (observers : List Observer) (p : Observer)
    (hp : p ∈ observers) :
    ∃ front back, observers = front ++ p :: back ∧ p ∉ front ∧
      _unregister_observer observers p = (true, front ++ back) ∧
      (_unregister_observer observers p).2 = observers.erase p ∧
      (_unregister_observer observers p).2.length + 1 = observers.length := by
  obtain ⟨front, back, e1, e2, e3⟩ := unregister_observer_split observers p hp
  refine ⟨front, back, e1, e2, e3, ?_, ?_⟩
  · rw [e3, e1, List.erase_append_right _ e2]
    simp
  · rw [e3, e1]
    simp only [List.length_append, List.length_cons]
    omega

theorem C4_unregister_present_witness :
    ∃ front back, ([1, 2, 3, 2] : List Observer) = front ++ 2 :: back ∧ 2 ∉ front ∧
      _unregister_observer [1, 2, 3, 2] 2 = (true, front ++ back) ∧
      (_unregister_observer [1, 2, 3, 2] 2).2 = [1, 2, 3, 2].erase 2 ∧
      (_unregister_observer [1, 2, 3, 2] 2).2.length + 1 = [1, 2, 3, 2].length :=
  C4_unregister_present [1, 2, 3, 2] 2 (by decide)

/-- C5. `_register_observer (p)` appends p at the end of the observer list and leaves
the earlier entries and their order unchanged; so for every later event p receives its
before-call after all earlier observers and its after-call before all of them. -/
theorem C5_register_appends (observers : List Observer) (p : Observer) (k : Event_kind)
    (log : List Call) :
    _register_observer observers p = observers ++ [p] ∧
    (_register_observer observers p).take observers.length = observers ∧
    notify_before k (_register_observer observers p) log
      = notify_before k observers log ++ [⟨.before, k, p⟩] ∧
    notify_after k (_register_observer observers p) log
      = notify_after k observers (log ++ [⟨.after, k, p⟩]) := by
  refine ⟨rfl, ?_, ?_, ?_⟩
  · simp [_register_observer]
  · simp [notify_before_eq, before_calls, _register_observer]
  · simp [notify_after_eq, after_calls, _register_observer]

/-- C6. In a state whose DCEL has exactly 4 vertices, 8 halfedges and 2 faces and in
which `n_inf_verts` is 4 (the freshly constructed, empty structure), `is_empty` is true
and the user-visible counts are 0 vertices, 0 vertices at infinity, 0 halfedges, 0 edges
and 1 face; `Size` has at least one bit. -/
theorem C6_empty_counts {Point Curve : Type} (w : Nat) (arr : Arrangement_2 Point Curve)
    (hw : 0 < w)
    (hv : arr.dcel.size_of_vertices = 4) (hh : arr.dcel.size_of_halfedges = 8)
    (hf : arr.dcel.size_of_faces = 2) (hn : arr.n_inf_verts = 4) :
    arr.is_empty = true ∧
    arr.number_of_vertices w = 0 ∧
    arr.number_of_vertices_at_infinity w = 0 ∧
    arr.number_of_halfedges w = 0 ∧
    arr.number_of_edges w = 0 ∧
    arr.number_of_faces w = 1 := by
  have h2 : 2 ≤ 2 ^ w := by
    calc 2 = 2 ^ 1 := rfl
      _ ≤ 2 ^ w := Nat.pow_le_pow_right (by norm_num) hw
  refine ⟨?_, ?_, ?_, ?_, ?_, ?_⟩
  · simp [Arrangement_2.is_empty, hv, hh]
  · rw [Arrangement_2.number_of_vertices, hv, hn, Size_sub_self]
  · rw [Arrangement_2.number_of_vertices_at_infinity, hn, Size_sub_self]
  · rw [Arrangement_2.number_of_halfedges, hh, hn]
    have e : Size_mul w 2 4 = 8 % 2 ^ w := rfl
    rw [e]
    unfold Size_sub
    rw [Nat.mod_mod]
    have := Size_sub_self w 8
    unfold Size_sub at this
    exact this
  · rw [Arrangement_2.number_of_edges, hh, hn]
    exact Size_sub_self w 4
  · rw [Arrangement_2.number_of_faces, hf]
    unfold Size_sub
    rw [Nat.mod_eq_of_lt (show 1 < 2 ^ w by omega)]
    have e : 2 + 2 ^ w - 1 = 1 + 2 ^ w := by omega
    rw [e, Nat.add_mod_right]
    exact Nat.mod_eq_of_lt (by omega)

theorem C6_empty_counts_witness :
    ((_construct_empty_arrangement Unit Unit).dcel.size_of_vertices = 4 ∧
      (_construct_empty_arrangement Unit Unit).dcel.size_of_halfedges = 8 ∧
      (_construct_empty_arrangement Unit Unit).dcel.size_of_faces = 2 ∧
      (_construct_empty_arrangement Unit Unit).n_inf_verts = 4 ∧
      (∀ v ∈ (_construct_empty_arrangement Unit Unit).dcel.vertices.records, v.p_pt = none) ∧
      (∀ e ∈ (_construct_empty_arrangement Unit Unit).dcel.halfedges.records,
        e.p_cv = none)) ∧
    ((_construct_empty_arrangement Unit Unit).is_empty = true ∧
      (_construct_empty_arrangement Unit Unit).number_of_vertices 64 = 0 ∧
      (_construct_empty_arrangement Unit Unit).number_of_vertices_at_infinity 64 = 0 ∧
      (_construct_empty_arrangement Unit Unit).number_of_halfedges 64 = 0 ∧
      (_construct_empty_arrangement Unit Unit).number_of_edges 64 = 0 ∧
      (_construct_empty_arrangement Unit Unit).number_of_faces 64 = 1) :=
  ⟨⟨by decide, by decide, by decide, by decide, by decide, by decide⟩,
    C6_empty_counts 64 (_construct_empty_arrangement Unit Unit) (by decide) (by decide)
      (by decide) (by decide) (by decide)⟩

/-- C7. In every state in which the DCEL's total halfedge count is even,
`number_of_halfedges` is even and equals `2 * number_of_edges` computed in `Size`, also
when the subtractions wrap around; when nothing wraps (the count is a value of `Size`
and at least `2 * n_inf_verts`) the equality holds among natural numbers. -/
theorem C7_halfedges_twice_edges {Point Curve : Type} (w : Nat)
    (arr : Arrangement_2 Point Curve) (heven : arr.dcel.size_of_halfedges % 2 = 0) :
    arr.number_of_halfedges w % 2 = 0 ∧
    arr.number_of_halfedges w = Size_mul w 2 (arr.number_of_edges w) ∧
    (2 * arr.n_inf_verts ≤ arr.dcel.size_of_halfedges → arr.dcel.size_of_halfedges < 2 ^ w →
      arr.number_of_halfedges w = 2 * arr.number_of_edges w) := by
  have key : arr.number_of_halfedges w = Size_mul w 2 (arr.number_of_edges w) :=
    Size_sub_double w _ _ heven
  refine ⟨?_, key, ?_⟩
  · rw [key]
    unfold Size_mul
    cases w with
    | zero => simp [Nat.mod_one]
    | succ w =>
      have hdvd : 2 ∣ 2 ^ (w + 1) := Dvd.intro_left (2 ^ w) rfl
      rw [Nat.mod_mod_of_dvd _ hdvd]
      exact Nat.mul_mod_right 2 _
  · intro h1 h2
    unfold Arrangement_2.number_of_halfedges Arrangement_2.number_of_edges
    have e1 : Size_mul w 2 arr.n_inf_verts = 2 * arr.n_inf_verts :=
      Nat.mod_eq_of_lt (by omega)
    rw [e1, Size_sub_of_le w _ _ h1 h2, Size_sub_of_le w _ _ (by omega) (by omega)]
    omega

theorem C7_halfedges_twice_edges_witness :
    (_construct_empty_arrangement Unit Unit).dcel.size_of_halfedges % 2 = 0 ∧
    ((_construct_empty_arrangement Unit Unit).number_of_halfedges 64 % 2 = 0 ∧
      (_construct_empty_arrangement Unit Unit).number_of_halfedges 64 =
        Size_mul 64 2 ((_construct_empty_arrangement Unit Unit).number_of_edges 64) ∧
      (2 * (_construct_empty_arrangement Unit Unit).n_inf_verts ≤
          (_construct_empty_arrangement Unit Unit).dcel.size_of_halfedges →
        (_construct_empty_arrangement Unit Unit).dcel.size_of_halfedges < 2 ^ 64 →
        (_construct_empty_arrangement Unit Unit).number_of_halfedges 64 =
          2 * (_construct_empty_arrangement Unit Unit).number_of_edges 64)) :=
  ⟨by decide, C7_halfedges_twice_edges 64 (_construct_empty_arrangement Unit Unit) (by decide)⟩

/-- C8. Whenever `4 <= n_inf_verts <= (number of DCEL vertices)`, that number being a
value of `Size`, the reported counts partition the vertex store without wrap-around:
`number_of_vertices + number_of_vertices_at_infinity + 4` is the number of DCEL
vertices, `number_of_vertices_at_infinity` is `n_inf_verts - 4` and `number_of_vertices`
leaves out all `n_inf_verts` vertices at infinity. -/
theorem C8_vertex_partition {Point Curve : Type} (w : Nat) (arr : Arrangement_2 Point Curve)
    (h4 : 4 ≤ arr.n_inf_verts) (hle : arr.n_inf_verts ≤ arr.dcel.size_of_vertices)
    (hsize : arr.dcel.size_of_vertices < 2 ^ w) :
    arr.number_of_vertices w + arr.number_of_vertices_at_infinity w + 4
      = arr.dcel.size_of_vertices ∧
    arr.number_of_vertices_at_infinity w = arr.n_inf_verts - 4 ∧
    arr.number_of_vertices w = arr.dcel.size_of_vertices - arr.n_inf_verts := by
  have e1 : arr.number_of_vertices w = arr.dcel.size_of_vertices - arr.n_inf_verts :=
    Size_sub_of_le w _ _ hle hsize
  have e2 : arr.number_of_vertices_at_infinity w = arr.n_inf_verts - 4 :=
    Size_sub_of_le w _ _ h4 (by omega)
  refine ⟨?_, e2, e1⟩
  rw [e1, e2]
  omega

theorem C8_vertex_partition_witness :
    (4 ≤ (_construct_empty_arrangement Unit Unit).n_inf_verts ∧
      (_construct_empty_arrangement Unit Unit).n_inf_verts ≤
        (_construct_empty_arrangement Unit Unit).dcel.size_of_vertices ∧
      (_construct_empty_arrangement Unit Unit).dcel.size_of_vertices < 2 ^ 64) ∧
    ((_construct_empty_arrangement Unit Unit).number_of_vertices 64 +
        (_construct_empty_arrangement Unit Unit).number_of_vertices_at_infinity 64 + 4
        = (_construct_empty_arrangement Unit Unit).dcel.size_of_vertices ∧
      (_construct_empty_arrangement Unit Unit).number_of_vertices_at_infinity 64
        = (_construct_empty_arrangement Unit Unit).n_inf_verts - 4 ∧
      (_construct_empty_arrangement Unit Unit).number_of_vertices 64
        = (_construct_empty_arrangement Unit Unit).dcel.size_of_vertices
          - (_construct_empty_arrangement Unit Unit).n_inf_verts) :=
  ⟨⟨by decide, by decide, by decide⟩,
    C8_vertex_partition 64 (_construct_empty_arrangement Unit Unit) (by decide) (by decide)
      (by decide)⟩

/-- C9. In every state of the record store and for every halfedge h, the twin of the
twin of h is h, and h and its twin carry the same curve-or-null; consequently the twin is
fictitious exactly when h is, the source of the twin is the target of h and the target
of the twin is the source of h. -/
theorem C9_twin_symmetry {Point Curve : Type} (d : Dcel Point Curve) (hd : d.Reachable)
    (h : Nat) (hh : (d.halfedges.get h).isSome) :
    ∃ t, Halfedge.twin d h = some t ∧
      Halfedge.twin d t = some h ∧
      Halfedge.curve d t = Halfedge.curve d h ∧
      Halfedge.is_fictitious d t = Halfedge.is_fictitious d h ∧
      Halfedge.source d t = Halfedge.target d h ∧
      Halfedge.target d t = Halfedge.source d h := by
  have hl := hd.linked
  cases hr : d.halfedges.get h with
  | none => rw [hr] at hh; cases hh
  | some r =>
    have ht : Halfedge.twin d h = some r.opposite := by simp [Halfedge.twin, hr]
    obtain ⟨hback, hcv⟩ := hl.1 h _ ht
    obtain ⟨rt, hrt, hrt1⟩ := Halfedge.twin_eq_some.mp hback
    refine ⟨r.opposite, ht, hback, hcv, ?_, ?_, ?_⟩
    · simp only [Halfedge.curve, hrt, hr, Option.map_some', Option.some.injEq] at hcv
      simp [Halfedge.is_fictitious, hrt, hr, hcv]
    · simp [Halfedge.source, Halfedge.target, hrt, hrt1, hr]
    · simp [Halfedge.source, Halfedge.target, hrt, hr]

theorem C9_twin_symmetry_witness :
    ∃ t, Halfedge.twin (_construct_empty_arrangement Unit Unit).dcel 0 = some t ∧
      Halfedge.twin (_construct_empty_arrangement Unit Unit).dcel t = some 0 ∧
      Halfedge.curve (_construct_empty_arrangement Unit Unit).dcel t
        = Halfedge.curve (_construct_empty_arrangement Unit Unit).dcel 0 ∧
      Halfedge.is_fictitious (_construct_empty_arrangement Unit Unit).dcel t
        = Halfedge.is_fictitious (_construct_empty_arrangement Unit Unit).dcel 0 ∧
      Halfedge.source (_construct_empty_arrangement Unit Unit).dcel t
        = Halfedge.target (_construct_empty_arrangement Unit Unit).dcel 0 ∧
      Halfedge.target (_construct_empty_arrangement Unit Unit).dcel t
        = Halfedge.source (_construct_empty_arrangement Unit Unit).dcel 0 :=
  C9_twin_symmetry (_construct_empty_arrangement Unit Unit).dcel Dcel.Reachable.empty 0
    (by decide)

/-- C10. In every state of the record store and for every halfedge h, the successor of
the predecessor of h and the predecessor of the successor of h are h; the walk along
`next` from h stays on halfedges and returns to h after a positive number n of steps, at
most the number of halfedges, and the walk along `prev` visits the same cycle in the
reverse order: k steps back lead where n - k steps forward do. -/
theorem C10_cycle_closure {Point Curve : Type} (d : Dcel Point Curve) (hd : d.Reachable)
    (h : Nat) (hh : (d.halfedges.get h).isSome) :
    (Halfedge.prev d h).bind (Halfedge.next d) = some h ∧
    (Halfedge.next d h).bind (Halfedge.prev d) = some h ∧
    (∀ k, ∃ x, walk (Halfedge.next d) k h = some x ∧ (d.halfedges.get x).isSome) ∧
    ∃ n, 0 < n ∧ n ≤ d.size_of_halfedges ∧
      walk (Halfedge.next d) n h = some h ∧
      ∀ k, k ≤ n → walk (Halfedge.prev d) k h = walk (Halfedge.next d) (n - k) h := by
  have hl := hd.linked
  obtain ⟨hn, -⟩ := next_or_self_live hl h hh
  obtain ⟨hp, -⟩ := prev_or_self_live hl h hh
  refine ⟨?_, ?_, ?_, ?_⟩
  · rw [hp, Option.some_bind]
    exact hl.2.2 _ _ hp
  · rw [hn, Option.some_bind]
    exact hl.2.1 _ _ hn
  · intro k
    exact ⟨_, walk_next_eq_iterate hl h hh k⟩
  · obtain ⟨n, hpos, hle, hper⟩ := exists_next_period hl h hh
    refine ⟨n, hpos, hle, ?_, ?_⟩
    · rw [(walk_next_eq_iterate hl h hh n).1, hper]
    · intro k hk
      rw [(walk_prev_eq_iterate hl h hh k).1, (walk_next_eq_iterate hl h hh (n - k)).1]
      congr 1
      have e : (next_or_self d)^[n] h
          = (next_or_self d)^[k] ((next_or_self d)^[n - k] h) := by
        rw [← Function.iterate_add_apply]
        congr 1
        omega
      have inv : Function.LeftInverse (prev_or_self d)^[k] (next_or_self d)^[k] :=
        Function.LeftInverse.iterate (prev_next_or_self hl) k
      calc (prev_or_self d)^[k] h
          = (prev_or_self d)^[k] ((next_or_self d)^[n] h) := by rw [hper]
        _ = (prev_or_self d)^[k] ((next_or_self d)^[k] ((next_or_self d)^[n - k] h)) := by
            rw [e]
        _ = (next_or_self d)^[n - k] h := inv _

theorem C10_cycle_closure_witness :
    (Halfedge.prev (_construct_empty_arrangement Unit Unit).dcel 0).bind
        (Halfedge.next (_construct_empty_arrangement Unit Unit).dcel) = some 0 ∧
    (Halfedge.next (_construct_empty_arrangement Unit Unit).dcel 0).bind
        (Halfedge.prev (_construct_empty_arrangement Unit Unit).dcel) = some 0 ∧
    (∀ k, ∃ x, walk (Halfedge.next (_construct_empty_arrangement Unit Unit).dcel) k 0 = some x ∧
      ((_construct_empty_arrangement Unit Unit).dcel.halfedges.get x).isSome) ∧
    ∃ n, 0 < n ∧ n ≤ (_construct_empty_arrangement Unit Unit).dcel.size_of_halfedges ∧
      walk (Halfedge.next (_construct_empty_arrangement Unit Unit).dcel) n 0 = some 0 ∧
      ∀ k, k ≤ n → walk (Halfedge.prev (_construct_empty_arrangement Unit Unit).dcel) k 0
        = walk (Halfedge.next (_construct_empty_arrangement Unit Unit).dcel) (n - k) 0 :=
  C10_cycle_closure (_construct_empty_arrangement Unit Unit).dcel Dcel.Reachable.empty 0
    (by decide)

/-! ## Traversals: lemmas -/

theorem Arena.entries_append_singleton {α : Type} (s : Arena α) (a : Option α) :
    Arena.entries (s ++ [a]) = Arena.entries s ++ (a.map (fun r => (s.length, r))).toList := by
  unfold Arena.entries
  rw [List.length_append, List.length_singleton, List.range_succ, List.filterMap_append]
  congr 1
  · apply List.filterMap_congr
    intro i hi
    rw [List.mem_range] at hi
    rw [Arena.get_append_singleton, if_neg (by omega)]
  · cases a with
    | none => simp [List.filterMap_cons, Arena.get_append_singleton]
    | some r => simp [List.filterMap_cons, Arena.get_append_singleton]

theorem Arena.mem_entries {α : Type} (s : Arena α) (i : Nat) (r : α) :
    (i, r) ∈ Arena.entries s ↔ Arena.get s i = some r := by
  unfold Arena.entries
  rw [List.mem_filterMap]
  constructor
  · rintro ⟨j, -, hj⟩
    cases hg : Arena.get s j with
    | none => rw [hg] at hj; cases hj
    | some r0 =>
      rw [hg] at hj
      simp only [Option.map_some', Option.some.injEq, Prod.mk.injEq] at hj
      rw [← hj.1, ← hj.2]
      exact hg
  · intro h
    exact ⟨i, List.mem_range.mpr (Arena.get_lt h), by rw [h]; rfl⟩

theorem Arena.entries_map_snd {α : Type} (s : Arena α) :
    (Arena.entries s).map Prod.snd = Arena.records s := by
  induction s using List.reverseRecOn with
  | nil => rfl
  | append_singleton s a ih =>
    rw [Arena.entries_append_singleton, List.map_append, ih]
    unfold Arena.records
    rw [List.filterMap_append]
    cases a <;> rfl

theorem Arena.length_entries {α : Type} (s : Arena α) :
    (Arena.entries s).length = Arena.size s := by
  unfold Arena.size
  rw [← Arena.entries_map_snd, List.length_map]

/-- One pass over a filtered range visits the entries the filter accepts, in the order
of the sequence, when it is given at least as many steps as the sequence has entries. -/
theorem I_Filtered_iterator.pass_make {α : Type} (filt : α → Bool) (seq : List α)
    (fuel : Nat) (hfuel : seq.length ≤ fuel) :
    I_Filtered_iterator.pass filt fuel (I_Filtered_iterator.make filt seq)
      = seq.filter filt := by
  unfold I_Filtered_iterator.make
  induction seq generalizing fuel with
  | nil => cases fuel <;> rfl
  | cons x rest ih =>
    cases fuel with
    | zero => simp at hfuel
    | succ fuel =>
      have hrest : rest.length ≤ fuel := by simpa using hfuel
      by_cases hx : filt x
      · simp only [I_Filtered_iterator.skip, hx, if_true, I_Filtered_iterator.pass,
          I_Filtered_iterator.increment, List.filter_cons_of_pos]
        rw [ih fuel hrest]
      · simp only [I_Filtered_iterator.skip, hx, Bool.false_eq_true, if_false]
        rw [List.filter_cons_of_neg (by simpa using hx)]
        exact ih (fuel + 1) (Nat.le_succ_of_le hrest)

/-! ## The pairing invariant holds in every state of the record store -/

theorem Arena.length_modify {α : Type} (s : Arena α) (i : Nat) (f : α → α) :
    (s.modify i f).length = s.length := by
  unfold Arena.modify
  cases Arena.get s i <;> simp

theorem Arena.length_free {α : Type} (s : Arena α) (i : Nat) :
    (s.free i).length = s.length := by
  simp [Arena.free]

theorem Dcel.paired_empty (Point Curve : Type) :
    (_construct_empty_arrangement Point Curve).dcel.Paired := by
  refine ⟨by simp [_construct_empty_arrangement], ?_⟩
  intro h t ht
  obtain ⟨r, hr, -⟩ := Halfedge.twin_eq_some.mp ht
  have hlt := Arena.get_lt hr
  simp only [_construct_empty_arrangement, List.length_cons, List.length_nil] at hlt
  have h8 : h < 8 := by omega
  interval_cases h <;>
    simp [_construct_empty_arrangement, Arena.get, Halfedge.twin] at ht <;>
    subst ht <;> rfl

/-- An edit that keeps the number of halfedge slots and the twin of every halfedge keeps
the pairing invariant. -/
theorem Dcel.paired_of_twin_eq {Point Curve : Type} {d e : Dcel Point Curve}
    (hd : d.Paired) (hlen : e.halfedges.length = d.halfedges.length)
    (htwin : ∀ x, Halfedge.twin e x = Halfedge.twin d x) : e.Paired := by
  refine ⟨hlen ▸ hd.1, ?_⟩
  intro h t ht
  rw [htwin] at ht
  exact hd.2 h t ht

theorem Dcel.paired_new_edge {Point Curve : Type} (d : Dcel Point Curve) (v1 v2 : Nat)
    (cv : Option Curve) (c : Halfedge_component) (hd : d.Paired) :
    (d.new_edge v1 v2 cv c).1.Paired := by
  obtain ⟨hlen, hd2⟩ := hd
  refine ⟨?_, ?_⟩
  · simp only [Dcel.new_edge, Arena.length_alloc]
    omega
  · intro h t
    simp only [Dcel.new_edge, Halfedge.twin, Arena.get_alloc, Arena.length_alloc]
    by_cases h1 : h = d.halfedges.length + 1
    · subst h1
      simp only [if_true, Option.map_some', Option.some.injEq]
      rintro rfl
      rw [if_neg (by omega)]
      rfl
    · by_cases h0 : h = d.halfedges.length
      · subst h0
        simp only [h1, if_false, if_true, Option.map_some', Option.some.injEq]
        rintro rfl
        rw [if_pos hlen]
      · simp only [h1, h0, if_false]
        exact hd2 h t

theorem Dcel.paired_splice {Point Curve : Type} (d : Dcel Point Curve) (a b : Nat)
    (hd : d.Paired) : (d.splice a b).Paired := by
  cases ha : d.halfedges.get a with
  | none => simp only [Dcel.splice, ha]; exact hd
  | some ra =>
    cases hb : d.halfedges.get b with
    | none => simp only [Dcel.splice, ha, hb]; exact hd
    | some rb =>
      apply Dcel.paired_of_twin_eq hd
      · simp only [Dcel.splice, ha, hb, Arena.length_modify]
      · intro x
        simp only [Dcel.splice, ha, hb, Halfedge.twin, Arena.get_modify]
        cases d.halfedges.get x <;> simp
        split_ifs <;> rfl

theorem Dcel.paired_set_curve {Point Curve : Type} (d : Dcel Point Curve) (h : Nat)
    (cv : Option Curve) (hd : d.Paired) : (d.set_curve h cv).Paired := by
  cases hh : d.halfedges.get h with
  | none => simp only [Dcel.set_curve, hh]; exact hd
  | some rh =>
    apply Dcel.paired_of_twin_eq hd
    · simp only [Dcel.set_curve, hh, Arena.length_modify]
    · intro x
      simp only [Dcel.set_curve, hh, Halfedge.twin, Arena.get_modify]
      cases d.halfedges.get x <;> simp
      split_ifs <;> rfl

theorem Dcel.paired_set_vertex {Point Curve : Type} (d : Dcel Point Curve) (h v : Nat)
    (hd : d.Paired) : (d.set_vertex h v).Paired := by
  apply Dcel.paired_of_twin_eq hd
  · simp only [Dcel.set_vertex, Arena.length_modify]
  · intro x
    simp only [Dcel.set_vertex, Halfedge.twin, Arena.get_modify]
    cases d.halfedges.get x <;> simp
    split_ifs <;> rfl

theorem Dcel.paired_set_component {Point Curve : Type} (d : Dcel Point Curve) (h : Nat)
    (c : Halfedge_component) (hd : d.Paired) : (d.set_component h c).Paired := by
  apply Dcel.paired_of_twin_eq hd
  · simp only [Dcel.set_component, Arena.length_modify]
  · intro x
    simp only [Dcel.set_component, Halfedge.twin, Arena.get_modify]
    cases d.halfedges.get x <;> simp
    split_ifs <;> rfl

theorem Dcel.paired_delete_edge {Point Curve : Type} (d : Dcel Point Curve) (h : Nat)
    (hd : d.Paired) : (d.delete_edge h).Paired := by
  cases hh : d.halfedges.get h with
  | none => simp only [Dcel.delete_edge, hh]; exact hd
  | some rh =>
    cases hth : d.halfedges.get rh.opposite with
    | none => simp only [Dcel.delete_edge, hh, hth]; exact hd
    | some th =>
      by_cases hc : rh.next = rh.opposite ∧ th.next = h
      · refine ⟨?_, ?_⟩
        · simp only [Dcel.delete_edge, hh, hth]
          rw [if_pos hc]
          simp only [Arena.length_free]
          exact hd.1
        · intro x t
          simp only [Dcel.delete_edge, hh, hth]
          rw [if_pos hc]
          simp only [Halfedge.twin, Arena.get_free]
          by_cases c1 : x = rh.opposite
          · simp [c1]
          · by_cases c2 : x = h
            · simp [c1, c2]
            · simp only [c1, c2, if_false]
              exact hd.2 x t
      · simp only [Dcel.delete_edge, hh, hth]
        rw [if_neg hc]
        exact hd

/-- The pairing invariant holds in every state of the record store. -/
theorem Dcel.Reachable.paired {Point Curve : Type} {d : Dcel Point Curve}
    (hd : d.Reachable) : d.Paired := by
  induction hd with
  | empty => exact Dcel.paired_empty Point Curve
  | new_edge d v1 v2 cv c _ ih => exact Dcel.paired_new_edge d v1 v2 cv c ih
  | splice d a b _ ih => exact Dcel.paired_splice d a b ih
  | delete_edge d h _ ih => exact Dcel.paired_delete_edge d h ih
  | set_curve d h cv _ ih => exact Dcel.paired_set_curve d h cv ih
  | set_vertex d h v _ ih => exact Dcel.paired_set_vertex d h v ih
  | set_component d h c _ ih => exact Dcel.paired_set_component d h c ih
  | edit_other_records d e _ he ih =>
    exact Dcel.paired_of_twin_eq ih (by rw [he]) (fun x => by simp [Halfedge.twin, he])

theorem Arrangement_2.vertices_eq {Point Curve : Type} (arr : Arrangement_2 Point Curve) :
    arr.vertices = arr.dcel.vertex_sequence.filter (fun e => _Is_valid_vertex e.2) :=
  I_Filtered_iterator.pass_make _ _ _ (Nat.le_refl _)

theorem Arrangement_2.halfedges_eq {Point Curve : Type} (arr : Arrangement_2 Point Curve) :
    arr.halfedges = arr.dcel.halfedge_sequence.filter (fun e => _Is_valid_halfedge e.2) :=
  I_Filtered_iterator.pass_make _ _ _ (Nat.le_refl _)

theorem Arrangement_2.edges_eq {Point Curve : Type} (arr : Arrangement_2 Point Curve) :
    arr.edges = arr.dcel.edge_sequence.filter (fun e => _Is_valid_halfedge e.2) :=
  I_Filtered_iterator.pass_make _ _ _ (Nat.le_refl _)

theorem Arrangement_2.faces_eq {Point Curve : Type} (arr : Arrangement_2 Point Curve) :
    arr.faces = arr.dcel.face_sequence.filter (fun e => _Is_valid_face e.2) :=
  I_Filtered_iterator.pass_make _ _ _ (Nat.le_refl _)

theorem Arrangement_2.unbounded_faces_eq {Point Curve : Type}
    (arr : Arrangement_2 Point Curve) :
    arr.unbounded_faces = arr.dcel.face_sequence.filter (fun e => _Is_unbounded_face e.2) :=
  I_Filtered_iterator.pass_make _ _ _ (Nat.le_refl _)

theorem Dcel.mem_edge_sequence {Point Curve : Type} (d : Dcel Point Curve) (h : Nat)
    (r : DHalfedge Curve) :
    (h, r) ∈ d.edge_sequence ↔ d.halfedges.get h = some r ∧ h % 2 = 0 := by
  unfold Dcel.edge_sequence
  rw [List.mem_filter, Arena.mem_entries]
  simp

/-- C11. The valid-only traversals are filtered passes over the record sequences of the
DCEL, in the order of the DCEL: the vertex traversal visits exactly the vertices that
have a point, the halfedge and edge traversals exactly the halfedges (for edges: of the
edge sequence, which holds one halfedge of every twin pair) that have a curve, the face
traversal exactly the faces with an outer-boundary halfedge and the unbounded-face
traversal exactly the faces flagged unbounded with an outer-boundary halfedge.  A record
is visited iff `is_at_infinity` (vertices) or `is_fictitious` (halfedges, faces) is
false for it. -/
theorem C11_valid_traversals {Point Curve : Type} (arr : Arrangement_2 Point Curve) :
    arr.vertices = arr.dcel.vertex_sequence.filter (fun e => e.2.p_pt.isSome) ∧
    arr.halfedges = arr.dcel.halfedge_sequence.filter (fun e => e.2.p_cv.isSome) ∧
    arr.edges = arr.dcel.edge_sequence.filter (fun e => e.2.p_cv.isSome) ∧
    arr.faces = arr.dcel.face_sequence.filter (fun e => e.2.halfedge.isSome) ∧
    arr.unbounded_faces
      = arr.dcel.face_sequence.filter (fun e => e.2.unbounded && e.2.halfedge.isSome) ∧
    (∀ v r, (v, r) ∈ arr.vertices ↔
      arr.dcel.vertices.get v = some r ∧ Vertex.is_at_infinity arr.dcel v = some false) ∧
    (∀ h r, (h, r) ∈ arr.halfedges ↔
      arr.dcel.halfedges.get h = some r ∧ Halfedge.is_fictitious arr.dcel h = some false) ∧
    (∀ h r, (h, r) ∈ arr.edges ↔
      (h, r) ∈ arr.dcel.edge_sequence ∧ Halfedge.is_fictitious arr.dcel h = some false) ∧
    (∀ f r, (f, r) ∈ arr.faces ↔
      arr.dcel.faces.get f = some r ∧ Face.is_fictitious arr.dcel f = some false) ∧
    (arr.dcel.Reachable → ∀ h r, arr.dcel.halfedges.get h = some r →
      ∃ t rt, Halfedge.twin arr.dcel h = some t ∧ arr.dcel.halfedges.get t = some rt ∧
        ((h, r) ∈ arr.dcel.edge_sequence ↔ (t, rt) ∉ arr.dcel.edge_sequence)) := by
  refine ⟨?_, ?_, ?_, ?_, ?_, ?_, ?_, ?_, ?_, ?_⟩
  · rw [Arrangement_2.vertices_eq]
    apply List.filter_congr
    intro e _
    cases h : e.2.p_pt <;> simp [_Is_valid_vertex, DVertex.has_null_point, h]
  · rw [Arrangement_2.halfedges_eq]
    apply List.filter_congr
    intro e _
    cases h : e.2.p_cv <;> simp [_Is_valid_halfedge, DHalfedge.has_null_curve, h]
  · rw [Arrangement_2.edges_eq]
    apply List.filter_congr
    intro e _
    cases h : e.2.p_cv <;> simp [_Is_valid_halfedge, DHalfedge.has_null_curve, h]
  · rw [Arrangement_2.faces_eq]
    apply List.filter_congr
    intro e _
    cases h : e.2.halfedge <;> simp [_Is_valid_face, h]
  · rw [Arrangement_2.unbounded_faces_eq]
    apply List.filter_congr
    intro e _
    cases h : e.2.halfedge <;> simp [_Is_unbounded_face, DFace.is_unbounded, h]
  · intro v r
    rw [Arrangement_2.vertices_eq, List.mem_filter, Dcel.vertex_sequence, Arena.mem_entries]
    constructor
    · rintro ⟨h1, h2⟩
      refine ⟨h1, ?_⟩
      simp only [_Is_valid_vertex, Bool.not_eq_true'] at h2
      simp [Vertex.is_at_infinity, h1, h2]
    · rintro ⟨h1, h2⟩
      refine ⟨h1, ?_⟩
      simp only [Vertex.is_at_infinity, h1, Option.map_some', Option.some.injEq] at h2
      simp [_Is_valid_vertex, h2]
  · intro h r
    rw [Arrangement_2.halfedges_eq, List.mem_filter, Dcel.halfedge_sequence,
      Arena.mem_entries]
    constructor
    · rintro ⟨h1, h2⟩
      refine ⟨h1, ?_⟩
      simp only [_Is_valid_halfedge, DHalfedge.has_null_curve, Bool.not_eq_true'] at h2
      simp [Halfedge.is_fictitious, h1, h2]
    · rintro ⟨h1, h2⟩
      refine ⟨h1, ?_⟩
      simp only [Halfedge.is_fictitious, h1, Option.map_some', Option.some.injEq] at h2
      simp [_Is_valid_halfedge, DHalfedge.has_null_curve, h2]
  · intro h r
    rw [Arrangement_2.edges_eq, List.mem_filter]
    constructor
    · rintro ⟨h1, h2⟩
      refine ⟨h1, ?_⟩
      have h3 := ((Dcel.mem_edge_sequence _ _ _).mp h1).1
      simp only [_Is_valid_halfedge, DHalfedge.has_null_curve, Bool.not_eq_true'] at h2
      simp [Halfedge.is_fictitious, h3, h2]
    · rintro ⟨h1, h2⟩
      refine ⟨h1, ?_⟩
      have h3 := ((Dcel.mem_edge_sequence _ _ _).mp h1).1
      simp only [Halfedge.is_fictitious, h3, Option.map_some', Option.some.injEq] at h2
      simp [_Is_valid_halfedge, DHalfedge.has_null_curve, h2]
  · intro f r
    rw [Arrangement_2.faces_eq, List.mem_filter, Dcel.face_sequence, Arena.mem_entries]
    constructor
    · rintro ⟨h1, h2⟩
      refine ⟨h1, ?_⟩
      simp only [_Is_valid_face, bne_iff_ne, ne_eq] at h2
      simp [Face.is_fictitious, h1, h2]
    · rintro ⟨h1, h2⟩
      refine ⟨h1, ?_⟩
      simp only [Face.is_fictitious, h1, Option.map_some', Option.some.injEq,
        beq_eq_false_iff_ne, ne_eq] at h2
      simp [_Is_valid_face, h2]
  · intro hd h r hr
    have ht : Halfedge.twin arr.dcel h = some r.opposite := by simp [Halfedge.twin, hr]
    obtain ⟨hback, -⟩ := hd.linked.1 h _ ht
    obtain ⟨rt, hrt, -⟩ := Halfedge.twin_eq_some.mp hback
    have hpair := hd.paired.2 h _ ht
    refine ⟨r.opposite, rt, ht, hrt, ?_⟩
    rw [Dcel.mem_edge_sequence, Dcel.mem_edge_sequence]
    constructor
    · rintro ⟨-, he⟩ ⟨-, ho⟩
      rw [hpair, if_pos he] at ho
      omega
    · intro hn
      refine ⟨hr, ?_⟩
      by_contra he
      apply hn
      refine ⟨hrt, ?_⟩
      rw [hpair, if_neg he]
      omega

/-! ## Counting the records a traversal visits -/

theorem Arena.length_filter_entries {α : Type} (s : Arena α) (P : Nat × α → Bool) :
    ((Arena.entries s).filter P).length
      = ((Finset.range s.length).filter
          (fun i => (Arena.get s i).map (fun r => P (i, r)) = some true)).card := by
  induction s using List.reverseRecOn with
  | nil => rfl
  | append_singleton s a ih =>
    have hold : (Finset.range s.length).filter
          (fun i => (Arena.get (s ++ [a]) i).map (fun r => P (i, r)) = some true)
        = (Finset.range s.length).filter
          (fun i => (Arena.get s i).map (fun r => P (i, r)) = some true) := by
      apply Finset.filter_congr
      intro i hi
      rw [Finset.mem_range] at hi
      rw [Arena.get_append_singleton, if_neg (by omega)]
    rw [Arena.entries_append_singleton, List.filter_append, List.length_append, ih,
      List.length_append, List.length_singleton, Finset.range_succ, Finset.filter_insert,
      Arena.get_append_singleton, if_pos rfl]
    cases a with
    | none =>
      simp only [Option.map_none', Option.toList_none, List.filter_nil, List.length_nil,
        add_zero, reduceCtorEq, if_false]
      rw [hold]
    | some r =>
      by_cases hP : P (s.length, r) = true
      · simp only [Option.map_some', Option.toList_some, hP, if_true]
        rw [Finset.card_insert_of_not_mem (by simp), hold]
        simp [hP]
      · simp only [Option.map_some', Option.toList_some, Option.some.injEq, hP, if_false]
        rw [hold]
        simp [hP]

theorem length_filter_not_add_countP {β : Type} (l : List β) (p : β → Bool) :
    (l.filter (fun e => !p e)).length + l.countP p = l.length := by
  induction l with
  | nil => rfl
  | cons x rest ih =>
    cases hx : p x
    · rw [List.filter_cons_of_pos (by simp [hx]), List.countP_cons_of_neg _ _ (by simp [hx]),
        List.length_cons, List.length_cons]
      omega
    · rw [List.filter_cons_of_neg (by simp [hx]), List.countP_cons_of_pos _ _ hx,
        List.length_cons]
      omega

theorem Arena.length_filter_add {α : Type} (s : Arena α) (P : α → Bool) :
    ((Arena.entries s).filter (fun e => !P e.2)).length + (Arena.records s).countP P
      = Arena.size s := by
  rw [← Arena.length_entries, ← Arena.entries_map_snd, List.countP_map]
  exact length_filter_not_add_countP (Arena.entries s) (P ∘ Prod.snd)

/-- In a linked and paired store the two halfedges of a slot pair carry the same
curve-or-null. -/
theorem Dcel.curve_pair {Point Curve : Type} {d : Dcel Point Curve} (hl : d.Linked)
    (hp : d.Paired) (i : Nat) (hi : i % 2 = 0) :
    Halfedge.curve d (i + 1) = Halfedge.curve d i := by
  cases h0 : d.halfedges.get i with
  | some r =>
    have ht : Halfedge.twin d i = some r.opposite := by simp [Halfedge.twin, h0]
    have e := hp.2 i _ ht
    rw [if_pos hi] at e
    rw [e] at ht
    exact (hl.1 i _ ht).2
  | none =>
    cases h1 : d.halfedges.get (i + 1) with
    | none => simp [Halfedge.curve, h0, h1]
    | some r =>
      have ht : Halfedge.twin d (i + 1) = some r.opposite := by simp [Halfedge.twin, h1]
      have e := hp.2 (i + 1) _ ht
      rw [if_neg (by omega)] at e
      rw [e] at ht
      have hb := (hl.1 (i + 1) _ ht).1
      simp [Halfedge.twin, h0] at hb

/-- In a linked and paired store the halfedges with a curve are twice the halfedges of
the edge sequence with a curve. -/
theorem Dcel.length_valid_halfedges {Point Curve : Type} {d : Dcel Point Curve}
    (hl : d.Linked) (hp : d.Paired) :
    (d.halfedge_sequence.filter (fun e => _Is_valid_halfedge e.2)).length
      = 2 * (d.edge_sequence.filter (fun e => _Is_valid_halfedge e.2)).length := by
  unfold Dcel.halfedge_sequence Dcel.edge_sequence
  rw [List.filter_filter, Arena.length_filter_entries, Arena.length_filter_entries]
  -- the valid handles, split by the parity of the slot
  have valid_iff : ∀ i : Nat,
      ((d.halfedges.get i).map (fun r => _Is_valid_halfedge r) = some true)
        ↔ ∃ cv, Halfedge.curve d i = some (some cv) := by
    intro i
    cases h : d.halfedges.get i with
    | none => simp [Halfedge.curve, h]
    | some r =>
      cases hc : r.p_cv <;>
        simp [Halfedge.curve, h, hc, _Is_valid_halfedge, DHalfedge.has_null_curve]
  have valid_lt : ∀ i : Nat, (∃ cv, Halfedge.curve d i = some (some cv)) →
      i < d.halfedges.length := by
    rintro i ⟨cv, hcv⟩
    cases h : d.halfedges.get i with
    | none => simp [Halfedge.curve, h] at hcv
    | some r => exact Arena.get_lt h
  set A := (Finset.range d.halfedges.length).filter
    (fun i => (d.halfedges.get i).map (fun r => _Is_valid_halfedge (i, r).2) = some true)
    with hA
  set E := (Finset.range d.halfedges.length).filter
    (fun i => (d.halfedges.get i).map
      (fun r => (_Is_valid_halfedge (i, r).2 && decide ((i, r).1 % 2 = 0))) = some true)
    with hE
  have hEA : E = A.filter (fun i => i % 2 = 0) := by
    ext i
    simp only [hE, hA, Finset.mem_filter, Finset.mem_range]
    cases h : d.halfedges.get i with
    | none => simp
    | some r => simp [and_assoc]
  have hodd : A.filter (fun i => ¬ i % 2 = 0) = E.image (fun i => i + 1) := by
    ext j
    simp only [hEA, hA, Finset.mem_filter, Finset.mem_range, Finset.mem_image]
    constructor
    · rintro ⟨⟨hj, hv⟩, hpar⟩
      refine ⟨j - 1, ⟨⟨by omega, ?_⟩, by omega⟩, by omega⟩
      have hc := Dcel.curve_pair hl hp (j - 1) (by omega)
      have e : j - 1 + 1 = j := by omega
      rw [e] at hc
      rw [valid_iff] at hv ⊢
      rw [← hc]
      exact hv
    · rintro ⟨i, ⟨⟨hi, hv⟩, hpar⟩, rfl⟩
      have hc := Dcel.curve_pair hl hp i hpar
      have hv2 : ∃ cv, Halfedge.curve d (i + 1) = some (some cv) := by
        rw [hc]
        exact (valid_iff i).mp hv
      exact ⟨⟨valid_lt _ hv2, (valid_iff _).mpr hv2⟩, by omega⟩
  have hsplit := Finset.filter_card_add_filter_neg_card_eq_card (s := A) (fun i => i % 2 = 0)
  rw [hodd, Finset.card_image_of_injective _ (add_left_injective 1), ← hEA] at hsplit
  omega

/-- C12. In a state of the record store (where twins share their curve-or-null) in which
`n_inf_verts` is the number of DCEL vertices without a point, the number of halfedges
without a curve is `2 * n_inf_verts` and exactly one DCEL face has no outer boundary,
the vertex, halfedge, edge and face traversals visit exactly `number_of_vertices`,
`number_of_halfedges`, `number_of_edges` and `number_of_faces` records; the three DCEL
counts are values of `Size`. -/
theorem C12_traversal_counts {Point Curve : Type} (w : Nat) (arr : Arrangement_2 Point Curve)
    (hd : arr.dcel.Reachable)
    (hv : arr.n_inf_verts = arr.dcel.vertices.records.countP (fun v => v.has_null_point))
    (hh : arr.dcel.halfedges.records.countP (fun e => e.has_null_curve)
      = 2 * arr.n_inf_verts)
    (hf : arr.dcel.faces.records.countP (fun f => f.halfedge == none) = 1)
    (hsv : arr.dcel.size_of_vertices < 2 ^ w) (hsh : arr.dcel.size_of_halfedges < 2 ^ w)
    (hsf : arr.dcel.size_of_faces < 2 ^ w) :
    arr.vertices.length = arr.number_of_vertices w ∧
    arr.halfedges.length = arr.number_of_halfedges w ∧
    arr.edges.length = arr.number_of_edges w ∧
    arr.faces.length = arr.number_of_faces w := by
  have cv := Arena.length_filter_add arr.dcel.vertices (fun v => v.has_null_point)
  have ch := Arena.length_filter_add arr.dcel.halfedges (fun e => e.has_null_curve)
  have cf := Arena.length_filter_add arr.dcel.faces (fun f => f.halfedge == none)
  have lv : arr.vertices.length + arr.n_inf_verts = arr.dcel.size_of_vertices := by
    rw [Arrangement_2.vertices_eq, hv]
    exact cv
  have lh : arr.halfedges.length + 2 * arr.n_inf_verts = arr.dcel.size_of_halfedges := by
    rw [Arrangement_2.halfedges_eq, ← hh]
    exact ch
  have lf : arr.faces.length + 1 = arr.dcel.size_of_faces := by
    rw [Arrangement_2.faces_eq, ← hf]
    exact cf
  have le : arr.halfedges.length = 2 * arr.edges.length := by
    rw [Arrangement_2.halfedges_eq, Arrangement_2.edges_eq]
    exact Dcel.length_valid_halfedges hd.linked hd.paired
  refine ⟨?_, ?_, ?_, ?_⟩
  · rw [Arrangement_2.number_of_vertices, Size_sub_of_le w _ _ (by omega) hsv]
    omega
  · have e1 : Size_mul w 2 arr.n_inf_verts = 2 * arr.n_inf_verts :=
      Nat.mod_eq_of_lt (by omega)
    rw [Arrangement_2.number_of_halfedges, e1, Size_sub_of_le w _ _ (by omega) hsh]
    omega
  · rw [Arrangement_2.number_of_edges, Size_sub_of_le w _ _ (by omega) (by omega)]
    omega
  · rw [Arrangement_2.number_of_faces, Size_sub_of_le w _ _ (by omega) hsf]
    omega

theorem C12_traversal_counts_witness :
    ((_construct_empty_arrangement Unit Unit).n_inf_verts
        = (_construct_empty_arrangement Unit Unit).dcel.vertices.records.countP
            (fun v => v.has_null_point) ∧
      (_construct_empty_arrangement Unit Unit).dcel.halfedges.records.countP
          (fun e => e.has_null_curve)
        = 2 * (_construct_empty_arrangement Unit Unit).n_inf_verts ∧
      (_construct_empty_arrangement Unit Unit).dcel.faces.records.countP
          (fun f => f.halfedge == none) = 1) ∧
    ((_construct_empty_arrangement Unit Unit).vertices.length
        = (_construct_empty_arrangement Unit Unit).number_of_vertices 64 ∧
      (_construct_empty_arrangement Unit Unit).halfedges.length
        = (_construct_empty_arrangement Unit Unit).number_of_halfedges 64 ∧
      (_construct_empty_arrangement Unit Unit).edges.length
        = (_construct_empty_arrangement Unit Unit).number_of_edges 64 ∧
      (_construct_empty_arrangement Unit Unit).faces.length
        = (_construct_empty_arrangement Unit Unit).number_of_faces 64) :=
  ⟨⟨by decide, by decide, by decide⟩,
    C12_traversal_counts 64 (_construct_empty_arrangement Unit Unit) Dcel.Reachable.empty
      (by decide) (by decide) (by decide) (by decide) (by decide) (by decide)⟩

/-! ## Comparisons with the fictitious corners -/

/-- C13, as the code has it.  With traits that do not support unbounded curves and the
four corners at four different handles, `_compare_x` and `_compare_xy` of a point p and a
corner are decided by the x-side of the corner alone: `LARGER` (p is larger, the corner
is smaller than p) for the two left corners `v_bl` and `v_tl`, `SMALLER` (the corner is
larger than p) for the two right corners `v_br` and `v_tr`. -/
theorem C13_corner_comparison {Point Curve : Type} (arr : Arrangement_2 Point Curve)
    (traits : Traits Point Curve) (imp_true : Point → Nat → Option Comparison_result)
    (p : Point)
    (hdist : arr.v_br ≠ arr.v_bl ∧ arr.v_br ≠ arr.v_tl ∧ arr.v_tr ≠ arr.v_bl ∧
      arr.v_tr ≠ arr.v_tl) :
    (arr._compare_x traits imp_true false p arr.v_bl = some .LARGER ∧
      arr._compare_x traits imp_true false p arr.v_tl = some .LARGER ∧
      arr._compare_x traits imp_true false p arr.v_br = some .SMALLER ∧
      arr._compare_x traits imp_true false p arr.v_tr = some .SMALLER) ∧
    (arr._compare_xy traits imp_true false p arr.v_bl = some .LARGER ∧
      arr._compare_xy traits imp_true false p arr.v_tl = some .LARGER ∧
      arr._compare_xy traits imp_true false p arr.v_br = some .SMALLER ∧
      arr._compare_xy traits imp_true false p arr.v_tr = some .SMALLER) := by
  obtain ⟨h1, h2, h3, h4⟩ := hdist
  simp [Arrangement_2._compare_x, Arrangement_2._compare_x_imp, Arrangement_2._compare_xy,
    Arrangement_2._compare_xy_imp, h1, h2, h3, h4]

theorem C13_corner_comparison_witness :
    ((_construct_empty_arrangement (Int × Int) Unit).v_br
        ≠ (_construct_empty_arrangement (Int × Int) Unit).v_bl ∧
      (_construct_empty_arrangement (Int × Int) Unit).v_br
        ≠ (_construct_empty_arrangement (Int × Int) Unit).v_tl ∧
      (_construct_empty_arrangement (Int × Int) Unit).v_tr
        ≠ (_construct_empty_arrangement (Int × Int) Unit).v_bl ∧
      (_construct_empty_arrangement (Int × Int) Unit).v_tr
        ≠ (_construct_empty_arrangement (Int × Int) Unit).v_tl) ∧
    (((_construct_empty_arrangement (Int × Int) Unit)._compare_x example_traits
          (fun _ _ => none) false (0, 0) (_construct_empty_arrangement (Int × Int) Unit).v_bl
          = some .LARGER ∧
        (_construct_empty_arrangement (Int × Int) Unit)._compare_x example_traits
          (fun _ _ => none) false (0, 0) (_construct_empty_arrangement (Int × Int) Unit).v_tl
          = some .LARGER ∧
        (_construct_empty_arrangement (Int × Int) Unit)._compare_x example_traits
          (fun _ _ => none) false (0, 0) (_construct_empty_arrangement (Int × Int) Unit).v_br
          = some .SMALLER ∧
        (_construct_empty_arrangement (Int × Int) Unit)._compare_x example_traits
          (fun _ _ => none) false (0, 0) (_construct_empty_arrangement (Int × Int) Unit).v_tr
          = some .SMALLER) ∧
      ((_construct_empty_arrangement (Int × Int) Unit)._compare_xy example_traits
          (fun _ _ => none) false (0, 0) (_construct_empty_arrangement (Int × Int) Unit).v_bl
          = some .LARGER ∧
        (_construct_empty_arrangement (Int × Int) Unit)._compare_xy example_traits
          (fun _ _ => none) false (0, 0) (_construct_empty_arrangement (Int × Int) Unit).v_tl
          = some .LARGER ∧
        (_construct_empty_arrangement (Int × Int) Unit)._compare_xy example_traits
          (fun _ _ => none) false (0, 0) (_construct_empty_arrangement (Int × Int) Unit).v_br
          = some .SMALLER ∧
        (_construct_empty_arrangement (Int × Int) Unit)._compare_xy example_traits
          (fun _ _ => none) false (0, 0) (_construct_empty_arrangement (Int × Int) Unit).v_tr
          = some .SMALLER)) :=
  ⟨by decide,
    C13_corner_comparison (_construct_empty_arrangement (Int × Int) Unit) example_traits
      (fun _ _ => none) (0, 0) (by decide)⟩

/-- C13 fails as stated: in the empty arrangement the top-left corner, a top corner
(its y-boundary type is `PLUS_INFINITY`), is reported as smaller than the point (0,0)
(the results are `LARGER`: the point is the larger one), not as larger; and the
bottom-right corner, a bottom corner, is reported as larger (the results are
`SMALLER`), not as smaller. -/
theorem C13_counterexample :
    (_construct_empty_arrangement (Int × Int) Unit).dcel.boundary_in_y
        (_construct_empty_arrangement (Int × Int) Unit).v_tl = some .PLUS_INFINITY ∧
    (_construct_empty_arrangement (Int × Int) Unit)._compare_x example_traits
        (fun _ _ => none) false (0, 0) (_construct_empty_arrangement (Int × Int) Unit).v_tl
        = some .LARGER ∧
    (_construct_empty_arrangement (Int × Int) Unit)._compare_xy example_traits
        (fun _ _ => none) false (0, 0) (_construct_empty_arrangement (Int × Int) Unit).v_tl
        = some .LARGER ∧
    (_construct_empty_arrangement (Int × Int) Unit).dcel.boundary_in_y
        (_construct_empty_arrangement (Int × Int) Unit).v_br = some .MINUS_INFINITY ∧
    (_construct_empty_arrangement (Int × Int) Unit)._compare_x example_traits
        (fun _ _ => none) false (0, 0) (_construct_empty_arrangement (Int × Int) Unit).v_br
        = some .SMALLER ∧
    (_construct_empty_arrangement (Int × Int) Unit)._compare_xy example_traits
        (fun _ _ => none) false (0, 0) (_construct_empty_arrangement (Int × Int) Unit).v_br
        = some .SMALLER := by
  decide

/-- C14. With traits that do not support unbounded curves, `_compare_y_at_x (p, he)`
depends only on the y-boundary type of the target of `he` when that is infinite: it is
`LARGER` for every p when the target approaches y = -oo and `SMALLER` for every p when
it approaches y = +oo; in every other case it is the traits' `compare_y_at_x` of p and
the curve of `he`.  With `CGAL_assertion` compiled in, the same values are returned by
every call that passes the assertion. -/
theorem C14_compare_y_at_x {Point Curve : Type} (arr : Arrangement_2 Point Curve)
    (traits : Traits Point Curve) (imp_true : Point → Nat → Option Comparison_result)
    (p : Point) (he : Nat) (r : DHalfedge Curve) (rv : DVertex Point)
    (hr : arr.dcel.halfedges.get he = some r)
    (hv : arr.dcel.vertices.get r.vertex = some rv) :
    (rv.inf_y = .MINUS_INFINITY →
      arr._compare_y_at_x traits imp_true false false p he = some .LARGER) ∧
    (rv.inf_y = .PLUS_INFINITY →
      arr._compare_y_at_x traits imp_true false false p he = some .SMALLER) ∧
    (rv.inf_y = .NO_BOUNDARY → ∀ cv, r.p_cv = some cv →
      arr._compare_y_at_x traits imp_true false false p he
        = some (traits.compare_y_at_x p cv)) ∧
    (arr._compare_y_at_x_assertion he = some true →
      arr._compare_y_at_x traits imp_true false true p he
        = arr._compare_y_at_x traits imp_true false false p he) := by
  refine ⟨?_, ?_, ?_, ?_⟩
  · intro h
    simp [Arrangement_2._compare_y_at_x, Arrangement_2._compare_y_at_x_imp, hr,
      Dcel.boundary_in_y, hv, h]
  · intro h
    simp [Arrangement_2._compare_y_at_x, Arrangement_2._compare_y_at_x_imp, hr,
      Dcel.boundary_in_y, hv, h]
  · intro h cv hcv
    simp [Arrangement_2._compare_y_at_x, Arrangement_2._compare_y_at_x_imp, hr,
      Dcel.boundary_in_y, hv, h, hcv]
  · intro h
    simp [Arrangement_2._compare_y_at_x, Arrangement_2._compare_y_at_x_imp, hr,
      Dcel.boundary_in_y, hv, h]

theorem C14_compare_y_at_x_witness :
    ((_construct_empty_arrangement (Int × Int) Unit).dcel.halfedges.get 0
        = some ⟨none, 1, 6, 2, 2, .face 1⟩ ∧
      (_construct_empty_arrangement (Int × Int) Unit).dcel.vertices.get 2
        = some ⟨none, .PLUS_INFINITY, .MINUS_INFINITY, .halfedge (some 0)⟩) ∧
    (_construct_empty_arrangement (Int × Int) Unit)._compare_y_at_x example_traits
        (fun _ _ => none) false false (0, 0) 0 = some .LARGER :=
  ⟨by decide,
    (C14_compare_y_at_x (_construct_empty_arrangement (Int × Int) Unit) example_traits
      (fun _ _ => none) (0, 0) 0 ⟨none, 1, 6, 2, 2, .face 1⟩
      ⟨none, .PLUS_INFINITY, .MINUS_INFINITY, .halfedge (some 0)⟩ (by decide)
      (by decide)).1 rfl⟩

/-! ## Vertices, halfedges and faces: the accessors -/

/-- C15, as the code has it.  `Vertex::is_at_infinity` is true exactly for the vertices
that have no point, whatever the vertex: it is false for every vertex that owns a point,
and true for each of the four fictitious corner vertices that has no point. -/
theorem C15_is_at_infinity {Point Curve : Type} (arr : Arrangement_2 Point Curve) (v : Nat)
    (r : DVertex Point) (hv : arr.dcel.vertices.get v = some r) :
    (Vertex.is_at_infinity arr.dcel v = some true ↔ r.p_pt = none) ∧
    (∀ q, r.p_pt = some q → Vertex.is_at_infinity arr.dcel v = some false) ∧
    ((v = arr.v_bl ∨ v = arr.v_tl ∨ v = arr.v_br ∨ v = arr.v_tr) → r.p_pt = none →
      Vertex.is_at_infinity arr.dcel v = some true) := by
  refine ⟨?_, ?_, ?_⟩
  · cases h : r.p_pt <;> simp [Vertex.is_at_infinity, hv, DVertex.has_null_point, h]
  · intro q hq
    simp [Vertex.is_at_infinity, hv, DVertex.has_null_point, hq]
  · intro _ hq
    simp [Vertex.is_at_infinity, hv, DVertex.has_null_point, hq]

theorem C15_is_at_infinity_witness :
    (_construct_empty_arrangement (Int × Int) Unit).dcel.vertices.get 0
        = some ⟨none, .MINUS_INFINITY, .MINUS_INFINITY, .halfedge (some 6)⟩ ∧
    (Vertex.is_at_infinity (_construct_empty_arrangement (Int × Int) Unit).dcel 0 = some true
      ↔ (⟨none, .MINUS_INFINITY, .MINUS_INFINITY, .halfedge (some 6)⟩
          : DVertex (Int × Int)).p_pt = none) :=
  ⟨by decide,
    (C15_is_at_infinity (_construct_empty_arrangement (Int × Int) Unit) 0
      ⟨none, .MINUS_INFINITY, .MINUS_INFINITY, .halfedge (some 6)⟩ (by decide)).1⟩

/-- C15 fails as stated: in the empty arrangement `is_at_infinity` is true for the
fictitious corner vertex `v_bl` (and for the other three corners). -/
theorem C15_counterexample :
    Vertex.is_at_infinity (_construct_empty_arrangement (Int × Int) Unit).dcel
        (_construct_empty_arrangement (Int × Int) Unit).v_bl = some true ∧
    Vertex.is_at_infinity (_construct_empty_arrangement (Int × Int) Unit).dcel
        (_construct_empty_arrangement (Int × Int) Unit).v_tl = some true ∧
    Vertex.is_at_infinity (_construct_empty_arrangement (Int × Int) Unit).dcel
        (_construct_empty_arrangement (Int × Int) Unit).v_br = some true ∧
    Vertex.is_at_infinity (_construct_empty_arrangement (Int × Int) Unit).dcel
        (_construct_empty_arrangement (Int × Int) Unit).v_tr = some true := by
  decide

/-- C16. For every halfedge h, `Halfedge::face` returns the face stored on h when h is
not on a hole (the hole records are not consulted) and the face of the hole record of h
when h is on a hole; the const and the non-const version return the same face. -/
theorem C16_halfedge_face {Point Curve : Type} (d : Dcel Point Curve) (h : Nat)
    (r : DHalfedge Curve) (hr : d.halfedges.get h = some r) :
    (∀ f, r.comp = .face f → r.is_on_hole = false ∧ Halfedge.face d h = some f) ∧
    (∀ ho, r.comp = .hole ho → r.is_on_hole = true ∧
      Halfedge.face d h = (d.holes.get ho).map (fun x => x.face)) ∧
    Halfedge.face_const d h = Halfedge.face d h := by
  refine ⟨?_, ?_, rfl⟩
  · intro f hf
    simp [Halfedge.face, hr, DHalfedge.is_on_hole, hf]
  · intro ho hho
    simp [Halfedge.face, hr, DHalfedge.is_on_hole, hho]

theorem C16_halfedge_face_witness :
    (_construct_empty_arrangement Unit Unit).dcel.halfedges.get 1
        = some ⟨none, 0, 3, 7, 0, .hole 0⟩ ∧
    ((∀ f, (⟨none, 0, 3, 7, 0, .hole 0⟩ : DHalfedge Unit).comp = .face f →
        (⟨none, 0, 3, 7, 0, .hole 0⟩ : DHalfedge Unit).is_on_hole = false ∧
        Halfedge.face (_construct_empty_arrangement Unit Unit).dcel 1 = some f) ∧
      (∀ ho, (⟨none, 0, 3, 7, 0, .hole 0⟩ : DHalfedge Unit).comp = .hole ho →
        (⟨none, 0, 3, 7, 0, .hole 0⟩ : DHalfedge Unit).is_on_hole = true ∧
        Halfedge.face (_construct_empty_arrangement Unit Unit).dcel 1
          = ((_construct_empty_arrangement Unit Unit).dcel.holes.get ho).map
              (fun x => x.face)) ∧
      Halfedge.face_const (_construct_empty_arrangement Unit Unit).dcel 1
        = Halfedge.face (_construct_empty_arrangement Unit Unit).dcel 1) :=
  ⟨by decide,
    C16_halfedge_face (_construct_empty_arrangement Unit Unit).dcel 1
      ⟨none, 0, 3, 7, 0, .hole 0⟩ (by decide)⟩

/-- C18. `Face::is_fictitious` is true exactly when the face has no outer-boundary
halfedge; the precondition of `Face::outer_ccb` holds exactly when the face is not
fictitious, so it holds for every face the face traversal or the unbounded-face
traversal visits and fails only for a fictitious face. -/
theorem C18_face_is_fictitious {Point Curve : Type} (arr : Arrangement_2 Point Curve)
    (f : Nat) (r : DFace) (hf : arr.dcel.faces.get f = some r) :
    (Face.is_fictitious arr.dcel f = some true ↔ r.halfedge = none) ∧
    (Face.outer_ccb_precondition arr.dcel f = some true
      ↔ Face.is_fictitious arr.dcel f = some false) ∧
    ((Face.outer_ccb arr.dcel f).isSome ↔ Face.outer_ccb_precondition arr.dcel f = some true) ∧
    ((f, r) ∈ arr.faces → Face.outer_ccb_precondition arr.dcel f = some true) ∧
    ((f, r) ∈ arr.unbounded_faces → Face.outer_ccb_precondition arr.dcel f = some true) ∧
    (Face.outer_ccb_precondition arr.dcel f = some false →
      Face.is_fictitious arr.dcel f = some true) := by
  refine ⟨?_, ?_, ?_, ?_, ?_, ?_⟩
  · cases h : r.halfedge <;> simp [Face.is_fictitious, hf, h]
  · cases h : r.halfedge <;> simp [Face.is_fictitious, Face.outer_ccb_precondition, hf, h]
  · cases h : r.halfedge <;> simp [Face.outer_ccb, Face.outer_ccb_precondition, hf, h]
  · rw [Arrangement_2.faces_eq, List.mem_filter]
    rintro ⟨-, h⟩
    simpa [Face.outer_ccb_precondition, hf, _Is_valid_face] using h
  · rw [Arrangement_2.unbounded_faces_eq, List.mem_filter]
    rintro ⟨-, h⟩
    simp only [_Is_unbounded_face, Bool.and_eq_true] at h
    simpa [Face.outer_ccb_precondition, hf] using h.2
  · cases h : r.halfedge <;> simp [Face.is_fictitious, Face.outer_ccb_precondition, hf, h]

theorem C18_face_is_fictitious_witness :
    (_construct_empty_arrangement Unit Unit).dcel.faces.get 1
        = some ⟨true, some 0, [], []⟩ ∧
    ((1, ⟨true, some 0, [], []⟩) ∈ (_construct_empty_arrangement Unit Unit).faces →
      Face.outer_ccb_precondition (_construct_empty_arrangement Unit Unit).dcel 1
        = some true) :=
  ⟨by decide,
    (C18_face_is_fictitious (_construct_empty_arrangement Unit Unit) 1
      ⟨true, some 0, [], []⟩ (by decide)).2.2.2.1⟩

/-! ## The loop of `Vertex::degree` -/

theorem Halfedge.twin_isSome {Point Curve : Type} (d : Dcel Point Curve) (x : Nat) :
    (Halfedge.twin d x).isSome = (d.halfedges.get x).isSome := by
  simp [Halfedge.twin]

theorem twin_or_self_live {Point Curve : Type} {d : Dcel Point Curve} (hd : d.Linked)
    (x : Nat) (hx : (d.halfedges.get x).isSome) :
    Halfedge.twin d x = some (twin_or_self d x) ∧
      (d.halfedges.get (twin_or_self d x)).isSome := by
  unfold twin_or_self
  cases ht : Halfedge.twin d x with
  | none => rw [← Halfedge.twin_isSome, ht] at hx; cases hx
  | some t =>
    obtain ⟨r, hr, -⟩ := Halfedge.twin_eq_some.mp (hd.1 x t ht).1
    simp [hr]

theorem twin_twin_or_self {Point Curve : Type} {d : Dcel Point Curve} (hd : d.Linked)
    (x : Nat) : twin_or_self d (twin_or_self d x) = x := by
  unfold twin_or_self
  cases ht : Halfedge.twin d x with
  | some t => simp [(hd.1 x t ht).1]
  | none => simp [ht]

theorem around_vertex_live {Point Curve : Type} {d : Dcel Point Curve} (hd : d.Linked)
    (x : Nat) (hx : (d.halfedges.get x).isSome) :
    (Halfedge.next d x).bind (Halfedge.twin d) = some (around_vertex d x) ∧
      (d.halfedges.get (around_vertex d x)).isSome := by
  obtain ⟨a, b⟩ := next_or_self_live hd x hx
  obtain ⟨c, e⟩ := twin_or_self_live hd _ b
  exact ⟨by rw [a, Option.some_bind, c]; rfl, e⟩

theorem around_vertex_injective {Point Curve : Type} {d : Dcel Point Curve}
    (hd : d.Linked) : Function.Injective (around_vertex d) := by
  have inv : Function.LeftInverse (fun y => prev_or_self d (twin_or_self d y))
      (around_vertex d) := by
    intro x
    show prev_or_self d (twin_or_self d (twin_or_self d (next_or_self d x))) = x
    rw [twin_twin_or_self hd, prev_next_or_self hd]
  exact inv.injective

theorem around_vertex_iterate_live {Point Curve : Type} {d : Dcel Point Curve}
    (hd : d.Linked) (h : Nat) (hh : (d.halfedges.get h).isSome) (k : Nat) :
    (d.halfedges.get ((around_vertex d)^[k] h)).isSome := by
  induction k with
  | zero => exact hh
  | succ k ih =>
    rw [Function.iterate_succ_apply']
    exact (around_vertex_live hd _ ih).2

/-- In a linked store the walk around a vertex from a live halfedge comes back to it. -/
theorem exists_around_vertex_period {Point Curve : Type} {d : Dcel Point Curve}
    (hd : d.Linked) (h : Nat) (hh : (d.halfedges.get h).isSome) :
    ∃ n, 0 < n ∧ n ≤ d.size_of_halfedges ∧ (around_vertex d)^[n] h = h := by
  have hinj := around_vertex_injective hd
  have hall := around_vertex_iterate_live hd h hh
  have hlive : ∀ x, (d.halfedges.get x).isSome → x < d.halfedges.length := by
    intro x hx
    cases hr : d.halfedges.get x with
    | none => rw [hr] at hx; cases hx
    | some r => exact Arena.get_lt hr
  have hmaps : ∀ i ∈ Finset.range (d.size_of_halfedges + 1),
      (around_vertex d)^[i] h ∈
        (Finset.range d.halfedges.length).filter (fun i => (d.halfedges.get i).isSome) := by
    intro i _
    rw [Finset.mem_filter, Finset.mem_range]
    exact ⟨hlive _ (hall i), hall i⟩
  have hcard : ((Finset.range d.halfedges.length).filter
      (fun i => (d.halfedges.get i).isSome)).card
      < (Finset.range (d.size_of_halfedges + 1)).card := by
    rw [Arena.card_live, Finset.card_range]
    exact Nat.lt_succ_self _
  obtain ⟨i, hi, j, hj, hij, heq⟩ :=
    Finset.exists_ne_map_eq_of_card_lt_of_maps_to hcard hmaps
  rw [Finset.mem_range] at hi hj
  have cancel : ∀ a b : Nat, a < b → b < d.size_of_halfedges + 1 →
      (around_vertex d)^[a] h = (around_vertex d)^[b] h →
      ∃ n, 0 < n ∧ n ≤ d.size_of_halfedges ∧ (around_vertex d)^[n] h = h := by
    intro a b hab hb e
    refine ⟨b - a, by omega, by omega, ?_⟩
    have e2 : (around_vertex d)^[b] h
        = (around_vertex d)^[a] ((around_vertex d)^[b - a] h) := by
      rw [← Function.iterate_add_apply]
      congr 1
      omega
    rw [e2] at e
    exact (hinj.iterate a e).symm
  rcases Nat.lt_or_gt_of_ne hij with c | c
  · exact cancel i j c hj heq
  · exact cancel j i c hi heq.symm

/-- The loop of `Vertex::degree` counts the rounds up to the first return to
`he_first`. -/
theorem Vertex.degree_loop_eq {Point Curve : Type} {d : Dcel Point Curve} (hd : d.Linked)
    (w he_first : Nat) (m : Nat) :
    ∀ (fuel cur n : Nat), (d.halfedges.get cur).isSome →
      (∀ j, 0 < j → j < m → (around_vertex d)^[j] cur ≠ he_first) →
      (around_vertex d)^[m] cur = he_first → 0 < m → m ≤ fuel → n + m < 2 ^ w →
      Vertex.degree_loop d w he_first fuel cur n = some (n + m) := by
  induction m with
  | zero => intro fuel cur n _ _ _ hpos; omega
  | succ m ih =>
    intro fuel cur n hcur hmin hret _ hfuel hn
    cases fuel with
    | zero => omega
    | succ fuel =>
      obtain ⟨hstep, hlive⟩ := around_vertex_live hd cur hcur
      have hmod : (n + 1) % 2 ^ w = n + 1 := Nat.mod_eq_of_lt (by omega)
      simp only [Vertex.degree_loop, hstep, hmod]
      by_cases hfirst : around_vertex d cur = he_first
      · rw [if_pos hfirst]
        have hm : m = 0 := by
          by_contra hne
          exact hmin 1 (by omega) (by omega) hfirst
        rw [hm]
      · rw [if_neg hfirst]
        have hm : 0 < m := by
          by_contra hne
          have : m = 0 := by omega
          rw [this] at hret
          exact hfirst hret
        have e := ih fuel (around_vertex d cur) (n + 1) hlive
          (fun j hj1 hj2 => by
            have := hmin (j + 1) (by omega) (by omega)
            rwa [Function.iterate_succ_apply] at this)
          (by rwa [Function.iterate_succ_apply] at hret) hm (by omega) (by omega)
        rw [e]
        congr 1
        omega

/-- C17. In every state of the record store (the number of halfedges being a value of
`Size`), `Vertex::degree` is 0 for every isolated vertex, and for every non-isolated
vertex with an incident halfedge its loop ends and returns a number that is at least 1
(and at most the number of halfedges); for any vertex exactly one of `Vertex::face`
(precondition: isolated) and `Vertex::incident_halfedges` (precondition: not isolated)
has its precondition satisfied. -/
theorem C17_vertex_degree {Point Curve : Type} (d : Dcel Point Curve) (hd : d.Reachable)
    (w : Nat) (hsize : d.size_of_halfedges < 2 ^ w) (v : Nat) (r : DVertex Point)
    (hv : d.vertices.get v = some r) :
    (r.is_isolated = true → ∀ fuel, Vertex.degree d w fuel v = some 0) ∧
    (r.is_isolated = false → ∀ he, r.inc = .halfedge (some he) →
      (d.halfedges.get he).isSome →
      ∃ n, 1 ≤ n ∧ n ≤ d.size_of_halfedges ∧
        ∀ fuel, d.size_of_halfedges ≤ fuel → Vertex.degree d w fuel v = some n) ∧
    ((Vertex.face_precondition d v = some true ∧
        Vertex.incident_halfedges_precondition d v = some false) ∨
      (Vertex.face_precondition d v = some false ∧
        Vertex.incident_halfedges_precondition d v = some true)) := by
  have hl := hd.linked
  refine ⟨?_, ?_, ?_⟩
  · intro hiso fuel
    simp [Vertex.degree, hv, hiso]
  · intro hiso he hinc hlive
    have hex : ∃ n, 0 < n ∧ (around_vertex d)^[n] he = he := by
      obtain ⟨n, h1, -, h3⟩ := exists_around_vertex_period hl he hlive
      exact ⟨n, h1, h3⟩
    obtain ⟨n0, hn0, hle0, hper0⟩ := exists_around_vertex_period hl he hlive
    have hfind := Nat.find_spec hex
    have hmin : ∀ j, 0 < j → j < Nat.find hex → (around_vertex d)^[j] he ≠ he := by
      intro j hj1 hj2 hj3
      exact Nat.find_min hex hj2 ⟨hj1, hj3⟩
    have hle : Nat.find hex ≤ d.size_of_halfedges :=
      le_trans (Nat.find_min' hex ⟨hn0, hper0⟩) hle0
    refine ⟨Nat.find hex, hfind.1, hle, ?_⟩
    intro fuel hfuel
    have e := Vertex.degree_loop_eq hl w he (Nat.find hex) fuel he 0 hlive hmin hfind.2
      hfind.1 (by omega) (by omega)
    simp only [Vertex.degree, hv, Option.some_bind, hiso, Bool.false_eq_true, if_false, hinc]
    rw [e, Nat.zero_add]
  · cases hiso : r.is_isolated
    · right
      simp [Vertex.face_precondition, Vertex.incident_halfedges_precondition, hv, hiso]
    · left
      simp [Vertex.face_precondition, Vertex.incident_halfedges_precondition, hv, hiso]

theorem C17_vertex_degree_witness :
    ((_construct_empty_arrangement Unit Unit).dcel.size_of_halfedges < 2 ^ 64 ∧
      (_construct_empty_arrangement Unit Unit).dcel.vertices.get 0
        = some ⟨none, .MINUS_INFINITY, .MINUS_INFINITY, .halfedge (some 6)⟩) ∧
    ∃ n, 1 ≤ n ∧ n ≤ (_construct_empty_arrangement Unit Unit).dcel.size_of_halfedges ∧
      ∀ fuel, (_construct_empty_arrangement Unit Unit).dcel.size_of_halfedges ≤ fuel →
        Vertex.degree (_construct_empty_arrangement Unit Unit).dcel 64 fuel 0 = some n :=
  ⟨⟨by decide, by decide⟩,
    (C17_vertex_degree (_construct_empty_arrangement Unit Unit).dcel Dcel.Reachable.empty 64
      (by decide) 0 ⟨none, .MINUS_INFINITY, .MINUS_INFINITY, .halfedge (some 6)⟩
      (by decide)).2.1 rfl 6 rfl (by decide)⟩

/-! ## The isolated vertex inserted into the empty arrangement -/

/-- Claim C19: starting from the empty arrangement, `insert_in_face_interior (p, f)` with
`p = (0,0)` and `f = unbounded_face ()` gives a state with one vertex and one isolated
vertex, no edge and one face as before; the returned vertex owns `p`, is isolated, has
degree 0 and its face is the unbounded face it was inserted into, which lists it among
its isolated vertices and is still the unbounded face. -/
theorem C19_insert_isolated_vertex (w : Nat) (hw : 3 ≤ w) :
    ∃ arr v f, insert_origin_in_empty = some (arr, v) ∧
      (_construct_empty_arrangement (Int × Int) Unit).unbounded_face = some f ∧
      arr.number_of_vertices w = 1 ∧
      arr.number_of_isolated_vertices = 1 ∧
      arr.number_of_edges w = 0 ∧
      arr.number_of_faces w = 1 ∧
      (_construct_empty_arrangement (Int × Int) Unit).number_of_faces w = 1 ∧
      (arr.dcel.vertices.get v).map (fun r => r.p_pt) = some (some (0, 0)) ∧
      arr.vertices.map (fun e => e.1) = [v] ∧
      Vertex.face_precondition arr.dcel v = some true ∧
      (∀ fuel, Vertex.degree arr.dcel w fuel v = some 0) ∧
      Vertex.face arr.dcel v = some f ∧
      (arr.dcel.faces.get f).map (fun r => r.isolated_vertices) = some [v] ∧
      arr.unbounded_face = some f := by
  have h8 : 8 ≤ 2 ^ w := by
    calc 8 = 2 ^ 3 := by norm_num
      _ ≤ 2 ^ w := Nat.pow_le_pow_right (by norm_num) hw
  refine ⟨((_construct_empty_arrangement (Int × Int) Unit).insert_in_face_interior (0, 0) 1).1,
    4, 1, by decide, by decide, ?_, by decide, ?_, ?_, ?_, by decide, by decide, by decide,
    ?_, by decide, by decide, by decide⟩
  · have e : Arrangement_2.number_of_vertices w
        ((_construct_empty_arrangement (Int × Int) Unit).insert_in_face_interior (0, 0) 1).1
        = Size_sub w 5 4 := rfl
    rw [e, Size_sub_of_le w 5 4 (by norm_num) (by omega)]
  · have e : Arrangement_2.number_of_edges w
        ((_construct_empty_arrangement (Int × Int) Unit).insert_in_face_interior (0, 0) 1).1
        = Size_sub w 4 4 := rfl
    rw [e, Size_sub_self]
  · have e : Arrangement_2.number_of_faces w
        ((_construct_empty_arrangement (Int × Int) Unit).insert_in_face_interior (0, 0) 1).1
        = Size_sub w 2 1 := rfl
    rw [e, Size_sub_of_le w 2 1 (by norm_num) (by omega)]
  · have e : Arrangement_2.number_of_faces w (_construct_empty_arrangement (Int × Int) Unit)
        = Size_sub w 2 1 := rfl
    rw [e, Size_sub_of_le w 2 1 (by norm_num) (by omega)]
  · intro fuel
    rfl

/-- The isolated vertex of claim C19, with `Size` of 64 bits. -/
theorem C19_insert_isolated_vertex_witness :
    3 ≤ 64 ∧
    ∃ arr v f, insert_origin_in_empty = some (arr, v) ∧
      (_construct_empty_arrangement (Int × Int) Unit).unbounded_face = some f ∧
      arr.number_of_vertices 64 = 1 ∧
      arr.number_of_isolated_vertices = 1 ∧
      arr.number_of_edges 64 = 0 ∧
      arr.number_of_faces 64 = 1 ∧
      (_construct_empty_arrangement (Int × Int) Unit).number_of_faces 64 = 1 ∧
      (arr.dcel.vertices.get v).map (fun r => r.p_pt) = some (some (0, 0)) ∧
      arr.vertices.map (fun e => e.1) = [v] ∧
      Vertex.face_precondition arr.dcel v = some true ∧
      (∀ fuel, Vertex.degree arr.dcel 64 fuel v = some 0) ∧
      Vertex.face arr.dcel v = some f ∧
      (arr.dcel.faces.get f).map (fun r => r.isolated_vertices) = some [v] ∧
      arr.unbounded_face = some f :=
  ⟨by decide, C19_insert_isolated_vertex 64 (by decide)⟩

/-! ## The primitives of the store, record by record -/

theorem Arena.ext_get {α : Type} {s t : Arena α} (hl : s.length = t.length)
    (hg : ∀ i, s.get i = t.get i) : s = t := by
  apply List.ext_get? 
  intro i
  have h := hg i
  unfold Arena.get at h
  by_cases hi : i < s.length
  · have hi2 : i < t.length := hl ▸ hi
    rw [List.get?_eq_get hi, List.get?_eq_get hi2] at h ⊢
    simpa using h
  · rw [List.get?_eq_none.mpr (by omega), List.get?_eq_none.mpr (by omega)]

theorem Arena.modify_eq_self {α : Type} (s : Arena α) (i : Nat) (f : α → α)
    (h : ∀ a, s.get i = some a → f a = a) : s.modify i f = s := by
  apply Arena.ext_get (Arena.length_modify s i f)
  intro j
  rw [Arena.get_modify]
  by_cases hji : j = i
  · subst hji
    cases hj : s.get j with
    | none => rfl
    | some a => simp [h a hj]
  · simp [hji]

theorem Arena.size_append_none {α : Type} (s : Arena α) (k : Nat) :
    Arena.size (s ++ List.replicate k none) = s.size := by
  unfold Arena.size Arena.records
  rw [List.filterMap_append]
  have : List.filterMap id (List.replicate k (none : Option α)) = [] := by
    induction k with
    | zero => rfl
    | succ k ih => simp [List.replicate_succ, ih]
  rw [this, List.append_nil]

theorem Arena.get_append_none {α : Type} (s : Arena α) (k i : Nat) :
    Arena.get (s ++ List.replicate k none) i = s.get i := by
  unfold Arena.get
  by_cases hi : i < s.length
  · rw [List.get?_eq_getElem?, List.getElem?_append_left hi, List.get?_eq_getElem?]
  · have hs : s[i]? = none := List.getElem?_eq_none (by omega)
    rw [List.get?_eq_getElem?, List.get?_eq_getElem?, List.getElem?_append_right (by omega), hs]
    cases h : (List.replicate k (none : Option α))[i - s.length]? with
    | none => rfl
    | some a =>
      have := List.getElem?_mem h
      rw [List.mem_replicate] at this
      rw [this.2]
      rfl

theorem Arena.mem_records {α : Type} (s : Arena α) (i : Nat) (a : α) (h : s.get i = some a) :
    a ∈ s.records := by
  unfold Arena.records
  rw [List.mem_filterMap]
  refine ⟨some a, ?_, rfl⟩
  unfold Arena.get at h
  cases hg : s.get? i with
  | none => rw [hg] at h; cases h
  | some o =>
    rw [hg] at h
    have : o = some a := by simpa using h
    rw [← this]
    exact List.get?_mem hg

theorem Dcel.get_set_vertex {Point Curve : Type} (d : Dcel Point Curve) (h v x : Nat) :
    (d.set_vertex h v).halfedges.get x =
      (d.halfedges.get x).map (fun r => if x = h then { r with vertex := v } else r) := by
  simp only [Dcel.set_vertex, Arena.get_modify]
  cases d.halfedges.get x with
  | none => rfl
  | some y =>
    simp only [Option.map_some']
    split_ifs <;> rfl

theorem Dcel.get_set_component {Point Curve : Type} (d : Dcel Point Curve) (h : Nat)
    (c : Halfedge_component) (x : Nat) :
    (d.set_component h c).halfedges.get x =
      (d.halfedges.get x).map (fun r => if x = h then { r with comp := c } else r) := by
  simp only [Dcel.set_component, Arena.get_modify]
  cases d.halfedges.get x with
  | none => rfl
  | some y =>
    simp only [Option.map_some']
    split_ifs <;> rfl

theorem Dcel.get_set_curve {Point Curve : Type} (d : Dcel Point Curve) (h : Nat)
    (cv : Option Curve) {r : DHalfedge Curve} (hr : d.halfedges.get h = some r) (x : Nat) :
    (d.set_curve h cv).halfedges.get x =
      (d.halfedges.get x).map (fun y =>
        if x = h ∨ x = r.opposite then { y with p_cv := cv } else y) := by
  simp only [Dcel.set_curve, hr, Arena.get_modify]
  cases d.halfedges.get x with
  | none => rfl
  | some y =>
    simp only [Option.map_some', ite_apply, id]
    split_ifs <;> simp_all

theorem Dcel.get_splice {Point Curve : Type} (d : Dcel Point Curve) (a b : Nat)
    {ra rb : DHalfedge Curve} (ha : d.halfedges.get a = some ra)
    (hb : d.halfedges.get b = some rb) (x : Nat) :
    (d.splice a b).halfedges.get x =
      (d.halfedges.get x).map (fun r =>
        { r with
          next := if x = b then ra.next else if x = a then rb.next else r.next
          prev := if x = ra.next then b else if x = rb.next then a else r.prev }) := by
  simp only [Dcel.splice, ha, hb, Arena.get_modify]
  cases d.halfedges.get x with
  | none => rfl
  | some y =>
    simp only [Option.map_some', ite_apply, id]
    split_ifs <;> simp_all

theorem Dcel.halfedges_new_edge {Point Curve : Type} (d : Dcel Point Curve) (v1 v2 : Nat)
    (cv : Option Curve) (c : Halfedge_component) :
    (d.new_edge v1 v2 cv c).1.halfedges =
      d.halfedges ++ [some ⟨cv, d.halfedges.length + 1, d.halfedges.length + 1,
        d.halfedges.length + 1, v2, c⟩,
        some ⟨cv, d.halfedges.length, d.halfedges.length, d.halfedges.length, v1, c⟩] := by
  simp [Dcel.new_edge, Arena.alloc]

theorem Dcel.splice_frame {Point Curve : Type} (d : Dcel Point Curve) (a b : Nat) :
    (d.splice a b).vertices = d.vertices ∧ (d.splice a b).faces = d.faces ∧
      (d.splice a b).holes = d.holes ∧ (d.splice a b).iso_verts = d.iso_verts := by
  unfold Dcel.splice
  split
  · simp
  · simp

theorem Dcel.set_curve_frame {Point Curve : Type} (d : Dcel Point Curve) (h : Nat)
    (cv : Option Curve) :
    (d.set_curve h cv).vertices = d.vertices ∧ (d.set_curve h cv).faces = d.faces ∧
      (d.set_curve h cv).holes = d.holes ∧ (d.set_curve h cv).iso_verts = d.iso_verts := by
  unfold Dcel.set_curve
  split
  · simp
  · simp

theorem Dcel.delete_edge_frame {Point Curve : Type} (d : Dcel Point Curve) (h : Nat) :
    (d.delete_edge h).vertices = d.vertices ∧ (d.delete_edge h).faces = d.faces ∧
      (d.delete_edge h).holes = d.holes ∧ (d.delete_edge h).iso_verts = d.iso_verts := by
  unfold Dcel.delete_edge
  split
  · split
    · split_ifs <;> simp
    · simp
  · simp

theorem Dcel.length_splice {Point Curve : Type} (d : Dcel Point Curve) (a b : Nat) :
    (d.splice a b).halfedges.length = d.halfedges.length := by
  unfold Dcel.splice
  split
  · simp [Arena.length_modify]
  · rfl

theorem Dcel.eq_of_fields {Point Curve : Type} {d e : Dcel Point Curve}
    (h1 : d.vertices = e.vertices) (h2 : d.halfedges = e.halfedges) (h3 : d.faces = e.faces)
    (h4 : d.holes = e.holes) (h5 : d.iso_verts = e.iso_verts) : d = e := by
  cases d; cases e; simp_all

/-- In a linked store a splice done twice is undone. -/
theorem Dcel.splice_splice {Point Curve : Type} (d : Dcel Point Curve) (hd : d.Linked)
    (a b : Nat) : (d.splice a b).splice a b = d := by
  cases ha : d.halfedges.get a with
  | none => simp [Dcel.splice, ha]
  | some ra =>
    cases hb : d.halfedges.get b with
    | none => simp [Dcel.splice, ha, hb]
    | some rb =>
      have f1 := Dcel.splice_frame d a b
      have f2 := Dcel.splice_frame (d.splice a b) a b
      refine Dcel.eq_of_fields (f2.1.trans f1.1) ?_ (f2.2.1.trans f1.2.1)
        (f2.2.2.1.trans f1.2.2.1) (f2.2.2.2.trans f1.2.2.2)
      have ga := Dcel.get_splice d a b ha hb a
      have gb := Dcel.get_splice d a b ha hb b
      rw [ha] at ga
      rw [hb] at gb
      simp only [Option.map_some'] at ga gb
      have hlen2 : ((d.splice a b).splice a b).halfedges.length = d.halfedges.length :=
        (Dcel.length_splice _ a b).trans (Dcel.length_splice d a b)
      apply Arena.ext_get hlen2
      intro x
      rw [Dcel.get_splice _ a b ga gb x, Dcel.get_splice d a b ha hb x]
      cases hx : d.halfedges.get x with
      | none => rfl
      | some r =>
        have pa : x = ra.next → r.prev = a := by
          intro e
          have := hd.2.1 a x (Halfedge.next_eq_some.mpr ⟨ra, ha, e.symm⟩)
          obtain ⟨r', h1, h2⟩ := Halfedge.prev_eq_some.mp this
          rw [hx] at h1; cases h1; exact h2
        have pb : x = rb.next → r.prev = b := by
          intro e
          have := hd.2.1 b x (Halfedge.next_eq_some.mpr ⟨rb, hb, e.symm⟩)
          obtain ⟨r', h1, h2⟩ := Halfedge.prev_eq_some.mp this
          rw [hx] at h1; cases h1; exact h2
        have xa : x = a → ra.next = r.next := by
          intro e; subst e; rw [ha] at hx; cases hx; rfl
        have xb : x = b → rb.next = r.next := by
          intro e; subst e; rw [hb] at hx; cases hx; rfl
        have hab : a = b → ra.next = rb.next := by
          intro e; subst e; rw [ha] at hb; cases hb; rfl
        clear f1 f2 ga gb hlen2 hx ha hb
        simp only [Option.map_some', Option.some.injEq]
        rcases r with ⟨cv, op, pr, nx, vx, cm⟩
        simp only [DHalfedge.mk.injEq, true_and, and_true, if_true] at *
        constructor
        · by_cases e : a = b
          · have h := hab e
            rw [if_pos e]
            by_cases h1 : x = ra.next
            · rw [if_pos h1]
              have := pa h1
              omega
            · have h2 : ¬ x = rb.next := by rw [← h]; exact h1
              rw [if_neg h1, if_neg h1, if_neg h1, if_neg h2]
          · rw [if_neg e]
            by_cases h2 : x = rb.next
            · rw [if_pos h2]
              exact (pb h2).symm
            · rw [if_neg h2]
              by_cases h1 : x = ra.next
              · rw [if_pos h1]
                exact (pa h1).symm
              · rw [if_neg h1, if_neg h1, if_neg h2]
        · by_cases h1 : x = b
          · have h3 := xb h1
            by_cases e : a = b
            · rw [if_pos h1, if_pos e, hab e, h3]
            · rw [if_pos h1, if_neg e, h3]
          · by_cases h2 : x = a
            · rw [if_neg h1, if_pos h2, xa h2]
            · rw [if_neg h1, if_neg h2, if_neg h1, if_neg h2]

/-! ## What the primitives leave alone -/

theorem Dcel.splice_of_dead {Point Curve : Type} (d : Dcel Point Curve) (a b : Nat)
    (h : d.halfedges.get a = none ∨ d.halfedges.get b = none) : d.splice a b = d := by
  unfold Dcel.splice
  rcases h with h | h
  · rw [h]
  · rw [h]
    cases d.halfedges.get a <;> rfl

theorem Halfedge.twin_splice {Point Curve : Type} (d : Dcel Point Curve) (a b x : Nat) :
    Halfedge.twin (d.splice a b) x = Halfedge.twin d x := by
  cases ha : d.halfedges.get a with
  | none => rw [Dcel.splice_of_dead d a b (Or.inl ha)]
  | some ra =>
    cases hb : d.halfedges.get b with
    | none => rw [Dcel.splice_of_dead d a b (Or.inr hb)]
    | some rb =>
      unfold Halfedge.twin
      rw [Dcel.get_splice d a b ha hb]
      cases d.halfedges.get x <;> rfl

theorem Halfedge.target_splice {Point Curve : Type} (d : Dcel Point Curve) (a b x : Nat) :
    Halfedge.target (d.splice a b) x = Halfedge.target d x := by
  cases ha : d.halfedges.get a with
  | none => rw [Dcel.splice_of_dead d a b (Or.inl ha)]
  | some ra =>
    cases hb : d.halfedges.get b with
    | none => rw [Dcel.splice_of_dead d a b (Or.inr hb)]
    | some rb =>
      unfold Halfedge.target
      rw [Dcel.get_splice d a b ha hb]
      cases d.halfedges.get x <;> rfl

theorem Halfedge.curve_splice {Point Curve : Type} (d : Dcel Point Curve) (a b x : Nat) :
    Halfedge.curve (d.splice a b) x = Halfedge.curve d x := by
  cases ha : d.halfedges.get a with
  | none => rw [Dcel.splice_of_dead d a b (Or.inl ha)]
  | some ra =>
    cases hb : d.halfedges.get b with
    | none => rw [Dcel.splice_of_dead d a b (Or.inr hb)]
    | some rb =>
      unfold Halfedge.curve
      rw [Dcel.get_splice d a b ha hb]
      cases d.halfedges.get x <;> rfl

/-- The successors after a splice of two live halfedges: those of the two are
exchanged. -/
theorem Halfedge.next_splice {Point Curve : Type} (d : Dcel Point Curve) (a b x : Nat)
    (ha : (d.halfedges.get a).isSome) (hb : (d.halfedges.get b).isSome) :
    Halfedge.next (d.splice a b) x =
      if x = b then Halfedge.next d a else if x = a then Halfedge.next d b
      else Halfedge.next d x := by
  obtain ⟨ra, ha⟩ := Option.isSome_iff_exists.mp ha
  obtain ⟨rb, hb⟩ := Option.isSome_iff_exists.mp hb
  unfold Halfedge.next
  rw [Dcel.get_splice d a b ha hb]
  by_cases h1 : x = b
  · subst h1
    simp [ha, hb]
  · by_cases h2 : x = a
    · subst h2
      simp [ha, hb, h1]
    · cases d.halfedges.get x <;> simp [h1, h2]

theorem Halfedge.twin_set_vertex {Point Curve : Type} (d : Dcel Point Curve) (h v x : Nat) :
    Halfedge.twin (d.set_vertex h v) x = Halfedge.twin d x := by
  unfold Halfedge.twin
  rw [Dcel.get_set_vertex]
  cases d.halfedges.get x with
  | none => rfl
  | some y =>
    simp only [Option.map_some']
    split_ifs <;> rfl

theorem Halfedge.next_set_vertex {Point Curve : Type} (d : Dcel Point Curve) (h v x : Nat) :
    Halfedge.next (d.set_vertex h v) x = Halfedge.next d x := by
  unfold Halfedge.next
  rw [Dcel.get_set_vertex]
  cases d.halfedges.get x with
  | none => rfl
  | some y =>
    simp only [Option.map_some']
    split_ifs <;> rfl

theorem Halfedge.curve_set_vertex {Point Curve : Type} (d : Dcel Point Curve) (h v x : Nat) :
    Halfedge.curve (d.set_vertex h v) x = Halfedge.curve d x := by
  unfold Halfedge.curve
  rw [Dcel.get_set_vertex]
  cases d.halfedges.get x with
  | none => rfl
  | some y =>
    simp only [Option.map_some']
    split_ifs <;> rfl

theorem Halfedge.target_set_vertex {Point Curve : Type} (d : Dcel Point Curve) (h v x : Nat) :
    Halfedge.target (d.set_vertex h v) x =
      if x = h then (Halfedge.target d x).map (fun _ => v) else Halfedge.target d x := by
  unfold Halfedge.target
  rw [Dcel.get_set_vertex]
  cases d.halfedges.get x with
  | none => simp
  | some y =>
    simp only [Option.map_some']
    split_ifs <;> rfl

theorem Halfedge.twin_set_component {Point Curve : Type} (d : Dcel Point Curve) (h : Nat)
    (c : Halfedge_component) (x : Nat) :
    Halfedge.twin (d.set_component h c) x = Halfedge.twin d x := by
  unfold Halfedge.twin
  rw [Dcel.get_set_component]
  cases d.halfedges.get x with
  | none => rfl
  | some y =>
    simp only [Option.map_some']
    split_ifs <;> rfl

theorem Halfedge.target_set_component {Point Curve : Type} (d : Dcel Point Curve) (h : Nat)
    (c : Halfedge_component) (x : Nat) :
    Halfedge.target (d.set_component h c) x = Halfedge.target d x := by
  unfold Halfedge.target
  rw [Dcel.get_set_component]
  cases d.halfedges.get x with
  | none => rfl
  | some y =>
    simp only [Option.map_some']
    split_ifs <;> rfl

theorem Halfedge.next_set_component {Point Curve : Type} (d : Dcel Point Curve) (h : Nat)
    (c : Halfedge_component) (x : Nat) :
    Halfedge.next (d.set_component h c) x = Halfedge.next d x := by
  unfold Halfedge.next
  rw [Dcel.get_set_component]
  cases d.halfedges.get x with
  | none => rfl
  | some y =>
    simp only [Option.map_some']
    split_ifs <;> rfl

theorem Halfedge.curve_set_component {Point Curve : Type} (d : Dcel Point Curve) (h : Nat)
    (c : Halfedge_component) (x : Nat) :
    Halfedge.curve (d.set_component h c) x = Halfedge.curve d x := by
  unfold Halfedge.curve
  rw [Dcel.get_set_component]
  cases d.halfedges.get x with
  | none => rfl
  | some y =>
    simp only [Option.map_some']
    split_ifs <;> rfl

theorem Dcel.set_curve_of_dead {Point Curve : Type} (d : Dcel Point Curve) (h : Nat)
    (cv : Option Curve) (hh : d.halfedges.get h = none) : d.set_curve h cv = d := by
  unfold Dcel.set_curve
  rw [hh]

theorem Halfedge.twin_set_curve {Point Curve : Type} (d : Dcel Point Curve) (h : Nat)
    (cv : Option Curve) (x : Nat) :
    Halfedge.twin (d.set_curve h cv) x = Halfedge.twin d x := by
  cases hh : d.halfedges.get h with
  | none => rw [Dcel.set_curve_of_dead d h cv hh]
  | some r =>
    unfold Halfedge.twin
    rw [Dcel.get_set_curve d h cv hh]
    cases d.halfedges.get x with
  | none => rfl
  | some y =>
    simp only [Option.map_some']
    split_ifs <;> rfl

theorem Halfedge.target_set_curve {Point Curve : Type} (d : Dcel Point Curve) (h : Nat)
    (cv : Option Curve) (x : Nat) :
    Halfedge.target (d.set_curve h cv) x = Halfedge.target d x := by
  cases hh : d.halfedges.get h with
  | none => rw [Dcel.set_curve_of_dead d h cv hh]
  | some r =>
    unfold Halfedge.target
    rw [Dcel.get_set_curve d h cv hh]
    cases d.halfedges.get x with
  | none => rfl
  | some y =>
    simp only [Option.map_some']
    split_ifs <;> rfl

theorem Halfedge.next_set_curve {Point Curve : Type} (d : Dcel Point Curve) (h : Nat)
    (cv : Option Curve) (x : Nat) :
    Halfedge.next (d.set_curve h cv) x = Halfedge.next d x := by
  cases hh : d.halfedges.get h with
  | none => rw [Dcel.set_curve_of_dead d h cv hh]
  | some r =>
    unfold Halfedge.next
    rw [Dcel.get_set_curve d h cv hh]
    cases d.halfedges.get x with
  | none => rfl
  | some y =>
    simp only [Option.map_some']
    split_ifs <;> rfl

theorem Dcel.length_set_curve {Point Curve : Type} (d : Dcel Point Curve) (h : Nat)
    (cv : Option Curve) : (d.set_curve h cv).halfedges.length = d.halfedges.length := by
  unfold Dcel.set_curve
  split
  · simp [Arena.length_modify]
  · rfl

theorem Dcel.length_set_vertex {Point Curve : Type} (d : Dcel Point Curve) (h v : Nat) :
    (d.set_vertex h v).halfedges.length = d.halfedges.length := by
  simp [Dcel.set_vertex, Arena.length_modify]

theorem Dcel.length_set_component {Point Curve : Type} (d : Dcel Point Curve) (h : Nat)
    (c : Halfedge_component) :
    (d.set_component h c).halfedges.length = d.halfedges.length := by
  simp [Dcel.set_component, Arena.length_modify]

/-- The records after the creation of a twin pair: the old ones and the two new ones. -/
theorem Dcel.get_new_edge {Point Curve : Type} (d : Dcel Point Curve) (v1 v2 : Nat)
    (cv : Option Curve) (c : Halfedge_component) (x : Nat) :
    (d.new_edge v1 v2 cv c).1.halfedges.get x =
      if x = d.halfedges.length then
        some ⟨cv, d.halfedges.length + 1, d.halfedges.length + 1, d.halfedges.length + 1, v2, c⟩
      else if x = d.halfedges.length + 1 then
        some ⟨cv, d.halfedges.length, d.halfedges.length, d.halfedges.length, v1, c⟩
      else d.halfedges.get x := by
  simp only [Dcel.new_edge, Arena.get_alloc, Arena.length_alloc]
  split_ifs <;> first | rfl | omega

/-! ## The setters done twice -/

theorem Dcel.set_vertex_eq_self {Point Curve : Type} (d : Dcel Point Curve) (h v : Nat)
    (hv : ∀ r, d.halfedges.get h = some r → r.vertex = v) : d.set_vertex h v = d := by
  unfold Dcel.set_vertex
  rw [Arena.modify_eq_self]
  intro a ha
  have := hv a ha
  cases a
  simp_all

theorem Dcel.set_vertex_set_vertex {Point Curve : Type} (d : Dcel Point Curve) (h v u : Nat) :
    (d.set_vertex h v).set_vertex h u = d.set_vertex h u := by
  refine Dcel.eq_of_fields rfl ?_ rfl rfl rfl
  apply Arena.ext_get
  · rw [Dcel.length_set_vertex, Dcel.length_set_vertex, Dcel.length_set_vertex]
  · intro x
    rw [Dcel.get_set_vertex, Dcel.get_set_vertex, Dcel.get_set_vertex]
    cases d.halfedges.get x with
  | none => rfl
  | some y =>
    simp only [Option.map_some']
    split_ifs <;> rfl

/-! ## The primitives read the halfedge records only -/

theorem Dcel.splice_congr {Point Curve : Type} {d e : Dcel Point Curve}
    (h : d.halfedges = e.halfedges) (a b : Nat) :
    (d.splice a b).halfedges = (e.splice a b).halfedges := by
  unfold Dcel.splice
  rw [h]
  split
  · rfl
  · exact h

theorem Dcel.set_vertex_congr {Point Curve : Type} {d e : Dcel Point Curve}
    (h : d.halfedges = e.halfedges) (x v : Nat) :
    (d.set_vertex x v).halfedges = (e.set_vertex x v).halfedges := by
  unfold Dcel.set_vertex
  rw [h]

theorem Dcel.set_curve_congr {Point Curve : Type} {d e : Dcel Point Curve}
    (h : d.halfedges = e.halfedges) (x : Nat) (cv : Option Curve) :
    (d.set_curve x cv).halfedges = (e.set_curve x cv).halfedges := by
  unfold Dcel.set_curve
  rw [h]
  split
  · rfl
  · exact h

theorem Dcel.delete_edge_congr {Point Curve : Type} {d e : Dcel Point Curve}
    (h : d.halfedges = e.halfedges) (x : Nat) :
    (d.delete_edge x).halfedges = (e.delete_edge x).halfedges := by
  unfold Dcel.delete_edge
  rw [h]
  split
  · split
    · split_ifs
      · rfl
      · exact h
    · exact h
  · exact h

theorem prev_or_self_congr {Point Curve : Type} {d e : Dcel Point Curve}
    (h : d.halfedges = e.halfedges) (x : Nat) : prev_or_self d x = prev_or_self e x := by
  unfold prev_or_self Halfedge.prev
  rw [h]

theorem Dcel.merge_links_congr {Point Curve : Type} {d e : Dcel Point Curve}
    (h : d.halfedges = e.halfedges) (he1 he3 he4 u : Nat) (cv : Curve) :
    (d.merge_links he1 he3 he4 u cv).halfedges = (e.merge_links he1 he3 he4 u cv).halfedges := by
  unfold Dcel.merge_links
  have h2 := Dcel.splice_congr (Dcel.set_vertex_congr h he1 u) he1 he3
  simp only
  rw [prev_or_self_congr h2 he4]
  exact Dcel.set_curve_congr (Dcel.delete_edge_congr
    (Dcel.splice_congr (Dcel.splice_congr h2 _ he4) he3 he4) he3) he1 (some cv)

theorem Dcel.merge_links_frame {Point Curve : Type} (d : Dcel Point Curve)
    (he1 he3 he4 u : Nat) (cv : Curve) :
    (d.merge_links he1 he3 he4 u cv).holes = d.holes ∧
      (d.merge_links he1 he3 he4 u cv).iso_verts = d.iso_verts := by
  unfold Dcel.merge_links
  simp only [(Dcel.set_curve_frame _ _ _).2.2.1, (Dcel.set_curve_frame _ _ _).2.2.2,
    (Dcel.delete_edge_frame _ _).2.2.1, (Dcel.delete_edge_frame _ _).2.2.2,
    (Dcel.splice_frame _ _ _).2.2.1, (Dcel.splice_frame _ _ _).2.2.2]
  exact ⟨rfl, rfl⟩

theorem Dcel.split_links_frame {Point Curve : Type} (d : Dcel Point Curve)
    (he1 he2 v u : Nat) (cv1 cv2 : Curve) (c1 c2 : Halfedge_component) :
    (d.split_links he1 he2 v u cv1 cv2 c1 c2).1.vertices = d.vertices ∧
      (d.split_links he1 he2 v u cv1 cv2 c1 c2).1.faces = d.faces ∧
      (d.split_links he1 he2 v u cv1 cv2 c1 c2).1.holes = d.holes ∧
      (d.split_links he1 he2 v u cv1 cv2 c1 c2).1.iso_verts = d.iso_verts := by
  unfold Dcel.split_links
  simp only [Dcel.set_vertex, (Dcel.splice_frame _ _ _).1, (Dcel.splice_frame _ _ _).2.1,
    (Dcel.splice_frame _ _ _).2.2.1, (Dcel.splice_frame _ _ _).2.2.2, Dcel.set_component,
    Dcel.new_edge, (Dcel.set_curve_frame _ _ _).1, (Dcel.set_curve_frame _ _ _).2.1,
    (Dcel.set_curve_frame _ _ _).2.2.1, (Dcel.set_curve_frame _ _ _).2.2.2]
  exact ⟨trivial, trivial, trivial, trivial⟩

/-! ## The halfedges after a split, and after the merge that follows -/

theorem Arena.get_eq_none_of_le {α : Type} (s : Arena α) (i : Nat) (h : s.length ≤ i) :
    s.get i = none := by
  cases hg : s.get i with
  | none => rfl
  | some a => have := Arena.get_lt hg; omega

theorem Halfedge.live_of_twin {Point Curve : Type} {d : Dcel Point Curve} {x t : Nat}
    (h : Halfedge.twin d x = some t) : (d.halfedges.get x).isSome := by
  rw [← Halfedge.twin_isSome, h]; rfl

/-- The halfedge part of a split, and of the merge of the two pieces: the first piece
`he1` ends at the split vertex and is followed by the second piece, the new halfedge,
which ends at the old target; the twin of the second piece is followed by the twin of
the first; and the merge of the two gives back the halfedges of the start, up to the
curve of the edge and two empty slots. -/
theorem Dcel.split_links_spec {Point Curve : Type} (d : Dcel Point Curve) (hd : d.Linked)
    (he1 v : Nat) (cv1 cv2 : Curve) (c1 c2 : Halfedge_component) {r1 r2 : DHalfedge Curve}
    (h1 : d.halfedges.get he1 = some r1) (h2 : d.halfedges.get r1.opposite = some r2)
    (hne : r1.opposite ≠ he1) (S : Dcel Point Curve × Nat)
    (hS : S = d.split_links he1 r1.opposite v r1.vertex cv1 cv2 c1 c2) :
    S.2 = d.halfedges.length ∧ S.1.Linked ∧
      S.1.halfedges.length = d.halfedges.length + 2 ∧
      Halfedge.twin S.1 he1 = some r1.opposite ∧
      Halfedge.twin S.1 r1.opposite = some he1 ∧
      Halfedge.twin S.1 S.2 = some (S.2 + 1) ∧
      Halfedge.twin S.1 (S.2 + 1) = some S.2 ∧
      Halfedge.target S.1 he1 = some v ∧
      Halfedge.target S.1 r1.opposite = some r2.vertex ∧
      Halfedge.target S.1 S.2 = some r1.vertex ∧
      Halfedge.target S.1 (S.2 + 1) = some v ∧
      Halfedge.next S.1 he1 = some S.2 ∧
      Halfedge.next S.1 (S.2 + 1) = some r1.opposite ∧
      Halfedge.curve S.1 he1 = some (some cv1) ∧
      Halfedge.curve S.1 S.2 = some (some cv2) ∧
      ∀ cv : Curve, (S.1.merge_links he1 S.2 (S.2 + 1) r1.vertex cv).halfedges =
        (d.set_curve he1 (some cv)).halfedges ++ [none, none] := by
  have hlt1 : he1 < d.halfedges.length := Arena.get_lt h1
  have hlt2 : r1.opposite < d.halfedges.length := Arena.get_lt h2
  have ht1 : Halfedge.twin d he1 = some r1.opposite := Halfedge.twin_eq_some.mpr ⟨r1, h1, rfl⟩
  have ht2 : Halfedge.twin d r1.opposite = some he1 := (hd.1 he1 _ ht1).1
  -- the states of the split, one primitive after the other
  obtain ⟨A0, hA0⟩ : ∃ A0, A0 = d.set_curve he1 (some cv1) := ⟨_, rfl⟩
  obtain ⟨n, hn⟩ : ∃ n, n = A0.halfedges.length := ⟨_, rfl⟩
  have hnd : n = d.halfedges.length := by rw [hn, hA0, Dcel.length_set_curve]
  obtain ⟨A1, hA1⟩ : ∃ A1, A1 = (A0.new_edge v r1.vertex (some cv2) c1).1 := ⟨_, rfl⟩
  obtain ⟨A2, hA2⟩ : ∃ A2, A2 = A1.set_component (n + 1) c2 := ⟨_, rfl⟩
  obtain ⟨A3, hA3⟩ : ∃ A3, A3 = A2.splice n (n + 1) := ⟨_, rfl⟩
  obtain ⟨p, hp⟩ : ∃ p, p = prev_or_self A3 r1.opposite := ⟨_, rfl⟩
  obtain ⟨A4, hA4⟩ : ∃ A4, A4 = A3.splice p (n + 1) := ⟨_, rfl⟩
  obtain ⟨A5, hA5⟩ : ∃ A5, A5 = A4.splice he1 n := ⟨_, rfl⟩
  obtain ⟨A6, hA6⟩ : ∃ A6, A6 = A5.set_vertex he1 v := ⟨_, rfl⟩
  have hS1 : S.1 = A6 := by
    rw [hS, hA6, hA5, hA4, hp, hA3, hA2, hA1, hn, hA0]
    rfl
  have hS2 : S.2 = n := by
    rw [hS, hn, hA0]
    rfl
  have L0 : A0.Linked := hA0 ▸ Dcel.linked_set_curve d he1 _ hd
  have L1 : A1.Linked := hA1 ▸ Dcel.linked_new_edge A0 _ _ _ _ L0
  have L2 : A2.Linked := hA2 ▸ Dcel.linked_set_component A1 _ _ L1
  have L3 : A3.Linked := hA3 ▸ Dcel.linked_splice A2 _ _ L2
  have L4 : A4.Linked := hA4 ▸ Dcel.linked_splice A3 _ _ L3
  have L5 : A5.Linked := hA5 ▸ Dcel.linked_splice A4 _ _ L4
  have L6 : A6.Linked := hA6 ▸ Dcel.linked_set_vertex A5 _ _ L5
  -- the records of the state with the new pair
  have g1 : ∀ x, A1.halfedges.get x =
      if x = n then some ⟨some cv2, n + 1, n + 1, n + 1, r1.vertex, c1⟩
      else if x = n + 1 then some ⟨some cv2, n, n, n, v, c1⟩
      else A0.halfedges.get x := by
    intro x
    rw [hA1, hn]
    exact Dcel.get_new_edge A0 _ _ _ _ x
  have g0 : ∀ x, A0.halfedges.get x = (d.halfedges.get x).map (fun y =>
      if x = he1 ∨ x = r1.opposite then { y with p_cv := some cv1 } else y) := by
    intro x
    rw [hA0]
    exact Dcel.get_set_curve d he1 _ h1 x
  -- the twins
  have tw6 : ∀ x, Halfedge.twin A6 x = Halfedge.twin A1 x := by
    intro x
    rw [hA6, hA5, hA4, hA3, hA2]
    simp only [Halfedge.twin_set_vertex, Halfedge.twin_splice, Halfedge.twin_set_component]
  have tw1 : ∀ x, x < n → Halfedge.twin A1 x = Halfedge.twin d x := by
    intro x hx
    have : Halfedge.twin A1 x = Halfedge.twin A0 x := by
      unfold Halfedge.twin
      rw [g1, if_neg (by omega), if_neg (by omega)]
    rw [this, hA0, Halfedge.twin_set_curve]
  have tw1n : Halfedge.twin A1 n = some (n + 1) := by
    unfold Halfedge.twin
    rw [g1, if_pos rfl]
    rfl
  have tw1m : Halfedge.twin A1 (n + 1) = some n := by
    unfold Halfedge.twin
    rw [g1, if_neg (by omega), if_pos rfl]
    rfl
  -- the targets
  have tg5 : ∀ x, Halfedge.target A5 x = Halfedge.target A1 x := by
    intro x
    rw [hA5, hA4, hA3, hA2]
    simp only [Halfedge.target_splice, Halfedge.target_set_component]
  have tg1 : ∀ x, x < n → Halfedge.target A1 x = Halfedge.target d x := by
    intro x hx
    have : Halfedge.target A1 x = Halfedge.target A0 x := by
      unfold Halfedge.target
      rw [g1, if_neg (by omega), if_neg (by omega)]
    rw [this, hA0, Halfedge.target_set_curve]
  have tg1n : Halfedge.target A1 n = some r1.vertex := by
    unfold Halfedge.target
    rw [g1, if_pos rfl]
    rfl
  have tg1m : Halfedge.target A1 (n + 1) = some v := by
    unfold Halfedge.target
    rw [g1, if_neg (by omega), if_pos rfl]
    rfl
  have tgd1 : Halfedge.target d he1 = some r1.vertex := by
    unfold Halfedge.target; rw [h1]; rfl
  have tgd2 : Halfedge.target d r1.opposite = some r2.vertex := by
    unfold Halfedge.target; rw [h2]; rfl
  -- the successors
  have nx2 : ∀ x, Halfedge.next A2 x = Halfedge.next A1 x := by
    intro x
    rw [hA2, Halfedge.next_set_component]
  have nx1n : Halfedge.next A1 n = some (n + 1) := by
    unfold Halfedge.next
    rw [g1, if_pos rfl]
    rfl
  have nx1m : Halfedge.next A1 (n + 1) = some n := by
    unfold Halfedge.next
    rw [g1, if_neg (by omega), if_pos rfl]
    rfl
  have tw2 : ∀ x, Halfedge.twin A2 x = Halfedge.twin A1 x := by
    intro x; rw [hA2, Halfedge.twin_set_component]
  have tw3 : ∀ x, Halfedge.twin A3 x = Halfedge.twin A1 x := by
    intro x; rw [hA3, Halfedge.twin_splice, tw2]
  have tw4 : ∀ x, Halfedge.twin A4 x = Halfedge.twin A1 x := by
    intro x; rw [hA4, Halfedge.twin_splice, tw3]
  have lv2n : (A2.halfedges.get n).isSome := Halfedge.live_of_twin ((tw2 n).trans tw1n)
  have lv2m : (A2.halfedges.get (n + 1)).isSome := Halfedge.live_of_twin ((tw2 _).trans tw1m)
  have nx3 : ∀ x, Halfedge.next A3 x =
      if x = n + 1 then some (n + 1) else if x = n then some n else Halfedge.next A1 x := by
    intro x
    rw [hA3, Halfedge.next_splice A2 n (n + 1) x lv2n lv2m, nx2, nx2, nx2, nx1n, nx1m]
  have lv3m : (A3.halfedges.get (n + 1)).isSome := Halfedge.live_of_twin ((tw3 _).trans tw1m)
  have lv3o : (A3.halfedges.get r1.opposite).isSome :=
    Halfedge.live_of_twin ((tw3 _).trans ((tw1 _ (by omega)).trans ht2))
  have hpl := prev_or_self_live L3 r1.opposite lv3o
  rw [← hp] at hpl
  have nx3p : Halfedge.next A3 p = some r1.opposite := L3.2.2 _ _ hpl.1
  have hpn : p ≠ n := by
    intro e
    rw [e, nx3, if_neg (by omega), if_pos rfl] at nx3p
    have := Option.some.inj nx3p
    omega
  have hpm : p ≠ n + 1 := by
    intro e
    rw [e, nx3, if_pos rfl] at nx3p
    have := Option.some.inj nx3p
    omega
  have nx4 : ∀ x, Halfedge.next A4 x =
      if x = n + 1 then some r1.opposite else if x = p then some (n + 1)
      else Halfedge.next A3 x := by
    intro x
    rw [hA4, Halfedge.next_splice A3 p (n + 1) x hpl.2 lv3m, nx3p, nx3 (n + 1), if_pos rfl]
  have pv4 : prev_or_self A4 (n + 1) = p := by
    have h : Halfedge.next A4 p = some (n + 1) := by
      rw [nx4, if_neg hpm, if_pos rfl]
    have := L4.2.1 _ _ h
    unfold prev_or_self
    rw [this]
    rfl
  have lv4n : (A4.halfedges.get n).isSome := Halfedge.live_of_twin ((tw4 _).trans tw1n)
  have lv4e : (A4.halfedges.get he1).isSome :=
    Halfedge.live_of_twin ((tw4 _).trans ((tw1 _ (by omega)).trans ht1))
  have nx4n : Halfedge.next A4 n = some n := by
    rw [nx4, if_neg (by omega), if_neg (Ne.symm hpn), nx3, if_neg (by omega), if_pos rfl]
  have nx5 : ∀ x, Halfedge.next A5 x =
      if x = n then Halfedge.next A4 he1 else if x = he1 then some n
      else Halfedge.next A4 x := by
    intro x
    rw [hA5, Halfedge.next_splice A4 he1 n x lv4e lv4n, nx4n]
  have nx6 : ∀ x, Halfedge.next A6 x = Halfedge.next A5 x := by
    intro x; rw [hA6, Halfedge.next_set_vertex]
  have tg5e : Halfedge.target A5 he1 = some r1.vertex := by
    rw [tg5, tg1 _ (by omega), tgd1]
  have tg6 : ∀ x, x ≠ he1 → Halfedge.target A6 x = Halfedge.target A1 x := by
    intro x hx
    rw [hA6, Halfedge.target_set_vertex, if_neg hx, tg5]
  -- the curves
  have cv6 : ∀ x, Halfedge.curve A6 x = Halfedge.curve A1 x := by
    intro x
    rw [hA6, hA5, hA4, hA3, hA2]
    simp only [Halfedge.curve_set_vertex, Halfedge.curve_splice, Halfedge.curve_set_component]
  rw [hS1, hS2]
  refine ⟨hnd, L6, ?_, ?_, ?_, ?_, ?_, ?_, ?_, ?_, ?_, ?_, ?_, ?_, ?_, ?_⟩
  · rw [hA6, Dcel.length_set_vertex, hA5, Dcel.length_splice, hA4, Dcel.length_splice, hA3,
      Dcel.length_splice, hA2, Dcel.length_set_component, hA1, Dcel.halfedges_new_edge,
      List.length_append, ← hn, hnd]
    rfl
  · rw [tw6, tw1 _ (by omega), ht1]
  · rw [tw6, tw1 _ (by omega), ht2]
  · rw [tw6, tw1n]
  · rw [tw6, tw1m]
  · rw [hA6, Halfedge.target_set_vertex, if_pos rfl, tg5e]
    rfl
  · rw [tg6 _ hne, tg1 _ (by omega), tgd2]
  · rw [tg6 _ (by omega), tg1n]
  · rw [tg6 _ (by omega), tg1m]
  · rw [nx6, nx5, if_neg (by omega), if_pos rfl]
  · rw [nx6, nx5, if_neg (by omega), if_neg (by omega), nx4, if_pos rfl]
  · rw [cv6]
    unfold Halfedge.curve
    rw [g1, if_neg (by omega), if_neg (by omega), g0, h1]
    simp
  · rw [cv6]
    unfold Halfedge.curve
    rw [g1, if_pos rfl]
    rfl
  · intro cv
    unfold Dcel.merge_links
    -- the merge undoes the primitives of the split, last to first
    have e1 : A6.set_vertex he1 r1.vertex = A5 := by
      rw [hA6, Dcel.set_vertex_set_vertex]
      apply Dcel.set_vertex_eq_self
      intro r hr
      have := tg5e
      unfold Halfedge.target at this
      rw [hr] at this
      exact Option.some.inj this
    have e2 : A5.splice he1 n = A4 := by
      rw [hA5]
      exact Dcel.splice_splice A4 L4 he1 n
    have e3 : A4.splice p (n + 1) = A3 := by
      rw [hA4]
      exact Dcel.splice_splice A3 L3 p (n + 1)
    have e4 : A3.splice n (n + 1) = A2 := by
      rw [hA3]
      exact Dcel.splice_splice A2 L2 n (n + 1)
    simp only [e1, e2, pv4, e3, e4]
    -- the removal of the pair
    have g2 : ∀ x, A2.halfedges.get x =
        if x = n then some ⟨some cv2, n + 1, n + 1, n + 1, r1.vertex, c1⟩
        else if x = n + 1 then some ⟨some cv2, n, n, n, v, c2⟩
        else A0.halfedges.get x := by
      intro x
      rw [hA2, Dcel.get_set_component, g1]
      by_cases hx1 : x = n
      · simp [hx1]
      · by_cases hx2 : x = n + 1
        · simp [hx2]
        · simp only [if_neg hx1, if_neg hx2]
          cases A0.halfedges.get x <;> rfl
    have len2 : A2.halfedges.length = n + 2 := by
      rw [hA2, Dcel.length_set_component, hA1, Dcel.halfedges_new_edge, List.length_append,
        ← hn]
      rfl
    have e5 : (A2.delete_edge n).halfedges = A0.halfedges ++ List.replicate 2 none := by
      have gn := g2 n
      have gm := g2 (n + 1)
      rw [if_pos rfl] at gn
      rw [if_neg (by omega), if_pos rfl] at gm
      unfold Dcel.delete_edge
      simp only [gn, gm, and_self, if_true]
      apply Arena.ext_get
      · rw [Arena.length_free, Arena.length_free, len2, List.length_append,
          List.length_replicate, ← hn]
      · intro x
        rw [Arena.get_free, Arena.get_free, Arena.get_append_none, g2]
        by_cases hx1 : x = n
        · rw [if_neg (by omega), if_pos hx1, hx1, Arena.get_eq_none_of_le _ _ (by omega)]
        · by_cases hx2 : x = n + 1
          · rw [if_pos hx2, hx2, Arena.get_eq_none_of_le _ _ (by omega)]
          · rw [if_neg hx2, if_neg hx1, if_neg hx1, if_neg hx2]
    -- the curve of the edge that stays
    have h5 : (A2.delete_edge n).halfedges.get he1 = some { r1 with p_cv := some cv1 } := by
      rw [e5, Arena.get_append_none, g0, h1]
      simp
    have hrep : ([none, none] : List (Option (DHalfedge Curve))) = List.replicate 2 none := rfl
    rw [hrep]
    apply Arena.ext_get
    · rw [Dcel.length_set_curve, e5, List.length_append, List.length_append,
        Dcel.length_set_curve, ← hn, hnd]
    · intro x
      rw [Dcel.get_set_curve _ he1 _ h5 x, e5, Arena.get_append_none, Arena.get_append_none,
        g0, Dcel.get_set_curve d he1 _ h1 x]
      cases d.halfedges.get x with
      | none => rfl
      | some y =>
        simp only [Option.map_some']
        split_ifs <;> rfl

/-! ## The round trip of a split and a merge -/

theorem DFace.replace_halfedge_eq_self (f : DFace) (old new : Nat)
    (h1 : f.halfedge ≠ some old) (h2 : old ∉ f.holes) : f.replace_halfedge old new = f := by
  unfold DFace.replace_halfedge
  rw [if_neg h1]
  have : f.holes.map (fun x => if x = old then new else x) = f.holes := by
    conv_rhs => rw [← List.map_id f.holes]
    apply List.map_congr_left
    intro x hx
    have : x ≠ old := fun e => h2 (e ▸ hx)
    simp [this]
  rw [this]

/-- The split of an edge followed by the merge of the two pieces, in a linked store whose
vertex and face records store handles of the halfedge arena only: the split gives the
two pieces, and the merge gives back the state of the start with the supplied curve on
the edge, up to the empty slots of the split vertex and of the second piece. -/
theorem Arrangement_2.merge_split {Point Curve : Type} (arr : Arrangement_2 Point Curve)
    (hd : arr.dcel.Linked) (e : Nat) (p : Point) (cv1 cv2 cv : Curve)
    {r1 r2 : DHalfedge Curve} (h1 : arr.dcel.halfedges.get e = some r1)
    (h2 : arr.dcel.halfedges.get r1.opposite = some r2) (hne : r1.opposite ≠ e)
    (hV : ∀ u y h, arr.dcel.vertices.get u = some y → y.inc = .halfedge (some h) →
      h < arr.dcel.halfedges.length)
    (hF : ∀ f x, arr.dcel.faces.get f = some x →
      (∀ h, x.halfedge = some h → h < arr.dcel.halfedges.length) ∧
      ∀ h ∈ x.holes, h < arr.dcel.halfedges.length) :
    ∃ arr1, arr._split_edge e p cv1 cv2 = some (arr1, e) ∧
      arr1.dcel.halfedges.length = arr.dcel.halfedges.length + 2 ∧
      Halfedge.next arr1.dcel e = some arr.dcel.halfedges.length ∧
      Halfedge.target arr1.dcel e = some arr.dcel.vertices.length ∧
      Halfedge.source arr1.dcel e = some r2.vertex ∧
      Halfedge.source arr1.dcel arr.dcel.halfedges.length = some arr.dcel.vertices.length ∧
      Halfedge.target arr1.dcel arr.dcel.halfedges.length = some r1.vertex ∧
      Halfedge.curve arr1.dcel e = some (some cv1) ∧
      Halfedge.curve arr1.dcel arr.dcel.halfedges.length = some (some cv2) ∧
      (arr1.dcel.vertices.get arr.dcel.vertices.length).map (fun y => y.p_pt) = some (some p) ∧
      arr1.merge_edge e arr.dcel.halfedges.length cv =
        some ({ arr with dcel := { arr.dcel with
          vertices := arr.dcel.vertices ++ [none]
          halfedges := (arr.dcel.set_curve e (some cv)).halfedges ++ [none, none] } }, e) := by
  obtain ⟨d', hd'⟩ : ∃ d', d' = (arr._create_vertex p).1.dcel := ⟨_, rfl⟩
  have hh' : d'.halfedges = arr.dcel.halfedges := by rw [hd']; rfl
  have L' : d'.Linked := Dcel.linked_of_halfedges_eq hd hh'
  have h1' : d'.halfedges.get e = some r1 := by rw [hh']; exact h1
  have h2' : d'.halfedges.get r1.opposite = some r2 := by rw [hh']; exact h2
  obtain ⟨S, hS⟩ : ∃ S, S = d'.split_links e r1.opposite arr.dcel.vertices.length r1.vertex
    cv1 cv2 r1.comp r2.comp := ⟨_, rfl⟩
  obtain ⟨s1, s2, s3, s4, s5, s6, s7, s8, s9, s10, s11, s12, s13, s14, s15, s16⟩ :=
    Dcel.split_links_spec d' L' e arr.dcel.vertices.length cv1 cv2 r1.comp r2.comp h1' h2' hne
      S hS
  rw [hh'] at s1 s3
  rw [s1] at s6 s7 s10 s11 s12 s13 s15 s16
  have fr := Dcel.split_links_frame d' e r1.opposite arr.dcel.vertices.length r1.vertex
    cv1 cv2 r1.comp r2.comp
  rw [← hS] at fr
  obtain ⟨V1, hV1⟩ : ∃ V1 : Arena (DVertex Point), V1 =
      Arena.modify (Arena.modify S.1.vertices r1.vertex (fun x =>
        if x.inc = .halfedge (some e) then { x with inc := .halfedge (some S.2) } else x))
        arr.dcel.vertices.length (fun x => { x with inc := .halfedge (some (S.2 + 1)) }) :=
    ⟨_, rfl⟩
  obtain ⟨arr1, harr1⟩ : ∃ arr1 : Arrangement_2 Point Curve, arr1 =
      { (arr._create_vertex p).1 with dcel := { S.1 with vertices := V1 } } := ⟨_, rfl⟩
  have hsplit : arr._split_edge e p cv1 cv2 = some (arr1, e) := by
    have ha : (arr._create_vertex p).1.dcel.halfedges.get e = some r1 := h1
    have hb : (arr._create_vertex p).1.dcel.halfedges.get r1.opposite = some r2 := h2
    unfold Arrangement_2._split_edge Arrangement_2._split_edge_at_vertex
    simp only [ha, hb, Option.some_bind, Option.map_some']
    rw [harr1, hV1, hS, hd']
    rfl
  have hhe : arr1.dcel.halfedges = S.1.halfedges := by rw [harr1]
  have tw : ∀ x, Halfedge.twin arr1.dcel x = Halfedge.twin S.1 x := by
    intro x; unfold Halfedge.twin; rw [hhe]
  have tg : ∀ x, Halfedge.target arr1.dcel x = Halfedge.target S.1 x := by
    intro x; unfold Halfedge.target; rw [hhe]
  have nx : ∀ x, Halfedge.next arr1.dcel x = Halfedge.next S.1 x := by
    intro x; unfold Halfedge.next; rw [hhe]
  have cu : ∀ x, Halfedge.curve arr1.dcel x = Halfedge.curve S.1 x := by
    intro x; unfold Halfedge.curve; rw [hhe]
  have src : ∀ x t, Halfedge.twin S.1 x = some t →
      Halfedge.source arr1.dcel x = Halfedge.target S.1 t := by
    intro x t ht
    obtain ⟨r, hr, hrt⟩ := Halfedge.twin_eq_some.mp ht
    unfold Halfedge.source Halfedge.target
    rw [hhe, hr, Option.some_bind, hrt]
  refine ⟨arr1, hsplit, ?_, ?_, ?_, ?_, ?_, ?_, ?_, ?_, ?_, ?_⟩
  · rw [hhe, s3]
  · rw [nx, s12]
  · rw [tg, s8]
  · rw [src _ _ s4, s9]
  · rw [src _ _ s6, s11]
  · rw [tg, s10]
  · rw [cu, s14]
  · rw [cu, s15]
  · have hv1 : arr1.dcel.vertices = V1 := by rw [harr1]
    have hv0 : S.1.vertices = arr.dcel.vertices.alloc
        ⟨some p, .NO_BOUNDARY, .NO_BOUNDARY, .halfedge none⟩ := by
      rw [fr.1, hd']
      rfl
    rw [hv1, hV1, Arena.get_modify, Arena.get_modify, hv0, Arena.get_alloc, if_pos rfl]
    simp only [Option.map_some', if_true]
    split_ifs <;> rfl
  · -- the two halfedges named by the call are already in the order of the merge
    have hsrc : Halfedge.source arr1.dcel arr.dcel.halfedges.length =
        some arr.dcel.vertices.length := by rw [src _ _ s6, s11]
    unfold Arrangement_2.merge_edge
    rw [tw, tw, s4, s6, Option.some_bind, Option.some_bind, tg, s8, hsrc, if_pos rfl]
    unfold Arrangement_2.merge_edge_oriented
    rw [tw, tw, s4, s6, tg, tg, s8, s10]
    simp only [Option.some_bind]
    rw [nx, nx, s12, s13]
    simp only [and_self, if_true, Option.some.injEq, Prod.mk.injEq, and_true]
    -- the face records store no handle of the second piece
    have hfaces : arr1.dcel.faces = arr.dcel.faces := by
      rw [harr1]
      show S.1.faces = arr.dcel.faces
      rw [fr.2.1, hd']
      rfl
    have hrep : ∀ f old new, arr.dcel.halfedges.length ≤ old →
        arr.dcel.faces.modify f (fun x => x.replace_halfedge old new) = arr.dcel.faces := by
      intro f old new hold
      apply Arena.modify_eq_self
      intro x hx
      obtain ⟨hx1, hx2⟩ := hF f x hx
      apply DFace.replace_halfedge_eq_self
      · intro e1
        have := hx1 old e1
        omega
      · intro e1
        have := hx2 old e1
        omega
    have hfs : (match Halfedge.face arr1.dcel r1.opposite with
        | some f => Arena.modify (match Halfedge.face arr1.dcel e with
            | some f => arr1.dcel.faces.modify f (fun x =>
                x.replace_halfedge arr.dcel.halfedges.length e)
            | none => arr1.dcel.faces) f (fun x =>
              x.replace_halfedge (arr.dcel.halfedges.length + 1) r1.opposite)
        | none => (match Halfedge.face arr1.dcel e with
            | some f => arr1.dcel.faces.modify f (fun x =>
                x.replace_halfedge arr.dcel.halfedges.length e)
            | none => arr1.dcel.faces)) = arr.dcel.faces := by
      have hin : (match Halfedge.face arr1.dcel e with
            | some f => arr1.dcel.faces.modify f (fun x =>
                x.replace_halfedge arr.dcel.halfedges.length e)
            | none => arr1.dcel.faces) = arr.dcel.faces := by
        rw [hfaces]
        cases Halfedge.face arr1.dcel e with
        | none => rfl
        | some f => exact hrep f _ _ (le_refl _)
      rw [hin]
      cases Halfedge.face arr1.dcel r1.opposite with
      | none => rfl
      | some f => exact hrep f _ _ (by omega)
    -- the vertex records
    have hv1 : arr1.dcel.vertices = V1 := by rw [harr1]
    have hv0 : S.1.vertices = arr.dcel.vertices.alloc
        ⟨some p, .NO_BOUNDARY, .NO_BOUNDARY, .halfedge none⟩ := by
      rw [fr.1, hd']
      rfl
    have hvs : Arena.free (arr1.dcel.vertices.modify r1.vertex (fun x =>
        if x.inc = .halfedge (some arr.dcel.halfedges.length) then
          { x with inc := .halfedge (some e) }
        else x)) arr.dcel.vertices.length = arr.dcel.vertices ++ [none] := by
      apply Arena.ext_get
      · rw [Arena.length_free, Arena.length_modify, hv1, hV1, Arena.length_modify,
          Arena.length_modify, hv0, Arena.length_alloc, List.length_append]
        rfl
      · intro x
        rw [Arena.get_free, Arena.get_append_singleton]
        by_cases hx : x = arr.dcel.vertices.length
        · rw [if_pos hx, if_pos hx]
        · rw [if_neg hx, if_neg hx, Arena.get_modify, hv1, hV1, Arena.get_modify,
            Arena.get_modify, hv0, Arena.get_alloc, if_neg hx, if_neg hx, s1]
          cases hy : arr.dcel.vertices.get x with
          | none => rfl
          | some y =>
            simp only [Option.map_some', id]
            by_cases hxu : x = r1.vertex
            · rw [if_pos hxu, if_pos hxu]
              by_cases hye : y.inc = .halfedge (some e)
              · rw [if_pos hye, if_pos rfl]
                cases y
                simp_all
              · rw [if_neg hye, if_neg]
                intro hyn
                have := hV x y _ hy hyn
                omega
            · rw [if_neg hxu, if_neg hxu]
              rfl
    -- the halfedge records
    have hml := Dcel.merge_links_congr hhe e arr.dcel.halfedges.length
      (arr.dcel.halfedges.length + 1) r1.vertex cv
    have hsc : (d'.set_curve e (some cv)).halfedges = (arr.dcel.set_curve e (some cv)).halfedges :=
      Dcel.set_curve_congr hh' e (some cv)
    have hfr := Dcel.merge_links_frame arr1.dcel e arr.dcel.halfedges.length
      (arr.dcel.halfedges.length + 1) r1.vertex cv
    have hholes : arr1.dcel.holes = arr.dcel.holes := by
      rw [harr1]
      show S.1.holes = arr.dcel.holes
      rw [fr.2.2.1, hd']
      rfl
    have hiso : arr1.dcel.iso_verts = arr.dcel.iso_verts := by
      rw [harr1]
      show S.1.iso_verts = arr.dcel.iso_verts
      rw [fr.2.2.2, hd']
      rfl
    have hD : ∀ D : Dcel Point Curve, D.vertices = arr.dcel.vertices ++ [none] →
        D.halfedges = (arr.dcel.set_curve e (some cv)).halfedges ++ [none, none] →
        D.faces = arr.dcel.faces → D.holes = arr.dcel.holes →
        D.iso_verts = arr.dcel.iso_verts →
        ({ arr1 with dcel := D } : Arrangement_2 Point Curve) =
          { arr with dcel := { arr.dcel with
            vertices := arr.dcel.vertices ++ [none]
            halfedges := (arr.dcel.set_curve e (some cv)).halfedges ++ [none, none] } } := by
      intro D e1 e2 e3 e4 e5
      have : D = { arr.dcel with
            vertices := arr.dcel.vertices ++ [none]
            halfedges := (arr.dcel.set_curve e (some cv)).halfedges ++ [none, none] } :=
        Dcel.eq_of_fields e1 e2 e3 e4 e5
      rw [this, harr1]
      rfl
    apply hD
    · exact hvs
    · show (arr1.dcel.merge_links e arr.dcel.halfedges.length
        (arr.dcel.halfedges.length + 1) r1.vertex cv).halfedges = _
      rw [hml, s16, hsc]
    · exact hfs
    · show (arr1.dcel.merge_links e arr.dcel.halfedges.length
        (arr.dcel.halfedges.length + 1) r1.vertex cv).holes = _
      rw [hfr.1, hholes]
    · show (arr1.dcel.merge_links e arr.dcel.halfedges.length
        (arr.dcel.halfedges.length + 1) r1.vertex cv).iso_verts = _
      rw [hfr.2, hiso]

theorem Arena.size_eq_of_live_eq {α β : Type} (s : Arena α) (t : Arena β)
    (hl : s.length = t.length) (h : ∀ i, (s.get i).isSome = (t.get i).isSome) :
    s.size = t.size := by
  rw [← Arena.card_live, ← Arena.card_live, hl]
  congr 1
  apply Finset.filter_congr
  intro i _
  rw [h i]

theorem Dcel.size_set_curve {Point Curve : Type} (d : Dcel Point Curve) (h : Nat)
    (cv : Option Curve) : (d.set_curve h cv).halfedges.size = d.halfedges.size := by
  apply Arena.size_eq_of_live_eq _ _ (Dcel.length_set_curve d h cv)
  intro i
  rw [← Halfedge.twin_isSome, ← Halfedge.twin_isSome, Halfedge.twin_set_curve]

/-- Setting the curve an edge already has changes nothing in a linked store. -/
theorem Dcel.set_curve_eq_self {Point Curve : Type} (d : Dcel Point Curve) (hd : d.Linked)
    (h : Nat) (cv : Option Curve) (hc : Halfedge.curve d h = some cv) :
    d.set_curve h cv = d := by
  obtain ⟨r, hr, hrc⟩ : ∃ r, d.halfedges.get h = some r ∧ r.p_cv = cv := by
    unfold Halfedge.curve at hc
    cases hg : d.halfedges.get h with
    | none => rw [hg] at hc; cases hc
    | some r => rw [hg] at hc; exact ⟨r, rfl, Option.some.inj hc⟩
  have ht : Halfedge.twin d h = some r.opposite := Halfedge.twin_eq_some.mpr ⟨r, hr, rfl⟩
  have hc2 : Halfedge.curve d r.opposite = some cv := by rw [(hd.1 h _ ht).2, hc]
  have f := Dcel.set_curve_frame d h cv
  refine Dcel.eq_of_fields f.1 ?_ f.2.1 f.2.2.1 f.2.2.2
  apply Arena.ext_get (Dcel.length_set_curve d h cv)
  intro x
  rw [Dcel.get_set_curve d h cv hr x]
  cases hx : d.halfedges.get x with
  | none => rfl
  | some y =>
    simp only [Option.map_some', Option.some.injEq]
    split_ifs with hxx
    · have : y.p_cv = cv := by
        rcases hxx with e | e
        · rw [e, hr] at hx
          cases hx
          exact hrc
        · unfold Halfedge.curve at hc2
          rw [← e, hx] at hc2
          exact Option.some.inj hc2
      cases y
      simp_all
    · rfl

theorem Dcel.stores_live_halfedges_vertex {Point Curve : Type} (d : Dcel Point Curve)
    (hw : d.stores_live_halfedges = true) (u : Nat) (y : DVertex Point) (h : Nat)
    (hy : d.vertices.get u = some y) (hi : y.inc = .halfedge (some h)) :
    h < d.halfedges.length := by
  unfold Dcel.stores_live_halfedges at hw
  rw [Bool.and_eq_true, List.all_eq_true, List.all_eq_true] at hw
  have := hw.1 y (Arena.mem_records _ u y hy)
  rw [hi] at this
  simp only at this
  obtain ⟨r, hr⟩ := Option.isSome_iff_exists.mp this
  exact Arena.get_lt hr

theorem Dcel.stores_live_halfedges_face {Point Curve : Type} (d : Dcel Point Curve)
    (hw : d.stores_live_halfedges = true) (f : Nat) (x : DFace)
    (hx : d.faces.get f = some x) :
    (∀ h, x.halfedge = some h → h < d.halfedges.length) ∧
      ∀ h ∈ x.holes, h < d.halfedges.length := by
  unfold Dcel.stores_live_halfedges at hw
  rw [Bool.and_eq_true, List.all_eq_true, List.all_eq_true] at hw
  have := hw.2 x (Arena.mem_records _ f x hx)
  rw [Bool.and_eq_true, List.all_eq_true] at this
  constructor
  · intro h hh
    have h1 := this.1
    rw [hh] at h1
    simp only at h1
    obtain ⟨r, hr⟩ := Option.isSome_iff_exists.mp h1
    exact Arena.get_lt hr
  · intro h hh
    obtain ⟨r, hr⟩ := Option.isSome_iff_exists.mp (this.2 h hh)
    exact Arena.get_lt hr

/-- Claim C20: for every edge `e` of a state of the structure whose vertex and face
records store live halfedges only (an edge just inserted is one),
`split_edge (e, cv1, cv2)` followed by `merge_edge` of the two resulting edges with the
curve `cv` restores the single-edge state.  The split gives two edges that share the new
vertex at the split point, with the curves `cv1` and `cv2` and the old end vertices; the
merge gives back every halfedge, vertex, face, hole and isolated-vertex record of the
start, with the supplied curve `cv` on `e` and its twin (so the very records of the
start when `cv` is the curve `e` had), the split vertex is deleted, and
`number_of_vertices ()`, `number_of_halfedges ()`, `number_of_edges ()` and
`number_of_faces ()` have their values of before the split. -/
theorem C20_split_merge_round_trip {Point Curve : Type} (w : Nat)
    (arr : Arrangement_2 Point Curve) (split_point : Curve → Curve → Point) (e : Nat)
    (cv1 cv2 cv : Curve) (hd : arr.dcel.Reachable)
    (he : (arr.dcel.halfedges.get e).isSome)
    (hs : arr.dcel.stores_live_halfedges = true) :
    ∃ arr1 e1 e2 arr2,
      arr.split_edge split_point e cv1 cv2 = some (arr1, e1) ∧ e1 = e ∧
      Halfedge.next arr1.dcel e1 = some e2 ∧
      Halfedge.source arr1.dcel e1 = Halfedge.source arr.dcel e ∧
      Halfedge.target arr1.dcel e1 = some arr.dcel.vertices.length ∧
      Halfedge.source arr1.dcel e2 = some arr.dcel.vertices.length ∧
      Halfedge.target arr1.dcel e2 = Halfedge.target arr.dcel e ∧
      Halfedge.curve arr1.dcel e1 = some (some cv1) ∧
      Halfedge.curve arr1.dcel e2 = some (some cv2) ∧
      arr.dcel.vertices.get arr.dcel.vertices.length = none ∧
      (arr1.dcel.vertices.get arr.dcel.vertices.length).map (fun y => y.p_pt) =
        some (some (split_point cv1 cv2)) ∧
      arr1.merge_edge e1 e2 cv = some (arr2, e) ∧
      Halfedge.curve arr2.dcel e = some (some cv) ∧
      Halfedge.source arr2.dcel e = Halfedge.source arr.dcel e ∧
      Halfedge.target arr2.dcel e = Halfedge.target arr.dcel e ∧
      (∀ x, arr2.dcel.halfedges.get x = (arr.dcel.set_curve e (some cv)).halfedges.get x) ∧
      (Halfedge.curve arr.dcel e = some (some cv) →
        ∀ x, arr2.dcel.halfedges.get x = arr.dcel.halfedges.get x) ∧
      (∀ x, arr2.dcel.vertices.get x = arr.dcel.vertices.get x) ∧
      arr2.dcel.vertices.get arr.dcel.vertices.length = none ∧
      arr2.dcel.faces = arr.dcel.faces ∧
      arr2.dcel.holes = arr.dcel.holes ∧
      arr2.dcel.iso_verts = arr.dcel.iso_verts ∧
      arr2.number_of_vertices w = arr.number_of_vertices w ∧
      arr2.number_of_halfedges w = arr.number_of_halfedges w ∧
      arr2.number_of_edges w = arr.number_of_edges w ∧
      arr2.number_of_faces w = arr.number_of_faces w := by
  have hl := hd.linked
  have hp := hd.paired
  obtain ⟨r1, h1⟩ := Option.isSome_iff_exists.mp he
  have ht1 : Halfedge.twin arr.dcel e = some r1.opposite :=
    Halfedge.twin_eq_some.mpr ⟨r1, h1, rfl⟩
  obtain ⟨r2, h2, h2o⟩ := Halfedge.twin_eq_some.mp (hl.1 e _ ht1).1
  have hne : r1.opposite ≠ e := by
    have := hp.2 e _ ht1
    rw [this]
    split_ifs with hpar <;> omega
  obtain ⟨arr1, q1, q2, q3, q4, q5, q6, q7, q8, q9, q10, q11⟩ :=
    Arrangement_2.merge_split arr hl e (split_point cv1 cv2) cv1 cv2 cv h1 h2 hne
      (fun u y h hy hi => Dcel.stores_live_halfedges_vertex arr.dcel hs u y h hy hi)
      (fun f x hx => Dcel.stores_live_halfedges_face arr.dcel hs f x hx)
  have hsrc : Halfedge.source arr.dcel e = some r2.vertex := by
    unfold Halfedge.source
    rw [h1, Option.some_bind, h2]
    rfl
  have htg : Halfedge.target arr.dcel e = some r1.vertex := by
    unfold Halfedge.target
    rw [h1]
    rfl
  have hg : ∀ x, Arena.get ((arr.dcel.set_curve e (some cv)).halfedges ++ [none, none]) x =
      (arr.dcel.set_curve e (some cv)).halfedges.get x :=
    fun x => Arena.get_append_none _ 2 x
  have hgv : ∀ x, Arena.get (arr.dcel.vertices ++ [none]) x = arr.dcel.vertices.get x :=
    fun x => Arena.get_append_none _ 1 x
  have hsv : Arena.size (arr.dcel.vertices ++ [none]) = arr.dcel.vertices.size :=
    Arena.size_append_none _ 1
  have hsh : Arena.size ((arr.dcel.set_curve e (some cv)).halfedges ++ [none, none]) =
      arr.dcel.halfedges.size :=
    (Arena.size_append_none _ 2).trans (Dcel.size_set_curve arr.dcel e (some cv))
  refine ⟨arr1, e, arr.dcel.halfedges.length, _, q1, rfl, q3, ?_, q4, q6, ?_, q8, q9, ?_, q10,
    q11, ?_, ?_, ?_, hg, ?_, hgv, ?_, rfl, rfl, rfl, ?_, ?_, ?_, rfl⟩
  · rw [q5, hsrc]
  · rw [q7, htg]
  · exact Arena.get_eq_none_of_le _ _ (le_refl _)
  · show (Arena.get ((arr.dcel.set_curve e (some cv)).halfedges ++ [none, none]) e).map
      (fun r => r.p_cv) = _
    rw [hg, Dcel.get_set_curve arr.dcel e _ h1, h1]
    simp
  · show (Arena.get ((arr.dcel.set_curve e (some cv)).halfedges ++ [none, none]) e).bind
      (fun r => (Arena.get ((arr.dcel.set_curve e (some cv)).halfedges ++ [none, none])
        r.opposite).map (fun t => t.vertex)) = _
    simp only [hg]
    have : Halfedge.source (arr.dcel.set_curve e (some cv)) e = Halfedge.source arr.dcel e := by
      have a1 := Halfedge.twin_set_curve arr.dcel e (some cv) e
      have a2 := Halfedge.target_set_curve arr.dcel e (some cv) r1.opposite
      rw [ht1] at a1
      obtain ⟨r, hr, hro⟩ := Halfedge.twin_eq_some.mp a1
      unfold Halfedge.target at a2
      unfold Halfedge.source
      rw [hr, Option.some_bind, hro, a2, h1, Option.some_bind]
    exact this
  · show (Arena.get ((arr.dcel.set_curve e (some cv)).halfedges ++ [none, none]) e).map
      (fun r => r.vertex) = _
    rw [hg]
    exact Halfedge.target_set_curve arr.dcel e (some cv) e
  · intro hc x
    show Arena.get ((arr.dcel.set_curve e (some cv)).halfedges ++ [none, none]) x = _
    rw [hg, Dcel.set_curve_eq_self arr.dcel hl e (some cv) hc]
  · show Arena.get (arr.dcel.vertices ++ [none]) arr.dcel.vertices.length = none
    rw [hgv]
    exact Arena.get_eq_none_of_le _ _ (le_refl _)
  · show Size_sub w (Arena.size (arr.dcel.vertices ++ [none])) arr.n_inf_verts = _
    rw [hsv]
    rfl
  · show Size_sub w (Arena.size ((arr.dcel.set_curve e (some cv)).halfedges ++ [none, none]))
      (Size_mul w 2 arr.n_inf_verts) = _
    rw [hsh]
    rfl
  · show Size_sub w (Arena.size ((arr.dcel.set_curve e (some cv)).halfedges ++ [none, none]) / 2)
      arr.n_inf_verts = _
    rw [hsh]
    rfl

/-- The state after `insert_in_face_interior (cv, f)` is a state of the record store. -/
theorem Arrangement_2.reachable_insert_curve_in_face_interior {Point Curve : Type}
    (arr : Arrangement_2 Point Curve) (hd : arr.dcel.Reachable) (left right : Curve → Point)
    (cv : Curve) (f : Nat) :
    (arr.insert_curve_in_face_interior left right cv f).1.dcel.Reachable := by
  have h1 : ((arr._create_vertex (left cv)).1._create_vertex (right cv)).1.dcel.Reachable :=
    Dcel.Reachable.edit_other_records _ _ hd rfl
  exact Dcel.Reachable.edit_other_records _ _
    (Dcel.Reachable.new_edge _ _ _ (some cv) _ h1) rfl

/-- The round trip of claim C20 on the segment from (0,0) to (2,0) inserted into the
empty arrangement, split at (1,0) and merged again, with `Size` of 64 bits. -/
theorem C20_split_merge_round_trip_witness :
    insert_segment_in_empty.1.dcel.Reachable ∧
    (insert_segment_in_empty.1.dcel.halfedges.get insert_segment_in_empty.2).isSome ∧
    insert_segment_in_empty.1.dcel.stores_live_halfedges = true ∧
    ∃ arr1 e1 e2 arr2,
      insert_segment_in_empty.1.split_edge (fun a _ => a.2) insert_segment_in_empty.2
        ((0, 0), (1, 0)) ((1, 0), (2, 0)) = some (arr1, e1) ∧
      e1 = insert_segment_in_empty.2 ∧
      Halfedge.next arr1.dcel e1 = some e2 ∧
      Halfedge.source arr1.dcel e1 =
        Halfedge.source insert_segment_in_empty.1.dcel insert_segment_in_empty.2 ∧
      Halfedge.target arr1.dcel e1 = some insert_segment_in_empty.1.dcel.vertices.length ∧
      Halfedge.source arr1.dcel e2 = some insert_segment_in_empty.1.dcel.vertices.length ∧
      Halfedge.target arr1.dcel e2 =
        Halfedge.target insert_segment_in_empty.1.dcel insert_segment_in_empty.2 ∧
      Halfedge.curve arr1.dcel e1 = some (some ((0, 0), (1, 0))) ∧
      Halfedge.curve arr1.dcel e2 = some (some ((1, 0), (2, 0))) ∧
      insert_segment_in_empty.1.dcel.vertices.get
        insert_segment_in_empty.1.dcel.vertices.length = none ∧
      (arr1.dcel.vertices.get insert_segment_in_empty.1.dcel.vertices.length).map
        (fun y => y.p_pt) = some (some (1, 0)) ∧
      arr1.merge_edge e1 e2 ((0, 0), (2, 0)) = some (arr2, insert_segment_in_empty.2) ∧
      Halfedge.curve arr2.dcel insert_segment_in_empty.2 = some (some ((0, 0), (2, 0))) ∧
      Halfedge.source arr2.dcel insert_segment_in_empty.2 =
        Halfedge.source insert_segment_in_empty.1.dcel insert_segment_in_empty.2 ∧
      Halfedge.target arr2.dcel insert_segment_in_empty.2 =
        Halfedge.target insert_segment_in_empty.1.dcel insert_segment_in_empty.2 ∧
      (∀ x, arr2.dcel.halfedges.get x =
        (insert_segment_in_empty.1.dcel.set_curve insert_segment_in_empty.2
          (some ((0, 0), (2, 0)))).halfedges.get x) ∧
      (Halfedge.curve insert_segment_in_empty.1.dcel insert_segment_in_empty.2 =
          some (some ((0, 0), (2, 0))) →
        ∀ x, arr2.dcel.halfedges.get x = insert_segment_in_empty.1.dcel.halfedges.get x) ∧
      (∀ x, arr2.dcel.vertices.get x = insert_segment_in_empty.1.dcel.vertices.get x) ∧
      arr2.dcel.vertices.get insert_segment_in_empty.1.dcel.vertices.length = none ∧
      arr2.dcel.faces = insert_segment_in_empty.1.dcel.faces ∧
      arr2.dcel.holes = insert_segment_in_empty.1.dcel.holes ∧
      arr2.dcel.iso_verts = insert_segment_in_empty.1.dcel.iso_verts ∧
      arr2.number_of_vertices 64 = insert_segment_in_empty.1.number_of_vertices 64 ∧
      arr2.number_of_halfedges 64 = insert_segment_in_empty.1.number_of_halfedges 64 ∧
      arr2.number_of_edges 64 = insert_segment_in_empty.1.number_of_edges 64 ∧
      arr2.number_of_faces 64 = insert_segment_in_empty.1.number_of_faces 64 :=
  ⟨Arrangement_2.reachable_insert_curve_in_face_interior _ Dcel.Reachable.empty _ _ _ _,
    by decide, by decide,
    C20_split_merge_round_trip 64 insert_segment_in_empty.1 (fun a _ => a.2)
      insert_segment_in_empty.2 ((0, 0), (1, 0)) ((1, 0), (2, 0)) ((0, 0), (2, 0))
      (Arrangement_2.reachable_insert_curve_in_face_interior _ Dcel.Reachable.empty _ _ _ _)
      (by decide) (by decide)⟩

/-! ## The comparisons with the corners, once more -/

/-- Claim C22: with bounded-only traits and the left corners at other handles than the
right corners, `_compare_x (p, v)` and `_compare_xy (p, v)` return the same value for
each of the four corner vertices, whatever the traits: `LARGER` for the two left corners
`v_bl` and `v_tl`, `SMALLER` for the two right corners `v_br` and `v_tr`; for every other
vertex they return the traits' `compare_x`, respectively `compare_xy`, of p and the point
of the vertex. -/
theorem C22_corner_comparison_by_side {Point Curve : Type} (arr : Arrangement_2 Point Curve)
    (traits : Traits Point Curve) (imp_true : Point → Nat → Option Comparison_result)
    (p : Point)
    (hdist : arr.v_br ≠ arr.v_bl ∧ arr.v_br ≠ arr.v_tl ∧ arr.v_tr ≠ arr.v_bl ∧
      arr.v_tr ≠ arr.v_tl) :
    (∀ traits2 : Traits Point Curve,
      arr._compare_x traits2 imp_true false p arr.v_bl = some .LARGER ∧
      arr._compare_xy traits2 imp_true false p arr.v_bl = some .LARGER ∧
      arr._compare_x traits2 imp_true false p arr.v_tl = some .LARGER ∧
      arr._compare_xy traits2 imp_true false p arr.v_tl = some .LARGER ∧
      arr._compare_x traits2 imp_true false p arr.v_br = some .SMALLER ∧
      arr._compare_xy traits2 imp_true false p arr.v_br = some .SMALLER ∧
      arr._compare_x traits2 imp_true false p arr.v_tr = some .SMALLER ∧
      arr._compare_xy traits2 imp_true false p arr.v_tr = some .SMALLER) ∧
    (∀ v r q, v ≠ arr.v_bl → v ≠ arr.v_tl → v ≠ arr.v_br → v ≠ arr.v_tr →
      arr.dcel.vertices.get v = some r → r.p_pt = some q →
      arr._compare_x traits imp_true false p v = some (traits.compare_x p q) ∧
      arr._compare_xy traits imp_true false p v = some (traits.compare_xy p q)) := by
  obtain ⟨h1, h2, h3, h4⟩ := hdist
  constructor
  · intro traits2
    simp [Arrangement_2._compare_x, Arrangement_2._compare_x_imp, Arrangement_2._compare_xy,
      Arrangement_2._compare_xy_imp, h1, h2, h3, h4]
  · intro v r q n1 n2 n3 n4 hv hq
    simp [Arrangement_2._compare_x, Arrangement_2._compare_x_imp, Arrangement_2._compare_xy,
      Arrangement_2._compare_xy_imp, n1, n2, n3, n4, Dcel.point, hv, hq]

/-- The comparisons of claim C22 in the arrangement of one segment: the four corners,
and the left end (0,0) of the segment, the vertex of handle 4. -/
theorem C22_corner_comparison_by_side_witness :
    (insert_segment_in_empty.1.v_br ≠ insert_segment_in_empty.1.v_bl ∧
      insert_segment_in_empty.1.v_br ≠ insert_segment_in_empty.1.v_tl ∧
      insert_segment_in_empty.1.v_tr ≠ insert_segment_in_empty.1.v_bl ∧
      insert_segment_in_empty.1.v_tr ≠ insert_segment_in_empty.1.v_tl) ∧
    insert_segment_in_empty.1._compare_x segment_traits (fun _ _ => none) false (1, 1)
      insert_segment_in_empty.1.v_tl = some .LARGER ∧
    insert_segment_in_empty.1._compare_xy segment_traits (fun _ _ => none) false (1, 1)
      insert_segment_in_empty.1.v_br = some .SMALLER ∧
    insert_segment_in_empty.1._compare_x segment_traits (fun _ _ => none) false (1, 1) 4
      = some (segment_traits.compare_x (1, 1) (0, 0)) ∧
    insert_segment_in_empty.1._compare_xy segment_traits (fun _ _ => none) false (1, 1) 4
      = some .LARGER :=
  ⟨by decide,
    ((C22_corner_comparison_by_side insert_segment_in_empty.1 segment_traits
      (fun _ _ => none) (1, 1) (by decide)).1 segment_traits).2.2.1,
    ((C22_corner_comparison_by_side insert_segment_in_empty.1 segment_traits
      (fun _ _ => none) (1, 1) (by decide)).1 segment_traits).2.2.2.2.2.1,
    ((C22_corner_comparison_by_side insert_segment_in_empty.1 segment_traits
      (fun _ _ => none) (1, 1) (by decide)).2 4
      ⟨some (0, 0), .NO_BOUNDARY, .NO_BOUNDARY, .halfedge (some 9)⟩ (0, 0)
      (by decide) (by decide) (by decide) (by decide) (by decide) rfl).1,
    ((C22_corner_comparison_by_side insert_segment_in_empty.1 segment_traits
      (fun _ _ => none) (1, 1) (by decide)).2 4
      ⟨some (0, 0), .NO_BOUNDARY, .NO_BOUNDARY, .halfedge (some 9)⟩ (0, 0)
      (by decide) (by decide) (by decide) (by decide) (by decide) rfl).2⟩

/-! ## The unbounded face -/

/-- Claim C24: `unbounded_face ()` is defined exactly when the fictitious face has a
first hole whose representative halfedge and its twin resolve and the twin stores a face,
and it then returns that face, the one stored on the twin of the representative of the
first hole; the const and the non-const version return the same face.  In the empty
arrangement the fictitious face has a hole and `unbounded_face ()` is the single face of
the face traversal, which is unbounded and not fictitious. -/
theorem C24_unbounded_face {Point Curve : Type} (arr : Arrangement_2 Point Curve) :
    (∀ f, arr.unbounded_face = some f ↔
      ∃ uf p_he rest r t, arr.dcel.faces.get arr.un_face = some uf ∧
        uf.holes = p_he :: rest ∧
        arr.dcel.halfedges.get p_he = some r ∧
        Halfedge.twin arr.dcel p_he = some r.opposite ∧
        arr.dcel.halfedges.get r.opposite = some t ∧ t.comp = .face f) ∧
    (∀ uf p_he rest r t f, arr.dcel.faces.get arr.un_face = some uf →
      uf.holes = p_he :: rest → arr.dcel.halfedges.get p_he = some r →
      arr.dcel.halfedges.get r.opposite = some t → t.comp = .face f →
      arr.unbounded_face = some f) ∧
    arr.unbounded_face_const = arr.unbounded_face ∧
    ((_construct_empty_arrangement Point Curve).dcel.faces.get
        (_construct_empty_arrangement Point Curve).un_face).map (fun uf => uf.holes)
      = some [1] ∧
    (_construct_empty_arrangement Point Curve).unbounded_face = some 1 ∧
    (_construct_empty_arrangement Point Curve).faces.map (fun e => e.1) = [1] ∧
    ((_construct_empty_arrangement Point Curve).dcel.faces.get 1).map
      (fun x => x.is_unbounded) = some true ∧
    Face.is_fictitious (_construct_empty_arrangement Point Curve).dcel 1 = some false := by
  have key : ∀ uf p_he rest r t f, arr.dcel.faces.get arr.un_face = some uf →
      uf.holes = p_he :: rest → arr.dcel.halfedges.get p_he = some r →
      arr.dcel.halfedges.get r.opposite = some t → t.comp = .face f →
      arr.unbounded_face = some f := by
    intro uf p_he rest r t f h1 h2 h3 h4 h5
    simp [Arrangement_2.unbounded_face, h1, h2, h3, h4, h5]
  refine ⟨?_, key, rfl, rfl, rfl, rfl, rfl, rfl⟩
  intro f
  constructor
  · intro h
    unfold Arrangement_2.unbounded_face at h
    cases h1 : arr.dcel.faces.get arr.un_face with
    | none => rw [h1] at h; cases h
    | some uf =>
      rw [h1, Option.some_bind] at h
      cases h2 : uf.holes with
      | nil => rw [h2] at h; cases h
      | cons p_he rest =>
        rw [h2] at h
        simp only [List.head?_cons, Option.some_bind] at h
        cases h3 : arr.dcel.halfedges.get p_he with
        | none => rw [h3] at h; cases h
        | some r =>
          rw [h3, Option.some_bind] at h
          cases h4 : arr.dcel.halfedges.get r.opposite with
          | none => rw [h4] at h; cases h
          | some t =>
            rw [h4, Option.some_bind] at h
            cases h5 : t.comp with
            | hole ho => rw [h5] at h; cases h
            | face g =>
              rw [h5] at h
              have hg : g = f := Option.some.inj h
              exact ⟨uf, p_he, rest, r, t, rfl, h2, h3,
                Halfedge.twin_eq_some.mpr ⟨r, h3, rfl⟩, h4, hg ▸ h5⟩
  · rintro ⟨uf, p_he, rest, r, t, h1, h2, h3, -, h4, h5⟩
    exact key uf p_he rest r t f h1 h2 h3 h4 h5

/-! ## The empty arrangement, by the counts -/

/-- Claim C25: in every state with `4 <= n_inf_verts <= ` (number of DCEL vertices) and
an even DCEL halfedge count that is at least `2 * n_inf_verts` (the two DCEL counts being
values of `Size`), `is_empty ()` holds if and only if `number_of_vertices ()`,
`number_of_vertices_at_infinity ()` and `number_of_edges ()` are all 0. -/
theorem C25_is_empty_iff_counts {Point Curve : Type} (w : Nat)
    (arr : Arrangement_2 Point Curve)
    (h4 : 4 ≤ arr.n_inf_verts) (hn : arr.n_inf_verts ≤ arr.dcel.size_of_vertices)
    (heven : arr.dcel.size_of_halfedges % 2 = 0)
    (h2n : 2 * arr.n_inf_verts ≤ arr.dcel.size_of_halfedges)
    (hv : arr.dcel.size_of_vertices < 2 ^ w) (hh : arr.dcel.size_of_halfedges < 2 ^ w) :
    arr.is_empty = true ↔
      (arr.number_of_vertices w = 0 ∧ arr.number_of_vertices_at_infinity w = 0 ∧
        arr.number_of_edges w = 0) := by
  have e1 : arr.number_of_vertices w = arr.dcel.size_of_vertices - arr.n_inf_verts :=
    Size_sub_of_le w _ _ hn hv
  have e2 : arr.number_of_vertices_at_infinity w = arr.n_inf_verts - 4 :=
    Size_sub_of_le w _ _ h4 (by omega)
  have e3 : arr.number_of_edges w = arr.dcel.size_of_halfedges / 2 - arr.n_inf_verts :=
    Size_sub_of_le w _ _ (by omega) (by omega)
  rw [e1, e2, e3]
  simp only [Arrangement_2.is_empty, Bool.and_eq_true, beq_iff_eq]
  constructor
  · rintro ⟨a, b⟩
    omega
  · rintro ⟨a, b, c⟩
    omega

/-- The equivalence of claim C25 on the empty arrangement, with `Size` of 64 bits. -/
theorem C25_is_empty_iff_counts_witness :
    (4 ≤ (_construct_empty_arrangement Unit Unit).n_inf_verts ∧
      (_construct_empty_arrangement Unit Unit).n_inf_verts
        ≤ (_construct_empty_arrangement Unit Unit).dcel.size_of_vertices ∧
      (_construct_empty_arrangement Unit Unit).dcel.size_of_halfedges % 2 = 0 ∧
      2 * (_construct_empty_arrangement Unit Unit).n_inf_verts
        ≤ (_construct_empty_arrangement Unit Unit).dcel.size_of_halfedges ∧
      (_construct_empty_arrangement Unit Unit).dcel.size_of_vertices < 2 ^ 64 ∧
      (_construct_empty_arrangement Unit Unit).dcel.size_of_halfedges < 2 ^ 64) ∧
    ((_construct_empty_arrangement Unit Unit).is_empty = true ↔
      ((_construct_empty_arrangement Unit Unit).number_of_vertices 64 = 0 ∧
        (_construct_empty_arrangement Unit Unit).number_of_vertices_at_infinity 64 = 0 ∧
        (_construct_empty_arrangement Unit Unit).number_of_edges 64 = 0)) :=
  ⟨by decide,
    C25_is_empty_iff_counts 64 (_construct_empty_arrangement Unit Unit) (by decide)
      (by decide) (by decide) (by decide) (by decide) (by decide)⟩

/-! ## The number of unbounded faces -/

/-- The loop of `number_of_unbounded_faces` counts the entries of the filtered range. -/
theorem Arrangement_2.number_of_unbounded_faces_loop_eq (w : Nat) (seq : List (Nat × DFace)) :
    ∀ (fuel n : Nat), seq.length < fuel →
      Arrangement_2.number_of_unbounded_faces_loop w fuel
          (I_Filtered_iterator.skip (fun e => _Is_unbounded_face e.2) seq) (n % 2 ^ w)
        = some ((n + (seq.filter (fun e => _Is_unbounded_face e.2)).length) % 2 ^ w) := by
  induction seq with
  | nil =>
    intro fuel n hf
    cases fuel with
    | zero => simp at hf
    | succ fuel => simp [I_Filtered_iterator.skip, Arrangement_2.number_of_unbounded_faces_loop]
  | cons x rest ih =>
    intro fuel n hf
    cases fuel with
    | zero => simp at hf
    | succ fuel =>
      simp only [List.length_cons, Nat.add_lt_add_iff_right] at hf
      by_cases hx : _Is_unbounded_face x.2 = true
      · have h1 : I_Filtered_iterator.skip (fun e => _Is_unbounded_face e.2) (x :: rest)
            = x :: rest := by simp [I_Filtered_iterator.skip, hx]
        rw [h1]
        simp only [Arrangement_2.number_of_unbounded_faces_loop, I_Filtered_iterator.increment]
        have h2 : (n % 2 ^ w + 1) % 2 ^ w = (n + 1) % 2 ^ w := by
          rw [Nat.add_mod, Nat.mod_mod, ← Nat.add_mod]
        rw [h2, ih fuel (n + 1) hf]
        simp only [List.filter_cons, hx, if_true, List.length_cons]
        congr 2
        omega
      · have h1 : I_Filtered_iterator.skip (fun e => _Is_unbounded_face e.2) (x :: rest)
            = I_Filtered_iterator.skip (fun e => _Is_unbounded_face e.2) rest := by
          simp [I_Filtered_iterator.skip, hx]
        rw [h1]
        simp only [List.filter_cons, hx, if_false]
        exact ih (fuel + 1) n (by omega)

theorem le_length_filter_of_imp {β : Type} (l : List β) (p q : β → Bool)
    (h : ∀ x, p x = true → q x = true) : (l.filter p).length ≤ (l.filter q).length := by
  induction l with
  | nil => simp
  | cons x rest ih =>
    by_cases hp : p x = true
    · rw [List.filter_cons_of_pos hp, List.filter_cons_of_pos (h x hp)]
      simp only [List.length_cons]
      omega
    · rw [List.filter_cons_of_neg hp]
      by_cases hq : q x = true
      · rw [List.filter_cons_of_pos hq]
        simp only [List.length_cons]
        omega
      · rw [List.filter_cons_of_neg hq]
        exact ih

theorem length_filter_lt_of_mem {β : Type} (l : List β) (q : β → Bool) (x : β)
    (hx : x ∈ l) (hq : q x = false) : (l.filter q).length < l.length := by
  induction l with
  | nil => cases hx
  | cons y rest ih =>
    rcases List.mem_cons.mp hx with e | e
    · subst e
      rw [List.filter_cons_of_neg (by simp [hq])]
      have := List.length_filter_le q rest
      simp only [List.length_cons]
      omega
    · have := ih e
      by_cases hy : q y = true
      · rw [List.filter_cons_of_pos hy]
        simp only [List.length_cons]
        omega
      · rw [List.filter_cons_of_neg hy]
        simp only [List.length_cons]
        omega

/-- Claim C26: with the number of DCEL faces a value of `Size`, the loop of
`number_of_unbounded_faces ()` ends (given as many rounds as there are faces, plus one)
and returns the number of DCEL faces that are flagged unbounded and have an
outer-boundary halfedge; a fictitious face is rejected by the filter whatever its
unbounded flag, and in every state that contains at least one fictitious face the result
is at most `number_of_faces ()`. -/
theorem C26_number_of_unbounded_faces {Point Curve : Type} (w : Nat)
    (arr : Arrangement_2 Point Curve) (hf : arr.dcel.size_of_faces < 2 ^ w) :
    (∀ fuel, arr.dcel.size_of_faces < fuel →
      arr.number_of_unbounded_faces w fuel
        = some (arr.dcel.faces.records.countP
            (fun f => f.is_unbounded && f.halfedge != none))) ∧
    (∀ f : DFace, f.halfedge = none → _Is_unbounded_face f = false) ∧
    ((∃ f ∈ arr.dcel.faces.records, f.halfedge = none) →
      arr.dcel.faces.records.countP (fun f => f.is_unbounded && f.halfedge != none)
        ≤ arr.number_of_faces w) := by
  have hcount : arr.dcel.faces.records.countP (fun f => f.is_unbounded && f.halfedge != none)
      = (arr.dcel.face_sequence.filter (fun e => _Is_unbounded_face e.2)).length := by
    rw [List.countP_eq_length_filter, ← Arena.entries_map_snd, List.filter_map,
      List.length_map]
    rfl
  have hle : (arr.dcel.face_sequence.filter (fun e => _Is_unbounded_face e.2)).length
      ≤ arr.dcel.size_of_faces := by
    have := List.length_filter_le (fun e : Nat × DFace => _Is_unbounded_face e.2)
      arr.dcel.face_sequence
    rw [Dcel.face_sequence, Arena.length_entries] at this
    exact this
  refine ⟨?_, ?_, ?_⟩
  · intro fuel hfuel
    have hlen : arr.dcel.face_sequence.length < fuel := by
      rw [Dcel.face_sequence, Arena.length_entries]
      exact hfuel
    have := Arrangement_2.number_of_unbounded_faces_loop_eq w arr.dcel.face_sequence fuel 0 hlen
    rw [Nat.zero_mod, Nat.zero_add] at this
    rw [Arrangement_2.number_of_unbounded_faces, Arrangement_2.unbounded_faces_begin,
      I_Filtered_iterator.make, this, hcount, Nat.mod_eq_of_lt (by omega)]
  · intro f hnone
    simp [_Is_unbounded_face, hnone]
  · rintro ⟨f, hmem, hnone⟩
    rw [hcount]
    have h1 : (arr.dcel.face_sequence.filter (fun e => _Is_unbounded_face e.2)).length
        ≤ (arr.dcel.faces.records.filter (fun f => f.halfedge != none)).length := by
      rw [← Arena.entries_map_snd, List.filter_map, List.length_map]
      apply le_length_filter_of_imp
      intro x hx
      simp only [_Is_unbounded_face, Bool.and_eq_true] at hx
      exact hx.2
    have h2 : (arr.dcel.faces.records.filter (fun f => f.halfedge != none)).length
        < arr.dcel.faces.records.length :=
      length_filter_lt_of_mem _ _ f hmem (by simp [hnone])
    have h3 : arr.dcel.faces.records.length = arr.dcel.size_of_faces := rfl
    rw [Arrangement_2.number_of_faces, Size_sub_of_le w _ 1 (by omega) hf]
    omega

/-- The count of claim C26 on the empty arrangement, with `Size` of 64 bits. -/
theorem C26_number_of_unbounded_faces_witness :
    (_construct_empty_arrangement Unit Unit).dcel.size_of_faces < 2 ^ 64 ∧
    (_construct_empty_arrangement Unit Unit).number_of_unbounded_faces 64 3 = some 1 ∧
    (_construct_empty_arrangement Unit Unit).dcel.faces.records.countP
        (fun f => f.is_unbounded && f.halfedge != none)
      ≤ (_construct_empty_arrangement Unit Unit).number_of_faces 64 :=
  ⟨by decide,
    (C26_number_of_unbounded_faces 64 (_construct_empty_arrangement Unit Unit)
      (by decide)).1 3 (by decide),
    (C26_number_of_unbounded_faces 64 (_construct_empty_arrangement Unit Unit)
      (by decide)).2.2 ⟨⟨true, none, [1], []⟩, by decide, rfl⟩⟩

/-! ## Registration followed by unregistration -/

theorem unregister_observer_append_absent (observers : List Observer) (p : Observer)
    (h : p ∉ observers) :
    _unregister_observer (observers ++ [p]) p = (true, observers) := by
  induction observers with
  | nil => simp [_unregister_observer]
  | cons o rest ih =>
    have ho : o ≠ p := fun e => h (e ▸ List.mem_cons_self _ _)
    have hr : p ∉ rest := fun e => h (List.mem_cons_of_mem _ e)
    simp [_unregister_observer, ho, ih hr]

/-- Claim C27: for every observer list that does not contain p, `_register_observer (p)`
followed by `_unregister_observer (p)` returns true and gives the list back.  The
hypothesis is needed: registration does not deduplicate and unregistration erases the
earliest entry, so from the list `[p, q]` (q another observer) the same pair of calls
gives `[q, p]`. -/
theorem C27_register_unregister (observers : List Observer) (p q : Observer)
    (h : p ∉ observers) :
    _unregister_observer (_register_observer observers p) p = (true, observers) ∧
    _register_observer [p, q] p = [p, q, p] ∧
    (p ≠ q → _unregister_observer (_register_observer [p, q] p) p = (true, [q, p])) := by
  refine ⟨unregister_observer_append_absent observers p h, rfl, ?_⟩
  intro _
  simp [_register_observer, _unregister_observer]

/-- The two calls of claim C27 on the list `[1, 2]` and the observer 3, and on the list
`[3, 2]` that contains it. -/
theorem C27_register_unregister_witness :
    (3 : Observer) ∉ ([1, 2] : List Observer) ∧
    _unregister_observer (_register_observer [1, 2] 3) 3 = (true, [1, 2]) ∧
    _unregister_observer (_register_observer [3, 2] 3) 3 = (true, [2, 3]) :=
  ⟨by decide, (C27_register_unregister [1, 2] 3 2 (by decide)).1,
    (C27_register_unregister [1, 2] 3 2 (by decide)).2.2 (by decide)⟩

/-! ## The assertion of the comparison with an edge -/

/-- Claim C28: the condition of the assertion in bounded-mode `_compare_y_at_x` holds for
a halfedge if and only if its target and its source have the same y-boundary type.  In
the empty arrangement, whose corners are classified bl = (-oo,-oo), tl = (-oo,+oo),
br = (+oo,-oo), tr = (+oo,+oo), it holds for the four halfedges of the bottom side
(between bl and br) and of the top side (between tl and tr), and it is violated for the
four halfedges of the left side (between bl and tl) and of the right side (between br
and tr). -/
theorem C28_assertion_on_rectangle {Point Curve : Type} (arr : Arrangement_2 Point Curve)
    (he : Nat) (r t : DHalfedge Curve) (vt vs : DVertex Point)
    (hr : arr.dcel.halfedges.get he = some r)
    (ht : arr.dcel.halfedges.get r.opposite = some t)
    (hvt : arr.dcel.vertices.get r.vertex = some vt)
    (hvs : arr.dcel.vertices.get t.vertex = some vs) :
    (Halfedge.target arr.dcel he = some r.vertex ∧
      Halfedge.source arr.dcel he = some t.vertex) ∧
    (arr._compare_y_at_x_assertion he = some true ↔ vt.inf_y = vs.inf_y) ∧
    (arr._compare_y_at_x_assertion he = some false ↔ vt.inf_y ≠ vs.inf_y) ∧
    (((_construct_empty_arrangement Point Curve).dcel.vertices.get
          (_construct_empty_arrangement Point Curve).v_bl).map (fun v => (v.inf_x, v.inf_y))
        = some (.MINUS_INFINITY, .MINUS_INFINITY) ∧
      ((_construct_empty_arrangement Point Curve).dcel.vertices.get
          (_construct_empty_arrangement Point Curve).v_tl).map (fun v => (v.inf_x, v.inf_y))
        = some (.MINUS_INFINITY, .PLUS_INFINITY) ∧
      ((_construct_empty_arrangement Point Curve).dcel.vertices.get
          (_construct_empty_arrangement Point Curve).v_br).map (fun v => (v.inf_x, v.inf_y))
        = some (.PLUS_INFINITY, .MINUS_INFINITY) ∧
      ((_construct_empty_arrangement Point Curve).dcel.vertices.get
          (_construct_empty_arrangement Point Curve).v_tr).map (fun v => (v.inf_x, v.inf_y))
        = some (.PLUS_INFINITY, .PLUS_INFINITY)) ∧
    (_construct_empty_arrangement Point Curve).dcel.halfedge_sequence.map
        (fun e => (Halfedge.source (_construct_empty_arrangement Point Curve).dcel e.1,
          Halfedge.target (_construct_empty_arrangement Point Curve).dcel e.1,
          (_construct_empty_arrangement Point Curve)._compare_y_at_x_assertion e.1))
      = [(some 0, some 2, some true), (some 2, some 0, some true),
         (some 2, some 3, some false), (some 3, some 2, some false),
         (some 3, some 1, some true), (some 1, some 3, some true),
         (some 1, some 0, some false), (some 0, some 1, some false)] := by
  refine ⟨⟨?_, ?_⟩, ?_, ?_, ⟨rfl, rfl, rfl, rfl⟩, rfl⟩
  · simp [Halfedge.target, hr]
  · simp [Halfedge.source, hr, ht]
  · simp [Arrangement_2._compare_y_at_x_assertion, hr, ht, Dcel.boundary_in_y, hvt, hvs]
  · simp [Arrangement_2._compare_y_at_x_assertion, hr, ht, Dcel.boundary_in_y, hvt, hvs]

/-- The assertion of claim C28 on the halfedge 2 of the empty arrangement, which runs up
the right side from br to tr. -/
theorem C28_assertion_on_rectangle_witness :
    ((_construct_empty_arrangement Unit Unit).dcel.halfedges.get 2
        = some ⟨none, 3, 0, 4, 3, .face 1⟩ ∧
      (_construct_empty_arrangement Unit Unit).dcel.halfedges.get 3
        = some ⟨none, 2, 5, 1, 2, .hole 0⟩ ∧
      (_construct_empty_arrangement Unit Unit).dcel.vertices.get 3
        = some ⟨none, .PLUS_INFINITY, .PLUS_INFINITY, .halfedge (some 2)⟩ ∧
      (_construct_empty_arrangement Unit Unit).dcel.vertices.get 2
        = some ⟨none, .PLUS_INFINITY, .MINUS_INFINITY, .halfedge (some 0)⟩) ∧
    (_construct_empty_arrangement Unit Unit)._compare_y_at_x_assertion 2 = some false :=
  ⟨by decide,
    (C28_assertion_on_rectangle (_construct_empty_arrangement Unit Unit) 2
      ⟨none, 3, 0, 4, 3, .face 1⟩ ⟨none, 2, 5, 1, 2, .hole 0⟩
      ⟨none, .PLUS_INFINITY, .PLUS_INFINITY, .halfedge (some 2)⟩
      ⟨none, .PLUS_INFINITY, .MINUS_INFINITY, .halfedge (some 0)⟩
      (by decide) (by decide) (by decide) (by decide)).2.2.1.mpr (by decide)⟩

/-! ## The curve read by the comparison with an edge -/

/-- The proviso of claim C29 from the state of the vertices: it holds when every
halfedge without a curve has a live target without a point, the only vertices without a
point are the four corners, and each corner has the y-boundary type -oo or +oo. -/
theorem Arrangement_2.fictitious_targets_at_infinity {Point Curve : Type}
    (arr : Arrangement_2 Point Curve)
    (h1 : ∀ he r, arr.dcel.halfedges.get he = some r → r.p_cv = none →
      ∃ v, arr.dcel.vertices.get r.vertex = some v ∧ v.p_pt = none)
    (h2 : ∀ x v, arr.dcel.vertices.get x = some v → v.p_pt = none →
      x = arr.v_bl ∨ x = arr.v_tl ∨ x = arr.v_br ∨ x = arr.v_tr)
    (h3 : ∀ x v, (x = arr.v_bl ∨ x = arr.v_tl ∨ x = arr.v_br ∨ x = arr.v_tr) →
      arr.dcel.vertices.get x = some v →
      v.inf_y = .MINUS_INFINITY ∨ v.inf_y = .PLUS_INFINITY) :
    ∀ he r, arr.dcel.halfedges.get he = some r → r.p_cv = none →
      arr.dcel.boundary_in_y r.vertex = some .MINUS_INFINITY ∨
      arr.dcel.boundary_in_y r.vertex = some .PLUS_INFINITY := by
  intro he r hr hcv
  obtain ⟨v, hv, hp⟩ := h1 he r hr hcv
  have := h3 r.vertex v (h2 r.vertex v hv hp) hv
  simp only [Dcel.boundary_in_y, hv, Option.map_some', Option.some.injEq]
  exact this

/-- Claim C29: in bounded mode `_compare_y_at_x` never reads the absent curve of a
fictitious halfedge.  Provided every halfedge without a curve has a target vertex whose
y-boundary type is -oo or +oo, a call that reaches the branch which passes the curve of
`he` to the traits (the y-boundary type of the target is neither) finds a curve there,
and returns the traits' result for it; and a call for a halfedge without a curve returns
`LARGER` or `SMALLER` without consulting the traits.  The proviso holds when every
halfedge without a curve has a target without a point, the only vertices without a point
are the four corners, and the y-boundary type of each corner is -oo or +oo. -/
theorem C29_curve_is_present {Point Curve : Type} (arr : Arrangement_2 Point Curve)
    (traits : Traits Point Curve) (imp_true : Point → Nat → Option Comparison_result)
    (p : Point)
    (hfict : ∀ he r, arr.dcel.halfedges.get he = some r → r.p_cv = none →
      arr.dcel.boundary_in_y r.vertex = some .MINUS_INFINITY ∨
      arr.dcel.boundary_in_y r.vertex = some .PLUS_INFINITY) :
    (∀ he r, arr.dcel.halfedges.get he = some r →
      arr.dcel.boundary_in_y r.vertex = some .NO_BOUNDARY →
      ∃ cv, r.p_cv = some cv ∧
        arr._compare_y_at_x traits imp_true false false p he
          = some (traits.compare_y_at_x p cv)) ∧
    (∀ he r, arr.dcel.halfedges.get he = some r → r.p_cv = none →
      ∀ traits2 : Traits Point Curve,
        arr._compare_y_at_x traits2 imp_true false false p he
          = arr._compare_y_at_x traits imp_true false false p he ∧
        (arr._compare_y_at_x traits imp_true false false p he = some .LARGER ∨
          arr._compare_y_at_x traits imp_true false false p he = some .SMALLER)) ∧
    (∀ he r v, arr.dcel.halfedges.get he = some r → arr.dcel.vertices.get r.vertex = some v →
      (arr._compare_y_at_x traits imp_true false false p he).isSome = true) ∧
    ((∀ he r, arr.dcel.halfedges.get he = some r → r.p_cv = none →
        ∃ v, arr.dcel.vertices.get r.vertex = some v ∧ v.p_pt = none) →
      (∀ x v, arr.dcel.vertices.get x = some v → v.p_pt = none →
        x = arr.v_bl ∨ x = arr.v_tl ∨ x = arr.v_br ∨ x = arr.v_tr) →
      (∀ x v, (x = arr.v_bl ∨ x = arr.v_tl ∨ x = arr.v_br ∨ x = arr.v_tr) →
        arr.dcel.vertices.get x = some v →
        v.inf_y = .MINUS_INFINITY ∨ v.inf_y = .PLUS_INFINITY) →
      ∀ he r, arr.dcel.halfedges.get he = some r → r.p_cv = none →
        arr.dcel.boundary_in_y r.vertex = some .MINUS_INFINITY ∨
        arr.dcel.boundary_in_y r.vertex = some .PLUS_INFINITY) := by
  refine ⟨?_, ?_, ?_, Arrangement_2.fictitious_targets_at_infinity arr⟩
  · intro he r hr hb
    cases hcv : r.p_cv with
    | none =>
      rcases hfict he r hr hcv with h | h <;> rw [hb] at h <;> cases h
    | some cv =>
      refine ⟨cv, rfl, ?_⟩
      simp [Arrangement_2._compare_y_at_x, Arrangement_2._compare_y_at_x_imp, hr, hb, hcv]
  · intro he r hr hcv traits2
    rcases hfict he r hr hcv with h | h <;>
      simp [Arrangement_2._compare_y_at_x, Arrangement_2._compare_y_at_x_imp, hr, h]
  · intro he r v hr hv
    have hb : arr.dcel.boundary_in_y r.vertex = some v.inf_y := by
      simp [Dcel.boundary_in_y, hv]
    cases hy : v.inf_y with
    | MINUS_INFINITY =>
      simp [Arrangement_2._compare_y_at_x, Arrangement_2._compare_y_at_x_imp, hr, hb, hy]
    | PLUS_INFINITY =>
      simp [Arrangement_2._compare_y_at_x, Arrangement_2._compare_y_at_x_imp, hr, hb, hy]
    | NO_BOUNDARY =>
      rw [hy] at hb
      cases hcv : r.p_cv with
      | none =>
        rcases hfict he r hr hcv with h | h <;> rw [hb] at h <;> cases h
      | some cv =>
        simp [Arrangement_2._compare_y_at_x, Arrangement_2._compare_y_at_x_imp, hr, hb, hcv]

theorem insert_segment_in_empty_fictitious :
    ∀ he r, insert_segment_in_empty.1.dcel.halfedges.get he = some r → r.p_cv = none →
      insert_segment_in_empty.1.dcel.boundary_in_y r.vertex = some .MINUS_INFINITY ∨
      insert_segment_in_empty.1.dcel.boundary_in_y r.vertex = some .PLUS_INFINITY := by
  have hall : insert_segment_in_empty.1.dcel.halfedges.entries.all (fun e =>
      e.2.p_cv.isSome ||
        decide (insert_segment_in_empty.1.dcel.boundary_in_y e.2.vertex
            = some .MINUS_INFINITY ∨
          insert_segment_in_empty.1.dcel.boundary_in_y e.2.vertex
            = some .PLUS_INFINITY)) = true := by
    decide
  intro he r hr hcv
  rw [List.all_eq_true] at hall
  have := hall (he, r) ((Arena.mem_entries _ he r).mpr hr)
  simpa [hcv] using this

/-- The comparison of claim C29 in the arrangement of one segment: the halfedge 8 of the
segment carries its curve, and the fictitious halfedge 0 is compared without it. -/
theorem C29_curve_is_present_witness :
    (∀ he r, insert_segment_in_empty.1.dcel.halfedges.get he = some r → r.p_cv = none →
      insert_segment_in_empty.1.dcel.boundary_in_y r.vertex = some .MINUS_INFINITY ∨
      insert_segment_in_empty.1.dcel.boundary_in_y r.vertex = some .PLUS_INFINITY) ∧
    (∃ cv, (⟨some ((0, 0), (2, 0)), 9, 9, 9, 5, .hole 1⟩
          : DHalfedge ((Int × Int) × (Int × Int))).p_cv = some cv ∧
      insert_segment_in_empty.1._compare_y_at_x segment_traits (fun _ _ => none) false false
        (1, 1) 8 = some (segment_traits.compare_y_at_x (1, 1) cv)) :=
  ⟨insert_segment_in_empty_fictitious,
    (C29_curve_is_present insert_segment_in_empty.1 segment_traits (fun _ _ => none) (1, 1)
      insert_segment_in_empty_fictitious).1 8 ⟨some ((0, 0), (2, 0)), 9, 9, 9, 5, .hole 1⟩
      (by decide) (by decide)⟩

/-! ## The filter of the fictitious vertices -/

/-- Claim C30: the filter of the "all vertices" traversal, `_Is_non_fictitious_vertex`,
rejects a vertex if and only if the vertex has no point and is one of the four corner
vertices the filter was constructed with.  Hence every vertex accepted by the
valid-vertex filter is accepted by the "all vertices" filter, and the vertices accepted
by "all" but not by "valid" are exactly the vertices at infinity that are none of the
four corners.  (The filter of the default constructor, which registers no corner,
accepts every vertex.) -/
theorem C30_all_vertices_filter {Point : Type} (bl tl br tr : Nat) (v : Nat × DVertex Point) :
    ((_Is_non_fictitious_vertex.make bl tl br tr).call v = false ↔
      (v.2.has_null_point = true ∧ (v.1 = bl ∨ v.1 = tl ∨ v.1 = br ∨ v.1 = tr))) ∧
    (_Is_valid_vertex v.2 = true → (_Is_non_fictitious_vertex.make bl tl br tr).call v = true) ∧
    (((_Is_non_fictitious_vertex.make bl tl br tr).call v = true ∧ _Is_valid_vertex v.2 = false)
      ↔ (v.2.has_null_point = true ∧ v.1 ≠ bl ∧ v.1 ≠ tl ∧ v.1 ≠ br ∧ v.1 ≠ tr)) ∧
    _Is_non_fictitious_vertex.default.call v = true := by
  cases hp : v.2.has_null_point <;>
    simp [_Is_non_fictitious_vertex.call, _Is_non_fictitious_vertex.make,
      _Is_non_fictitious_vertex.default, _Is_valid_vertex, hp]
  tauto

/-! ## The loop of the degree, under the invariants of the store -/

theorem Arena.get_map {α β : Type} (s : Arena α) (f : α → β) (i : Nat) :
    Arena.get (List.map (Option.map f) s) i = (Arena.get s i).map f := by
  unfold Arena.get
  rw [List.get?_eq_getElem?, List.getElem?_map, List.get?_eq_getElem?]
  cases s[i]? with
  | none => rfl
  | some o => cases o <;> rfl

/-- A store whose twin, next and prev links are consistent has the links of a linked
store: the store with the curves left out is linked, and has the same vertices and the
same twin, next, prev and target of every halfedge. -/
theorem Dcel.exists_linked_of_links {Point Curve : Type} (d : Dcel Point Curve)
    (htwin : ∀ h t, Halfedge.twin d h = some t → Halfedge.twin d t = some h)
    (hnp : ∀ h n, Halfedge.next d h = some n → Halfedge.prev d n = some h)
    (hpn : ∀ h p, Halfedge.prev d h = some p → Halfedge.next d p = some h) :
    ∃ e : Dcel Point Curve, e.Linked ∧ e.vertices = d.vertices ∧
      (∀ x, Halfedge.twin e x = Halfedge.twin d x) ∧
      (∀ x, Halfedge.next e x = Halfedge.next d x) ∧
      (∀ x, Halfedge.prev e x = Halfedge.prev d x) ∧
      (∀ x, (e.halfedges.get x).isSome = (d.halfedges.get x).isSome) ∧
      e.size_of_halfedges = d.size_of_halfedges := by
  obtain ⟨f, hf⟩ : ∃ f : DHalfedge Curve → DHalfedge Curve,
      f = fun r => ⟨none, r.opposite, r.prev, r.next, r.vertex, r.comp⟩ := ⟨_, rfl⟩
  have hg : ∀ x, Arena.get (List.map (Option.map f) d.halfedges) x
      = (d.halfedges.get x).map f := fun x => Arena.get_map _ _ x
  have fo : ∀ r, (f r).opposite = r.opposite := fun r => by rw [hf]
  have fn : ∀ r, (f r).next = r.next := fun r => by rw [hf]
  have fp : ∀ r, (f r).prev = r.prev := fun r => by rw [hf]
  have fc : ∀ r, (f r).p_cv = none := fun r => by rw [hf]
  have t : ∀ x, Halfedge.twin { d with halfedges := List.map (Option.map f) d.halfedges } x
      = Halfedge.twin d x := by
    intro x
    simp only [Halfedge.twin, hg]
    cases d.halfedges.get x with
    | none => rfl
    | some y => simp only [Option.map_some', fo]
  have n : ∀ x, Halfedge.next { d with halfedges := List.map (Option.map f) d.halfedges } x
      = Halfedge.next d x := by
    intro x
    simp only [Halfedge.next, hg]
    cases d.halfedges.get x with
    | none => rfl
    | some y => simp only [Option.map_some', fn]
  have p : ∀ x, Halfedge.prev { d with halfedges := List.map (Option.map f) d.halfedges } x
      = Halfedge.prev d x := by
    intro x
    simp only [Halfedge.prev, hg]
    cases d.halfedges.get x with
    | none => rfl
    | some y => simp only [Option.map_some', fp]
  have c : ∀ x, Halfedge.curve { d with halfedges := List.map (Option.map f) d.halfedges } x
      = (d.halfedges.get x).map (fun _ => none) := by
    intro x
    simp only [Halfedge.curve, hg]
    cases d.halfedges.get x with
    | none => rfl
    | some y => simp only [Option.map_some', fc]
  refine ⟨{ d with halfedges := List.map (Option.map f) d.halfedges }, ⟨?_, ?_, ?_⟩, rfl, t, n,
    p, ?_, ?_⟩
  · intro h t1 ht
    rw [t] at ht
    have hback := htwin h t1 ht
    refine ⟨by rw [t]; exact hback, ?_⟩
    rw [c, c]
    obtain ⟨r1, hr1, -⟩ := Halfedge.twin_eq_some.mp ht
    obtain ⟨r2, hr2, -⟩ := Halfedge.twin_eq_some.mp hback
    rw [hr1, hr2]
    rfl
  · intro h n1 hn
    rw [n] at hn
    rw [p]
    exact hnp h n1 hn
  · intro h p1 hp
    rw [p] at hp
    rw [n]
    exact hpn h p1 hp
  · intro x
    simp only [hg]
    cases d.halfedges.get x <;> rfl
  · apply Arena.size_eq_of_live_eq
    · simp
    · intro x
      simp only [hg]
      cases d.halfedges.get x <;> rfl

theorem Vertex.degree_loop_congr {Point Curve : Type} (d e : Dcel Point Curve)
    (ht : ∀ x, Halfedge.twin e x = Halfedge.twin d x)
    (hn : ∀ x, Halfedge.next e x = Halfedge.next d x) (w he_first : Nat) :
    ∀ fuel cur n, Vertex.degree_loop e w he_first fuel cur n
      = Vertex.degree_loop d w he_first fuel cur n := by
  have htf : Halfedge.twin e = Halfedge.twin d := funext ht
  intro fuel
  induction fuel with
  | zero => intro cur n; rfl
  | succ fuel ih =>
    intro cur n
    simp only [Vertex.degree_loop, hn, htf]
    cases (Halfedge.next d cur).bind (Halfedge.twin d) with
    | none => rfl
    | some x =>
      simp only
      split_ifs
      · rfl
      · exact ih _ _

theorem around_vertex_congr {Point Curve : Type} (d e : Dcel Point Curve)
    (ht : ∀ x, Halfedge.twin e x = Halfedge.twin d x)
    (hn : ∀ x, Halfedge.next e x = Halfedge.next d x) :
    around_vertex e = around_vertex d := by
  funext x
  simp only [around_vertex, twin_or_self, next_or_self, ht, hn]

/-- Claim C23: under the invariants of the store (finitely many halfedges, their number
a value of `Size`; the twin of the twin of a halfedge is the halfedge; next and prev are
inverse to each other; the target of a halfedge is the source of its successor), for
every non-isolated vertex v whose incident halfedge `he` is live and ends at v, the loop
of `Vertex::degree` ends, its result is the length n of the orbit of `he` under
h -> twin (next (h)) (the orbit comes back to `he` after n steps and its n halfedges are
different), and every halfedge of the orbit has v as its target. -/
theorem C23_degree_is_orbit_length {Point Curve : Type} (d : Dcel Point Curve) (w : Nat)
    (hsize : d.size_of_halfedges < 2 ^ w)
    (htwin : ∀ h t, Halfedge.twin d h = some t → Halfedge.twin d t = some h)
    (hnp : ∀ h n, Halfedge.next d h = some n → Halfedge.prev d n = some h)
    (hpn : ∀ h p, Halfedge.prev d h = some p → Halfedge.next d p = some h)
    (hts : ∀ h n, Halfedge.next d h = some n → Halfedge.source d n = Halfedge.target d h)
    (v he : Nat) (r : DVertex Point) (hv : d.vertices.get v = some r)
    (hinc : r.inc = .halfedge (some he)) (hlive : (d.halfedges.get he).isSome)
    (htarget : Halfedge.target d he = some v) :
    ∃ n, 1 ≤ n ∧ n ≤ d.size_of_halfedges ∧
      (∀ fuel, d.size_of_halfedges ≤ fuel → Vertex.degree d w fuel v = some n) ∧
      (around_vertex d)^[n] he = he ∧
      (∀ i j, i < n → j < n →
        (around_vertex d)^[i] he = (around_vertex d)^[j] he → i = j) ∧
      (∀ j, (Halfedge.next d ((around_vertex d)^[j] he)).bind (Halfedge.twin d)
          = some ((around_vertex d)^[j + 1] he) ∧
        Halfedge.target d ((around_vertex d)^[j] he) = some v) := by
  obtain ⟨e, hl, hev, het, hen, -, helive, hesize⟩ :=
    Dcel.exists_linked_of_links d htwin hnp hpn
  have hav := around_vertex_congr d e het hen
  have hlive2 : (e.halfedges.get he).isSome := by rw [helive]; exact hlive
  have hex : ∃ n, 0 < n ∧ (around_vertex e)^[n] he = he := by
    obtain ⟨n, h1, -, h3⟩ := exists_around_vertex_period hl he hlive2
    exact ⟨n, h1, h3⟩
  obtain ⟨n0, hn0, hle0, hper0⟩ := exists_around_vertex_period hl he hlive2
  have hfind := Nat.find_spec hex
  have hmin : ∀ j, 0 < j → j < Nat.find hex → (around_vertex e)^[j] he ≠ he := by
    intro j hj1 hj2 hj3
    exact Nat.find_min hex hj2 ⟨hj1, hj3⟩
  have hle : Nat.find hex ≤ e.size_of_halfedges :=
    le_trans (Nat.find_min' hex ⟨hn0, hper0⟩) hle0
  have hinj := around_vertex_injective hl
  have hiso : r.is_isolated = false := by simp [DVertex.is_isolated, hinc]
  refine ⟨Nat.find hex, hfind.1, hesize ▸ hle, ?_, hav ▸ hfind.2, ?_, ?_⟩
  · intro fuel hfuel
    have e1 := Vertex.degree_loop_eq hl w he (Nat.find hex) fuel he 0 hlive2 hmin hfind.2
      hfind.1 (by omega) (by omega)
    rw [Vertex.degree_loop_congr d e het hen] at e1
    simp only [Vertex.degree, hv, Option.some_bind, hiso, Bool.false_eq_true, if_false, hinc]
    rw [e1, Nat.zero_add]
  · rw [← hav]
    have cancel : ∀ a b : Nat, a < b → b < Nat.find hex →
        (around_vertex e)^[a] he = (around_vertex e)^[b] he → False := by
      intro a b hab hb heq
      have e2 : (around_vertex e)^[b] he
          = (around_vertex e)^[a] ((around_vertex e)^[b - a] he) := by
        rw [← Function.iterate_add_apply]
        congr 1
        omega
      rw [e2] at heq
      exact hmin (b - a) (by omega) (by omega) (hinj.iterate a heq).symm
    intro i j hi hj heq
    rcases Nat.lt_trichotomy i j with c | c | c
    · exact (cancel i j c hj heq).elim
    · exact c
    · exact (cancel j i c hi heq.symm).elim
  · intro j
    have hall := around_vertex_iterate_live hl he hlive2 j
    rw [hav] at hall
    have hstep := (around_vertex_live hl _ hall).1
    rw [hav, funext het, hen] at hstep
    refine ⟨by rw [Function.iterate_succ_apply']; exact hstep, ?_⟩
    induction j with
    | zero => exact htarget
    | succ j ih =>
      have hall2 := around_vertex_iterate_live hl he hlive2 j
      rw [hav] at hall2
      have hstep2 := (around_vertex_live hl _ hall2).1
      rw [hav, funext het, hen] at hstep2
      have ih2 := ih hall2 (by
        have := (around_vertex_live hl _ hall2).1
        rw [hav, funext het, hen] at this
        exact this)
      rw [Function.iterate_succ_apply']
      cases hnx : Halfedge.next d ((around_vertex d)^[j] he) with
      | none => rw [hnx] at hstep2; cases hstep2
      | some nx =>
        rw [hnx, Option.some_bind] at hstep2
        have hs := hts _ _ hnx
        rw [ih2] at hs
        obtain ⟨rn, hrn, hrno⟩ := Halfedge.twin_eq_some.mp hstep2
        unfold Halfedge.source at hs
        rw [hrn, Option.some_bind, hrno] at hs
        exact hs

theorem empty_target_is_source_of_next :
    ∀ h n, Halfedge.next (_construct_empty_arrangement Unit Unit).dcel h = some n →
      Halfedge.source (_construct_empty_arrangement Unit Unit).dcel n
        = Halfedge.target (_construct_empty_arrangement Unit Unit).dcel h := by
  have hall : (_construct_empty_arrangement Unit Unit).dcel.halfedges.entries.all (fun e =>
      decide (Halfedge.source (_construct_empty_arrangement Unit Unit).dcel e.2.next
        = Halfedge.target (_construct_empty_arrangement Unit Unit).dcel e.1)) = true := by
    decide
  intro h n hn
  obtain ⟨r, hr, hrn⟩ := Halfedge.next_eq_some.mp hn
  rw [List.all_eq_true] at hall
  have := hall (h, r) ((Arena.mem_entries _ h r).mpr hr)
  rw [← hrn]
  simpa using this

/-- The loop of claim C23 at the bottom-left corner of the empty arrangement, whose
incident halfedge has the handle 6, with `Size` of 64 bits. -/
theorem C23_degree_is_orbit_length_witness :
    ((_construct_empty_arrangement Unit Unit).dcel.size_of_halfedges < 2 ^ 64 ∧
      (_construct_empty_arrangement Unit Unit).dcel.vertices.get 0
        = some ⟨none, .MINUS_INFINITY, .MINUS_INFINITY, .halfedge (some 6)⟩ ∧
      ((_construct_empty_arrangement Unit Unit).dcel.halfedges.get 6).isSome = true ∧
      Halfedge.target (_construct_empty_arrangement Unit Unit).dcel 6 = some 0) ∧
    ∃ n, 1 ≤ n ∧ n ≤ (_construct_empty_arrangement Unit Unit).dcel.size_of_halfedges ∧
      (∀ fuel, (_construct_empty_arrangement Unit Unit).dcel.size_of_halfedges ≤ fuel →
        Vertex.degree (_construct_empty_arrangement Unit Unit).dcel 64 fuel 0 = some n) ∧
      (around_vertex (_construct_empty_arrangement Unit Unit).dcel)^[n] 6 = 6 ∧
      (∀ i j, i < n → j < n →
        (around_vertex (_construct_empty_arrangement Unit Unit).dcel)^[i] 6
          = (around_vertex (_construct_empty_arrangement Unit Unit).dcel)^[j] 6 → i = j) ∧
      (∀ j, (Halfedge.next (_construct_empty_arrangement Unit Unit).dcel
            ((around_vertex (_construct_empty_arrangement Unit Unit).dcel)^[j] 6)).bind
            (Halfedge.twin (_construct_empty_arrangement Unit Unit).dcel)
          = some ((around_vertex (_construct_empty_arrangement Unit Unit).dcel)^[j + 1] 6) ∧
        Halfedge.target (_construct_empty_arrangement Unit Unit).dcel
          ((around_vertex (_construct_empty_arrangement Unit Unit).dcel)^[j] 6) = some 0) :=
  ⟨by decide,
    C23_degree_is_orbit_length (_construct_empty_arrangement Unit Unit).dcel 64 (by decide)
      (fun h t ht => ((Dcel.linked_empty Unit Unit).1 h t ht).1)
      (Dcel.linked_empty Unit Unit).2.1 (Dcel.linked_empty Unit Unit).2.2
      empty_target_is_source_of_next 0 6
      ⟨none, .MINUS_INFINITY, .MINUS_INFINITY, .halfedge (some 6)⟩ (by decide) rfl
      (by decide) (by decide)⟩

/-! ## Insertion followed by removal -/

theorem Arena.size_modify {α : Type} (s : Arena α) (i : Nat) (f : α → α) :
    (s.modify i f).size = s.size := by
  apply Arena.size_eq_of_live_eq _ _ (Arena.length_modify s i f)
  intro j
  rw [Arena.get_modify]
  cases s.get j <;> rfl

theorem Arena.live_modify {α : Type} (s : Arena α) (i j : Nat) (f : α → α) :
    ((s.modify i f).get j).isSome = (s.get j).isSome := by
  rw [Arena.get_modify]
  cases s.get j <;> rfl

theorem Arena.size_alloc {α : Type} (s : Arena α) (a : α) :
    (s.alloc a).size = s.size + 1 := by
  simp [Arena.size, Arena.records, Arena.alloc, List.filterMap_append]

theorem Arena.size_free_of_live {α : Type} (s : Arena α) (i : Nat)
    (h : (s.get i).isSome) : (s.free i).size + 1 = s.size := by
  induction s generalizing i with
  | nil => simp [Arena.get] at h
  | cons a t ih =>
    cases i with
    | zero =>
      cases a with
      | none => simp [Arena.get] at h
      | some x => simp [Arena.free, Arena.size, Arena.records]
    | succ i =>
      have h2 : (Arena.get t i).isSome := by
        simpa [Arena.get] using h
      have := ih i h2
      cases a with
      | none =>
        simp only [Arena.free, Arena.size, Arena.records, List.set_cons_succ] at this ⊢
        simpa using this
      | some x =>
        simp only [Arena.free, Arena.size, Arena.records, List.set_cons_succ] at this ⊢
        simp only [List.filterMap_cons, id, List.length_cons]
        omega

theorem Arena.size_free_of_dead {α : Type} (s : Arena α) (i : Nat)
    (h : (s.get i).isSome = false) : (s.free i).size = s.size := by
  apply Arena.size_eq_of_live_eq _ _ (Arena.length_free s i)
  intro j
  rw [Arena.get_free]
  split_ifs with hj
  · subst hj; rw [h]; rfl
  · rfl

/-- The walk that sets the reference of a boundary cycle changes nothing but that
reference, and only on halfedge records. -/
theorem Dcel.set_component_cycle_get {Point Curve : Type} (c : Halfedge_component)
    (start : Nat) (fuel cur : Nat) (d : Dcel Point Curve) :
    (Dcel.set_component_cycle c start fuel cur d).vertices = d.vertices ∧
    (Dcel.set_component_cycle c start fuel cur d).faces = d.faces ∧
    (Dcel.set_component_cycle c start fuel cur d).holes = d.holes ∧
    (Dcel.set_component_cycle c start fuel cur d).iso_verts = d.iso_verts ∧
    (Dcel.set_component_cycle c start fuel cur d).halfedges.length = d.halfedges.length ∧
    ∀ x, ∃ b : Bool, (Dcel.set_component_cycle c start fuel cur d).halfedges.get x
      = (d.halfedges.get x).map (fun r => if b then { r with comp := c } else r) := by
  induction fuel generalizing cur d with
  | zero =>
    refine ⟨rfl, rfl, rfl, rfl, rfl, fun x => ⟨false, ?_⟩⟩
    show d.halfedges.get x = _
    cases d.halfedges.get x <;> rfl
  | succ fuel ih =>
    have hone : ∀ x, ∃ b : Bool, (d.set_component cur c).halfedges.get x
        = (d.halfedges.get x).map (fun r => if b then { r with comp := c } else r) := by
      intro x
      refine ⟨decide (x = cur), ?_⟩
      rw [Dcel.get_set_component]
      cases d.halfedges.get x with
      | none => rfl
      | some y => by_cases hx : x = cur <;> simp [hx]
    unfold Dcel.set_component_cycle
    cases hn : Halfedge.next d cur with
    | none =>
      refine ⟨rfl, rfl, rfl, rfl, rfl, fun x => ⟨false, ?_⟩⟩
      show d.halfedges.get x = _
      cases d.halfedges.get x <;> rfl
    | some n =>
      simp only
      split_ifs with hs
      · exact ⟨rfl, rfl, rfl, rfl, Dcel.length_set_component d cur c, hone⟩
      · obtain ⟨i1, i2, i3, i4, i5, i6⟩ := ih n (d.set_component cur c)
        refine ⟨i1, i2, i3, i4, ?_, ?_⟩
        · rw [i5, Dcel.length_set_component]
        · intro x
          obtain ⟨b1, hb1⟩ := i6 x
          obtain ⟨b2, hb2⟩ := hone x
          refine ⟨b1 || b2, ?_⟩
          rw [hb1, hb2]
          cases d.halfedges.get x with
          | none => rfl
          | some y => cases b1 <;> cases b2 <;> rfl

theorem Dcel.set_component_cycle_live {Point Curve : Type} (c : Halfedge_component)
    (start : Nat) (fuel cur : Nat) (d : Dcel Point Curve) (x : Nat) :
    ((Dcel.set_component_cycle c start fuel cur d).halfedges.get x).isSome
      = (d.halfedges.get x).isSome := by
  obtain ⟨b, hb⟩ := (Dcel.set_component_cycle_get c start fuel cur d).2.2.2.2.2 x
  rw [hb]
  cases d.halfedges.get x <;> rfl

theorem Dcel.set_component_cycle_size {Point Curve : Type} (c : Halfedge_component)
    (start : Nat) (fuel cur : Nat) (d : Dcel Point Curve) :
    (Dcel.set_component_cycle c start fuel cur d).halfedges.size = d.halfedges.size :=
  Arena.size_eq_of_live_eq _ _ (Dcel.set_component_cycle_get c start fuel cur d).2.2.2.2.1
    (Dcel.set_component_cycle_live c start fuel cur d)

/-- The walk keeps the links of the halfedges. -/
theorem Dcel.set_component_cycle_accessors {Point Curve : Type} (c : Halfedge_component)
    (start : Nat) (fuel cur : Nat) (d : Dcel Point Curve) (x : Nat) :
    Halfedge.twin (Dcel.set_component_cycle c start fuel cur d) x = Halfedge.twin d x ∧
    Halfedge.curve (Dcel.set_component_cycle c start fuel cur d) x = Halfedge.curve d x ∧
    Halfedge.next (Dcel.set_component_cycle c start fuel cur d) x = Halfedge.next d x ∧
    Halfedge.prev (Dcel.set_component_cycle c start fuel cur d) x = Halfedge.prev d x ∧
    Halfedge.target (Dcel.set_component_cycle c start fuel cur d) x = Halfedge.target d x := by
  obtain ⟨b, hb⟩ := (Dcel.set_component_cycle_get c start fuel cur d).2.2.2.2.2 x
  simp only [Halfedge.twin, Halfedge.curve, Halfedge.next, Halfedge.prev, Halfedge.target, hb]
  cases d.halfedges.get x with
  | none => exact ⟨rfl, rfl, rfl, rfl, rfl⟩
  | some y => cases b <;> exact ⟨rfl, rfl, rfl, rfl, rfl⟩

theorem Dcel.linked_set_component_cycle {Point Curve : Type} (c : Halfedge_component)
    (start : Nat) (fuel cur : Nat) (d : Dcel Point Curve) (hd : d.Linked) :
    (Dcel.set_component_cycle c start fuel cur d).Linked :=
  Dcel.linked_of_accessors_eq hd
    (fun x => (Dcel.set_component_cycle_accessors c start fuel cur d x).1)
    (fun x => (Dcel.set_component_cycle_accessors c start fuel cur d x).2.1)
    (fun x => (Dcel.set_component_cycle_accessors c start fuel cur d x).2.2.1)
    (fun x => (Dcel.set_component_cycle_accessors c start fuel cur d x).2.2.2.1)

/-- A record that carries the reference `c` keeps it along the walk, and the halfedge
the walk starts from gets it. -/
theorem Dcel.set_component_cycle_keeps {Point Curve : Type} (c : Halfedge_component)
    (start : Nat) (fuel cur : Nat) (d : Dcel Point Curve) (x : Nat) (r : DHalfedge Curve)
    (hx : d.halfedges.get x = some r) (hc : r.comp = c) :
    (Dcel.set_component_cycle c start fuel cur d).halfedges.get x = some r := by
  obtain ⟨b, hb⟩ := (Dcel.set_component_cycle_get c start fuel cur d).2.2.2.2.2 x
  rw [hb, hx]
  cases b
  · rfl
  · simp only [Option.map_some', if_true]
    rw [← hc]

theorem Dcel.set_component_cycle_first {Point Curve : Type} (c : Halfedge_component)
    (start : Nat) (fuel cur : Nat) (d : Dcel Point Curve) (r : DHalfedge Curve)
    (hx : d.halfedges.get cur = some r) :
    (Dcel.set_component_cycle c start (fuel + 1) cur d).halfedges.get cur
      = some { r with comp := c } := by
  have hset : (d.set_component cur c).halfedges.get cur = some { r with comp := c } := by
    rw [Dcel.get_set_component, hx]
    simp
  unfold Dcel.set_component_cycle
  have hn : Halfedge.next d cur = some r.next := by simp [Halfedge.next, hx]
  rw [hn]
  simp only
  split_ifs with hs
  · exact hset
  · exact Dcel.set_component_cycle_keeps c start fuel r.next _ cur _ hset rfl

theorem Dcel.live_splice {Point Curve : Type} (d : Dcel Point Curve) (a b x : Nat) :
    ((d.splice a b).halfedges.get x).isSome = (d.halfedges.get x).isSome := by
  unfold Dcel.splice
  split
  · simp only [Arena.live_modify]
  · rfl

/-- The halfedge part of the removal of an edge: in a linked store the two splices make
the pair a cycle of its own, so the pair is removed; nothing else is removed, and the
other records of the store stay as they are. -/
theorem Dcel.unlink_edge_spec {Point Curve : Type} (d : Dcel Point Curve) (hd : d.Linked)
    (he1 he2 : Nat) (r1 r2 : DHalfedge Curve) (h1 : d.halfedges.get he1 = some r1)
    (h2 : d.halfedges.get he2 = some r2) (ho : r1.opposite = he2) (hne : he2 ≠ he1) :
    (d.unlink_edge he1 he2).vertices = d.vertices ∧
    (d.unlink_edge he1 he2).faces = d.faces ∧
    (d.unlink_edge he1 he2).holes = d.holes ∧
    (d.unlink_edge he1 he2).iso_verts = d.iso_verts ∧
    (d.unlink_edge he1 he2).halfedges.length = d.halfedges.length ∧
    (d.unlink_edge he1 he2).halfedges.size + 2 = d.halfedges.size := by
  have l1 : (d.halfedges.get he1).isSome := by rw [h1]; rfl
  have l2 : (d.halfedges.get he2).isSome := by rw [h2]; rfl
  obtain ⟨hp2, lp2⟩ := prev_or_self_live hd he2 l2
  have np2 : Halfedge.next d (prev_or_self d he2) = some he2 := hd.2.2 _ _ hp2
  have hd1 : (d.splice (prev_or_self d he2) he1).Linked := Dcel.linked_splice d _ _ hd
  have n1 : Halfedge.next (d.splice (prev_or_self d he2) he1) he1 = some he2 := by
    rw [Halfedge.next_splice d _ _ _ lp2 l1, if_pos rfl, np2]
  have l1' : ((d.splice (prev_or_self d he2) he1).halfedges.get he1).isSome := by
    rw [Dcel.live_splice]; exact l1
  have l2' : ((d.splice (prev_or_self d he2) he1).halfedges.get he2).isSome := by
    rw [Dcel.live_splice]; exact l2
  obtain ⟨hp1, lp1⟩ := prev_or_self_live hd1 he1 l1'
  have np1 := hd1.2.2 _ _ hp1
  have hq : he1 ≠ prev_or_self (d.splice (prev_or_self d he2) he1) he1 := by
    intro hq
    rw [← hq, n1] at np1
    exact hne (Option.some.inj np1)
  have n2 : Halfedge.next ((d.splice (prev_or_self d he2) he1).splice
      (prev_or_self (d.splice (prev_or_self d he2) he1) he1) he2) he2 = some he1 := by
    rw [Halfedge.next_splice _ _ _ _ lp1 l2', if_pos rfl, np1]
  have n3 : Halfedge.next ((d.splice (prev_or_self d he2) he1).splice
      (prev_or_self (d.splice (prev_or_self d he2) he1) he1) he2) he1 = some he2 := by
    rw [Halfedge.next_splice _ _ _ _ lp1 l2', if_neg (Ne.symm hne), if_neg hq, n1]
  have t3 : Halfedge.twin ((d.splice (prev_or_self d he2) he1).splice
      (prev_or_self (d.splice (prev_or_self d he2) he1) he1) he2) he1 = some he2 := by
    rw [Halfedge.twin_splice, Halfedge.twin_splice]
    simp [Halfedge.twin, h1, ho]
  obtain ⟨x1, hx1, hx1n⟩ := Halfedge.next_eq_some.mp n3
  obtain ⟨x2, hx2, hx2n⟩ := Halfedge.next_eq_some.mp n2
  obtain ⟨x3, hx3, hx3o⟩ := Halfedge.twin_eq_some.mp t3
  have hx13 : x3 = x1 := by rw [hx1] at hx3; exact (Option.some.inj hx3).symm
  subst hx13
  have hdel : (d.unlink_edge he1 he2).halfedges
      = ((((d.splice (prev_or_self d he2) he1).splice
          (prev_or_self (d.splice (prev_or_self d he2) he1) he1) he2).halfedges.free
            he1).free he2) ∧
      (d.unlink_edge he1 he2).vertices = d.vertices ∧
      (d.unlink_edge he1 he2).faces = d.faces ∧
      (d.unlink_edge he1 he2).holes = d.holes ∧
      (d.unlink_edge he1 he2).iso_verts = d.iso_verts := by
    have f1 := Dcel.splice_frame d (prev_or_self d he2) he1
    have f2 := Dcel.splice_frame (d.splice (prev_or_self d he2) he1)
      (prev_or_self (d.splice (prev_or_self d he2) he1) he1) he2
    simp only [Dcel.unlink_edge, Dcel.delete_edge, hx1, hx3o, hx2, hx1n, hx2n, and_self,
      if_true]
    refine ⟨trivial, ?_, ?_, ?_, ?_⟩
    · rw [f2.1, f1.1]
    · rw [f2.2.1, f1.2.1]
    · rw [f2.2.2.1, f1.2.2.1]
    · rw [f2.2.2.2, f1.2.2.2]
  obtain ⟨e1, e2, e3, e4, e5⟩ := hdel
  refine ⟨e2, e3, e4, e5, ?_, ?_⟩
  · rw [e1, Arena.length_free, Arena.length_free, Dcel.length_splice, Dcel.length_splice]
  · rw [e1]
    have s1 := Arena.size_free_of_live _ he1 (by rw [hx1]; rfl :
      (((d.splice (prev_or_self d he2) he1).splice
          (prev_or_self (d.splice (prev_or_self d he2) he1) he1) he2).halfedges.get
            he1).isSome)
    have s2 := Arena.size_free_of_live
      (((d.splice (prev_or_self d he2) he1).splice
          (prev_or_self (d.splice (prev_or_self d he2) he1) he1) he2).halfedges.free he1) he2
      (by rw [Arena.get_free, if_neg hne, hx2]; rfl)
    have s3 : ((d.splice (prev_or_self d he2) he1).splice
        (prev_or_self (d.splice (prev_or_self d he2) he1) he1) he2).halfedges.size
          = d.halfedges.size := by
      apply Arena.size_eq_of_live_eq
      · rw [Dcel.length_splice, Dcel.length_splice]
      · intro i
        rw [Dcel.live_splice, Dcel.live_splice]
    omega

theorem Arena.shape_modify {α : Type} (s : Arena α) (i : Nat) (f : α → α) :
    (s.modify i f).map Option.isSome = s.map Option.isSome := by
  apply List.ext_getElem?
  intro j
  have := Arena.live_modify s i j f
  simp only [Arena.get, List.get?_eq_getElem?] at this
  rw [List.getElem?_map, List.getElem?_map]
  cases h1 : (s.modify i f)[j]? with
  | none =>
    have hl := Arena.length_modify s i f
    have : s[j]? = none := by
      rw [List.getElem?_eq_none_iff] at h1 ⊢
      omega
    rw [this]
  | some a =>
    have hl := Arena.length_modify s i f
    obtain ⟨hlt, -⟩ := List.getElem?_eq_some_iff.mp h1
    have hlt2 : j < s.length := by omega
    rw [List.getElem?_eq_getElem hlt2]
    rw [h1, List.getElem?_eq_getElem hlt2] at this
    simpa using this

theorem Arena.shape_free {α : Type} (s : Arena α) (i : Nat) :
    (s.free i).map Option.isSome = (s.map Option.isSome).set i false := by
  simp [Arena.free, List.map_set]

theorem Arena.shape_alloc {α : Type} (s : Arena α) (a : α) :
    (s.alloc a).map Option.isSome = s.map Option.isSome ++ [true] := by
  simp [Arena.alloc]

theorem Arena.size_eq_count {α : Type} (s : Arena α) :
    s.size = (s.map Option.isSome).count true := by
  induction s with
  | nil => rfl
  | cons a t ih =>
    cases a with
    | none =>
      simp only [Arena.size, Arena.records, List.filterMap_cons_none, List.map_cons,
        Option.isSome_none] at ih ⊢
      rw [List.count_cons_of_ne (by decide)]
      exact ih
    | some x =>
      simp only [Arena.size, Arena.records, List.map_cons, Option.isSome_some,
        List.count_cons_self] at ih ⊢
      simp only [List.filterMap_cons, id, List.length_cons]
      omega

theorem Arena.shape_free_of_dead {α : Type} (s : Arena α) (i : Nat) (h : s.get i = none) :
    (s.map Option.isSome).set i false = s.map Option.isSome := by
  apply List.ext_getElem?
  intro j
  rw [List.getElem?_set]
  split_ifs with h1 h2
  · subst h1
    rw [List.length_map] at h2
    simp only [Arena.get, List.get?_eq_getElem?] at h
    rw [List.getElem?_map, List.getElem?_eq_getElem h2]
    rw [List.getElem?_eq_getElem h2] at h
    cases hs : s[i] with
    | none => rfl
    | some a => rw [hs] at h; simp at h
  · subst h1
    rw [List.getElem?_eq_none_iff.mpr (by omega)]
  · rfl

theorem Arena.shape_of_live {α : Type} (s t : Arena α) (hl : s.length = t.length)
    (h : ∀ i, (s.get i).isSome = (t.get i).isSome) :
    s.map Option.isSome = t.map Option.isSome := by
  apply List.ext_getElem?
  intro j
  have := h j
  simp only [Arena.get, List.get?_eq_getElem?] at this
  rw [List.getElem?_map, List.getElem?_map]
  by_cases hj : j < s.length
  · have hj2 : j < t.length := by omega
    rw [List.getElem?_eq_getElem hj, List.getElem?_eq_getElem hj2] at this ⊢
    simpa using this
  · rw [List.getElem?_eq_none_iff.mpr (by omega), List.getElem?_eq_none_iff.mpr (by omega)]

theorem Arena.count_set_append {l : List Bool} :
    ((l ++ [true]).set l.length false).count true = l.count true := by
  induction l with
  | nil => rfl
  | cons a t ih =>
    simp only [List.cons_append, List.length_cons, List.set_cons_succ, List.count_cons, ih]

theorem Arena.count_set_append_two {l : List Bool} :
    (((l ++ [true] ++ [true]).set (l.length + 1) false).set l.length false).count true
      = l.count true := by
  induction l with
  | nil => rfl
  | cons a t ih =>
    simp only [List.cons_append, List.length_cons, List.set_cons_succ, List.count_cons]
    simp only [List.append_assoc] at ih ⊢
    rw [ih]

theorem Arena.count_set_append_two_rev {l : List Bool} :
    (((l ++ [true] ++ [true]).set l.length false).set (l.length + 1) false).count true
      = l.count true := by
  induction l with
  | nil => rfl
  | cons a t ih =>
    simp only [List.cons_append, List.length_cons, List.set_cons_succ, List.count_cons]
    simp only [List.append_assoc] at ih ⊢
    rw [ih]

theorem Arrangement_2.move_hole_frame {Point Curve : Type} (arr : Arrangement_2 Point Curve)
    (f t h : Nat) :
    (arr._move_hole f t h).n_inf_verts = arr.n_inf_verts ∧
    (arr._move_hole f t h).dcel.vertices = arr.dcel.vertices ∧
    (arr._move_hole f t h).dcel.halfedges = arr.dcel.halfedges ∧
    (arr._move_hole f t h).dcel.faces.map Option.isSome
      = arr.dcel.faces.map Option.isSome := by
  refine ⟨rfl, rfl, rfl, ?_⟩
  simp only [Arrangement_2._move_hole, Arena.shape_modify]

theorem Arrangement_2.move_isolated_vertex_frame {Point Curve : Type}
    (arr : Arrangement_2 Point Curve) (f t v : Nat) :
    (arr._move_isolated_vertex f t v).n_inf_verts = arr.n_inf_verts ∧
    (arr._move_isolated_vertex f t v).dcel.vertices = arr.dcel.vertices ∧
    (arr._move_isolated_vertex f t v).dcel.halfedges = arr.dcel.halfedges ∧
    (arr._move_isolated_vertex f t v).dcel.holes = arr.dcel.holes ∧
    (arr._move_isolated_vertex f t v).dcel.faces.map Option.isSome
      = arr.dcel.faces.map Option.isSome := by
  refine ⟨rfl, rfl, rfl, rfl, ?_⟩
  simp only [Arrangement_2._move_isolated_vertex, Arena.shape_modify]

theorem Arrangement_2.foldl_move_hole_frame {Point Curve : Type} (f t : Nat) (l : List Nat)
    (arr : Arrangement_2 Point Curve) :
    (l.foldl (fun a h => a._move_hole f t h) arr).n_inf_verts = arr.n_inf_verts ∧
    (l.foldl (fun a h => a._move_hole f t h) arr).dcel.vertices = arr.dcel.vertices ∧
    (l.foldl (fun a h => a._move_hole f t h) arr).dcel.halfedges = arr.dcel.halfedges ∧
    (l.foldl (fun a h => a._move_hole f t h) arr).dcel.faces.map Option.isSome
      = arr.dcel.faces.map Option.isSome := by
  induction l generalizing arr with
  | nil => exact ⟨rfl, rfl, rfl, rfl⟩
  | cons x l ih =>
    obtain ⟨a1, a2, a3, a4⟩ := ih (arr._move_hole f t x)
    obtain ⟨b1, b2, b3, b4⟩ := Arrangement_2.move_hole_frame arr f t x
    rw [List.foldl_cons]
    exact ⟨a1.trans b1, a2.trans b2, a3.trans b3, a4.trans b4⟩

theorem Arrangement_2.foldl_move_isolated_vertex_frame {Point Curve : Type} (f t : Nat)
    (l : List Nat) (arr : Arrangement_2 Point Curve) :
    (l.foldl (fun a v => a._move_isolated_vertex f t v) arr).n_inf_verts = arr.n_inf_verts ∧
    (l.foldl (fun a v => a._move_isolated_vertex f t v) arr).dcel.vertices
      = arr.dcel.vertices ∧
    (l.foldl (fun a v => a._move_isolated_vertex f t v) arr).dcel.halfedges
      = arr.dcel.halfedges ∧
    (l.foldl (fun a v => a._move_isolated_vertex f t v) arr).dcel.holes = arr.dcel.holes ∧
    (l.foldl (fun a v => a._move_isolated_vertex f t v) arr).dcel.faces.map Option.isSome
      = arr.dcel.faces.map Option.isSome := by
  induction l generalizing arr with
  | nil => exact ⟨rfl, rfl, rfl, rfl, rfl⟩
  | cons x l ih =>
    obtain ⟨a1, a2, a3, a4, a5⟩ := ih (arr._move_isolated_vertex f t x)
    obtain ⟨b1, b2, b3, b4, b5⟩ := Arrangement_2.move_isolated_vertex_frame arr f t x
    rw [List.foldl_cons]
    exact ⟨a1.trans b1, a2.trans b2, a3.trans b3, a4.trans b4, a5.trans b5⟩

/-! ## The flags of the live records -/

/-- A list of flags in which one flag is set to `false` holds one `true` less if that
flag was `true`, and as many as before otherwise. -/
theorem Arena.count_set_false (l : List Bool) (i : Nat) :
    (l.set i false).count true + (if l[i]? = some true then 1 else 0) = l.count true := by
  induction l generalizing i with
  | nil => simp
  | cons a t ih =>
    cases i with
    | zero => cases a <;> simp
    | succ i =>
      have := ih i
      simp only [List.set_cons_succ, List.count_cons, List.getElem?_cons_succ]
      omega

theorem Arena.count_set_dead (l : List Bool) (i : Nat) (h : l[i]? ≠ some true) :
    (l.set i false).count true = l.count true := by
  have := Arena.count_set_false l i
  rw [if_neg h] at this
  omega

theorem Arena.count_set_live (l : List Bool) (i : Nat) (h : l[i]? = some true) :
    (l.set i false).count true + 1 = l.count true := by
  have := Arena.count_set_false l i
  rw [if_pos h] at this
  exact this

/-- Two arenas with the same live handles hold the same number of records, whatever
their lengths. -/
theorem Arena.size_eq_of_live {α β : Type} (s : Arena α) (t : Arena β)
    (h : ∀ i, (s.get i).isSome = (t.get i).isSome) : s.size = t.size := by
  induction s generalizing t with
  | nil =>
    induction t with
    | nil => rfl
    | cons b t iht =>
      have h0 := h 0
      have ht : ∀ i, (Arena.get ([] : Arena α) i).isSome = (Arena.get t i).isSome := by
        intro i
        have := h (i + 1)
        simpa [Arena.get] using this
      have := iht ht
      cases b with
      | none => simpa [Arena.size, Arena.records] using this
      | some x => simp [Arena.get] at h0
  | cons a s ih =>
    cases t with
    | nil =>
      have h0 := h 0
      have hs : ∀ i, (Arena.get s i).isSome = (Arena.get ([] : Arena β) i).isSome := by
        intro i
        have := h (i + 1)
        simpa [Arena.get] using this
      have := ih [] hs
      cases a with
      | none => simpa [Arena.size, Arena.records] using this
      | some x => simp [Arena.get] at h0
    | cons b t =>
      have h0 := h 0
      have hs : ∀ i, (Arena.get s i).isSome = (Arena.get t i).isSome := by
        intro i
        have := h (i + 1)
        simpa [Arena.get] using this
      have := ih t hs
      cases a with
      | none =>
        cases b with
        | none => simpa [Arena.size, Arena.records] using this
        | some y => simp [Arena.get] at h0
      | some x =>
        cases b with
        | none => simp [Arena.get] at h0
        | some y =>
          simp only [Arena.size, Arena.records, List.filterMap_cons, id, List.length_cons]
            at this ⊢
          omega

/-! ## Vertices at infinity and the end vertices of a removed edge -/

theorem Vertex.is_at_infinity_congr {Point Curve : Type} {d e : Dcel Point Curve}
    (h : d.vertices = e.vertices) (x : Nat) :
    Vertex.is_at_infinity d x = Vertex.is_at_infinity e x := by
  unfold Vertex.is_at_infinity
  rw [h]

/-- An edit of the reference of a vertex to its halfedge or isolated-vertex record keeps
the point of every vertex. -/
theorem Arena.null_point_modify {Point : Type} (s : Arena (DVertex Point)) (i x : Nat)
    (f : DVertex Point → DVertex Point) (hf : ∀ r, (f r).p_pt = r.p_pt) :
    ((s.modify i f).get x).map (fun r => r.has_null_point)
      = (s.get x).map (fun r => r.has_null_point) := by
  rw [Arena.get_modify]
  cases s.get x with
  | none => rfl
  | some r =>
    simp only [Option.map_some', DVertex.has_null_point]
    split_ifs
    · rw [hf]
    · rfl

/-- An end vertex of a removed edge that is not a vertex at infinity (or becomes
isolated): the vertex record is deleted when the vertex becomes isolated and the flag is
on, and no other record is created or deleted among the vertices, halfedges and faces;
the other vertex records stay as they are, and no vertex becomes a vertex at
infinity. -/
theorem Arrangement_2.remove_edge_end_vertex_frame {Point Curve : Type}
    (arr : Arrangement_2 Point Curve) (v he p f : Nat) (isolated remove : Bool)
    (hfin : isolated = true ∨ Vertex.is_at_infinity arr.dcel v ≠ some true) :
    (arr._remove_edge_end_vertex v he p f isolated remove).n_inf_verts = arr.n_inf_verts ∧
    (arr._remove_edge_end_vertex v he p f isolated remove).dcel.halfedges
      = arr.dcel.halfedges ∧
    (arr._remove_edge_end_vertex v he p f isolated remove).dcel.faces.map Option.isSome
      = arr.dcel.faces.map Option.isSome ∧
    (arr._remove_edge_end_vertex v he p f isolated remove).dcel.vertices.map Option.isSome
      = (if isolated && remove then (arr.dcel.vertices.map Option.isSome).set v false
        else arr.dcel.vertices.map Option.isSome) ∧
    (∀ x, x ≠ v →
      (arr._remove_edge_end_vertex v he p f isolated remove).dcel.vertices.get x
        = arr.dcel.vertices.get x) ∧
    (∀ x, Vertex.is_at_infinity
        (arr._remove_edge_end_vertex v he p f isolated remove).dcel x = some true →
      Vertex.is_at_infinity arr.dcel x = some true) := by
  have hmod : ∀ (g : DVertex Point → DVertex Point) (x : Nat), (∀ r, (g r).p_pt = r.p_pt) →
      ((arr.dcel.vertices.modify v g).get x).map (fun r => r.has_null_point) = some true →
      Vertex.is_at_infinity arr.dcel x = some true := by
    intro g x hg hx
    unfold Vertex.is_at_infinity
    rw [← hx]
    exact (Arena.null_point_modify _ _ _ g hg).symm
  have hget : ∀ (g : DVertex Point → DVertex Point) (x : Nat), x ≠ v →
      (arr.dcel.vertices.modify v g).get x = arr.dcel.vertices.get x := by
    intro g x hx
    rw [Arena.get_modify, if_neg hx]
    cases arr.dcel.vertices.get x <;> rfl
  unfold Arrangement_2._remove_edge_end_vertex
  cases isolated
  · have hf : Vertex.is_at_infinity arr.dcel v ≠ some true := by
      rcases hfin with h | h
      · cases h
      · exact h
    rw [if_neg (by simp), if_neg hf]
    refine ⟨rfl, rfl, rfl, ?_, ?_, ?_⟩
    · rw [if_neg (by simp)]
      exact Arena.shape_modify _ _ _
    · intro x hx
      exact hget _ x hx
    · intro x hx
      exact hmod (fun x => { x with inc :=
        (if x.inc = .halfedge (some he) then .halfedge (some p) else x.inc) }) x
        (fun r => rfl) hx
  · cases remove
    · rw [if_pos rfl, if_neg (by simp)]
      refine ⟨rfl, rfl, ?_, ?_, ?_, ?_⟩
      · simp only [Arrangement_2._insert_isolated_vertex, Arena.shape_modify]
      · rw [if_neg (by simp)]
        simp only [Arrangement_2._insert_isolated_vertex, Arena.shape_modify]
      · intro x hx
        exact hget _ x hx
      · intro x hx
        exact hmod (fun x => { x with inc := .isolated arr.dcel.iso_verts.length }) x
          (fun r => rfl) hx
    · rw [if_pos rfl, if_pos rfl]
      refine ⟨rfl, rfl, rfl, ?_, ?_, ?_⟩
      · simp only [Bool.and_self, if_true, Arena.shape_free]
      · intro x hx
        show (arr.dcel.vertices.free v).get x = _
        rw [Arena.get_free, if_neg hx]
      · intro x hx
        unfold Vertex.is_at_infinity at hx ⊢
        change ((arr.dcel.vertices.free v).get x).map _ = _ at hx
        rw [Arena.get_free] at hx
        split_ifs at hx with h
        · cases hx
        · exact hx

/-- An end vertex of a removed edge that is a vertex at infinity with other incident
edges: its removal is triggered. -/
theorem Arrangement_2.remove_edge_end_vertex_at_infinity {Point Curve : Type}
    (arr : Arrangement_2 Point Curve) (v he p f : Nat) (remove : Bool)
    (hinf : Vertex.is_at_infinity arr.dcel v = some true) :
    arr._remove_edge_end_vertex v he p f false remove
      = ({ arr with dcel := { arr.dcel with
          vertices := arr.dcel.vertices.modify v (fun x =>
            { x with inc := if x.inc = .halfedge (some he) then .halfedge (some p)
                else x.inc }) } } : Arrangement_2 Point Curve)._remove_vertex_at_infinity v := by
  unfold Arrangement_2._remove_edge_end_vertex
  simp only [Bool.false_eq_true, if_false, hinf, if_true]

/-! ## Stores with the same links -/

theorem Dcel.same_links.refl {Point Curve : Type} (d : Dcel Point Curve) : d.same_links d :=
  fun _ => ⟨rfl, rfl, rfl, rfl⟩

theorem Dcel.same_links.symm {Point Curve : Type} {d e : Dcel Point Curve}
    (h : d.same_links e) : e.same_links d :=
  fun x => ⟨(h x).1.symm, (h x).2.1.symm, (h x).2.2.1.symm, (h x).2.2.2.symm⟩

theorem Dcel.same_links.trans {Point Curve : Type} {d e g : Dcel Point Curve}
    (h1 : d.same_links e) (h2 : e.same_links g) : d.same_links g :=
  fun x => ⟨(h1 x).1.trans (h2 x).1, (h1 x).2.1.trans (h2 x).2.1,
    (h1 x).2.2.1.trans (h2 x).2.2.1, (h1 x).2.2.2.trans (h2 x).2.2.2⟩

theorem Dcel.same_links_of_get {Point Curve : Type} {d e : Dcel Point Curve}
    (h : ∀ x, d.halfedges.get x = e.halfedges.get x) : d.same_links e := by
  intro x
  simp only [Halfedge.next, Halfedge.twin, Halfedge.target, Halfedge.curve, h, and_self]

theorem Dcel.same_links_of_halfedges {Point Curve : Type} {d e : Dcel Point Curve}
    (h : d.halfedges = e.halfedges) : d.same_links e :=
  Dcel.same_links_of_get (fun x => by rw [h])

theorem Dcel.same_links.live {Point Curve : Type} {d e : Dcel Point Curve}
    (h : d.same_links e) (x : Nat) :
    (d.halfedges.get x).isSome = (e.halfedges.get x).isSome := by
  rw [← Halfedge.twin_isSome, ← Halfedge.twin_isSome, (h x).2.1]

theorem Dcel.same_links.size {Point Curve : Type} {d e : Dcel Point Curve}
    (h : d.same_links e) : d.halfedges.size = e.halfedges.size :=
  Arena.size_eq_of_live _ _ h.live

/-- Two linked stores with the same links have the same predecessors. -/
theorem Dcel.same_links.prev {Point Curve : Type} {d e : Dcel Point Curve}
    (h : d.same_links e) (hd : d.Linked) (he : e.Linked) (x : Nat) :
    Halfedge.prev d x = Halfedge.prev e x := by
  have key : ∀ {a b : Dcel Point Curve}, a.same_links b → a.Linked → b.Linked →
      ∀ p, Halfedge.prev a x = some p → Halfedge.prev b x = some p := by
    intro a b hab ha hb p hp
    have := ha.2.2 x p hp
    rw [(hab p).1] at this
    exact hb.2.1 p x this
  cases hp : Halfedge.prev d x with
  | some p => exact (key h hd he p hp).symm
  | none =>
    cases hq : Halfedge.prev e x with
    | none => rfl
    | some q =>
      have := key h.symm he hd q hq
      rw [hp] at this
      cases this

theorem Dcel.same_links.prev_or_self_eq {Point Curve : Type} {d e : Dcel Point Curve}
    (h : d.same_links e) (hd : d.Linked) (he : e.Linked) (x : Nat) :
    prev_or_self d x = prev_or_self e x := by
  unfold prev_or_self
  rw [h.prev hd he]

theorem Dcel.same_links.splice {Point Curve : Type} {d e : Dcel Point Curve}
    (h : d.same_links e) (a b : Nat) : (d.splice a b).same_links (e.splice a b) := by
  by_cases hl : (d.halfedges.get a).isSome = true ∧ (d.halfedges.get b).isSome = true
  · have ha : (e.halfedges.get a).isSome = true := by rw [← h.live]; exact hl.1
    have hb : (e.halfedges.get b).isSome = true := by rw [← h.live]; exact hl.2
    intro x
    refine ⟨?_, ?_, ?_, ?_⟩
    · rw [Halfedge.next_splice d a b x hl.1 hl.2, Halfedge.next_splice e a b x ha hb,
        (h a).1, (h b).1, (h x).1]
    · rw [Halfedge.twin_splice, Halfedge.twin_splice, (h x).2.1]
    · rw [Halfedge.target_splice, Halfedge.target_splice, (h x).2.2.1]
    · rw [Halfedge.curve_splice, Halfedge.curve_splice, (h x).2.2.2]
  · have hd : d.halfedges.get a = none ∨ d.halfedges.get b = none := by
      by_contra hc
      push_neg at hc
      apply hl
      constructor
      · cases hx : d.halfedges.get a with
        | none => exact absurd hx hc.1
        | some r => rfl
      · cases hx : d.halfedges.get b with
        | none => exact absurd hx hc.2
        | some r => rfl
    have he : e.halfedges.get a = none ∨ e.halfedges.get b = none := by
      rcases hd with hd | hd
      · left
        have := h.live a
        rw [hd] at this
        cases hx : e.halfedges.get a with
        | none => rfl
        | some r => rw [hx] at this; cases this
      · right
        have := h.live b
        rw [hd] at this
        cases hx : e.halfedges.get b with
        | none => rfl
        | some r => rw [hx] at this; cases this
    rw [Dcel.splice_of_dead d a b hd, Dcel.splice_of_dead e a b he]
    exact h

theorem Dcel.same_links.set_vertex {Point Curve : Type} {d e : Dcel Point Curve}
    (h : d.same_links e) (y v : Nat) : (d.set_vertex y v).same_links (e.set_vertex y v) := by
  intro x
  refine ⟨?_, ?_, ?_, ?_⟩
  · rw [Halfedge.next_set_vertex, Halfedge.next_set_vertex, (h x).1]
  · rw [Halfedge.twin_set_vertex, Halfedge.twin_set_vertex, (h x).2.1]
  · rw [Halfedge.target_set_vertex, Halfedge.target_set_vertex, (h x).2.2.1]
  · rw [Halfedge.curve_set_vertex, Halfedge.curve_set_vertex, (h x).2.2.2]

theorem Dcel.same_links_set_component {Point Curve : Type} (d : Dcel Point Curve) (y : Nat)
    (c : Halfedge_component) : (d.set_component y c).same_links d :=
  fun x => ⟨Halfedge.next_set_component d y c x, Halfedge.twin_set_component d y c x,
    Halfedge.target_set_component d y c x, Halfedge.curve_set_component d y c x⟩

theorem Dcel.same_links_set_component_cycle {Point Curve : Type} (c : Halfedge_component)
    (start fuel cur : Nat) (d : Dcel Point Curve) :
    (Dcel.set_component_cycle c start fuel cur d).same_links d :=
  fun x => ⟨(Dcel.set_component_cycle_accessors c start fuel cur d x).2.2.1,
    (Dcel.set_component_cycle_accessors c start fuel cur d x).1,
    (Dcel.set_component_cycle_accessors c start fuel cur d x).2.2.2.2,
    (Dcel.set_component_cycle_accessors c start fuel cur d x).2.1⟩

/-- The removal of a twin pair in terms of the accessors: the pair is removed when the
halfedge is followed by its twin and the twin by the halfedge. -/
theorem Dcel.delete_edge_of_cycle {Point Curve : Type} (d : Dcel Point Curve) (y t : Nat)
    (ht : Halfedge.twin d y = some t) (hn : Halfedge.next d y = some t)
    (hm : Halfedge.next d t = some y) :
    (d.delete_edge y).halfedges = (d.halfedges.free y).free t := by
  obtain ⟨r, hr, hrt⟩ := Halfedge.twin_eq_some.mp ht
  obtain ⟨r2, hr2, hrn⟩ := Halfedge.next_eq_some.mp hn
  obtain ⟨s, hs, hsn⟩ := Halfedge.next_eq_some.mp hm
  rw [hr] at hr2
  obtain rfl := Option.some.inj hr2
  subst hrt
  unfold Dcel.delete_edge
  simp only [hr, hs, hrn, hsn, and_self, if_true]

theorem Dcel.delete_edge_of_no_cycle {Point Curve : Type} (d : Dcel Point Curve) (y : Nat)
    (h : ¬ ∃ t, Halfedge.twin d y = some t ∧ Halfedge.next d y = some t ∧
      Halfedge.next d t = some y) : d.delete_edge y = d := by
  unfold Dcel.delete_edge
  cases hr : d.halfedges.get y with
  | none => rfl
  | some r =>
    cases hs : d.halfedges.get r.opposite with
    | none => simp only [hs]
    | some s =>
      simp only [hs]
      split_ifs with hc
      · exfalso
        apply h
        refine ⟨r.opposite, ?_, ?_, ?_⟩
        · simp [Halfedge.twin, hr]
        · simp [Halfedge.next, hr, hc.1]
        · simp [Halfedge.next, hs, hc.2]
      · rfl

theorem Dcel.same_links.delete_edge {Point Curve : Type} {d e : Dcel Point Curve}
    (h : d.same_links e) (y : Nat) : (d.delete_edge y).same_links (e.delete_edge y) := by
  by_cases hc : ∃ t, Halfedge.twin d y = some t ∧ Halfedge.next d y = some t ∧
      Halfedge.next d t = some y
  · obtain ⟨t, h1, h2, h3⟩ := hc
    have e1 := Dcel.delete_edge_of_cycle d y t h1 h2 h3
    have e2 := Dcel.delete_edge_of_cycle e y t (by rw [← (h y).2.1]; exact h1)
      (by rw [← (h y).1]; exact h2) (by rw [← (h t).1]; exact h3)
    intro x
    have hx := h x
    simp only [Halfedge.next, Halfedge.twin, Halfedge.target, Halfedge.curve, e1, e2,
      Arena.get_free] at hx ⊢
    split_ifs
    · exact ⟨rfl, rfl, rfl, rfl⟩
    · exact ⟨rfl, rfl, rfl, rfl⟩
    · exact hx
  · have hc2 : ¬ ∃ t, Halfedge.twin e y = some t ∧ Halfedge.next e y = some t ∧
        Halfedge.next e t = some y := by
      rintro ⟨t, h1, h2, h3⟩
      exact hc ⟨t, by rw [(h y).2.1]; exact h1, by rw [(h y).1]; exact h2,
        by rw [(h t).1]; exact h3⟩
    rw [Dcel.delete_edge_of_no_cycle d y hc, Dcel.delete_edge_of_no_cycle e y hc2]
    exact h

theorem Dcel.linked_unlink_edge {Point Curve : Type} (d : Dcel Point Curve) (hd : d.Linked)
    (he1 he2 : Nat) : (d.unlink_edge he1 he2).Linked :=
  Dcel.linked_delete_edge _ _ (Dcel.linked_splice _ _ _ (Dcel.linked_splice _ _ _ hd))

theorem Dcel.same_links.unlink_edge {Point Curve : Type} {d e : Dcel Point Curve}
    (h : d.same_links e) (hd : d.Linked) (he : e.Linked) (he1 he2 : Nat) :
    (d.unlink_edge he1 he2).same_links (e.unlink_edge he1 he2) := by
  unfold Dcel.unlink_edge
  have p1 := h.prev_or_self_eq hd he he2
  have s1 : (d.splice (prev_or_self d he2) he1).same_links
      (e.splice (prev_or_self e he2) he1) := by
    rw [p1]
    exact h.splice _ _
  have p2 := s1.prev_or_self_eq (Dcel.linked_splice _ _ _ hd) (Dcel.linked_splice _ _ _ he) he1
  have s2 : ((d.splice (prev_or_self d he2) he1).splice
      (prev_or_self (d.splice (prev_or_self d he2) he1) he1) he2).same_links
      ((e.splice (prev_or_self e he2) he1).splice
      (prev_or_self (e.splice (prev_or_self e he2) he1) he1) he2) := by
    rw [p2]
    exact s1.splice _ _
  exact s2.delete_edge _

theorem Dcel.linked_merge_fictitious_links {Point Curve : Type} (d : Dcel Point Curve)
    (hd : d.Linked) (he1 he3 he4 u : Nat) : (d.merge_fictitious_links he1 he3 he4 u).Linked :=
  Dcel.linked_delete_edge _ _ (Dcel.linked_splice _ _ _ (Dcel.linked_splice _ _ _
    (Dcel.linked_splice _ _ _ (Dcel.linked_set_vertex _ _ _ hd))))

theorem Dcel.same_links.merge_fictitious_links {Point Curve : Type} {d e : Dcel Point Curve}
    (h : d.same_links e) (hd : d.Linked) (he : e.Linked) (he1 he3 he4 u : Nat) :
    (d.merge_fictitious_links he1 he3 he4 u).same_links
      (e.merge_fictitious_links he1 he3 he4 u) := by
  unfold Dcel.merge_fictitious_links
  have s1 : ((d.set_vertex he1 u).splice he1 he3).same_links
      ((e.set_vertex he1 u).splice he1 he3) := (h.set_vertex _ _).splice _ _
  have l1 : ((d.set_vertex he1 u).splice he1 he3).Linked :=
    Dcel.linked_splice _ _ _ (Dcel.linked_set_vertex _ _ _ hd)
  have l2 : ((e.set_vertex he1 u).splice he1 he3).Linked :=
    Dcel.linked_splice _ _ _ (Dcel.linked_set_vertex _ _ _ he)
  have p := s1.prev_or_self_eq l1 l2 he4
  simp only
  rw [p]
  exact (((s1.splice _ _).splice _ _).delete_edge _)

/-! ## The removal of an edge undoes the links of its insertion -/

/-- The predecessor of a halfedge of a linked store is the halfedge it follows. -/
theorem prev_or_self_of_next {Point Curve : Type} {d : Dcel Point Curve} (hd : d.Linked)
    {p x : Nat} (h : Halfedge.next d p = some x) : prev_or_self d x = p := by
  unfold prev_or_self
  rw [hd.2.1 p x h]
  rfl

theorem Dcel.splice_self_same_links {Point Curve : Type} (d : Dcel Point Curve) (a : Nat) :
    (d.splice a a).same_links d := by
  intro x
  refine ⟨?_, Halfedge.twin_splice d a a x, Halfedge.target_splice d a a x,
    Halfedge.curve_splice d a a x⟩
  cases ha : d.halfedges.get a with
  | none => rw [Dcel.splice_of_dead d a a (Or.inl ha)]
  | some r =>
    have hl : (d.halfedges.get a).isSome := by rw [ha]; rfl
    rw [Halfedge.next_splice d a a x hl hl]
    split_ifs with h
    · rw [h]
    · rfl

/-- The accessors of a store after the creation of a twin pair. -/
theorem Dcel.accessors_new_edge {Point Curve : Type} (d : Dcel Point Curve) (v1 v2 : Nat)
    (cv : Option Curve) (c : Halfedge_component) :
    Halfedge.next (d.new_edge v1 v2 cv c).1 d.halfedges.length
      = some (d.halfedges.length + 1) ∧
    Halfedge.next (d.new_edge v1 v2 cv c).1 (d.halfedges.length + 1)
      = some d.halfedges.length ∧
    Halfedge.twin (d.new_edge v1 v2 cv c).1 d.halfedges.length
      = some (d.halfedges.length + 1) ∧
    Halfedge.twin (d.new_edge v1 v2 cv c).1 (d.halfedges.length + 1)
      = some d.halfedges.length ∧
    (∀ x, x < d.halfedges.length →
      (d.new_edge v1 v2 cv c).1.halfedges.get x = d.halfedges.get x) := by
  refine ⟨?_, ?_, ?_, ?_, ?_⟩
  · simp [Halfedge.next, Dcel.get_new_edge]
  · simp [Halfedge.next, Dcel.get_new_edge]
  · simp [Halfedge.twin, Dcel.get_new_edge]
  · simp [Halfedge.twin, Dcel.get_new_edge]
  · intro x hx
    rw [Dcel.get_new_edge, if_neg (by omega), if_neg (by omega)]

/-- A twin pair that has just been created, removed again through either half: the
halfedges are those of the store before. -/
theorem Dcel.delete_new_edge {Point Curve : Type} (d : Dcel Point Curve) (v1 v2 : Nat)
    (cv : Option Curve) (c : Halfedge_component) :
    ((d.new_edge v1 v2 cv c).1.delete_edge d.halfedges.length).same_links d ∧
    ((d.new_edge v1 v2 cv c).1.delete_edge (d.halfedges.length + 1)).same_links d := by
  obtain ⟨n1, n2, t1, t2, old⟩ := Dcel.accessors_new_edge d v1 v2 cv c
  have e1 := Dcel.delete_edge_of_cycle _ _ _ t1 n1 n2
  have e2 := Dcel.delete_edge_of_cycle _ _ _ t2 n2 n1
  constructor
  · apply Dcel.same_links_of_get
    intro x
    rw [e1, Arena.get_free, Arena.get_free]
    split_ifs with h1 h2
    · rw [h1, Arena.get_eq_none_of_le _ _ (by omega)]
    · rw [h2, Arena.get_eq_none_of_le _ _ (Nat.le_refl _)]
    · by_cases hx : x < d.halfedges.length
      · exact old x hx
      · rw [Dcel.get_new_edge, if_neg h2, if_neg h1]
  · apply Dcel.same_links_of_get
    intro x
    rw [e2, Arena.get_free, Arena.get_free]
    split_ifs with h1 h2
    · rw [h1, Arena.get_eq_none_of_le _ _ (Nat.le_refl _)]
    · rw [h2, Arena.get_eq_none_of_le _ _ (by omega)]
    · by_cases hx : x < d.halfedges.length
      · exact old x hx
      · rw [Dcel.get_new_edge, if_neg h1, if_neg h2]

/-- The links of a twin pair put after one halfedge, and the pair unlinked and removed
again through either half: the links are those of the store before. -/
theorem Dcel.unlink_after_from_vertex {Point Curve : Type} (S : Dcel Point Curve)
    (hS : S.Linked) (p v1 v2 : Nat) (cv : Option Curve) (c : Halfedge_component)
    (h1 : (S.halfedges.get p).isSome) (A : Dcel Point Curve) (hA : A.Linked)
    (hl : A.same_links ((S.new_edge v1 v2 cv c).1.splice p (S.halfedges.length + 1))) :
    (A.unlink_edge S.halfedges.length (S.halfedges.length + 1)).same_links S ∧
    (A.unlink_edge (S.halfedges.length + 1) S.halfedges.length).same_links S := by
  obtain ⟨n, hn⟩ : ∃ n, n = S.halfedges.length := ⟨_, rfl⟩
  obtain ⟨ne, hne⟩ : ∃ ne, ne = (S.new_edge v1 v2 cv c).1 := ⟨_, rfl⟩
  obtain ⟨D, hD⟩ : ∃ D, D = ne.splice p (n + 1) := ⟨_, rfl⟩
  rw [← hn, ← hne, ← hD] at hl
  rw [← hn]
  obtain ⟨a1, a2, a3, a4, old⟩ := Dcel.accessors_new_edge S v1 v2 cv c
  rw [← hn, ← hne] at a1 a2 a3 a4
  rw [← hne] at old
  have hp : p < n := by
    obtain ⟨r, hr⟩ := Option.isSome_iff_exists.mp h1
    rw [hn]
    exact Arena.get_lt hr
  have lne : ne.Linked := hne ▸ Dcel.linked_new_edge S _ _ _ _ hS
  have lD : D.Linked := hD ▸ Dcel.linked_splice ne _ _ lne
  have lp : (ne.halfedges.get p).isSome := by rw [old p (hn ▸ hp)]; exact h1
  have lm : (ne.halfedges.get (n + 1)).isSome := Halfedge.live_of_twin a4
  have ln : (ne.halfedges.get n).isSome := Halfedge.live_of_twin a3
  have nD : ∀ x, Halfedge.next D x =
      if x = n + 1 then Halfedge.next ne p else if x = p then some n
      else Halfedge.next ne x := by
    intro x
    rw [hD, Halfedge.next_splice ne p (n + 1) x lp lm, a2]
  have dn := Dcel.delete_new_edge S v1 v2 cv c
  rw [← hn, ← hne] at dn
  constructor
  · refine (hl.unlink_edge hA lD n (n + 1)).trans ?_
    unfold Dcel.unlink_edge
    dsimp only
    have p1 : prev_or_self D (n + 1) = n := by
      apply prev_or_self_of_next lD
      rw [nD, if_neg (by omega), if_neg (by omega), a1]
    rw [p1]
    have s1 : (D.splice n n).same_links D := Dcel.splice_self_same_links D n
    have p2 : prev_or_self (D.splice n n) n = p := by
      rw [s1.prev_or_self_eq (Dcel.linked_splice _ _ _ lD) lD]
      apply prev_or_self_of_next lD
      rw [nD, if_neg (by omega), if_pos rfl]
    rw [p2]
    have s2 : ((D.splice n n).splice p (n + 1)).same_links ne := by
      have := s1.splice p (n + 1)
      rw [hD, Dcel.splice_splice ne lne] at this
      rw [hD]
      exact this
    exact (s2.delete_edge n).trans dn.1
  · refine (hl.unlink_edge hA lD (n + 1) n).trans ?_
    unfold Dcel.unlink_edge
    dsimp only
    have p1 : prev_or_self D n = p := by
      apply prev_or_self_of_next lD
      rw [nD, if_neg (by omega), if_pos rfl]
    rw [p1]
    have e1 : D.splice p (n + 1) = ne := by
      rw [hD]
      exact Dcel.splice_splice ne lne _ _
    rw [e1]
    have p2 : prev_or_self ne (n + 1) = n := prev_or_self_of_next lne a1
    rw [p2]
    exact ((Dcel.splice_self_same_links ne n).delete_edge (n + 1)).trans dn.2

/-- The links of a twin pair put between two halfedges, and the pair unlinked and removed
again through either half: the links are those of the store before. -/
theorem Dcel.unlink_after_at_vertices {Point Curve : Type} (S : Dcel Point Curve)
    (hS : S.Linked) (p1 p2 v1 v2 : Nat) (cv : Option Curve) (c : Halfedge_component)
    (h1 : (S.halfedges.get p1).isSome) (h2 : (S.halfedges.get p2).isSome) (h12 : p1 ≠ p2)
    (A : Dcel Point Curve) (hA : A.Linked)
    (hl : A.same_links (((S.new_edge v1 v2 cv c).1.splice p1
      (S.halfedges.length + 1)).splice p2 S.halfedges.length)) :
    (A.unlink_edge S.halfedges.length (S.halfedges.length + 1)).same_links S ∧
    (A.unlink_edge (S.halfedges.length + 1) S.halfedges.length).same_links S := by
  obtain ⟨n, hn⟩ : ∃ n, n = S.halfedges.length := ⟨_, rfl⟩
  obtain ⟨ne, hne⟩ : ∃ ne, ne = (S.new_edge v1 v2 cv c).1 := ⟨_, rfl⟩
  obtain ⟨X, hX⟩ : ∃ X, X = ne.splice p1 (n + 1) := ⟨_, rfl⟩
  obtain ⟨D, hD⟩ : ∃ D, D = X.splice p2 n := ⟨_, rfl⟩
  obtain ⟨Y, hY⟩ : ∃ Y, Y = ne.splice p2 n := ⟨_, rfl⟩
  obtain ⟨E, hE⟩ : ∃ E, E = Y.splice p1 (n + 1) := ⟨_, rfl⟩
  rw [← hn, ← hne, ← hX, ← hD] at hl
  rw [← hn]
  obtain ⟨a1, a2, a3, a4, old⟩ := Dcel.accessors_new_edge S v1 v2 cv c
  rw [← hn, ← hne] at a1 a2 a3 a4
  rw [← hne] at old
  have hp1 : p1 < n := by
    obtain ⟨r, hr⟩ := Option.isSome_iff_exists.mp h1
    rw [hn]
    exact Arena.get_lt hr
  have hp2 : p2 < n := by
    obtain ⟨r, hr⟩ := Option.isSome_iff_exists.mp h2
    rw [hn]
    exact Arena.get_lt hr
  have lne : ne.Linked := hne ▸ Dcel.linked_new_edge S _ _ _ _ hS
  have lX : X.Linked := hX ▸ Dcel.linked_splice ne _ _ lne
  have lD : D.Linked := hD ▸ Dcel.linked_splice X _ _ lX
  have lY : Y.Linked := hY ▸ Dcel.linked_splice ne _ _ lne
  have lE : E.Linked := hE ▸ Dcel.linked_splice Y _ _ lY
  have vp1 : (ne.halfedges.get p1).isSome := by rw [old p1 (hn ▸ hp1)]; exact h1
  have vp2 : (ne.halfedges.get p2).isSome := by rw [old p2 (hn ▸ hp2)]; exact h2
  have vm : (ne.halfedges.get (n + 1)).isSome := Halfedge.live_of_twin a4
  have vn : (ne.halfedges.get n).isSome := Halfedge.live_of_twin a3
  have nX : ∀ x, Halfedge.next X x =
      if x = n + 1 then Halfedge.next ne p1 else if x = p1 then some n
      else Halfedge.next ne x := by
    intro x
    rw [hX, Halfedge.next_splice ne p1 (n + 1) x vp1 vm, a2]
  have nY : ∀ x, Halfedge.next Y x =
      if x = n then Halfedge.next ne p2 else if x = p2 then some (n + 1)
      else Halfedge.next ne x := by
    intro x
    rw [hY, Halfedge.next_splice ne p2 n x vp2 vn, a1]
  have wp2 : (X.halfedges.get p2).isSome := by rw [hX, Dcel.live_splice]; exact vp2
  have wn : (X.halfedges.get n).isSome := by rw [hX, Dcel.live_splice]; exact vn
  have wp1 : (Y.halfedges.get p1).isSome := by rw [hY, Dcel.live_splice]; exact vp1
  have wm : (Y.halfedges.get (n + 1)).isSome := by rw [hY, Dcel.live_splice]; exact vm
  have nD : ∀ x, Halfedge.next D x =
      if x = n then Halfedge.next ne p2 else if x = p2 then some (n + 1)
      else Halfedge.next X x := by
    intro x
    have hXp2 : Halfedge.next X p2 = Halfedge.next ne p2 := by
      rw [nX, if_neg (show ¬ p2 = n + 1 by omega), if_neg (Ne.symm h12)]
    have hXn : Halfedge.next X n = some (n + 1) := by
      rw [nX, if_neg (show ¬ n = n + 1 by omega), if_neg (show ¬ n = p1 by omega), a1]
    rw [hD, Halfedge.next_splice X p2 n x wp2 wn, hXp2, hXn]
  have nE : ∀ x, Halfedge.next E x =
      if x = n + 1 then Halfedge.next ne p1 else if x = p1 then some n
      else Halfedge.next Y x := by
    intro x
    have hYp1 : Halfedge.next Y p1 = Halfedge.next ne p1 := by
      rw [nY, if_neg (show ¬ p1 = n by omega), if_neg h12]
    have hYm : Halfedge.next Y (n + 1) = some n := by
      rw [nY, if_neg (show ¬ n + 1 = n by omega), if_neg (show ¬ n + 1 = p2 by omega), a2]
    rw [hE, Halfedge.next_splice Y p1 (n + 1) x wp1 wm, hYp1, hYm]
  have hDE : D.same_links E := by
    intro x
    refine ⟨?_, ?_, ?_, ?_⟩
    · rw [nD, nE, nX, nY]
      by_cases x1 : x = n
      · simp [x1, show n ≠ p1 by omega]
      · by_cases x2 : x = n + 1
        · simp [x2, show n + 1 ≠ p2 by omega]
        · by_cases x3 : x = p1
          · simp [x3, show p1 ≠ n by omega, show p1 ≠ n + 1 by omega, h12]
          · by_cases x4 : x = p2
            · simp [x4, show p2 ≠ n by omega, show p2 ≠ n + 1 by omega, Ne.symm h12]
            · simp [x1, x2, x3, x4]
    · rw [hD, hX, hE, hY]
      simp only [Halfedge.twin_splice]
    · rw [hD, hX, hE, hY]
      simp only [Halfedge.target_splice]
    · rw [hD, hX, hE, hY]
      simp only [Halfedge.curve_splice]
  have dn := Dcel.delete_new_edge S v1 v2 cv c
  rw [← hn, ← hne] at dn
  constructor
  · refine (hl.unlink_edge hA lD n (n + 1)).trans ?_
    unfold Dcel.unlink_edge
    dsimp only
    have q1 : prev_or_self D (n + 1) = p2 := by
      apply prev_or_self_of_next lD
      rw [nD, if_neg (by omega), if_pos rfl]
    rw [q1]
    have e1 : D.splice p2 n = X := by
      rw [hD]
      exact Dcel.splice_splice X lX _ _
    rw [e1]
    have q2 : prev_or_self X n = p1 := by
      apply prev_or_self_of_next lX
      rw [nX, if_neg (by omega), if_pos rfl]
    rw [q2]
    have e2 : X.splice p1 (n + 1) = ne := by
      rw [hX]
      exact Dcel.splice_splice ne lne _ _
    rw [e2]
    exact dn.1
  · refine ((hl.trans hDE).unlink_edge hA lE (n + 1) n).trans ?_
    unfold Dcel.unlink_edge
    dsimp only
    have q1 : prev_or_self E n = p1 := by
      apply prev_or_self_of_next lE
      rw [nE, if_neg (by omega), if_pos rfl]
    rw [q1]
    have e1 : E.splice p1 (n + 1) = Y := by
      rw [hE]
      exact Dcel.splice_splice Y lY _ _
    rw [e1]
    have q2 : prev_or_self Y (n + 1) = p2 := by
      apply prev_or_self_of_next lY
      rw [nY, if_neg (by omega), if_pos rfl]
    rw [q2]
    have e2 : Y.splice p2 n = ne := by
      rw [hY]
      exact Dcel.splice_splice ne lne _ _
    rw [e2]
    exact dn.2

/-! ## The split of a fictitious edge, and the merge that follows -/

theorem Dcel.split_fictitious_links_frame {Point Curve : Type} (d : Dcel Point Curve)
    (he1 he2 v u : Nat) (c1 c2 : Halfedge_component) :
    (d.split_fictitious_links he1 he2 v u c1 c2).1.vertices = d.vertices ∧
      (d.split_fictitious_links he1 he2 v u c1 c2).1.faces = d.faces ∧
      (d.split_fictitious_links he1 he2 v u c1 c2).1.holes = d.holes ∧
      (d.split_fictitious_links he1 he2 v u c1 c2).1.iso_verts = d.iso_verts := by
  unfold Dcel.split_fictitious_links
  simp only [Dcel.set_vertex, (Dcel.splice_frame _ _ _).1, (Dcel.splice_frame _ _ _).2.1,
    (Dcel.splice_frame _ _ _).2.2.1, (Dcel.splice_frame _ _ _).2.2.2, Dcel.set_component,
    Dcel.new_edge]
  exact ⟨trivial, trivial, trivial, trivial⟩

theorem Dcel.merge_fictitious_links_frame {Point Curve : Type} (d : Dcel Point Curve)
    (he1 he3 he4 u : Nat) :
    (d.merge_fictitious_links he1 he3 he4 u).vertices = d.vertices ∧
      (d.merge_fictitious_links he1 he3 he4 u).faces = d.faces ∧
      (d.merge_fictitious_links he1 he3 he4 u).holes = d.holes ∧
      (d.merge_fictitious_links he1 he3 he4 u).iso_verts = d.iso_verts := by
  unfold Dcel.merge_fictitious_links
  simp only [(Dcel.delete_edge_frame _ _).1, (Dcel.delete_edge_frame _ _).2.1,
    (Dcel.delete_edge_frame _ _).2.2.1, (Dcel.delete_edge_frame _ _).2.2.2,
    (Dcel.splice_frame _ _ _).1, (Dcel.splice_frame _ _ _).2.1,
    (Dcel.splice_frame _ _ _).2.2.1, (Dcel.splice_frame _ _ _).2.2.2, Dcel.set_vertex]
  exact ⟨trivial, trivial, trivial, trivial⟩

theorem Dcel.comp_splice {Point Curve : Type} (d : Dcel Point Curve) (a b x : Nat) :
    ((d.splice a b).halfedges.get x).map (fun r => r.comp)
      = (d.halfedges.get x).map (fun r => r.comp) := by
  cases ha : d.halfedges.get a with
  | none => rw [Dcel.splice_of_dead d a b (Or.inl ha)]
  | some ra =>
    cases hb : d.halfedges.get b with
    | none => rw [Dcel.splice_of_dead d a b (Or.inr hb)]
    | some rb =>
      rw [Dcel.get_splice d a b ha hb]
      cases d.halfedges.get x <;> rfl

theorem Dcel.comp_set_vertex {Point Curve : Type} (d : Dcel Point Curve) (h v x : Nat) :
    ((d.set_vertex h v).halfedges.get x).map (fun r => r.comp)
      = (d.halfedges.get x).map (fun r => r.comp) := by
  rw [Dcel.get_set_vertex]
  cases d.halfedges.get x with
  | none => rfl
  | some y =>
    simp only [Option.map_some']
    split_ifs <;> rfl

/-- The halfedge part of the split of a fictitious edge, and of the merge of the two
pieces: the first piece `he1` ends at the split vertex and is followed by the second
piece, the new halfedge, which ends at the old target; the twin of the second piece is
followed by the twin of the first; the halfedges that were there keep their
face-or-hole references and, but for `he1`, their targets; and the merge of the two
pieces gives back the links of the start. -/
theorem Dcel.split_fictitious_links_spec {Point Curve : Type} (d : Dcel Point Curve)
    (hd : d.Linked) (he1 v : Nat) (c1 c2 : Halfedge_component) {r1 r2 : DHalfedge Curve}
    (h1 : d.halfedges.get he1 = some r1) (h2 : d.halfedges.get r1.opposite = some r2)
    (S : Dcel Point Curve × Nat)
    (hS : S = d.split_fictitious_links he1 r1.opposite v r1.vertex c1 c2) :
    S.2 = d.halfedges.length ∧ S.1.Linked ∧
      S.1.halfedges.length = d.halfedges.length + 2 ∧
      Halfedge.twin S.1 he1 = some r1.opposite ∧
      Halfedge.twin S.1 r1.opposite = some he1 ∧
      Halfedge.twin S.1 S.2 = some (S.2 + 1) ∧
      Halfedge.twin S.1 (S.2 + 1) = some S.2 ∧
      Halfedge.target S.1 he1 = some v ∧
      Halfedge.target S.1 S.2 = some r1.vertex ∧
      Halfedge.target S.1 (S.2 + 1) = some v ∧
      Halfedge.next S.1 he1 = some S.2 ∧
      Halfedge.next S.1 (S.2 + 1) = some r1.opposite ∧
      (∀ x, x < d.halfedges.length → x ≠ he1 →
        Halfedge.target S.1 x = Halfedge.target d x) ∧
      (∀ x, x < d.halfedges.length →
        (S.1.halfedges.get x).map (fun r => r.comp)
          = (d.halfedges.get x).map (fun r => r.comp)) ∧
      (S.1.halfedges.get S.2).map (fun r => r.comp) = some c1 ∧
      (S.1.merge_fictitious_links he1 S.2 (S.2 + 1) r1.vertex).same_links d := by
  have hlt1 : he1 < d.halfedges.length := Arena.get_lt h1
  have hlt2 : r1.opposite < d.halfedges.length := Arena.get_lt h2
  have ht1 : Halfedge.twin d he1 = some r1.opposite := Halfedge.twin_eq_some.mpr ⟨r1, h1, rfl⟩
  have ht2 : Halfedge.twin d r1.opposite = some he1 := (hd.1 he1 _ ht1).1
  -- the states of the split, one primitive after the other
  obtain ⟨n, hn⟩ : ∃ n, n = d.halfedges.length := ⟨_, rfl⟩
  obtain ⟨A1, hA1⟩ : ∃ A1, A1 = (d.new_edge v r1.vertex none c1).1 := ⟨_, rfl⟩
  obtain ⟨A2, hA2⟩ : ∃ A2, A2 = A1.set_component (n + 1) c2 := ⟨_, rfl⟩
  obtain ⟨A3, hA3⟩ : ∃ A3, A3 = A2.splice n (n + 1) := ⟨_, rfl⟩
  obtain ⟨p, hp⟩ : ∃ p, p = prev_or_self A3 r1.opposite := ⟨_, rfl⟩
  obtain ⟨A4, hA4⟩ : ∃ A4, A4 = A3.splice p (n + 1) := ⟨_, rfl⟩
  obtain ⟨A5, hA5⟩ : ∃ A5, A5 = A4.splice he1 n := ⟨_, rfl⟩
  obtain ⟨A6, hA6⟩ : ∃ A6, A6 = A5.set_vertex he1 v := ⟨_, rfl⟩
  have hS1 : S.1 = A6 := by
    rw [hS, hA6, hA5, hA4, hp, hA3, hA2, hA1, hn]
    rfl
  have hS2 : S.2 = n := by
    rw [hS, hn]
    rfl
  have L1 : A1.Linked := hA1 ▸ Dcel.linked_new_edge d _ _ _ _ hd
  have L2 : A2.Linked := hA2 ▸ Dcel.linked_set_component A1 _ _ L1
  have L3 : A3.Linked := hA3 ▸ Dcel.linked_splice A2 _ _ L2
  have L4 : A4.Linked := hA4 ▸ Dcel.linked_splice A3 _ _ L3
  have L5 : A5.Linked := hA5 ▸ Dcel.linked_splice A4 _ _ L4
  have L6 : A6.Linked := hA6 ▸ Dcel.linked_set_vertex A5 _ _ L5
  -- the records of the state with the new pair
  have g1 : ∀ x, A1.halfedges.get x =
      if x = n then some ⟨none, n + 1, n + 1, n + 1, r1.vertex, c1⟩
      else if x = n + 1 then some ⟨none, n, n, n, v, c1⟩
      else d.halfedges.get x := by
    intro x
    rw [hA1, hn]
    exact Dcel.get_new_edge d _ _ _ _ x
  -- the twins
  have tw6 : ∀ x, Halfedge.twin A6 x = Halfedge.twin A1 x := by
    intro x
    rw [hA6, hA5, hA4, hA3, hA2]
    simp only [Halfedge.twin_set_vertex, Halfedge.twin_splice, Halfedge.twin_set_component]
  have tw1 : ∀ x, x < n → Halfedge.twin A1 x = Halfedge.twin d x := by
    intro x hx
    unfold Halfedge.twin
    rw [g1, if_neg (by omega), if_neg (by omega)]
  have tw1n : Halfedge.twin A1 n = some (n + 1) := by
    unfold Halfedge.twin
    rw [g1, if_pos rfl]
    rfl
  have tw1m : Halfedge.twin A1 (n + 1) = some n := by
    unfold Halfedge.twin
    rw [g1, if_neg (by omega), if_pos rfl]
    rfl
  -- the targets
  have tg5 : ∀ x, Halfedge.target A5 x = Halfedge.target A1 x := by
    intro x
    rw [hA5, hA4, hA3, hA2]
    simp only [Halfedge.target_splice, Halfedge.target_set_component]
  have tg1 : ∀ x, x < n → Halfedge.target A1 x = Halfedge.target d x := by
    intro x hx
    unfold Halfedge.target
    rw [g1, if_neg (by omega), if_neg (by omega)]
  have tg1n : Halfedge.target A1 n = some r1.vertex := by
    unfold Halfedge.target
    rw [g1, if_pos rfl]
    rfl
  have tg1m : Halfedge.target A1 (n + 1) = some v := by
    unfold Halfedge.target
    rw [g1, if_neg (by omega), if_pos rfl]
    rfl
  have tgd1 : Halfedge.target d he1 = some r1.vertex := by
    unfold Halfedge.target; rw [h1]; rfl
  -- the successors
  have nx2 : ∀ x, Halfedge.next A2 x = Halfedge.next A1 x := by
    intro x
    rw [hA2, Halfedge.next_set_component]
  have nx1n : Halfedge.next A1 n = some (n + 1) := by
    unfold Halfedge.next
    rw [g1, if_pos rfl]
    rfl
  have nx1m : Halfedge.next A1 (n + 1) = some n := by
    unfold Halfedge.next
    rw [g1, if_neg (by omega), if_pos rfl]
    rfl
  have tw2 : ∀ x, Halfedge.twin A2 x = Halfedge.twin A1 x := by
    intro x; rw [hA2, Halfedge.twin_set_component]
  have tw3 : ∀ x, Halfedge.twin A3 x = Halfedge.twin A1 x := by
    intro x; rw [hA3, Halfedge.twin_splice, tw2]
  have tw4 : ∀ x, Halfedge.twin A4 x = Halfedge.twin A1 x := by
    intro x; rw [hA4, Halfedge.twin_splice, tw3]
  have lv2n : (A2.halfedges.get n).isSome := Halfedge.live_of_twin ((tw2 n).trans tw1n)
  have lv2m : (A2.halfedges.get (n + 1)).isSome := Halfedge.live_of_twin ((tw2 _).trans tw1m)
  have nx3 : ∀ x, Halfedge.next A3 x =
      if x = n + 1 then some (n + 1) else if x = n then some n else Halfedge.next A1 x := by
    intro x
    rw [hA3, Halfedge.next_splice A2 n (n + 1) x lv2n lv2m, nx2, nx2, nx2, nx1n, nx1m]
  have lv3m : (A3.halfedges.get (n + 1)).isSome := Halfedge.live_of_twin ((tw3 _).trans tw1m)
  have lv3o : (A3.halfedges.get r1.opposite).isSome :=
    Halfedge.live_of_twin ((tw3 _).trans ((tw1 _ (by omega)).trans ht2))
  have hpl := prev_or_self_live L3 r1.opposite lv3o
  rw [← hp] at hpl
  have nx3p : Halfedge.next A3 p = some r1.opposite := L3.2.2 _ _ hpl.1
  have hpn : p ≠ n := by
    intro e
    rw [e, nx3, if_neg (by omega), if_pos rfl] at nx3p
    have := Option.some.inj nx3p
    omega
  have hpm : p ≠ n + 1 := by
    intro e
    rw [e, nx3, if_pos rfl] at nx3p
    have := Option.some.inj nx3p
    omega
  have nx4 : ∀ x, Halfedge.next A4 x =
      if x = n + 1 then some r1.opposite else if x = p then some (n + 1)
      else Halfedge.next A3 x := by
    intro x
    rw [hA4, Halfedge.next_splice A3 p (n + 1) x hpl.2 lv3m, nx3p, nx3 (n + 1), if_pos rfl]
  have pv4 : prev_or_self A4 (n + 1) = p := by
    have h : Halfedge.next A4 p = some (n + 1) := by
      rw [nx4, if_neg hpm, if_pos rfl]
    exact prev_or_self_of_next L4 h
  have lv4n : (A4.halfedges.get n).isSome := Halfedge.live_of_twin ((tw4 _).trans tw1n)
  have lv4e : (A4.halfedges.get he1).isSome :=
    Halfedge.live_of_twin ((tw4 _).trans ((tw1 _ (by omega)).trans ht1))
  have nx4n : Halfedge.next A4 n = some n := by
    rw [nx4, if_neg (by omega), if_neg (Ne.symm hpn), nx3, if_neg (by omega), if_pos rfl]
  have nx5 : ∀ x, Halfedge.next A5 x =
      if x = n then Halfedge.next A4 he1 else if x = he1 then some n
      else Halfedge.next A4 x := by
    intro x
    rw [hA5, Halfedge.next_splice A4 he1 n x lv4e lv4n, nx4n]
  have nx6 : ∀ x, Halfedge.next A6 x = Halfedge.next A5 x := by
    intro x; rw [hA6, Halfedge.next_set_vertex]
  have tg5e : Halfedge.target A5 he1 = some r1.vertex := by
    rw [tg5, tg1 _ (by omega), tgd1]
  have tg6 : ∀ x, x ≠ he1 → Halfedge.target A6 x = Halfedge.target A1 x := by
    intro x hx
    rw [hA6, Halfedge.target_set_vertex, if_neg hx, tg5]
  -- the face-or-hole references
  have cp6 : ∀ x, (A6.halfedges.get x).map (fun r => r.comp)
      = (A2.halfedges.get x).map (fun r => r.comp) := by
    intro x
    rw [hA6, Dcel.comp_set_vertex, hA5, Dcel.comp_splice, hA4, Dcel.comp_splice, hA3,
      Dcel.comp_splice]
  have g2 : ∀ x, A2.halfedges.get x =
      if x = n then some ⟨none, n + 1, n + 1, n + 1, r1.vertex, c1⟩
      else if x = n + 1 then some ⟨none, n, n, n, v, c2⟩
      else d.halfedges.get x := by
    intro x
    rw [hA2, Dcel.get_set_component, g1]
    by_cases hx1 : x = n
    · simp [hx1]
    · by_cases hx2 : x = n + 1
      · simp [hx2]
      · simp only [if_neg hx1, if_neg hx2]
        cases d.halfedges.get x <;> rfl
  rw [hS1, hS2]
  refine ⟨hn, L6, ?_, ?_, ?_, ?_, ?_, ?_, ?_, ?_, ?_, ?_, ?_, ?_, ?_, ?_⟩
  · rw [hA6, Dcel.length_set_vertex, hA5, Dcel.length_splice, hA4, Dcel.length_splice, hA3,
      Dcel.length_splice, hA2, Dcel.length_set_component, hA1, Dcel.halfedges_new_edge,
      List.length_append]
    rfl
  · rw [tw6, tw1 _ (by omega), ht1]
  · rw [tw6, tw1 _ (by omega), ht2]
  · rw [tw6, tw1n]
  · rw [tw6, tw1m]
  · rw [hA6, Halfedge.target_set_vertex, if_pos rfl, tg5e]
    rfl
  · rw [tg6 _ (by omega), tg1n]
  · rw [tg6 _ (by omega), tg1m]
  · rw [nx6, nx5, if_neg (by omega), if_pos rfl]
  · rw [nx6, nx5, if_neg (by omega), if_neg (by omega), nx4, if_pos rfl]
  · intro x hx hxe
    rw [tg6 _ hxe, tg1 _ (by omega)]
  · intro x hx
    rw [cp6, g2, if_neg (by omega), if_neg (by omega)]
  · rw [cp6, g2, if_pos rfl]
    rfl
  · unfold Dcel.merge_fictitious_links
    -- the merge undoes the primitives of the split, last to first
    have e1 : A6.set_vertex he1 r1.vertex = A5 := by
      rw [hA6, Dcel.set_vertex_set_vertex]
      apply Dcel.set_vertex_eq_self
      intro r hr
      have := tg5e
      unfold Halfedge.target at this
      rw [hr] at this
      exact Option.some.inj this
    have e2 : A5.splice he1 n = A4 := by
      rw [hA5]
      exact Dcel.splice_splice A4 L4 he1 n
    have e3 : A4.splice p (n + 1) = A3 := by
      rw [hA4]
      exact Dcel.splice_splice A3 L3 p (n + 1)
    have e4 : A3.splice n (n + 1) = A2 := by
      rw [hA3]
      exact Dcel.splice_splice A2 L2 n (n + 1)
    simp only [e1, e2, pv4, e3, e4]
    -- the removal of the pair
    have s21 : A2.same_links A1 := hA2 ▸ Dcel.same_links_set_component A1 _ _
    have dn := (Dcel.delete_new_edge d v r1.vertex none c1).1
    rw [← hn, ← hA1] at dn
    exact (s21.delete_edge n).trans dn

/-! ## The vertex at infinity of a split, and its removal -/

theorem Dcel.new_edge_congr {Point Curve : Type} {d e : Dcel Point Curve}
    (h : d.halfedges = e.halfedges) (v1 v2 : Nat) (cv : Option Curve)
    (c : Halfedge_component) :
    (d.new_edge v1 v2 cv c).1.halfedges = (e.new_edge v1 v2 cv c).1.halfedges := by
  simp only [Dcel.new_edge, h]

theorem Dcel.set_component_congr {Point Curve : Type} {d e : Dcel Point Curve}
    (h : d.halfedges = e.halfedges) (x : Nat) (c : Halfedge_component) :
    (d.set_component x c).halfedges = (e.set_component x c).halfedges := by
  simp only [Dcel.set_component, h]

theorem Dcel.split_fictitious_links_congr {Point Curve : Type} {d e : Dcel Point Curve}
    (h : d.halfedges = e.halfedges) (he1 he2 v u : Nat) (c1 c2 : Halfedge_component) :
    (d.split_fictitious_links he1 he2 v u c1 c2).1.halfedges
      = (e.split_fictitious_links he1 he2 v u c1 c2).1.halfedges := by
  unfold Dcel.split_fictitious_links
  have h1 : (d.new_edge v u none c1).2 = (e.new_edge v u none c1).2 := by
    simp only [Dcel.new_edge, h]
  have h2 := Dcel.splice_congr (Dcel.set_component_congr (Dcel.new_edge_congr h v u none c1)
    ((d.new_edge v u none c1).2 + 1) c2) (d.new_edge v u none c1).2
    ((d.new_edge v u none c1).2 + 1)
  simp only
  rw [← h1, prev_or_self_congr h2 he2]
  exact Dcel.set_vertex_congr (Dcel.splice_congr (Dcel.splice_congr h2 _ _) _ _) _ _

/-- The split of a fictitious edge whose halfedge and twin are live returns: the store
gets the vertex at infinity, which refers to the first piece, and the two halfedges of the
second piece; the number of vertices at infinity grows by one, and the faces, holes and
isolated vertices stay as they are. -/
theorem Arrangement_2.split_fictitious_edge_spec {Point Curve : Type}
    (arr : Arrangement_2 Point Curve) (e : Nat) (ix iy : Boundary_type)
    {r1 r2 : DHalfedge Curve} (h1 : arr.dcel.halfedges.get e = some r1)
    (h2 : arr.dcel.halfedges.get r1.opposite = some r2) :
    ∃ P : Arrangement_2 Point Curve, arr._split_fictitious_edge e ix iy = some (P, e) ∧
      P.dcel.halfedges = (arr.dcel.split_fictitious_links e r1.opposite
        arr.dcel.vertices.length r1.vertex r1.comp r2.comp).1.halfedges ∧
      P.dcel.vertices = ((arr.dcel.vertices.alloc ⟨none, ix, iy, .halfedge none⟩).modify
        r1.vertex (fun x =>
          if x.inc = .halfedge (some e)
          then { x with inc := .halfedge (some arr.dcel.halfedges.length) } else x)).modify
        arr.dcel.vertices.length (fun x => { x with inc := .halfedge (some e) }) ∧
      P.dcel.faces = arr.dcel.faces ∧ P.dcel.holes = arr.dcel.holes ∧
      P.dcel.iso_verts = arr.dcel.iso_verts ∧ P.n_inf_verts = arr.n_inf_verts + 1 := by
  cases hs : arr._split_fictitious_edge e ix iy with
  | none =>
    simp [Arrangement_2._split_fictitious_edge, Arrangement_2._split_fictitious_edge_at_vertex,
      Arrangement_2._create_vertex_at_infinity, h1, h2] at hs
  | some r =>
    obtain ⟨P, m⟩ := r
    simp only [Arrangement_2._split_fictitious_edge,
      Arrangement_2._split_fictitious_edge_at_vertex, Arrangement_2._create_vertex_at_infinity,
      h1, h2, Option.some_bind, Option.map_some', Option.some.injEq, Prod.mk.injEq] at hs
    obtain ⟨hP, hm⟩ := hs
    subst hm
    subst hP
    refine ⟨_, rfl, ?_, ?_, ?_, ?_, ?_, rfl⟩
    · refine Dcel.split_fictitious_links_congr (e := arr.dcel) ?_ _ _ _ _ _ _
      rfl
    · simp only [(Dcel.split_fictitious_links_frame _ _ _ _ _ _ _).1]
      rfl
    · exact (Dcel.split_fictitious_links_frame _ _ _ _ _ _ _).2.1
    · exact (Dcel.split_fictitious_links_frame _ _ _ _ _ _ _).2.2.1
    · exact (Dcel.split_fictitious_links_frame _ _ _ _ _ _ _).2.2.2

/-- The removal of the vertex at infinity of a split: in a state with the links of the
store after the split of the fictitious edge `e` at `v`, in which `v` refers to `e`, the
two pieces are merged; the links are those before the split, the vertex record is
deleted, the number of vertices at infinity falls by one, and no other vertex or face
record is created or deleted. -/
theorem Arrangement_2.remove_vertex_at_infinity_spec {Point Curve : Type}
    (d0 : Dcel Point Curve) (hd0 : d0.Linked) (e v : Nat) (c1 c2 : Halfedge_component)
    {r1 r2 : DHalfedge Curve} (h1 : d0.halfedges.get e = some r1)
    (h2 : d0.halfedges.get r1.opposite = some r2)
    (X : Arrangement_2 Point Curve) (hX : X.dcel.Linked)
    (hl : X.dcel.same_links (d0.split_fictitious_links e r1.opposite v r1.vertex c1 c2).1)
    (hv : Vertex.incident_halfedges X.dcel v = some e) :
    (X._remove_vertex_at_infinity v).dcel.same_links d0 ∧
    (X._remove_vertex_at_infinity v).dcel.Linked ∧
    (X._remove_vertex_at_infinity v).n_inf_verts = X.n_inf_verts - 1 ∧
    (X._remove_vertex_at_infinity v).dcel.vertices
      = (X.dcel.vertices.modify r1.vertex (fun x =>
          if x.inc = .halfedge (some d0.halfedges.length)
          then { x with inc := .halfedge (some e) } else x)).free v ∧
    (X._remove_vertex_at_infinity v).dcel.faces.map Option.isSome
      = X.dcel.faces.map Option.isSome ∧
    (X._remove_vertex_at_infinity v).dcel.holes = X.dcel.holes ∧
    (X._remove_vertex_at_infinity v).dcel.iso_verts = X.dcel.iso_verts := by
  obtain ⟨s1, s2, s3, s4, s5, s6, s7, s8, s9, s10, s11, s12, s13, s14, s15, s16⟩ :=
    Dcel.split_fictitious_links_spec d0 hd0 e v c1 c2 h1 h2 _ rfl
  obtain ⟨S, hS⟩ : ∃ S, S = d0.split_fictitious_links e r1.opposite v r1.vertex c1 c2 :=
    ⟨_, rfl⟩
  rw [← hS] at hl s1 s2 s3 s4 s5 s6 s7 s8 s9 s10 s11 s12 s13 s14 s15 s16
  obtain ⟨n, hn⟩ : ∃ n, n = d0.halfedges.length := ⟨_, rfl⟩
  rw [← hn] at s1 s3 ⊢
  rw [s1] at s6 s7 s9 s10 s11 s12 s15 s16
  have lt1 : e < n := hn ▸ Arena.get_lt h1
  have lt2 : r1.opposite < n := hn ▸ Arena.get_lt h2
  have x1 : Halfedge.twin X.dcel e = some r1.opposite := by rw [(hl e).2.1, s4]
  have x2 : Halfedge.next X.dcel e = some n := by rw [(hl e).1, s11]
  have x3 : Halfedge.twin X.dcel n = some (n + 1) := by rw [(hl n).2.1, s6]
  have x4 : Halfedge.target X.dcel n = some r1.vertex := by rw [(hl n).2.2.1, s9]
  have x5 : Halfedge.next X.dcel (n + 1) = some r1.opposite := by rw [(hl (n + 1)).1, s12]
  have hc : n ≠ e ∧ n ≠ r1.opposite ∧
      Halfedge.next X.dcel (n + 1) = some r1.opposite := ⟨by omega, by omega, x5⟩
  have hm : (X.dcel.merge_fictitious_links e n (n + 1) r1.vertex).same_links d0 :=
    (hl.merge_fictitious_links hX s2 e n (n + 1) r1.vertex).trans s16
  have hml : (X.dcel.merge_fictitious_links e n (n + 1) r1.vertex).Linked :=
    Dcel.linked_merge_fictitious_links _ hX _ _ _ _
  obtain ⟨R, hR⟩ : ∃ R, R = X._remove_vertex_at_infinity v := ⟨_, rfl⟩
  rw [← hR]
  unfold Arrangement_2._remove_vertex_at_infinity at hR
  simp only [hv, x1, x2, x3, x4, hc, and_self, if_true, ne_eq, not_false_eq_true] at hR
  subst hR
  refine ⟨?_, ?_, rfl, rfl, ?_, ?_, ?_⟩
  · exact (Dcel.same_links_of_halfedges rfl).trans hm
  · exact Dcel.linked_of_halfedges_eq hml rfl
  · show List.map Option.isSome (match Halfedge.face X.dcel r1.opposite with
      | some f => _
      | none => _) = _
    cases Halfedge.face X.dcel r1.opposite <;> cases Halfedge.face X.dcel e <;>
      simp only [Arena.shape_modify]
  · exact (Dcel.merge_fictitious_links_frame _ _ _ _ _).2.2.1
  · exact (Dcel.merge_fictitious_links_frame _ _ _ _ _).2.2.2

theorem Dcel.reachable_merge_fictitious_links {Point Curve : Type} (d : Dcel Point Curve)
    (hd : d.Reachable) (he1 he3 he4 u : Nat) :
    (d.merge_fictitious_links he1 he3 he4 u).Reachable :=
  Dcel.Reachable.delete_edge _ _ (Dcel.Reachable.splice _ _ _ (Dcel.Reachable.splice _ _ _
    (Dcel.Reachable.splice _ _ _ (Dcel.Reachable.set_vertex _ _ _ hd))))

theorem Dcel.reachable_split_fictitious_links {Point Curve : Type} (d : Dcel Point Curve)
    (hd : d.Reachable) (he1 he2 v u : Nat) (c1 c2 : Halfedge_component) :
    (d.split_fictitious_links he1 he2 v u c1 c2).1.Reachable :=
  Dcel.Reachable.set_vertex _ _ _ (Dcel.Reachable.splice _ _ _
    (Dcel.Reachable.splice _ _ _ (Dcel.Reachable.splice _ _ _
      (Dcel.Reachable.set_component _ _ _ (Dcel.Reachable.new_edge _ _ _ none c1 hd)))))

/-- The state after `_remove_vertex_at_infinity` is a state of the record store. -/
theorem Arrangement_2.reachable_remove_vertex_at_infinity {Point Curve : Type}
    (arr : Arrangement_2 Point Curve) (hd : arr.dcel.Reachable) (v : Nat) :
    (arr._remove_vertex_at_infinity v).dcel.Reachable := by
  unfold Arrangement_2._remove_vertex_at_infinity
  split
  · split
    · split
      · split_ifs
        · exact Dcel.Reachable.edit_other_records _ _
            (Dcel.reachable_merge_fictitious_links arr.dcel hd _ _ _ _) rfl
        · exact hd
      · exact hd
    · exact hd
  · exact hd

/-- The state after `_split_fictitious_edge` is a state of the record store. -/
theorem Arrangement_2.reachable_split_fictitious_edge {Point Curve : Type}
    (arr : Arrangement_2 Point Curve) (hd : arr.dcel.Reachable) (e : Nat)
    (ix iy : Boundary_type) (P : Arrangement_2 Point Curve) (m : Nat)
    (h : arr._split_fictitious_edge e ix iy = some (P, m)) : P.dcel.Reachable := by
  unfold Arrangement_2._split_fictitious_edge Arrangement_2._split_fictitious_edge_at_vertex
    at h
  cases h1 : arr.dcel.halfedges.get e with
  | none => simp [Arrangement_2._create_vertex_at_infinity, h1] at h
  | some r1 =>
    cases h2 : arr.dcel.halfedges.get r1.opposite with
    | none => simp [Arrangement_2._create_vertex_at_infinity, h1, h2] at h
    | some r2 =>
      simp only [Arrangement_2._create_vertex_at_infinity, h1, h2, Option.some_bind,
        Option.map_some', Option.some.injEq, Prod.mk.injEq] at h
      rw [← h.1]
      have h0 : ({ arr.dcel with
          vertices := arr.dcel.vertices.alloc ⟨none, ix, iy, .halfedge none⟩ } :
            Dcel Point Curve).Reachable :=
        Dcel.Reachable.edit_other_records _ _ hd rfl
      exact Dcel.Reachable.edit_other_records _ _
        (Dcel.reachable_split_fictitious_links _ h0 e r1.opposite arr.dcel.vertices.length
          r1.vertex r1.comp r2.comp) rfl

/-! ## The stages of the removal of an edge -/

/-- The records of faces and holes in the removal of an edge: the face that is merged
into the other one is deleted, and no other record is created or deleted among the
vertices, halfedges and faces. -/
theorem Arrangement_2.remove_edge_faces_frame {Point Curve : Type}
    (arr : Arrangement_2 Point Curve) (he1 : Nat) (r1 r2 : DHalfedge Curve) (f1 f2 : Nat) :
    (arr._remove_edge_faces he1 r1 r2 f1 f2).1.n_inf_verts = arr.n_inf_verts ∧
    (arr._remove_edge_faces he1 r1 r2 f1 f2).1.dcel.vertices = arr.dcel.vertices ∧
    (arr._remove_edge_faces he1 r1 r2 f1 f2).1.dcel.halfedges.size
      = arr.dcel.halfedges.size ∧
    (arr._remove_edge_faces he1 r1 r2 f1 f2).1.dcel.faces.map Option.isSome
      = if f1 = f2 then arr.dcel.faces.map Option.isSome
        else (arr.dcel.faces.map Option.isSome).set (if r1.is_on_hole then f2 else f1)
          false := by
  unfold Arrangement_2._remove_edge_faces
  by_cases hf : f1 = f2
  · simp only [hf, ne_eq, not_true_eq_false, if_false, if_true]
    split_ifs
    all_goals refine ⟨rfl, ?_, ?_, ?_⟩
    all_goals first
      | rfl
      | exact (Dcel.set_component_cycle_get _ _ _ _ _).1
      | exact Dcel.set_component_cycle_size _ _ _ _ _
      | simp only [Arena.shape_modify]
  · simp only [hf, ne_eq, not_false_eq_true, if_true, if_false]
    have c1 := Dcel.set_component_cycle_get
      (if r1.is_on_hole = true then r1.comp else r2.comp) r1.prev
      arr.dcel.halfedges.length r1.prev arr.dcel
    have c2 := Dcel.set_component_cycle_size
      (if r1.is_on_hole = true then r1.comp else r2.comp) r1.prev
      arr.dcel.halfedges.length r1.prev arr.dcel
    cases hx : arr.dcel.faces.get (if r1.is_on_hole = true then f2 else f1) with
    | none =>
      refine ⟨rfl, c1.1, c2, ?_⟩
      rw [Arena.shape_free_of_dead _ _ hx]
      exact congrArg _ c1.2.1
    | some x =>
      dsimp only
      refine ⟨?_, ?_, ?_, ?_⟩
      · rw [(Arrangement_2.foldl_move_isolated_vertex_frame _ _ _ _).1,
          (Arrangement_2.foldl_move_hole_frame _ _ _ _).1]
      · rw [(Arrangement_2.foldl_move_isolated_vertex_frame _ _ _ _).2.1,
          (Arrangement_2.foldl_move_hole_frame _ _ _ _).2.1]
        exact c1.1
      · rw [(Arrangement_2.foldl_move_isolated_vertex_frame _ _ _ _).2.2.1,
          (Arrangement_2.foldl_move_hole_frame _ _ _ _).2.2.1]
        exact c2
      · rw [Arena.shape_free, Arena.shape_modify,
          (Arrangement_2.foldl_move_isolated_vertex_frame _ _ _ _).2.2.2.2,
          (Arrangement_2.foldl_move_hole_frame _ _ _ _).2.2.2]
        rw [c1.2.1]

/-- The records of faces and holes in the removal of an edge keep the links of the
halfedges. -/
theorem Arrangement_2.remove_edge_faces_links {Point Curve : Type}
    (arr : Arrangement_2 Point Curve) (he1 : Nat) (r1 r2 : DHalfedge Curve) (f1 f2 : Nat) :
    (arr._remove_edge_faces he1 r1 r2 f1 f2).1.dcel.same_links arr.dcel := by
  unfold Arrangement_2._remove_edge_faces
  by_cases hf : f1 = f2
  · simp only [hf, ne_eq, not_true_eq_false, if_false, if_true]
    split_ifs
    all_goals first
      | exact Dcel.same_links.refl _
      | exact (Dcel.same_links_of_halfedges rfl).trans
          (Dcel.same_links_set_component_cycle _ _ _ _ _)
  · simp only [hf, ne_eq, not_false_eq_true, if_true, if_false]
    have hc := Dcel.same_links_set_component_cycle
      (if r1.is_on_hole = true then r1.comp else r2.comp) r1.prev
      arr.dcel.halfedges.length r1.prev arr.dcel
    cases hx : arr.dcel.faces.get (if r1.is_on_hole = true then f2 else f1) with
    | none => exact hc
    | some x =>
      dsimp only
      refine (Dcel.same_links_of_halfedges ?_).trans hc
      show Dcel.halfedges _ = _
      rw [(Arrangement_2.foldl_move_isolated_vertex_frame _ _ _ _).2.2.1,
        (Arrangement_2.foldl_move_hole_frame _ _ _ _).2.2.1]

theorem Arrangement_2.linked_remove_edge_faces {Point Curve : Type}
    (arr : Arrangement_2 Point Curve) (hl : arr.dcel.Linked) (he1 : Nat)
    (r1 r2 : DHalfedge Curve) (f1 f2 : Nat) :
    (arr._remove_edge_faces he1 r1 r2 f1 f2).1.dcel.Linked := by
  unfold Arrangement_2._remove_edge_faces
  by_cases hf : f1 = f2
  · simp only [hf, ne_eq, not_true_eq_false, if_false, if_true]
    split_ifs
    all_goals first
      | exact hl
      | exact Dcel.linked_of_halfedges_eq hl rfl
      | exact Dcel.linked_of_halfedges_eq (Dcel.linked_set_component_cycle _ _ _ _ _ hl) rfl
  · simp only [hf, ne_eq, not_false_eq_true, if_true, if_false]
    have hc := Dcel.linked_set_component_cycle
      (if r1.is_on_hole = true then r1.comp else r2.comp) r1.prev
      arr.dcel.halfedges.length r1.prev arr.dcel hl
    cases hx : arr.dcel.faces.get (if r1.is_on_hole = true then f2 else f1) with
    | none => exact hc
    | some x =>
      dsimp only
      refine Dcel.linked_of_halfedges_eq hc ?_
      show Dcel.halfedges _ = _
      rw [(Arrangement_2.foldl_move_isolated_vertex_frame _ _ _ _).2.2.1,
        (Arrangement_2.foldl_move_hole_frame _ _ _ _).2.2.1]

/-- The stages of the removal of an edge from a linked store: for a live halfedge with a
live twin (another halfedge) and an incident face on either side, `_remove_edge` returns
the state after the two end vertices, first the target and then the source, of the state
`F` in which the pair is unlinked and removed and the records of the faces and holes
have followed.  In `F` the vertices are those before the removal, the links of the
halfedges are those after the unlinking, and the face merged into the other one (if the
two faces differ) is deleted. -/
theorem Arrangement_2.remove_edge_stages {Point Curve : Type}
    (a1 : Arrangement_2 Point Curve) (hl : a1.dcel.Linked) (e : Nat)
    (r1 r2 : DHalfedge Curve) (f1 f2 : Nat)
    (h1 : a1.dcel.halfedges.get e = some r1)
    (h2 : a1.dcel.halfedges.get r1.opposite = some r2) (hne : r1.opposite ≠ e)
    (hf1 : Halfedge.face a1.dcel e = some f1)
    (hf2 : Halfedge.face a1.dcel r1.opposite = some f2) (rs rt : Bool) :
    ∃ (F : Arrangement_2 Point Curve) (g : Nat),
      a1._remove_edge e rs rt
        = some ((F._remove_edge_end_vertex r1.vertex e r2.prev g
            (decide (r1.next = r1.opposite)) rt)._remove_edge_end_vertex r2.vertex
              r1.opposite r1.prev g (decide (r2.next = e)) rs, g) ∧
      F.n_inf_verts = a1.n_inf_verts ∧
      F.dcel.vertices = a1.dcel.vertices ∧
      F.dcel.same_links (a1.dcel.unlink_edge e r1.opposite) ∧
      F.dcel.Linked ∧
      F.dcel.halfedges.size + 2 = a1.dcel.halfedges.size ∧
      F.dcel.faces.map Option.isSome
        = (if f1 = f2 then a1.dcel.faces.map Option.isSome
          else (a1.dcel.faces.map Option.isSome).set (if r1.is_on_hole then f2 else f1)
            false) := by
  obtain ⟨u1, u2, u3, u4, u5, u6⟩ :=
    Dcel.unlink_edge_spec a1.dcel hl e r1.opposite r1 r2 h1 h2 rfl hne
  have hu : ({ a1 with dcel := a1.dcel.unlink_edge e r1.opposite } :
      Arrangement_2 Point Curve).dcel.Linked := Dcel.linked_unlink_edge _ hl _ _
  obtain ⟨k1, k2, k3, k4⟩ := Arrangement_2.remove_edge_faces_frame
    ({ a1 with dcel := a1.dcel.unlink_edge e r1.opposite } : Arrangement_2 Point Curve)
    e r1 r2 f1 f2
  refine ⟨(({ a1 with dcel := a1.dcel.unlink_edge e r1.opposite } :
    Arrangement_2 Point Curve)._remove_edge_faces e r1 r2 f1 f2).1,
    (({ a1 with dcel := a1.dcel.unlink_edge e r1.opposite } :
    Arrangement_2 Point Curve)._remove_edge_faces e r1 r2 f1 f2).2, ?_, k1, k2.trans u1,
    Arrangement_2.remove_edge_faces_links _ _ _ _ _ _,
    Arrangement_2.linked_remove_edge_faces _ hu _ _ _ _ _, ?_, ?_⟩
  · unfold Arrangement_2._remove_edge
    simp only [h1, h2, hf1, hf2, Option.some_bind, Option.map_some']
  · rw [k3]
    exact u6
  · rw [k4]
    show (if f1 = f2 then List.map Option.isSome (Dcel.faces _) else _) = _
    rw [u2]

/-- The removal of an edge from a linked store, neither end vertex of which is a vertex
at infinity with other incident edges: the twin pair is removed, the face merged into
the other one (if the two faces differ) is deleted, an end vertex is deleted when it
becomes isolated and its flag is on, and no other vertex, halfedge or face record is
created or deleted. -/
theorem Arrangement_2.remove_edge_frame {Point Curve : Type}
    (a1 : Arrangement_2 Point Curve) (hl : a1.dcel.Linked) (e : Nat)
    (r1 r2 : DHalfedge Curve) (f1 f2 : Nat)
    (h1 : a1.dcel.halfedges.get e = some r1)
    (h2 : a1.dcel.halfedges.get r1.opposite = some r2) (hne : r1.opposite ≠ e)
    (hf1 : Halfedge.face a1.dcel e = some f1)
    (hf2 : Halfedge.face a1.dcel r1.opposite = some f2) (rs rt : Bool)
    (hfin1 : r1.next = r1.opposite ∨ Vertex.is_at_infinity a1.dcel r1.vertex ≠ some true)
    (hfin2 : r2.next = e ∨ Vertex.is_at_infinity a1.dcel r2.vertex ≠ some true) :
    ∃ a2 f, a1._remove_edge e rs rt = some (a2, f) ∧
      a2.n_inf_verts = a1.n_inf_verts ∧
      a2.dcel.halfedges.size + 2 = a1.dcel.halfedges.size ∧
      a2.dcel.faces.map Option.isSome
        = (if f1 = f2 then a1.dcel.faces.map Option.isSome
          else (a1.dcel.faces.map Option.isSome).set (if r1.is_on_hole then f2 else f1)
            false) ∧
      a2.dcel.vertices.map Option.isSome
        = (if decide (r2.next = e) && rs then
            (if decide (r1.next = r1.opposite) && rt then
              (a1.dcel.vertices.map Option.isSome).set r1.vertex false
              else a1.dcel.vertices.map Option.isSome).set r2.vertex false
          else
            (if decide (r1.next = r1.opposite) && rt then
              (a1.dcel.vertices.map Option.isSome).set r1.vertex false
              else a1.dcel.vertices.map Option.isSome)) := by
  obtain ⟨F, g, s1, s2, s3, s4, s5, s6, s7⟩ := Arrangement_2.remove_edge_stages a1 hl e r1 r2
    f1 f2 h1 h2 hne hf1 hf2 rs rt
  have g1 : decide (r1.next = r1.opposite) = true
      ∨ Vertex.is_at_infinity F.dcel r1.vertex ≠ some true := by
    rcases hfin1 with h | h
    · exact Or.inl (decide_eq_true h)
    · exact Or.inr (by rw [Vertex.is_at_infinity_congr s3]; exact h)
  obtain ⟨a1', a2', a3', a4', -, a6'⟩ := Arrangement_2.remove_edge_end_vertex_frame F
    r1.vertex e r2.prev g (decide (r1.next = r1.opposite)) rt g1
  have g2 : decide (r2.next = e) = true
      ∨ Vertex.is_at_infinity (F._remove_edge_end_vertex r1.vertex e r2.prev g
        (decide (r1.next = r1.opposite)) rt).dcel r2.vertex ≠ some true := by
    rcases hfin2 with h | h
    · exact Or.inl (decide_eq_true h)
    · refine Or.inr (fun hc => h ?_)
      rw [← Vertex.is_at_infinity_congr s3]
      exact a6' _ hc
  obtain ⟨b1, b2, b3, b4, -, -⟩ := Arrangement_2.remove_edge_end_vertex_frame
    (F._remove_edge_end_vertex r1.vertex e r2.prev g (decide (r1.next = r1.opposite)) rt)
    r2.vertex r1.opposite r1.prev g (decide (r2.next = e)) rs g2
  refine ⟨_, g, s1, ?_, ?_, ?_, ?_⟩
  · rw [b1, a1', s2]
  · rw [b2, a2']
    exact s6
  · rw [b3, a3', s7]
  · rw [b4, a4', s3]

theorem Halfedge.face_eq_component_face {Point Curve : Type} (d : Dcel Point Curve) (h : Nat)
    (r : DHalfedge Curve) (hr : d.halfedges.get h = some r) :
    Halfedge.face d h = d.component_face r.comp := by
  obtain ⟨a, b, c, e, g, comp⟩ := r
  cases comp <;> simp [Halfedge.face, hr, DHalfedge.is_on_hole, Dcel.component_face]

theorem Arrangement_2.counts_eq {Point Curve : Type} (w : Nat)
    (a b : Arrangement_2 Point Curve) (h0 : b.n_inf_verts = a.n_inf_verts)
    (hv : b.dcel.vertices.size = a.dcel.vertices.size)
    (hh : b.dcel.halfedges.size = a.dcel.halfedges.size)
    (hf : b.dcel.faces.size = a.dcel.faces.size) :
    b.number_of_vertices w = a.number_of_vertices w ∧
    b.number_of_edges w = a.number_of_edges w ∧
    b.number_of_faces w = a.number_of_faces w := by
  simp only [Arrangement_2.number_of_vertices, Arrangement_2.number_of_edges,
    Arrangement_2.number_of_faces, Dcel.size_of_vertices, Dcel.size_of_halfedges,
    Dcel.size_of_faces, h0, hv, hh, hf, and_self]

theorem Dcel.size_new_edge {Point Curve : Type} (d : Dcel Point Curve) (v1 v2 : Nat)
    (cv : Option Curve) (c : Halfedge_component) :
    (d.new_edge v1 v2 cv c).1.halfedges.size = d.halfedges.size + 2 := by
  rw [Dcel.halfedges_new_edge]
  simp [Arena.size, Arena.records, List.filterMap_append]

theorem Dcel.size_splice {Point Curve : Type} (d : Dcel Point Curve) (a b : Nat) :
    (d.splice a b).halfedges.size = d.halfedges.size :=
  Arena.size_eq_of_live_eq _ _ (Dcel.length_splice d a b) (Dcel.live_splice d a b)

/-- A live halfedge of a linked store and its successor lie below the end of the
halfedge arena. -/
theorem Dcel.Linked.next_lt {Point Curve : Type} {d : Dcel Point Curve} (hd : d.Linked)
    {h : Nat} {r : DHalfedge Curve} (hr : d.halfedges.get h = some r) :
    h < d.halfedges.length ∧ r.next < d.halfedges.length := by
  refine ⟨Arena.get_lt hr, ?_⟩
  have hn : Halfedge.next d h = some r.next := by simp [Halfedge.next, hr]
  obtain ⟨t, ht, -⟩ := Halfedge.prev_eq_some.mp (hd.2.1 _ _ hn)
  exact Arena.get_lt ht

/-- An end vertex of a removed edge that is the vertex at infinity of a split, with no
other edge left at it: in a state with the links of the store after the split of the
fictitious edge `e` at `v`, in which `v` is a vertex at infinity that refers to `e`, the
two pieces are merged; the links are those before the split, the vertex record is
deleted, the number of vertices at infinity falls by one, and no other vertex or face
record is created or deleted. -/
theorem Arrangement_2.remove_edge_end_vertex_merge {Point Curve : Type}
    (d0 : Dcel Point Curve) (hd0 : d0.Linked) (e v : Nat) (c1 c2 : Halfedge_component)
    {r1 r2 : DHalfedge Curve} (h1 : d0.halfedges.get e = some r1)
    (h2 : d0.halfedges.get r1.opposite = some r2)
    (Y : Arrangement_2 Point Curve) (hY : Y.dcel.Linked)
    (hl : Y.dcel.same_links (d0.split_fictitious_links e r1.opposite v r1.vertex c1 c2).1)
    (rv : DVertex Point) (hv : Y.dcel.vertices.get v = some rv) (hp : rv.p_pt = none)
    (hi : rv.inc = .halfedge (some e)) (he p f : Nat) (hhe : he ≠ e) (remove : Bool) :
    (Y._remove_edge_end_vertex v he p f false remove).dcel.same_links d0 ∧
    (Y._remove_edge_end_vertex v he p f false remove).dcel.Linked ∧
    (Y._remove_edge_end_vertex v he p f false remove).n_inf_verts = Y.n_inf_verts - 1 ∧
    (Y._remove_edge_end_vertex v he p f false remove).dcel.vertices
      = (Y.dcel.vertices.modify r1.vertex (fun x =>
          if x.inc = .halfedge (some d0.halfedges.length)
          then { x with inc := .halfedge (some e) } else x)).free v ∧
    (Y._remove_edge_end_vertex v he p f false remove).dcel.faces.map Option.isSome
      = Y.dcel.faces.map Option.isSome := by
  have hinf : Vertex.is_at_infinity Y.dcel v = some true := by
    simp [Vertex.is_at_infinity, hv, DVertex.has_null_point, hp]
  have hm : Y.dcel.vertices.modify v (fun x =>
      { x with inc := if x.inc = .halfedge (some he) then .halfedge (some p)
          else x.inc }) = Y.dcel.vertices := by
    apply Arena.modify_eq_self
    intro a ha
    rw [hv] at ha
    obtain rfl := Option.some.inj ha
    have : rv.inc ≠ .halfedge (some he) := by
      rw [hi]
      intro hc
      injection hc with hc
      exact hhe (Option.some.inj hc).symm
    rw [if_neg this]
  rw [Arrangement_2.remove_edge_end_vertex_at_infinity Y v he p f remove hinf, hm]
  have hX : ({ Y with dcel := { Y.dcel with vertices := Y.dcel.vertices } } :
      Arrangement_2 Point Curve) = Y := rfl
  rw [hX]
  have hinc : Vertex.incident_halfedges Y.dcel v = some e := by
    simp [Vertex.incident_halfedges, hv, hi]
  obtain ⟨k1, k2, k3, k4, k5, -, -⟩ := Arrangement_2.remove_vertex_at_infinity_spec d0 hd0
    e v c1 c2 h1 h2 Y hY hl hinc
  exact ⟨k1, k2, k3, k4, k5⟩

/-! ## Insertion followed by removal: no vertex at infinity -/

/-- The removal through `remove_edge` when both sides of the edge bound the same face:
the geometric test picks the half of the pair that is passed on. -/
theorem Arrangement_2.remove_edge_same_face {Point Curve : Type}
    (a1 : Arrangement_2 Point Curve) (e t : Nat) (ht : Halfedge.twin a1.dcel e = some t)
    (hf : Halfedge.face a1.dcel e = Halfedge.face a1.dcel t) (b rs rt : Bool) :
    a1.remove_edge b e rs rt
      = if b then a1._remove_edge e rs rt else a1._remove_edge t rt rs := by
  unfold Arrangement_2.remove_edge
  rw [ht, Option.some_bind]
  cases b
  · rw [if_pos ⟨hf, rfl⟩]
    rfl
  · rw [if_neg (by simp)]
    rfl

/-- The removal through `remove_edge` when the two sides of the edge bound two faces:
the halfedge itself is passed on. -/
theorem Arrangement_2.remove_edge_other_face {Point Curve : Type}
    (a1 : Arrangement_2 Point Curve) (e t : Nat) (ht : Halfedge.twin a1.dcel e = some t)
    (hf : Halfedge.face a1.dcel e ≠ Halfedge.face a1.dcel t) (b rs rt : Bool) :
    a1.remove_edge b e rs rt = a1._remove_edge e rs rt := by
  unfold Arrangement_2.remove_edge
  rw [ht, Option.some_bind, if_neg (fun h => hf h.1)]

/-- The curve inserted as a new hole between two free vertices `v1` and `v2`, and then
removed through either of its halfedges: the removal returns, the numbers of halfedge
and face records are those before the insertion, and an end vertex is deleted when its
flag is on. -/
theorem Arrangement_2.insert_in_face_then_remove {Point Curve : Type}
    (S : Arrangement_2 Point Curve) (hl : S.dcel.Linked) (cv : Curve) (f v1 v2 : Nat) :
    (S._insert_in_face_interior cv f v1 v2).2 = S.dcel.halfedges.length ∧
    Halfedge.twin (S._insert_in_face_interior cv f v1 v2).1.dcel S.dcel.halfedges.length
      = some (S.dcel.halfedges.length + 1) ∧
    Halfedge.twin (S._insert_in_face_interior cv f v1 v2).1.dcel
      (S.dcel.halfedges.length + 1) = some S.dcel.halfedges.length ∧
    Halfedge.face (S._insert_in_face_interior cv f v1 v2).1.dcel S.dcel.halfedges.length
      = some f ∧
    Halfedge.face (S._insert_in_face_interior cv f v1 v2).1.dcel
      (S.dcel.halfedges.length + 1) = some f ∧
    (∀ fs ft : Bool, ∃ a2 g,
      (S._insert_in_face_interior cv f v1 v2).1._remove_edge S.dcel.halfedges.length fs ft
        = some (a2, g) ∧
      a2.n_inf_verts = S.n_inf_verts ∧
      a2.dcel.halfedges.size = S.dcel.halfedges.size ∧
      a2.dcel.faces.map Option.isSome = S.dcel.faces.map Option.isSome ∧
      a2.dcel.vertices.map Option.isSome
        = (if fs then
            (if ft then (S.dcel.vertices.map Option.isSome).set v2 false
              else S.dcel.vertices.map Option.isSome).set v1 false
          else
            (if ft then (S.dcel.vertices.map Option.isSome).set v2 false
              else S.dcel.vertices.map Option.isSome))) ∧
    (∀ fs ft : Bool, ∃ a2 g,
      (S._insert_in_face_interior cv f v1 v2).1._remove_edge (S.dcel.halfedges.length + 1)
        fs ft = some (a2, g) ∧
      a2.n_inf_verts = S.n_inf_verts ∧
      a2.dcel.halfedges.size = S.dcel.halfedges.size ∧
      a2.dcel.faces.map Option.isSome = S.dcel.faces.map Option.isSome ∧
      a2.dcel.vertices.map Option.isSome
        = (if fs then
            (if ft then (S.dcel.vertices.map Option.isSome).set v1 false
              else S.dcel.vertices.map Option.isSome).set v2 false
          else
            (if ft then (S.dcel.vertices.map Option.isSome).set v1 false
              else S.dcel.vertices.map Option.isSome))) := by
  have hh : (S._insert_in_face_interior cv f v1 v2).1.dcel.halfedges
      = (S.dcel.new_edge v1 v2 (some cv) (.hole S.dcel.holes.length)).1.halfedges := rfl
  have hlk : (S._insert_in_face_interior cv f v1 v2).1.dcel.Linked :=
    Dcel.linked_of_halfedges_eq (Dcel.linked_new_edge _ _ _ _ _ hl) hh
  have g0 : (S._insert_in_face_interior cv f v1 v2).1.dcel.halfedges.get
      S.dcel.halfedges.length
      = some ⟨some cv, S.dcel.halfedges.length + 1, S.dcel.halfedges.length + 1,
          S.dcel.halfedges.length + 1, v2, .hole S.dcel.holes.length⟩ := by
    rw [hh, Dcel.get_new_edge, if_pos rfl]
  have g1 : (S._insert_in_face_interior cv f v1 v2).1.dcel.halfedges.get
      (S.dcel.halfedges.length + 1)
      = some ⟨some cv, S.dcel.halfedges.length, S.dcel.halfedges.length,
          S.dcel.halfedges.length, v1, .hole S.dcel.holes.length⟩ := by
    rw [hh, Dcel.get_new_edge, if_neg (by omega), if_pos rfl]
  have hho : (S._insert_in_face_interior cv f v1 v2).1.dcel.component_face
      (.hole S.dcel.holes.length) = some f := by
    simp [Dcel.component_face, Arrangement_2._insert_in_face_interior, Arena.get_alloc]
  have f0 := Halfedge.face_eq_component_face _ _ _ g0
  have f1 := Halfedge.face_eq_component_face _ _ _ g1
  rw [hho] at f0 f1
  have sv : (S._insert_in_face_interior cv f v1 v2).1.dcel.vertices.map Option.isSome
      = S.dcel.vertices.map Option.isSome := by
    simp only [Arrangement_2._insert_in_face_interior, Arena.shape_modify]
  have sf : (S._insert_in_face_interior cv f v1 v2).1.dcel.faces.map Option.isSome
      = S.dcel.faces.map Option.isSome := by
    simp only [Arrangement_2._insert_in_face_interior, Arena.shape_modify]
  have sh : (S._insert_in_face_interior cv f v1 v2).1.dcel.halfedges.size
      = S.dcel.halfedges.size + 2 := by
    rw [hh, Dcel.size_new_edge]
  have sn : (S._insert_in_face_interior cv f v1 v2).1.n_inf_verts = S.n_inf_verts := rfl
  refine ⟨rfl, by simp [Halfedge.twin, g0], by simp [Halfedge.twin, g1], f0, f1, ?_, ?_⟩
  · intro fs ft
    obtain ⟨a2, g, e1, e2, e3, e4, e5⟩ := Arrangement_2.remove_edge_frame _ hlk _ _ _ f f
      g0 g1 (by simp) f0 f1 fs ft (Or.inl rfl) (Or.inl rfl)
    refine ⟨a2, g, e1, e2.trans sn, by omega, ?_, ?_⟩
    · rw [e4, if_pos rfl, sf]
    · rw [e5, sv]
      simp only [decide_True, Bool.true_and]
  · intro fs ft
    obtain ⟨a2, g, e1, e2, e3, e4, e5⟩ := Arrangement_2.remove_edge_frame _ hlk _ _ _ f f
      g1 g0 (by simp) f1 f0 fs ft (Or.inl rfl) (Or.inl rfl)
    refine ⟨a2, g, e1, e2.trans sn, by omega, ?_, ?_⟩
    · rw [e4, if_pos rfl, sf]
    · rw [e5, sv]
      simp only [decide_True, Bool.true_and]

/-- The curve inserted from the target of `prev`, not a vertex at infinity, to a free
vertex `v`, and then removed through either of its halfedges: the insertion and the
removal return, the numbers of halfedge and face records are those before the
insertion, and the vertex `v` is deleted when its flag is on. -/
theorem Arrangement_2.insert_from_vertex_then_remove {Point Curve : Type}
    (S : Arrangement_2 Point Curve) (hl : S.dcel.Linked) (cv : Curve)
    (prev f v : Nat) (rp : DHalfedge Curve) (hp : S.dcel.halfedges.get prev = some rp)
    (hf : Halfedge.face S.dcel prev = some f)
    (hfin : Vertex.is_at_infinity S.dcel rp.vertex ≠ some true) :
    ∃ a1, S._insert_from_vertex cv prev v = some (a1, S.dcel.halfedges.length) ∧
      Halfedge.twin a1.dcel S.dcel.halfedges.length = some (S.dcel.halfedges.length + 1) ∧
      Halfedge.twin a1.dcel (S.dcel.halfedges.length + 1) = some S.dcel.halfedges.length ∧
      Halfedge.face a1.dcel S.dcel.halfedges.length = some f ∧
      Halfedge.face a1.dcel (S.dcel.halfedges.length + 1) = some f ∧
      (∀ fs ft : Bool, ∃ a2 g, a1._remove_edge S.dcel.halfedges.length fs ft = some (a2, g) ∧
        a2.n_inf_verts = S.n_inf_verts ∧
        a2.dcel.halfedges.size = S.dcel.halfedges.size ∧
        a2.dcel.faces.map Option.isSome = S.dcel.faces.map Option.isSome ∧
        a2.dcel.vertices.map Option.isSome
          = (if ft then (S.dcel.vertices.map Option.isSome).set v false
            else S.dcel.vertices.map Option.isSome)) ∧
      (∀ fs ft : Bool, ∃ a2 g,
        a1._remove_edge (S.dcel.halfedges.length + 1) fs ft = some (a2, g) ∧
        a2.n_inf_verts = S.n_inf_verts ∧
        a2.dcel.halfedges.size = S.dcel.halfedges.size ∧
        a2.dcel.faces.map Option.isSome = S.dcel.faces.map Option.isSome ∧
        a2.dcel.vertices.map Option.isSome
          = (if fs then (S.dcel.vertices.map Option.isSome).set v false
            else S.dcel.vertices.map Option.isSome)) := by
  obtain ⟨lt1, lt2⟩ := hl.next_lt hp
  have hcf : S.dcel.component_face rp.comp = some f := by
    rw [← Halfedge.face_eq_component_face _ _ _ hp]; exact hf
  -- the halfedge records after the insertion
  have gp : (S.dcel.new_edge rp.vertex v (some cv)
      rp.comp).1.halfedges.get prev = some rp := by
    rw [Dcel.get_new_edge, if_neg (by omega), if_neg (by omega)]; exact hp
  have gb : (S.dcel.new_edge rp.vertex v (some cv)
      rp.comp).1.halfedges.get (S.dcel.halfedges.length + 1)
      = some ⟨some cv, S.dcel.halfedges.length, S.dcel.halfedges.length,
          S.dcel.halfedges.length, rp.vertex, rp.comp⟩ := by
    rw [Dcel.get_new_edge, if_neg (by omega), if_pos rfl]
  have ga : (S.dcel.new_edge rp.vertex v (some cv)
      rp.comp).1.halfedges.get S.dcel.halfedges.length
      = some ⟨some cv, S.dcel.halfedges.length + 1, S.dcel.halfedges.length + 1,
          S.dcel.halfedges.length + 1, v, rp.comp⟩ := by
    rw [Dcel.get_new_edge, if_pos rfl]
  have n1 : S.dcel.halfedges.length ≠ prev := by omega
  have n2 : S.dcel.halfedges.length ≠ rp.next := by omega
  have n3 : S.dcel.halfedges.length + 1 ≠ prev := by omega
  have n4 : S.dcel.halfedges.length + 1 ≠ rp.next := by omega
  have n5 : decide (rp.next = S.dcel.halfedges.length) = false :=
    decide_eq_false (Ne.symm n2)
  have g0 : ((S.dcel.new_edge rp.vertex v (some cv)
      rp.comp).1.splice prev (S.dcel.halfedges.length + 1)).halfedges.get
        S.dcel.halfedges.length
      = some ⟨some cv, S.dcel.halfedges.length + 1, prev,
          S.dcel.halfedges.length + 1, v, rp.comp⟩ := by
    rw [Dcel.get_splice _ _ _ gp gb, ga]
    simp [n1, n2]
  have g1 : ((S.dcel.new_edge rp.vertex v (some cv)
      rp.comp).1.splice prev (S.dcel.halfedges.length + 1)).halfedges.get
        (S.dcel.halfedges.length + 1)
      = some ⟨some cv, S.dcel.halfedges.length, S.dcel.halfedges.length,
          rp.next, rp.vertex, rp.comp⟩ := by
    rw [Dcel.get_splice _ _ _ gp gb, gb]
    simp [n3, n4]
  have hlk : ((S.dcel.new_edge rp.vertex v (some cv)
      rp.comp).1.splice prev (S.dcel.halfedges.length + 1)).Linked :=
    Dcel.linked_splice _ _ _ (Dcel.linked_new_edge _ _ _ _ _ hl)
  have sh : ((S.dcel.new_edge rp.vertex v (some cv)
      rp.comp).1.splice prev (S.dcel.halfedges.length + 1)).halfedges.size
      = S.dcel.halfedges.size + 2 := by
    rw [Dcel.size_splice, Dcel.size_new_edge]
  -- the state after the insertion
  obtain ⟨a1, ha1, q1, q2, q3, q4, q5, q6⟩ : ∃ a1 : Arrangement_2 Point Curve,
      S._insert_from_vertex cv prev v = some (a1, S.dcel.halfedges.length) ∧
      a1.dcel.halfedges = ((S.dcel.new_edge rp.vertex v (some cv)
        rp.comp).1.splice prev (S.dcel.halfedges.length + 1)).halfedges ∧
      a1.dcel.vertices.map Option.isSome = S.dcel.vertices.map Option.isSome ∧
      a1.dcel.faces = S.dcel.faces ∧ a1.dcel.holes = S.dcel.holes ∧
      a1.n_inf_verts = S.n_inf_verts ∧
      (∀ x, Vertex.is_at_infinity a1.dcel x = Vertex.is_at_infinity S.dcel x) := by
    cases hins : S._insert_from_vertex cv prev v with
    | none => simp [Arrangement_2._insert_from_vertex, hp] at hins
    | some r =>
      obtain ⟨a1, m⟩ := r
      simp only [Arrangement_2._insert_from_vertex, hp, Option.map_some', Option.some.injEq,
        Prod.mk.injEq] at hins
      obtain ⟨h1, h2⟩ := hins
      have hm : m = S.dcel.halfedges.length := by rw [← h2]; rfl
      subst hm
      subst h1
      refine ⟨_, rfl, rfl, ?_, ?_, ?_, rfl, ?_⟩
      · simp only [Arena.shape_modify]
        rw [(Dcel.splice_frame _ _ _).1]
        rfl
      · exact (Dcel.splice_frame _ _ _).2.1
      · exact (Dcel.splice_frame _ _ _).2.2.1
      · intro x
        simp only [Vertex.is_at_infinity]
        rw [Arena.get_modify, (Dcel.splice_frame _ _ _).1]
        show Option.map _ (Option.map _ (S.dcel.vertices.get x)) = _
        cases S.dcel.vertices.get x with
        | none => rfl
        | some y =>
          simp only [Option.map_some']
          split_ifs <;> rfl
  have hlk1 : a1.dcel.Linked := Dcel.linked_of_halfedges_eq hlk q1
  rw [← q1] at g0 g1 sh
  have hc1 : a1.dcel.component_face rp.comp = some f := by
    rw [← hcf]
    cases rp.comp <;> simp [Dcel.component_face, q4]
  have f0 := Halfedge.face_eq_component_face _ _ _ g0
  have f1 := Halfedge.face_eq_component_face _ _ _ g1
  simp only [hc1] at f0 f1
  have hfin1 : Vertex.is_at_infinity a1.dcel rp.vertex ≠ some true := by
    rw [q6]; exact hfin
  refine ⟨a1, ha1, by simp [Halfedge.twin, g0], by simp [Halfedge.twin, g1], f0, f1, ?_, ?_⟩
  · intro fs ft
    obtain ⟨a2, g, e1, e2, e3, e4, e5⟩ := Arrangement_2.remove_edge_frame a1 hlk1 _ _ _ f f
      g0 g1 (by simp) f0 f1 fs ft (Or.inl rfl) (Or.inr hfin1)
    refine ⟨a2, g, e1, e2.trans q5, by omega, ?_, ?_⟩
    · rw [e4, if_pos rfl, q3]
    · rw [e5, q2]
      simp only [decide_True, Bool.true_and, n5, Bool.false_and, Bool.false_eq_true,
        if_false]
  · intro fs ft
    obtain ⟨a2, g, e1, e2, e3, e4, e5⟩ := Arrangement_2.remove_edge_frame a1 hlk1 _ _ _ f f
      g1 g0 (by simp) f1 f0 fs ft (Or.inr hfin1) (Or.inl rfl)
    refine ⟨a2, g, e1, e2.trans q5, by omega, ?_, ?_⟩
    · rw [e4, if_pos rfl, q3]
    · rw [e5, q2]
      simp only [decide_True, Bool.true_and, n5, Bool.false_and, Bool.false_eq_true,
        if_false]

/-- The point inserted as an isolated vertex, and then removed: the removal returns the
face of the insertion, and the numbers of vertex, halfedge and face records are those
before the insertion. -/
theorem Arrangement_2.insert_point_then_remove {Point Curve : Type}
    (arr : Arrangement_2 Point Curve) (p : Point) (f : Nat) :
    ∃ a2, (arr.insert_in_face_interior p f).1.remove_isolated_vertex
        (arr.insert_in_face_interior p f).2 = some (a2, f) ∧
      a2.n_inf_verts = arr.n_inf_verts ∧
      a2.dcel.vertices.size = arr.dcel.vertices.size ∧
      a2.dcel.halfedges.size = arr.dcel.halfedges.size ∧
      a2.dcel.faces.size = arr.dcel.faces.size := by
  have gv : (arr.insert_in_face_interior p f).1.dcel.vertices.get arr.dcel.vertices.length
      = some ⟨some p, .NO_BOUNDARY, .NO_BOUNDARY, .isolated arr.dcel.iso_verts.length⟩ := by
    simp [Arrangement_2.insert_in_face_interior, Arrangement_2._insert_isolated_vertex,
      Arrangement_2._create_vertex, Arena.get_modify, Arena.get_alloc]
  have gi : (arr.insert_in_face_interior p f).1.dcel.iso_verts.get arr.dcel.iso_verts.length
      = some ⟨f⟩ := by
    simp [Arrangement_2.insert_in_face_interior, Arrangement_2._insert_isolated_vertex,
      Arrangement_2._create_vertex, Arena.get_alloc]
  have h2 : (arr.insert_in_face_interior p f).2 = arr.dcel.vertices.length := rfl
  have sv : (arr.insert_in_face_interior p f).1.dcel.vertices.map Option.isSome
      = arr.dcel.vertices.map Option.isSome ++ [true] := by
    simp only [Arrangement_2.insert_in_face_interior, Arrangement_2._insert_isolated_vertex,
      Arrangement_2._create_vertex, Arena.shape_modify, Arena.shape_alloc]
  have sf : (arr.insert_in_face_interior p f).1.dcel.faces.map Option.isSome
      = arr.dcel.faces.map Option.isSome := by
    simp only [Arrangement_2.insert_in_face_interior, Arrangement_2._insert_isolated_vertex,
      Arrangement_2._create_vertex, Arena.shape_modify]
  have hlen : (arr.dcel.vertices.map Option.isSome).length = arr.dcel.vertices.length :=
    List.length_map _ _
  rw [h2]
  simp only [Arrangement_2.remove_isolated_vertex, Arrangement_2._remove_isolated_vertex, gv,
    gi, Option.some_bind, Option.map_some']
  refine ⟨_, rfl, rfl, ?_, rfl, ?_⟩
  · rw [Arena.size_eq_count, Arena.size_eq_count]
    simp only [Arena.shape_free]
    rw [sv, ← hlen]
    exact Arena.count_set_append
  · rw [Arena.size_eq_count, Arena.size_eq_count]
    simp only [Arena.shape_modify]
    rw [sf]

/-! ## The curve inserted between two existing vertices -/

/-- The links of a twin pair put between two halfedges: the pair is created and two
splices link its first half after `p1` and its second half after `p2`.  The store stays
linked, the two new halfedges are twins on the boundary `c`, neither is followed by its
twin, and no other record is created or deleted. -/
theorem Dcel.at_vertices_links {Point Curve : Type} (d : Dcel Point Curve) (hd : d.Linked)
    (p1 p2 v1 v2 : Nat) (cv : Option Curve) (c : Halfedge_component)
    (s1 s2 : DHalfedge Curve) (h1 : d.halfedges.get p1 = some s1)
    (h2 : d.halfedges.get p2 = some s2) :
    (((d.new_edge v1 v2 cv c).1.splice p1 (d.halfedges.length + 1)).splice p2
      d.halfedges.length).Linked ∧
    (((d.new_edge v1 v2 cv c).1.splice p1 (d.halfedges.length + 1)).splice p2
      d.halfedges.length).vertices = d.vertices ∧
    (((d.new_edge v1 v2 cv c).1.splice p1 (d.halfedges.length + 1)).splice p2
      d.halfedges.length).faces = d.faces ∧
    (((d.new_edge v1 v2 cv c).1.splice p1 (d.halfedges.length + 1)).splice p2
      d.halfedges.length).holes = d.holes ∧
    (((d.new_edge v1 v2 cv c).1.splice p1 (d.halfedges.length + 1)).splice p2
      d.halfedges.length).halfedges.length = d.halfedges.length + 1 + 1 ∧
    (((d.new_edge v1 v2 cv c).1.splice p1 (d.halfedges.length + 1)).splice p2
      d.halfedges.length).halfedges.size = d.halfedges.size + 2 ∧
    ∃ t1 t2,
      (((d.new_edge v1 v2 cv c).1.splice p1 (d.halfedges.length + 1)).splice p2
        d.halfedges.length).halfedges.get d.halfedges.length = some t1 ∧
      (((d.new_edge v1 v2 cv c).1.splice p1 (d.halfedges.length + 1)).splice p2
        d.halfedges.length).halfedges.get (d.halfedges.length + 1) = some t2 ∧
      t1.opposite = d.halfedges.length + 1 ∧ t2.opposite = d.halfedges.length ∧
      t1.next ≠ d.halfedges.length + 1 ∧ t2.next ≠ d.halfedges.length ∧
      t1.comp = c ∧ t2.comp = c ∧ t1.vertex = v2 ∧ t2.vertex = v1 := by
  obtain ⟨lt1, lt1n⟩ := hd.next_lt h1
  obtain ⟨lt2, lt2n⟩ := hd.next_lt h2
  have ga : (d.new_edge v1 v2 cv c).1.halfedges.get d.halfedges.length
      = some ⟨cv, d.halfedges.length + 1, d.halfedges.length + 1, d.halfedges.length + 1,
          v2, c⟩ := by
    rw [Dcel.get_new_edge, if_pos rfl]
  have gb : (d.new_edge v1 v2 cv c).1.halfedges.get (d.halfedges.length + 1)
      = some ⟨cv, d.halfedges.length, d.halfedges.length, d.halfedges.length, v1, c⟩ := by
    rw [Dcel.get_new_edge, if_neg (by omega), if_pos rfl]
  have gp1 : (d.new_edge v1 v2 cv c).1.halfedges.get p1 = some s1 := by
    rw [Dcel.get_new_edge, if_neg (by omega), if_neg (by omega)]; exact h1
  have gp2 : (d.new_edge v1 v2 cv c).1.halfedges.get p2 = some s2 := by
    rw [Dcel.get_new_edge, if_neg (by omega), if_neg (by omega)]; exact h2
  have la : ((d.new_edge v1 v2 cv c).1.halfedges.get d.halfedges.length).isSome := by
    rw [ga]; rfl
  have lb : ((d.new_edge v1 v2 cv c).1.halfedges.get (d.halfedges.length + 1)).isSome := by
    rw [gb]; rfl
  have lp1 : ((d.new_edge v1 v2 cv c).1.halfedges.get p1).isSome := by rw [gp1]; rfl
  have lp2 : ((d.new_edge v1 v2 cv c).1.halfedges.get p2).isSome := by rw [gp2]; rfl
  have lp2' : (((d.new_edge v1 v2 cv c).1.splice p1
      (d.halfedges.length + 1)).halfedges.get p2).isSome := by
    rw [Dcel.live_splice]; exact lp2
  have la' : (((d.new_edge v1 v2 cv c).1.splice p1
      (d.halfedges.length + 1)).halfedges.get d.halfedges.length).isSome := by
    rw [Dcel.live_splice]; exact la
  -- the successors of the two new halfedges
  have nx1 : ∃ m, Halfedge.next (((d.new_edge v1 v2 cv c).1.splice p1
      (d.halfedges.length + 1)).splice p2 d.halfedges.length) d.halfedges.length = some m ∧
      m ≠ d.halfedges.length + 1 := by
    rw [Halfedge.next_splice _ _ _ _ lp2' la', if_pos rfl,
      Halfedge.next_splice _ _ _ _ lp1 lb, if_neg (by omega)]
    by_cases hp : p2 = p1
    · rw [if_pos hp]
      exact ⟨d.halfedges.length, by simp [Halfedge.next, gb], by omega⟩
    · rw [if_neg hp]
      exact ⟨s2.next, by simp [Halfedge.next, gp2], by omega⟩
  have nx2 : Halfedge.next (((d.new_edge v1 v2 cv c).1.splice p1
      (d.halfedges.length + 1)).splice p2 d.halfedges.length) (d.halfedges.length + 1)
      = some s1.next := by
    rw [Halfedge.next_splice _ _ _ _ lp2' la', if_neg (by omega), if_neg (by omega),
      Halfedge.next_splice _ _ _ _ lp1 lb, if_pos rfl]
    simp [Halfedge.next, gp1]
  have tw1 : Halfedge.twin (((d.new_edge v1 v2 cv c).1.splice p1
      (d.halfedges.length + 1)).splice p2 d.halfedges.length) d.halfedges.length
      = some (d.halfedges.length + 1) := by
    rw [Halfedge.twin_splice, Halfedge.twin_splice]
    simp [Halfedge.twin, ga]
  have tw2 : Halfedge.twin (((d.new_edge v1 v2 cv c).1.splice p1
      (d.halfedges.length + 1)).splice p2 d.halfedges.length) (d.halfedges.length + 1)
      = some d.halfedges.length := by
    rw [Halfedge.twin_splice, Halfedge.twin_splice]
    simp [Halfedge.twin, gb]
  have cp1 : ((((d.new_edge v1 v2 cv c).1.splice p1 (d.halfedges.length + 1)).splice p2
      d.halfedges.length).halfedges.get d.halfedges.length).map (fun r => r.comp)
      = some c := by
    rw [Dcel.comp_splice, Dcel.comp_splice, ga]; rfl
  have cp2 : ((((d.new_edge v1 v2 cv c).1.splice p1 (d.halfedges.length + 1)).splice p2
      d.halfedges.length).halfedges.get (d.halfedges.length + 1)).map (fun r => r.comp)
      = some c := by
    rw [Dcel.comp_splice, Dcel.comp_splice, gb]; rfl
  have tg1 : Halfedge.target (((d.new_edge v1 v2 cv c).1.splice p1
      (d.halfedges.length + 1)).splice p2 d.halfedges.length) d.halfedges.length
      = some v2 := by
    rw [Halfedge.target_splice, Halfedge.target_splice]
    simp [Halfedge.target, ga]
  have tg2 : Halfedge.target (((d.new_edge v1 v2 cv c).1.splice p1
      (d.halfedges.length + 1)).splice p2 d.halfedges.length) (d.halfedges.length + 1)
      = some v1 := by
    rw [Halfedge.target_splice, Halfedge.target_splice]
    simp [Halfedge.target, gb]
  have f1 := Dcel.splice_frame (d.new_edge v1 v2 cv c).1 p1 (d.halfedges.length + 1)
  have f2 := Dcel.splice_frame ((d.new_edge v1 v2 cv c).1.splice p1 (d.halfedges.length + 1))
    p2 d.halfedges.length
  refine ⟨Dcel.linked_splice _ _ _ (Dcel.linked_splice _ _ _
    (Dcel.linked_new_edge _ _ _ _ _ hd)), ?_, ?_, ?_, ?_, ?_, ?_⟩
  · rw [f2.1, f1.1]; rfl
  · rw [f2.2.1, f1.2.1]; rfl
  · rw [f2.2.2.1, f1.2.2.1]; rfl
  · rw [Dcel.length_splice, Dcel.length_splice, Dcel.halfedges_new_edge]
    simp
  · rw [Dcel.size_splice, Dcel.size_splice, Dcel.size_new_edge]
  · obtain ⟨m, hm, hmne⟩ := nx1
    obtain ⟨t1, ht1, ht1n⟩ := Halfedge.next_eq_some.mp hm
    obtain ⟨t2, ht2, ht2n⟩ := Halfedge.next_eq_some.mp nx2
    refine ⟨t1, t2, ht1, ht2, ?_, ?_, ?_, ?_, ?_, ?_, ?_, ?_⟩
    · simpa [Halfedge.twin, ht1] using tw1
    · simpa [Halfedge.twin, ht2] using tw2
    · rw [ht1n]; exact hmne
    · rw [ht2n]; omega
    · simpa [ht1] using cp1
    · simpa [ht2] using cp2
    · simpa [Halfedge.target, ht1] using tg1
    · simpa [Halfedge.target, ht2] using tg2

theorem Arrangement_2.move_hole_component_face {Point Curve : Type}
    (arr : Arrangement_2 Point Curve) (f t h : Nat) (c : Halfedge_component)
    (hc : (arr.dcel.halfedges.get h).map (fun r => r.comp) ≠ some c) :
    (arr._move_hole f t h).dcel.component_face c = arr.dcel.component_face c := by
  cases c with
  | face g => rfl
  | hole ho =>
    simp only [Dcel.component_face, Arrangement_2._move_hole]
    cases hm : (arr.dcel.halfedges.get h).map (fun r => r.comp) with
    | none => rfl
    | some c2 =>
      cases c2 with
      | face g => rfl
      | hole ho2 =>
        have hne : ho ≠ ho2 := by
          intro he
          rw [hm, he] at hc
          exact hc rfl
        simp only [Arena.get_modify, if_neg hne]
        cases arr.dcel.holes.get ho <;> rfl

theorem Arrangement_2.foldl_move_hole_component_face {Point Curve : Type} (f t : Nat)
    (c : Halfedge_component) (l : List Nat) (arr : Arrangement_2 Point Curve)
    (hc : ∀ h ∈ l, (arr.dcel.halfedges.get h).map (fun r => r.comp) ≠ some c) :
    (l.foldl (fun a h => a._move_hole f t h) arr).dcel.component_face c
      = arr.dcel.component_face c := by
  induction l generalizing arr with
  | nil => rfl
  | cons x l ih =>
    rw [List.foldl_cons, ih (arr._move_hole f t x)]
    · exact Arrangement_2.move_hole_component_face arr f t x c (hc x (List.mem_cons_self _ _))
    · intro h hh
      rw [(Arrangement_2.move_hole_frame arr f t x).2.2.1]
      exact hc h (List.mem_cons_of_mem _ hh)

/-- The relocation of the holes after a face split creates and deletes no vertex,
halfedge or face record, and leaves the hole of the twin of the new halfedge where it
is. -/
theorem Arrangement_2.relocate_holes_frame {Point Curve : Type}
    (arr : Arrangement_2 Point Curve) (inside : Nat → Bool) (new_he : Nat) :
    (arr._relocate_holes_in_new_face inside new_he).n_inf_verts = arr.n_inf_verts ∧
    (arr._relocate_holes_in_new_face inside new_he).dcel.vertices = arr.dcel.vertices ∧
    (arr._relocate_holes_in_new_face inside new_he).dcel.halfedges = arr.dcel.halfedges ∧
    (arr._relocate_holes_in_new_face inside new_he).dcel.faces.map Option.isSome
      = arr.dcel.faces.map Option.isSome ∧
    ∀ t r, Halfedge.twin arr.dcel new_he = some t → arr.dcel.halfedges.get t = some r →
      (arr._relocate_holes_in_new_face inside new_he).dcel.component_face r.comp
        = arr.dcel.component_face r.comp := by
  unfold Arrangement_2._relocate_holes_in_new_face
  split
  · split
    · split
      · refine ⟨(Arrangement_2.foldl_move_hole_frame _ _ _ _).1,
          (Arrangement_2.foldl_move_hole_frame _ _ _ _).2.1,
          (Arrangement_2.foldl_move_hole_frame _ _ _ _).2.2.1,
          (Arrangement_2.foldl_move_hole_frame _ _ _ _).2.2.2, ?_⟩
        intro t r ht hr
        apply Arrangement_2.foldl_move_hole_component_face
        intro h hh
        rename_i nf t0 hfc htw o1 o2 r0 f0 hr0 hf0 o3 x hx
        have e1 : t0 = t := by rw [htw] at ht; exact Option.some.inj ht
        subst e1
        have e2 : r0 = r := by rw [hr0] at hr; exact Option.some.inj hr
        subst e2
        have := (List.mem_filter.mp hh).2
        simp only [Bool.and_eq_true, bne_iff_ne, ne_eq] at this
        exact this.2
      · exact ⟨rfl, rfl, rfl, rfl, fun _ _ _ _ => rfl⟩
    · exact ⟨rfl, rfl, rfl, rfl, fun _ _ _ _ => rfl⟩
  · exact ⟨rfl, rfl, rfl, rfl, fun _ _ _ _ => rfl⟩

theorem Arrangement_2.relocate_isolated_vertices_frame {Point Curve : Type}
    (arr : Arrangement_2 Point Curve) (inside : Nat → Bool) (new_he : Nat) :
    (arr._relocate_isolated_vertices_in_new_face inside new_he).n_inf_verts
      = arr.n_inf_verts ∧
    (arr._relocate_isolated_vertices_in_new_face inside new_he).dcel.vertices
      = arr.dcel.vertices ∧
    (arr._relocate_isolated_vertices_in_new_face inside new_he).dcel.halfedges
      = arr.dcel.halfedges ∧
    (arr._relocate_isolated_vertices_in_new_face inside new_he).dcel.holes
      = arr.dcel.holes ∧
    (arr._relocate_isolated_vertices_in_new_face inside new_he).dcel.faces.map Option.isSome
      = arr.dcel.faces.map Option.isSome := by
  unfold Arrangement_2._relocate_isolated_vertices_in_new_face
  split
  · split
    · exact Arrangement_2.foldl_move_isolated_vertex_frame _ _ _ _
    · exact ⟨rfl, rfl, rfl, rfl, rfl⟩
  · exact ⟨rfl, rfl, rfl, rfl, rfl⟩

/-- The relocation after a face split creates and deletes no vertex, halfedge or face
record, and leaves the hole of the twin of the new halfedge where it is. -/
theorem Arrangement_2.relocate_in_new_face_frame {Point Curve : Type}
    (arr : Arrangement_2 Point Curve) (hi vi : Nat → Bool) (new_he : Nat) :
    (arr._relocate_in_new_face hi vi new_he).n_inf_verts = arr.n_inf_verts ∧
    (arr._relocate_in_new_face hi vi new_he).dcel.vertices = arr.dcel.vertices ∧
    (arr._relocate_in_new_face hi vi new_he).dcel.halfedges = arr.dcel.halfedges ∧
    (arr._relocate_in_new_face hi vi new_he).dcel.faces.map Option.isSome
      = arr.dcel.faces.map Option.isSome ∧
    ∀ t r, Halfedge.twin arr.dcel new_he = some t → arr.dcel.halfedges.get t = some r →
      (arr._relocate_in_new_face hi vi new_he).dcel.component_face r.comp
        = arr.dcel.component_face r.comp := by
  obtain ⟨a1, a2, a3, a4, a5⟩ := Arrangement_2.relocate_holes_frame arr hi new_he
  obtain ⟨b1, b2, b3, b4, b5⟩ := Arrangement_2.relocate_isolated_vertices_frame
    (arr._relocate_holes_in_new_face hi new_he) vi new_he
  unfold Arrangement_2._relocate_in_new_face
  refine ⟨b1.trans a1, b2.trans a2, b3.trans a3, b5.trans a4, ?_⟩
  intro t r ht hr
  rw [← a5 t r ht hr]
  cases r.comp with
  | face g => rfl
  | hole ho => simp only [Dcel.component_face, b4]

theorem Arena.count_set_append_live {l : List Bool} {i : Nat} (h : l[i]? = some true) :
    ((l ++ [true]).set i false).count true = l.count true := by
  induction l generalizing i with
  | nil => simp at h
  | cons a t ih =>
    cases i with
    | zero =>
      simp only [List.getElem?_cons_zero, Option.some.injEq] at h
      subst h
      simp
    | succ i =>
      simp only [List.getElem?_cons_succ] at h
      simp only [List.cons_append, List.set_cons_succ, List.count_cons, ih h]

theorem Arena.shape_getElem {α : Type} (s : Arena α) (i : Nat) (h : (s.get i).isSome) :
    (s.map Option.isSome)[i]? = some true := by
  obtain ⟨a, ha⟩ := Option.isSome_iff_exists.mp h
  have hlt := Arena.get_lt ha
  simp only [Arena.get, List.get?_eq_getElem?] at ha
  rw [List.getElem?_map, List.getElem?_eq_getElem hlt]
  rw [List.getElem?_eq_getElem hlt] at ha
  simp only [Option.join] at ha
  cases hs : s[i] with
  | none => rw [hs] at ha; simp at ha
  | some b => rfl

theorem Dcel.size_set_component {Point Curve : Type} (d : Dcel Point Curve) (h : Nat)
    (c : Halfedge_component) : (d.set_component h c).halfedges.size = d.halfedges.size := by
  simp only [Dcel.set_component, Arena.size_modify]


/-- The state after the insertion of a curve between the targets of two halfedges, with
the holes and isolated vertices relocated when a face was split.  The returned halfedge
is the first new one; the links are those of the store with the new pair spliced in after
the two halfedges; the two new halfedges are twins that end at the two vertices, neither
followed by the other; the vertices are those before the insertion; and either the two
halfedges lay on two boundaries and no face record was created, or they lay on the same
boundary and one face record was created, the face of the first new halfedge. -/
theorem Arrangement_2.insert_at_vertices_facts {Point Curve : Type}
    (S : Arrangement_2 Point Curve) (hl : S.dcel.Linked) (cv : Curve)
    (p1 p2 fa fb : Nat) (s1 s2 : DHalfedge Curve)
    (h1 : S.dcel.halfedges.get p1 = some s1) (h2 : S.dcel.halfedges.get p2 = some s2)
    (hfa : Halfedge.face S.dcel p1 = some fa) (hfb : Halfedge.face S.dcel p2 = some fb)
    (hlive : (S.dcel.faces.get fa).isSome) (bu : Bool) (hi vi : Nat → Bool)
    (a1 : Arrangement_2 Point Curve) (e : Nat) (nfl : Bool)
    (hins : S._insert_at_vertices cv p1 p2 bu = some (a1, e, nfl)) :
    e = S.dcel.halfedges.length ∧
    (if nfl then a1._relocate_in_new_face hi vi e else a1).dcel.Linked ∧
    (if nfl then a1._relocate_in_new_face hi vi e else a1).n_inf_verts = S.n_inf_verts ∧
    (if nfl then a1._relocate_in_new_face hi vi e else a1).dcel.vertices
      = S.dcel.vertices ∧
    (if nfl then a1._relocate_in_new_face hi vi e else a1).dcel.halfedges.size
      = S.dcel.halfedges.size + 2 ∧
    (∃ c, (if nfl then a1._relocate_in_new_face hi vi e else a1).dcel.same_links
      (((S.dcel.new_edge s1.vertex s2.vertex (some cv) c).1.splice p1
        (S.dcel.halfedges.length + 1)).splice p2 S.dcel.halfedges.length)) ∧
    ∃ t1 t2 f1 f2,
      (if nfl then a1._relocate_in_new_face hi vi e else a1).dcel.halfedges.get
        S.dcel.halfedges.length = some t1 ∧
      (if nfl then a1._relocate_in_new_face hi vi e else a1).dcel.halfedges.get
        (S.dcel.halfedges.length + 1) = some t2 ∧
      t1.opposite = S.dcel.halfedges.length + 1 ∧ t2.opposite = S.dcel.halfedges.length ∧
      t1.next ≠ S.dcel.halfedges.length + 1 ∧ t2.next ≠ S.dcel.halfedges.length ∧
      t1.vertex = s2.vertex ∧ t2.vertex = s1.vertex ∧
      (if nfl then a1._relocate_in_new_face hi vi e else a1).dcel.component_face t1.comp
        = some f1 ∧
      (if nfl then a1._relocate_in_new_face hi vi e else a1).dcel.component_face t2.comp
        = some f2 ∧
      ((s1.comp ≠ s2.comp ∧ f1 = f2 ∧
          (if nfl then a1._relocate_in_new_face hi vi e else a1).dcel.faces.map
            Option.isSome = S.dcel.faces.map Option.isSome) ∨
        (s1.comp = s2.comp ∧ f1 ≠ f2 ∧
          (if nfl then a1._relocate_in_new_face hi vi e else a1).dcel.faces.map
            Option.isSome = S.dcel.faces.map Option.isSome ++ [true] ∧
          f1 = S.dcel.faces.length ∧ t1.is_on_hole = false ∧
          (S.dcel.faces.get f2).isSome)) := by
  have hca : S.dcel.component_face s1.comp = some fa := by
    rw [← Halfedge.face_eq_component_face _ _ _ h1]; exact hfa
  have hcb : S.dcel.component_face s2.comp = some fb := by
    rw [← Halfedge.face_eq_component_face _ _ _ h2]; exact hfb
  unfold Arrangement_2._insert_at_vertices at hins
  simp only [h1, h2, Option.some_bind] at hins
  by_cases hc : s1.comp = s2.comp
  · rw [if_pos hc, hca] at hins
    simp only [Option.map_some', Option.some.injEq, Prod.mk.injEq] at hins
    obtain ⟨ha1, he, hnf⟩ := hins
    subst he hnf
    obtain ⟨L1, L2, L3, L4, L5, L6, t1, t2, g0, g1, o1, o2, x1, x2, c1, c2, w1, w2⟩ :=
      Dcel.at_vertices_links S.dcel hl p1 p2 s1.vertex s2.vertex (some cv) s1.comp s1 s2
        h1 h2
    simp only [if_true]
    obtain ⟨D1, hD1⟩ : ∃ D1, D1 = ((S.dcel.new_edge s1.vertex s2.vertex (some cv)
      s1.comp).1.splice p1 (S.dcel.halfedges.length + 1)).splice p2
        S.dcel.halfedges.length := ⟨_, rfl⟩
    rw [← hD1] at L1 L2 L3 L4 L5 L6 g0 g1 ha1
    have qh : a1.dcel.halfedges = ((Dcel.set_component_cycle
        (.face S.dcel.faces.length) S.dcel.halfedges.length D1.halfedges.length
        S.dcel.halfedges.length D1).set_component (S.dcel.halfedges.length + 1)
          s1.comp).halfedges := by rw [← ha1]
    have qv : a1.dcel.vertices = S.dcel.vertices := by
      rw [← ha1]; exact (Dcel.set_component_cycle_get _ _ _ _ _).1.trans L2
    have qo : a1.dcel.holes = S.dcel.holes := by
      rw [← ha1]; exact (Dcel.set_component_cycle_get _ _ _ _ _).2.2.1.trans L4
    have qf : a1.dcel.faces.map Option.isSome
        = S.dcel.faces.map Option.isSome ++ [true] := by
      rw [← ha1]
      cases s1.comp <;> simp only [Arena.shape_modify, Arena.shape_alloc]
    have qn : a1.n_inf_verts = S.n_inf_verts := by rw [← ha1]
    have qs : a1.dcel.halfedges.size = S.dcel.halfedges.size + 2 := by
      rw [qh, Dcel.size_set_component, Dcel.set_component_cycle_size, L6]
    have qlk : a1.dcel.Linked :=
      Dcel.linked_of_halfedges_eq (Dcel.linked_set_component _ _ _
        (Dcel.linked_set_component_cycle _ _ _ _ _ L1)) qh
    have G0 : a1.dcel.halfedges.get S.dcel.halfedges.length
        = some { t1 with comp := .face S.dcel.faces.length } := by
      rw [qh, Dcel.get_set_component, L5, Dcel.set_component_cycle_first _ _ _ _ _ _ g0]
      simp
    have G1 : a1.dcel.halfedges.get (S.dcel.halfedges.length + 1) = some t2 := by
      rw [qh, Dcel.get_set_component]
      obtain ⟨b, hb⟩ := (Dcel.set_component_cycle_get (.face S.dcel.faces.length)
        S.dcel.halfedges.length D1.halfedges.length S.dcel.halfedges.length
        D1).2.2.2.2.2 (S.dcel.halfedges.length + 1)
      rw [hb, g1]
      obtain ⟨u1, u2, u3, u4, u5, u6⟩ := t2
      simp only at c2
      subst c2
      cases b <;> simp
    obtain ⟨R1, R2, R3, R4, R5⟩ := Arrangement_2.relocate_in_new_face_frame a1 hi vi
      S.dcel.halfedges.length
    have hne : S.dcel.faces.length ≠ fa := by
      obtain ⟨x, hx⟩ := Option.isSome_iff_exists.mp hlive
      have := Arena.get_lt hx
      omega
    have hf2 : (a1._relocate_in_new_face hi vi S.dcel.halfedges.length).dcel.component_face
        t2.comp = some fa := by
      rw [R5 (S.dcel.halfedges.length + 1) t2 (by simp [Halfedge.twin, G0, o1]) G1, c2,
        ← hca]
      cases s1.comp <;> simp [Dcel.component_face, qo]
    refine ⟨trivial, Dcel.linked_of_halfedges_eq qlk R3, R1.trans qn, R2.trans qv,
      by rw [R3]; exact qs, ⟨s1.comp, ?_⟩,
      { t1 with comp := .face S.dcel.faces.length }, t2, S.dcel.faces.length, fa,
      by rw [R3]; exact G0, by rw [R3]; exact G1, o1, o2, x1, x2, w1, w2, rfl, hf2,
      Or.inr ⟨hc, hne, R4.trans qf, rfl, rfl, hlive⟩⟩
    rw [← hD1]
    exact (Dcel.same_links_of_halfedges (R3.trans qh)).trans
      ((Dcel.same_links_set_component _ _ _).trans
        (Dcel.same_links_set_component_cycle _ _ _ _ _))
  · rw [if_neg hc] at hins
    obtain ⟨c, ha, fc, hcne, hcf, qh, qv, qf, qo, qn, hnfl, he⟩ :
        ∃ (c : Halfedge_component) (ha fc : Nat), c ≠ .hole ha ∧
        S.dcel.component_face c = some fc ∧
        a1.dcel.halfedges = (Dcel.set_component_cycle c S.dcel.halfedges.length
          (((S.dcel.new_edge s1.vertex s2.vertex (some cv) c).1.splice p1
            (S.dcel.halfedges.length + 1)).splice p2
              S.dcel.halfedges.length).halfedges.length S.dcel.halfedges.length
          (((S.dcel.new_edge s1.vertex s2.vertex (some cv) c).1.splice p1
            (S.dcel.halfedges.length + 1)).splice p2
              S.dcel.halfedges.length)).halfedges ∧
        a1.dcel.vertices = (Dcel.set_component_cycle c S.dcel.halfedges.length
          (((S.dcel.new_edge s1.vertex s2.vertex (some cv) c).1.splice p1
            (S.dcel.halfedges.length + 1)).splice p2
              S.dcel.halfedges.length).halfedges.length S.dcel.halfedges.length
          (((S.dcel.new_edge s1.vertex s2.vertex (some cv) c).1.splice p1
            (S.dcel.halfedges.length + 1)).splice p2
              S.dcel.halfedges.length)).vertices ∧
        a1.dcel.faces.map Option.isSome = S.dcel.faces.map Option.isSome ∧
        a1.dcel.holes = S.dcel.holes.free ha ∧
        a1.n_inf_verts = S.n_inf_verts ∧ nfl = false ∧ e = S.dcel.halfedges.length := by
      cases hs1 : s1.comp with
      | face f1 =>
        cases hs2 : s2.comp with
        | face f2 =>
          rw [hs1, hs2] at hins
          simp at hins
        | hole ha =>
          rw [hs1, hs2] at hins
          simp only [Option.some.injEq, Prod.mk.injEq] at hins
          obtain ⟨ha1, he, hnf⟩ := hins
          rw [hs1] at hca
          refine ⟨.face f1, ha, fa, by simp, hca, by rw [← ha1], by rw [← ha1], ?_,
            by rw [← ha1], by rw [← ha1], hnf.symm, he.symm⟩
          rw [← ha1]
          cases S.dcel.holes.get ha <;> simp only [Arena.shape_modify]
      | hole hb =>
        cases hs2 : s2.comp with
        | face f2 =>
          rw [hs1, hs2] at hins
          simp only [Option.some.injEq, Prod.mk.injEq] at hins
          obtain ⟨ha1, he, hnf⟩ := hins
          rw [hs2] at hcb
          refine ⟨.face f2, hb, fb, by simp, hcb, by rw [← ha1], by rw [← ha1], ?_,
            by rw [← ha1], by rw [← ha1], hnf.symm, he.symm⟩
          rw [← ha1]
          cases S.dcel.holes.get hb <;> simp only [Arena.shape_modify]
        | hole ha =>
          rw [hs1, hs2] at hins
          simp only [Option.some.injEq, Prod.mk.injEq] at hins
          obtain ⟨ha1, he, hnf⟩ := hins
          rw [hs1] at hca
          have hne : Halfedge_component.hole hb ≠ .hole ha := by
            rw [hs1, hs2] at hc; exact hc
          refine ⟨.hole hb, ha, fa, hne, hca, by rw [← ha1], by rw [← ha1], ?_,
            by rw [← ha1], by rw [← ha1], hnf.symm, he.symm⟩
          rw [← ha1]
          cases S.dcel.holes.get ha <;> simp only [Arena.shape_modify]
    subst hnfl he
    simp only [Bool.false_eq_true, if_false]
    obtain ⟨L1, L2, L3, L4, L5, L6, t1, t2, g0, g1, o1, o2, x1, x2, c1, c2, w1, w2⟩ :=
      Dcel.at_vertices_links S.dcel hl p1 p2 s1.vertex s2.vertex (some cv) c s1 s2 h1 h2
    have G0 : a1.dcel.halfedges.get S.dcel.halfedges.length = some t1 := by
      rw [qh]
      exact Dcel.set_component_cycle_keeps _ _ _ _ _ _ _ g0 c1
    have G1 : a1.dcel.halfedges.get (S.dcel.halfedges.length + 1) = some t2 := by
      rw [qh]
      exact Dcel.set_component_cycle_keeps _ _ _ _ _ _ _ g1 c2
    have hcf1 : a1.dcel.component_face c = some fc := by
      rw [← hcf]
      cases c with
      | face g => rfl
      | hole ho =>
        have : ho ≠ ha := fun h => hcne (by rw [h])
        simp only [Dcel.component_face, qo, Arena.get_free, if_neg this]
    refine ⟨trivial,
      Dcel.linked_of_halfedges_eq (Dcel.linked_set_component_cycle _ _ _ _ _ L1) qh, qn,
      by rw [qv, (Dcel.set_component_cycle_get _ _ _ _ _).1, L2],
      by rw [qh, Dcel.set_component_cycle_size, L6], ⟨c, ?_⟩,
      t1, t2, fc, fc, G0, G1, o1, o2, x1, x2, w1, w2, by rw [c1]; exact hcf1,
      by rw [c2]; exact hcf1, Or.inl ⟨hc, rfl, qf⟩⟩
    exact (Dcel.same_links_of_halfedges qh).trans
      (Dcel.same_links_set_component_cycle _ _ _ _ _)

/-! ## The stages of the removal of a curve that has just been inserted -/

/-- The removal through `remove_edge`, whichever half of the pair is passed on and
whichever way the flags are passed with it. -/
theorem Arrangement_2.remove_edge_either {Point Curve : Type}
    (a1 : Arrangement_2 Point Curve) (n : Nat) (P : Arrangement_2 Point Curve → Prop)
    (t1 : Halfedge.twin a1.dcel n = some (n + 1))
    (t2 : Halfedge.twin a1.dcel (n + 1) = some n)
    (H0 : ∀ fs ft, ∃ a2 g, a1._remove_edge n fs ft = some (a2, g) ∧ P a2)
    (H1 : ∀ fs ft, ∃ a2 g, a1._remove_edge (n + 1) fs ft = some (a2, g) ∧ P a2)
    (b : Bool) (x : Nat) (hx : x = n ∨ x = n + 1) (rs rt : Bool) :
    ∃ a2 g, a1.remove_edge b x rs rt = some (a2, g) ∧ P a2 := by
  unfold Arrangement_2.remove_edge
  rcases hx with hx | hx
  · subst hx
    rw [t1, Option.some_bind]
    split_ifs
    · exact H1 rt rs
    · exact H0 rs rt
  · subst hx
    rw [t2, Option.some_bind]
    split_ifs
    · exact H0 rt rs
    · exact H1 rs rt

/-- The stages of the removal of an edge that has just been put between two halfedges of
the store `S`: if the two new halfedges (at the end of the halfedge arena) are twins
neither of which is followed by the other, and the insertion created either no face or
one new face (at the end of the face arena, on an outer boundary, beside a live face),
then the removal through either halfedge returns the state after the two end vertices
of a state `F` that has the vertex records, the links (when the two halfedges differ)
and the numbers of halfedge and face records of `S`. -/
theorem Arrangement_2.remove_new_edge_stages {Point Curve : Type}
    (S A : Arrangement_2 Point Curve) (hS : S.dcel.Linked) (hlk : A.dcel.Linked)
    (p1 p2 v1 v2 : Nat) (cv : Option Curve) (c : Halfedge_component)
    (hp1 : (S.dcel.halfedges.get p1).isSome) (hp2 : (S.dcel.halfedges.get p2).isSome)
    (hsl : A.dcel.same_links (((S.dcel.new_edge v1 v2 cv c).1.splice p1
      (S.dcel.halfedges.length + 1)).splice p2 S.dcel.halfedges.length))
    (t1 t2 : DHalfedge Curve) (f1 f2 va vb : Nat)
    (g0 : A.dcel.halfedges.get S.dcel.halfedges.length = some t1)
    (g1 : A.dcel.halfedges.get (S.dcel.halfedges.length + 1) = some t2)
    (o1 : t1.opposite = S.dcel.halfedges.length + 1)
    (o2 : t2.opposite = S.dcel.halfedges.length)
    (x1 : t1.next ≠ S.dcel.halfedges.length + 1) (x2 : t2.next ≠ S.dcel.halfedges.length)
    (w1 : t1.vertex = va) (w2 : t2.vertex = vb)
    (hf1 : A.dcel.component_face t1.comp = some f1)
    (hf2 : A.dcel.component_face t2.comp = some f2)
    (hn : A.n_inf_verts = S.n_inf_verts) (hv : A.dcel.vertices = S.dcel.vertices)
    (hh : A.dcel.halfedges.size = S.dcel.halfedges.size + 2)
    (hfaces : (f1 = f2 ∧ A.dcel.faces.map Option.isSome = S.dcel.faces.map Option.isSome) ∨
      (f1 ≠ f2 ∧
        A.dcel.faces.map Option.isSome = S.dcel.faces.map Option.isSome ++ [true] ∧
        f1 = S.dcel.faces.length ∧ t1.is_on_hole = false ∧
        (S.dcel.faces.get f2).isSome)) :
    Halfedge.twin A.dcel S.dcel.halfedges.length = some (S.dcel.halfedges.length + 1) ∧
    Halfedge.twin A.dcel (S.dcel.halfedges.length + 1) = some S.dcel.halfedges.length ∧
    Halfedge.face A.dcel S.dcel.halfedges.length = some f1 ∧
    Halfedge.face A.dcel (S.dcel.halfedges.length + 1) = some f2 ∧
    (∀ rs rt : Bool, ∃ (F : Arrangement_2 Point Curve) (g pa pb : Nat),
      A._remove_edge S.dcel.halfedges.length rs rt
        = some ((F._remove_edge_end_vertex va S.dcel.halfedges.length pa g false
            rt)._remove_edge_end_vertex vb (S.dcel.halfedges.length + 1) pb g false rs, g) ∧
      F.n_inf_verts = S.n_inf_verts ∧ F.dcel.vertices = S.dcel.vertices ∧ F.dcel.Linked ∧
      F.dcel.halfedges.size = S.dcel.halfedges.size ∧
      F.dcel.faces.size = S.dcel.faces.size ∧
      (p1 ≠ p2 → F.dcel.same_links S.dcel)) ∧
    (∀ rs rt : Bool, ∃ (F : Arrangement_2 Point Curve) (g pa pb : Nat),
      A._remove_edge (S.dcel.halfedges.length + 1) rs rt
        = some ((F._remove_edge_end_vertex vb (S.dcel.halfedges.length + 1) pa g false
            rt)._remove_edge_end_vertex va S.dcel.halfedges.length pb g false rs, g) ∧
      F.n_inf_verts = S.n_inf_verts ∧ F.dcel.vertices = S.dcel.vertices ∧ F.dcel.Linked ∧
      F.dcel.halfedges.size = S.dcel.halfedges.size ∧
      F.dcel.faces.size = S.dcel.faces.size ∧
      (p1 ≠ p2 → F.dcel.same_links S.dcel)) := by
  have hF1 := Halfedge.face_eq_component_face _ _ _ g0
  have hF2 := Halfedge.face_eq_component_face _ _ _ g1
  rw [hf1] at hF1
  rw [hf2] at hF2
  have hlen : (S.dcel.faces.map Option.isSome).length = S.dcel.faces.length :=
    List.length_map _ _
  have d1 : decide (t1.next = t1.opposite) = false := by
    rw [o1]; exact decide_eq_false x1
  have d2 : decide (t2.next = S.dcel.halfedges.length) = false := decide_eq_false x2
  have d3 : decide (t2.next = t2.opposite) = false := by
    rw [o2]; exact decide_eq_false x2
  have d4 : decide (t1.next = S.dcel.halfedges.length + 1) = false := decide_eq_false x1
  refine ⟨by simp [Halfedge.twin, g0, o1], by simp [Halfedge.twin, g1, o2], hF1, hF2, ?_, ?_⟩
  · intro rs rt
    obtain ⟨F, g, s1, s2, s3, s4, s5, s6, s7⟩ := Arrangement_2.remove_edge_stages A hlk _
      t1 t2 f1 f2 g0 (by rw [o1]; exact g1) (by rw [o1]; omega) hF1
      (by rw [o1]; exact hF2) rs rt
    rw [d1, d2, o1, w1, w2] at s1
    refine ⟨F, g, _, _, s1, s2.trans hn, s3.trans hv, s5, by omega, ?_, ?_⟩
    · rw [Arena.size_eq_count, Arena.size_eq_count, s7]
      rcases hfaces with ⟨q1, q2⟩ | ⟨q1, q2, q3, q4, q5⟩
      · rw [if_pos q1, q2]
      · rw [if_neg q1, q2, q4]
        simp only [Bool.false_eq_true, if_false]
        rw [q3, ← hlen]
        exact Arena.count_set_append
    · intro h12
      rw [o1] at s4
      exact s4.trans (Dcel.unlink_after_at_vertices S.dcel hS p1 p2 v1 v2 cv c hp1 hp2 h12
        A.dcel hlk hsl).1
  · intro rs rt
    obtain ⟨F, g, s1, s2, s3, s4, s5, s6, s7⟩ := Arrangement_2.remove_edge_stages A hlk _
      t2 t1 f2 f1 g1 (by rw [o2]; exact g0) (by rw [o2]; omega) hF2
      (by rw [o2]; exact hF1) rs rt
    rw [d3, d4, o2, w1, w2] at s1
    refine ⟨F, g, _, _, s1, s2.trans hn, s3.trans hv, s5, by omega, ?_, ?_⟩
    · rw [Arena.size_eq_count, Arena.size_eq_count, s7]
      rcases hfaces with ⟨q1, q2⟩ | ⟨q1, q2, q3, q4, q5⟩
      · rw [if_pos q1.symm, q2]
      · rw [if_neg (Ne.symm q1), q2]
        split_ifs
        · rw [q3, ← hlen]
          exact Arena.count_set_append
        · exact Arena.count_set_append_live (Arena.shape_getElem _ _ q5)
    · intro h12
      rw [o2] at s4
      exact s4.trans (Dcel.unlink_after_at_vertices S.dcel hS p1 p2 v1 v2 cv c hp1 hp2 h12
        A.dcel hlk hsl).2

/-- Two end vertices of a removed edge, neither of them isolated nor a vertex at
infinity: no record is created or deleted among the vertices, halfedges and faces. -/
theorem Arrangement_2.end_vertices_inner {Point Curve : Type}
    (F : Arrangement_2 Point Curve) (va vb he1 he2 p1 p2 g : Nat) (rs rt : Bool)
    (ha : Vertex.is_at_infinity F.dcel va ≠ some true)
    (hb : Vertex.is_at_infinity F.dcel vb ≠ some true) :
    ((F._remove_edge_end_vertex va he1 p1 g false rt)._remove_edge_end_vertex vb he2 p2 g
      false rs).n_inf_verts = F.n_inf_verts ∧
    ((F._remove_edge_end_vertex va he1 p1 g false rt)._remove_edge_end_vertex vb he2 p2 g
      false rs).dcel.halfedges = F.dcel.halfedges ∧
    ((F._remove_edge_end_vertex va he1 p1 g false rt)._remove_edge_end_vertex vb he2 p2 g
      false rs).dcel.faces.map Option.isSome = F.dcel.faces.map Option.isSome ∧
    ((F._remove_edge_end_vertex va he1 p1 g false rt)._remove_edge_end_vertex vb he2 p2 g
      false rs).dcel.vertices.map Option.isSome = F.dcel.vertices.map Option.isSome := by
  obtain ⟨a1, a2, a3, a4, -, a6⟩ := Arrangement_2.remove_edge_end_vertex_frame F va he1 p1 g
    false rt (Or.inr ha)
  obtain ⟨b1, b2, b3, b4, -, -⟩ := Arrangement_2.remove_edge_end_vertex_frame
    (F._remove_edge_end_vertex va he1 p1 g false rt) vb he2 p2 g false rs
    (Or.inr (fun hc => hb (a6 _ hc)))
  refine ⟨b1.trans a1, b2.trans a2, b3.trans a3, ?_⟩
  rw [b4, a4]
  rfl

/-- The curve inserted between the targets of two halfedges, neither a vertex at
infinity, the holes and isolated vertices relocated when a face was split, and the curve
then removed through either of its halfedges, whatever the flags: the removal returns,
and the numbers of vertex, halfedge and face records are those before the insertion. -/
theorem Arrangement_2.insert_at_vertices_then_remove {Point Curve : Type}
    (S : Arrangement_2 Point Curve) (hl : S.dcel.Linked) (cv : Curve)
    (p1 p2 fa fb : Nat) (s1 s2 : DHalfedge Curve)
    (h1 : S.dcel.halfedges.get p1 = some s1) (h2 : S.dcel.halfedges.get p2 = some s2)
    (hfa : Halfedge.face S.dcel p1 = some fa) (hfb : Halfedge.face S.dcel p2 = some fb)
    (hlive : (S.dcel.faces.get fa).isSome)
    (hfin1 : Vertex.is_at_infinity S.dcel s1.vertex ≠ some true)
    (hfin2 : Vertex.is_at_infinity S.dcel s2.vertex ≠ some true)
    (bu : Bool) (hi vi : Nat → Bool)
    (a1 : Arrangement_2 Point Curve) (e : Nat) (nfl : Bool)
    (hins : S._insert_at_vertices cv p1 p2 bu = some (a1, e, nfl)) :
    e = S.dcel.halfedges.length ∧
    ∀ (b : Bool) (x : Nat) (_ : x = S.dcel.halfedges.length ∨ x = S.dcel.halfedges.length + 1)
      (rs rt : Bool),
      ∃ a2 g, (if nfl then a1._relocate_in_new_face hi vi e else a1).remove_edge b x rs rt
          = some (a2, g) ∧
        a2.n_inf_verts = S.n_inf_verts ∧
        a2.dcel.vertices.size = S.dcel.vertices.size ∧
        a2.dcel.halfedges.size = S.dcel.halfedges.size ∧
        a2.dcel.faces.size = S.dcel.faces.size := by
  obtain ⟨k1, k2, k3, k4, k5, ⟨c, k6⟩, t1, t2, f1, f2, g0, g1, o1, o2, x1, x2, w1, w2, c1, c2,
    k7⟩ := Arrangement_2.insert_at_vertices_facts S hl cv p1 p2 fa fb s1 s2 h1 h2 hfa hfb
      hlive bu hi vi a1 e nfl hins
  obtain ⟨m1, m2, -, -, m5, m6⟩ := Arrangement_2.remove_new_edge_stages S
    (if nfl then a1._relocate_in_new_face hi vi e else a1) hl k2 p1 p2 s1.vertex s2.vertex
    (some cv) c (by rw [h1]; rfl) (by rw [h2]; rfl) k6 t1 t2 f1 f2 s2.vertex s1.vertex g0 g1
    o1 o2 x1 x2 w1 w2 c1 c2 k3 k4 k5 (by
      rcases k7 with ⟨-, q1, q2⟩ | ⟨-, q1, q2, q3, q4, q5⟩
      · exact Or.inl ⟨q1, q2⟩
      · exact Or.inr ⟨q1, q2, q3, q4, q5⟩)
  refine ⟨k1, ?_⟩
  intro b x hx rs rt
  refine Arrangement_2.remove_edge_either _ S.dcel.halfedges.length
    (fun a2 => a2.n_inf_verts = S.n_inf_verts ∧
      a2.dcel.vertices.size = S.dcel.vertices.size ∧
      a2.dcel.halfedges.size = S.dcel.halfedges.size ∧
      a2.dcel.faces.size = S.dcel.faces.size) m1 m2 ?_ ?_ b x hx rs rt
  · intro fs ft
    obtain ⟨F, g, pa, pb, r1, r2, r3, r4, r5, r6, -⟩ := m5 fs ft
    obtain ⟨z1, z2, z3, z4⟩ := Arrangement_2.end_vertices_inner F s2.vertex s1.vertex
      S.dcel.halfedges.length (S.dcel.halfedges.length + 1) pa pb g fs ft
      (by rw [Vertex.is_at_infinity_congr r3]; exact hfin2)
      (by rw [Vertex.is_at_infinity_congr r3]; exact hfin1)
    refine ⟨_, g, r1, z1.trans r2, ?_, by rw [z2]; exact r5, ?_⟩
    · rw [Arena.size_eq_count, z4, ← Arena.size_eq_count, r3]
    · rw [Arena.size_eq_count, z3, ← Arena.size_eq_count]
      exact r6
  · intro fs ft
    obtain ⟨F, g, pa, pb, r1, r2, r3, r4, r5, r6, -⟩ := m6 fs ft
    obtain ⟨z1, z2, z3, z4⟩ := Arrangement_2.end_vertices_inner F s1.vertex s2.vertex
      (S.dcel.halfedges.length + 1) S.dcel.halfedges.length pa pb g fs ft
      (by rw [Vertex.is_at_infinity_congr r3]; exact hfin1)
      (by rw [Vertex.is_at_infinity_congr r3]; exact hfin2)
    refine ⟨_, g, r1, z1.trans r2, ?_, by rw [z2]; exact r5, ?_⟩
    · rw [Arena.size_eq_count, z4, ← Arena.size_eq_count, r3]
    · rw [Arena.size_eq_count, z3, ← Arena.size_eq_count]
      exact r6

/-! ## End vertices at infinity -/

theorem Arena.null_point_merge_fix {Point : Type} (s : Arena (DVertex Point)) (u v x n e : Nat)
    (hx : x ≠ v) :
    (((s.modify u (fun y =>
      if y.inc = .halfedge (some n) then { y with inc := .halfedge (some e) } else y)).free
        v).get x).map (fun r => r.has_null_point)
      = (s.get x).map (fun r => r.has_null_point) := by
  rw [Arena.get_free, if_neg hx]
  apply Arena.null_point_modify
  intro r
  split_ifs <;> rfl

/-- The two end vertices of a removed edge, the first the vertex at infinity of a split
with no other edge left at it, the second not a vertex at infinity or isolated: the two
pieces of the split edge are merged, the links are those before the split, the vertex at
infinity is deleted, and the second vertex is deleted when it becomes isolated and its
flag is on. -/
theorem Arrangement_2.end_vertices_merge_first {Point Curve : Type}
    (d0 : Dcel Point Curve) (hd0 : d0.Linked) (e v : Nat) (c1 c2 : Halfedge_component)
    {r1 r2 : DHalfedge Curve} (h1 : d0.halfedges.get e = some r1)
    (h2 : d0.halfedges.get r1.opposite = some r2)
    (Y : Arrangement_2 Point Curve) (hY : Y.dcel.Linked)
    (hl : Y.dcel.same_links (d0.split_fictitious_links e r1.opposite v r1.vertex c1 c2).1)
    (rv : DVertex Point) (hv : Y.dcel.vertices.get v = some rv) (hp : rv.p_pt = none)
    (hi : rv.inc = .halfedge (some e)) (he1 p1 g : Nat) (hhe : he1 ≠ e) (rem1 : Bool)
    (a he2 p2 : Nat) (iso2 rem2 : Bool)
    (hfin : iso2 = true ∨ Vertex.is_at_infinity Y.dcel a ≠ some true) :
    ((Y._remove_edge_end_vertex v he1 p1 g false rem1)._remove_edge_end_vertex a he2 p2 g
      iso2 rem2).n_inf_verts = Y.n_inf_verts - 1 ∧
    ((Y._remove_edge_end_vertex v he1 p1 g false rem1)._remove_edge_end_vertex a he2 p2 g
      iso2 rem2).dcel.same_links d0 ∧
    ((Y._remove_edge_end_vertex v he1 p1 g false rem1)._remove_edge_end_vertex a he2 p2 g
      iso2 rem2).dcel.faces.map Option.isSome = Y.dcel.faces.map Option.isSome ∧
    ((Y._remove_edge_end_vertex v he1 p1 g false rem1)._remove_edge_end_vertex a he2 p2 g
      iso2 rem2).dcel.vertices.map Option.isSome
      = (if iso2 && rem2 then ((Y.dcel.vertices.map Option.isSome).set v false).set a false
        else (Y.dcel.vertices.map Option.isSome).set v false) := by
  obtain ⟨k1, k2, k3, k4, k5⟩ := Arrangement_2.remove_edge_end_vertex_merge d0 hd0 e v c1 c2
    h1 h2 Y hY hl rv hv hp hi he1 p1 g hhe rem1
  have hfin2 : iso2 = true ∨ Vertex.is_at_infinity
      (Y._remove_edge_end_vertex v he1 p1 g false rem1).dcel a ≠ some true := by
    rcases hfin with h | h
    · exact Or.inl h
    · refine Or.inr ?_
      unfold Vertex.is_at_infinity
      rw [k4]
      by_cases hav : a = v
      · rw [Arena.get_free, if_pos hav]
        simp
      · rw [Arena.null_point_merge_fix _ _ _ _ _ _ hav]
        exact h
  obtain ⟨b1, b2, b3, b4, -, -⟩ := Arrangement_2.remove_edge_end_vertex_frame
    (Y._remove_edge_end_vertex v he1 p1 g false rem1) a he2 p2 g iso2 rem2 hfin2
  refine ⟨b1.trans k3, (Dcel.same_links_of_halfedges b2).trans k1, b3.trans k5, ?_⟩
  rw [b4, k4, Arena.shape_free, Arena.shape_modify]

/-- The two end vertices of a removed edge, the first not a vertex at infinity or
isolated, the second the vertex at infinity of a split with no other edge left at it:
the first vertex is deleted when it becomes isolated and its flag is on, the two pieces
of the split edge are merged, the links are those before the split, and the vertex at
infinity is deleted. -/
theorem Arrangement_2.end_vertices_merge_second {Point Curve : Type}
    (d0 : Dcel Point Curve) (hd0 : d0.Linked) (e v : Nat) (c1 c2 : Halfedge_component)
    {r1 r2 : DHalfedge Curve} (h1 : d0.halfedges.get e = some r1)
    (h2 : d0.halfedges.get r1.opposite = some r2)
    (Y : Arrangement_2 Point Curve) (hY : Y.dcel.Linked)
    (hl : Y.dcel.same_links (d0.split_fictitious_links e r1.opposite v r1.vertex c1 c2).1)
    (rv : DVertex Point) (hv : Y.dcel.vertices.get v = some rv) (hp : rv.p_pt = none)
    (hi : rv.inc = .halfedge (some e)) (he2 p2 g : Nat) (hhe : he2 ≠ e) (rem2 : Bool)
    (a he1 p1 : Nat) (iso1 rem1 : Bool) (hav : a ≠ v)
    (hfin : iso1 = true ∨ Vertex.is_at_infinity Y.dcel a ≠ some true) :
    ((Y._remove_edge_end_vertex a he1 p1 g iso1 rem1)._remove_edge_end_vertex v he2 p2 g
      false rem2).n_inf_verts = Y.n_inf_verts - 1 ∧
    ((Y._remove_edge_end_vertex a he1 p1 g iso1 rem1)._remove_edge_end_vertex v he2 p2 g
      false rem2).dcel.same_links d0 ∧
    ((Y._remove_edge_end_vertex a he1 p1 g iso1 rem1)._remove_edge_end_vertex v he2 p2 g
      false rem2).dcel.faces.map Option.isSome = Y.dcel.faces.map Option.isSome ∧
    ((Y._remove_edge_end_vertex a he1 p1 g iso1 rem1)._remove_edge_end_vertex v he2 p2 g
      false rem2).dcel.vertices.map Option.isSome
      = (if iso1 && rem1 then (Y.dcel.vertices.map Option.isSome).set a false
        else Y.dcel.vertices.map Option.isSome).set v false := by
  obtain ⟨b1, b2, b3, b4, b5, -⟩ := Arrangement_2.remove_edge_end_vertex_frame
    Y a he1 p1 g iso1 rem1 hfin
  obtain ⟨k1, k2, k3, k4, k5⟩ := Arrangement_2.remove_edge_end_vertex_merge d0 hd0 e v c1 c2
    h1 h2 (Y._remove_edge_end_vertex a he1 p1 g iso1 rem1)
    (Dcel.linked_of_halfedges_eq hY b2) ((Dcel.same_links_of_halfedges b2).trans hl) rv
    (by rw [b5 v (Ne.symm hav)]; exact hv) hp hi he2 p2 g hhe rem2
  refine ⟨by rw [k3, b1], k1, k5.trans b3, ?_⟩
  rw [k4, Arena.shape_free, Arena.shape_modify, b4]

/-! ## The curve inserted from a vertex, and the split of a fictitious edge -/

/-- The stages of the removal of a curve that has just been inserted from the target of
`prev` to a free vertex `v`: the insertion returns the first new halfedge, which ends at
`v`, and the removal through either halfedge returns the state after the two end
vertices, of which `v` becomes isolated, of a state `F` that has the vertex records after
the insertion and the links and the face records of the state before it. -/
theorem Arrangement_2.insert_from_vertex_stages {Point Curve : Type}
    (S : Arrangement_2 Point Curve) (hl : S.dcel.Linked) (cv : Curve)
    (prev f v : Nat) (rp : DHalfedge Curve) (hp : S.dcel.halfedges.get prev = some rp)
    (hf : Halfedge.face S.dcel prev = some f) :
    ∃ a1, S._insert_from_vertex cv prev v = some (a1, S.dcel.halfedges.length) ∧
      Halfedge.twin a1.dcel S.dcel.halfedges.length = some (S.dcel.halfedges.length + 1) ∧
      Halfedge.twin a1.dcel (S.dcel.halfedges.length + 1) = some S.dcel.halfedges.length ∧
      Halfedge.face a1.dcel S.dcel.halfedges.length = some f ∧
      Halfedge.face a1.dcel (S.dcel.halfedges.length + 1) = some f ∧
      a1.dcel.vertices = S.dcel.vertices.modify v (fun x =>
        { x with inc := .halfedge (some S.dcel.halfedges.length) }) ∧
      (∀ fs ft : Bool, ∃ (F : Arrangement_2 Point Curve) (g pa pb : Nat),
        a1._remove_edge S.dcel.halfedges.length fs ft
          = some ((F._remove_edge_end_vertex v S.dcel.halfedges.length pa g true
              ft)._remove_edge_end_vertex rp.vertex (S.dcel.halfedges.length + 1) pb g false
                fs, g) ∧
        F.n_inf_verts = S.n_inf_verts ∧ F.dcel.vertices = a1.dcel.vertices ∧ F.dcel.Linked ∧
        F.dcel.same_links S.dcel ∧
        F.dcel.faces.map Option.isSome = S.dcel.faces.map Option.isSome) ∧
      (∀ fs ft : Bool, ∃ (F : Arrangement_2 Point Curve) (g pa pb : Nat),
        a1._remove_edge (S.dcel.halfedges.length + 1) fs ft
          = some ((F._remove_edge_end_vertex rp.vertex (S.dcel.halfedges.length + 1) pa g
              false ft)._remove_edge_end_vertex v S.dcel.halfedges.length pb g true fs, g) ∧
        F.n_inf_verts = S.n_inf_verts ∧ F.dcel.vertices = a1.dcel.vertices ∧ F.dcel.Linked ∧
        F.dcel.same_links S.dcel ∧
        F.dcel.faces.map Option.isSome = S.dcel.faces.map Option.isSome) := by
  obtain ⟨lt1, lt2⟩ := hl.next_lt hp
  have hcf : S.dcel.component_face rp.comp = some f := by
    rw [← Halfedge.face_eq_component_face _ _ _ hp]; exact hf
  have gp : (S.dcel.new_edge rp.vertex v (some cv)
      rp.comp).1.halfedges.get prev = some rp := by
    rw [Dcel.get_new_edge, if_neg (by omega), if_neg (by omega)]; exact hp
  have gb : (S.dcel.new_edge rp.vertex v (some cv)
      rp.comp).1.halfedges.get (S.dcel.halfedges.length + 1)
      = some ⟨some cv, S.dcel.halfedges.length, S.dcel.halfedges.length,
          S.dcel.halfedges.length, rp.vertex, rp.comp⟩ := by
    rw [Dcel.get_new_edge, if_neg (by omega), if_pos rfl]
  have ga : (S.dcel.new_edge rp.vertex v (some cv)
      rp.comp).1.halfedges.get S.dcel.halfedges.length
      = some ⟨some cv, S.dcel.halfedges.length + 1, S.dcel.halfedges.length + 1,
          S.dcel.halfedges.length + 1, v, rp.comp⟩ := by
    rw [Dcel.get_new_edge, if_pos rfl]
  have n1 : S.dcel.halfedges.length ≠ prev := by omega
  have n2 : S.dcel.halfedges.length ≠ rp.next := by omega
  have n3 : S.dcel.halfedges.length + 1 ≠ prev := by omega
  have n4 : S.dcel.halfedges.length + 1 ≠ rp.next := by omega
  have n5 : decide (rp.next = S.dcel.halfedges.length) = false :=
    decide_eq_false (Ne.symm n2)
  have g0 : ((S.dcel.new_edge rp.vertex v (some cv)
      rp.comp).1.splice prev (S.dcel.halfedges.length + 1)).halfedges.get
        S.dcel.halfedges.length
      = some ⟨some cv, S.dcel.halfedges.length + 1, prev,
          S.dcel.halfedges.length + 1, v, rp.comp⟩ := by
    rw [Dcel.get_splice _ _ _ gp gb, ga]
    simp [n1, n2]
  have g1 : ((S.dcel.new_edge rp.vertex v (some cv)
      rp.comp).1.splice prev (S.dcel.halfedges.length + 1)).halfedges.get
        (S.dcel.halfedges.length + 1)
      = some ⟨some cv, S.dcel.halfedges.length, S.dcel.halfedges.length,
          rp.next, rp.vertex, rp.comp⟩ := by
    rw [Dcel.get_splice _ _ _ gp gb, gb]
    simp [n3, n4]
  have hlk : ((S.dcel.new_edge rp.vertex v (some cv)
      rp.comp).1.splice prev (S.dcel.halfedges.length + 1)).Linked :=
    Dcel.linked_splice _ _ _ (Dcel.linked_new_edge _ _ _ _ _ hl)
  obtain ⟨a1, ha1, q1, q2, q3, q4, q5⟩ : ∃ a1 : Arrangement_2 Point Curve,
      S._insert_from_vertex cv prev v = some (a1, S.dcel.halfedges.length) ∧
      a1.dcel.halfedges = ((S.dcel.new_edge rp.vertex v (some cv)
        rp.comp).1.splice prev (S.dcel.halfedges.length + 1)).halfedges ∧
      a1.dcel.vertices = S.dcel.vertices.modify v (fun x =>
        { x with inc := .halfedge (some S.dcel.halfedges.length) }) ∧
      a1.dcel.faces = S.dcel.faces ∧ a1.dcel.holes = S.dcel.holes ∧
      a1.n_inf_verts = S.n_inf_verts := by
    cases hins : S._insert_from_vertex cv prev v with
    | none => simp [Arrangement_2._insert_from_vertex, hp] at hins
    | some r =>
      obtain ⟨a1, m⟩ := r
      simp only [Arrangement_2._insert_from_vertex, hp, Option.map_some', Option.some.injEq,
        Prod.mk.injEq] at hins
      obtain ⟨h1, h2⟩ := hins
      have hm : m = S.dcel.halfedges.length := by rw [← h2]; rfl
      subst hm
      subst h1
      refine ⟨_, rfl, rfl, ?_, ?_, ?_, rfl⟩
      · show Arena.modify (Dcel.vertices _) _ _ = _
        rw [(Dcel.splice_frame _ _ _).1]
        rfl
      · exact (Dcel.splice_frame _ _ _).2.1
      · exact (Dcel.splice_frame _ _ _).2.2.1
  have hlk1 : a1.dcel.Linked := Dcel.linked_of_halfedges_eq hlk q1
  have hsl : a1.dcel.same_links ((S.dcel.new_edge rp.vertex v (some cv)
      rp.comp).1.splice prev (S.dcel.halfedges.length + 1)) :=
    Dcel.same_links_of_halfedges q1
  obtain ⟨u1, u2⟩ := Dcel.unlink_after_from_vertex S.dcel hl prev rp.vertex v (some cv)
    rp.comp (by rw [hp]; rfl) a1.dcel hlk1 hsl
  rw [← q1] at g0 g1
  have hc1 : a1.dcel.component_face rp.comp = some f := by
    rw [← hcf]
    cases rp.comp <;> simp [Dcel.component_face, q4]
  have f0 := Halfedge.face_eq_component_face _ _ _ g0
  have f1 := Halfedge.face_eq_component_face _ _ _ g1
  simp only [hc1] at f0 f1
  refine ⟨a1, ha1, by simp [Halfedge.twin, g0], by simp [Halfedge.twin, g1], f0, f1, q2,
    ?_, ?_⟩
  · intro fs ft
    obtain ⟨F, g, s1, s2, s3, s4, s5, s6, s7⟩ := Arrangement_2.remove_edge_stages a1 hlk1 _
      _ _ f f g0 g1 (by simp) f0 f1 fs ft
    simp only [decide_True, n5] at s1
    refine ⟨F, g, _, _, s1, s2.trans q5, s3, s5, s4.trans u1, ?_⟩
    rw [s7, if_pos rfl, q3]
  · intro fs ft
    obtain ⟨F, g, s1, s2, s3, s4, s5, s6, s7⟩ := Arrangement_2.remove_edge_stages a1 hlk1 _
      _ _ f f g1 g0 (by simp) f1 f0 fs ft
    simp only [decide_True, n5] at s1
    refine ⟨F, g, _, _, s1, s2.trans q5, s3, s5, s4.trans u2, ?_⟩
    rw [s7, if_pos rfl, q3]

theorem Arena.null_point_set_inc {Point : Type} (s : Arena (DVertex Point)) (i x : Nat)
    (c : Vertex_incidence) :
    ((s.modify i (fun y => { y with inc := c })).get x).map (fun r => r.has_null_point)
      = (s.get x).map (fun r => r.has_null_point) := by
  apply Arena.null_point_modify
  intro r
  rfl

theorem Arena.null_point_fix_inc {Point : Type} (s : Arena (DVertex Point)) (i x : Nat)
    (a c : Vertex_incidence) :
    ((s.modify i (fun y => if y.inc = a then { y with inc := c } else y)).get x).map
      (fun r => r.has_null_point) = (s.get x).map (fun r => r.has_null_point) := by
  apply Arena.null_point_modify
  intro r
  split_ifs <;> rfl

theorem Halfedge.face_congr_comp {Point Curve : Type} {d e : Dcel Point Curve} (x : Nat)
    (hc : (d.halfedges.get x).map (fun r => r.comp) = (e.halfedges.get x).map (fun r => r.comp))
    (hh : d.holes = e.holes) : Halfedge.face d x = Halfedge.face e x := by
  cases hd : d.halfedges.get x with
  | none =>
    cases he : e.halfedges.get x with
    | none => simp [Halfedge.face, hd, he]
    | some s => rw [hd, he] at hc; cases hc
  | some r =>
    cases he : e.halfedges.get x with
    | none => rw [hd, he] at hc; cases hc
    | some s =>
      rw [hd, he] at hc
      have hrs : r.comp = s.comp := Option.some.inj hc
      rw [Halfedge.face_eq_component_face d x r hd, Halfedge.face_eq_component_face e x s he,
        hrs]
      cases s.comp <;> simp [Dcel.component_face, hh]

/-- The state after the split of a fictitious edge, in a linked store: the split returns
the first piece `e`, which now ends at the new vertex at infinity; that vertex refers to
`e`; the halfedges that were there keep their faces and, but for `e`, their targets; the
second piece lies on the boundary of `e`; the vertices that were there keep their
points; and the number of vertices at infinity grows by one. -/
theorem Arrangement_2.split_fictitious_edge_facts {Point Curve : Type}
    (arr : Arrangement_2 Point Curve) (hl : arr.dcel.Linked) (e : Nat)
    (ix iy : Boundary_type) {r1 r2 : DHalfedge Curve}
    (h1 : arr.dcel.halfedges.get e = some r1)
    (h2 : arr.dcel.halfedges.get r1.opposite = some r2) :
    ∃ P : Arrangement_2 Point Curve, arr._split_fictitious_edge e ix iy = some (P, e) ∧
      P.dcel.Linked ∧
      P.dcel.same_links (arr.dcel.split_fictitious_links e r1.opposite
        arr.dcel.vertices.length r1.vertex r1.comp r2.comp).1 ∧
      P.dcel.halfedges.length = arr.dcel.halfedges.length + 2 ∧
      P.dcel.vertices = ((arr.dcel.vertices.alloc ⟨none, ix, iy, .halfedge none⟩).modify
        r1.vertex (fun x =>
          if x.inc = .halfedge (some e)
          then { x with inc := .halfedge (some arr.dcel.halfedges.length) } else x)).modify
        arr.dcel.vertices.length (fun x => { x with inc := .halfedge (some e) }) ∧
      P.dcel.vertices.get arr.dcel.vertices.length
        = some ⟨none, ix, iy, .halfedge (some e)⟩ ∧
      P.dcel.vertices.length = arr.dcel.vertices.length + 1 ∧
      P.dcel.vertices.map Option.isSome = arr.dcel.vertices.map Option.isSome ++ [true] ∧
      (∀ x, x ≠ arr.dcel.vertices.length →
        Vertex.is_at_infinity P.dcel x = Vertex.is_at_infinity arr.dcel x) ∧
      P.dcel.faces = arr.dcel.faces ∧ P.dcel.holes = arr.dcel.holes ∧
      P.n_inf_verts = arr.n_inf_verts + 1 ∧
      Halfedge.target P.dcel e = some arr.dcel.vertices.length ∧
      (∀ x, x < arr.dcel.halfedges.length → x ≠ e →
        Halfedge.target P.dcel x = Halfedge.target arr.dcel x) ∧
      (∀ x, x < arr.dcel.halfedges.length →
        (P.dcel.halfedges.get x).map (fun r => r.comp)
          = (arr.dcel.halfedges.get x).map (fun r => r.comp)) ∧
      (∀ x, x < arr.dcel.halfedges.length →
        Halfedge.face P.dcel x = Halfedge.face arr.dcel x) ∧
      (P.dcel.halfedges.get arr.dcel.halfedges.length).map (fun r => r.comp)
        = some r1.comp ∧
      Halfedge.target P.dcel arr.dcel.halfedges.length = some r1.vertex := by
  obtain ⟨P, p1, p2, p3, p4, p5, p6, p7⟩ := Arrangement_2.split_fictitious_edge_spec arr e
    ix iy h1 h2
  obtain ⟨s1, s2, s3, s4, s5, s6, s7, s8, s9, s10, s11, s12, s13, s14, s15, s16⟩ :=
    Dcel.split_fictitious_links_spec arr.dcel hl e arr.dcel.vertices.length r1.comp r2.comp
      h1 h2 _ rfl
  have hsl : P.dcel.same_links (arr.dcel.split_fictitious_links e r1.opposite
      arr.dcel.vertices.length r1.vertex r1.comp r2.comp).1 := Dcel.same_links_of_halfedges p2
  have hcomp : ∀ x, x < arr.dcel.halfedges.length →
      (P.dcel.halfedges.get x).map (fun r => r.comp)
        = (arr.dcel.halfedges.get x).map (fun r => r.comp) := by
    intro x hx
    rw [p2]
    exact s14 x hx
  rw [s1] at s9 s15
  refine ⟨P, p1, Dcel.linked_of_halfedges_eq s2 p2, hsl, by rw [p2]; exact s3, p3, ?_, ?_, ?_,
    ?_, p4, p5, p7, ?_, ?_, hcomp, ?_, by rw [p2]; exact s15, ?_⟩
  · rw [p3, Arena.get_modify, if_pos rfl, Arena.get_modify, Arena.get_alloc, if_pos rfl]
    simp only [Option.map_some']
    split_ifs <;> simp
  · rw [p3, Arena.length_modify, Arena.length_modify, Arena.length_alloc]
  · rw [p3, Arena.shape_modify, Arena.shape_modify, Arena.shape_alloc]
  · intro x hx
    unfold Vertex.is_at_infinity
    rw [p3, Arena.null_point_set_inc, Arena.null_point_fix_inc, Arena.get_alloc, if_neg hx]
  · rw [(hsl e).2.2.1]
    exact s8
  · intro x hx hxe
    rw [(hsl x).2.2.1]
    exact s13 x hx hxe
  · intro x hx
    exact Halfedge.face_congr_comp x (hcomp x hx) p5
  · rw [(hsl _).2.2.1]
    exact s9

/-! ## Insertion followed by removal: a curve with one unbounded end -/

/-- The removal through `remove_edge` with both flags on, whichever half of the pair is
passed on. -/
theorem Arrangement_2.remove_edge_both_on {Point Curve : Type}
    (a1 : Arrangement_2 Point Curve) (n : Nat) (P : Arrangement_2 Point Curve → Prop)
    (t1 : Halfedge.twin a1.dcel n = some (n + 1))
    (t2 : Halfedge.twin a1.dcel (n + 1) = some n)
    (H0 : ∃ a2 g, a1._remove_edge n true true = some (a2, g) ∧ P a2)
    (H1 : ∃ a2 g, a1._remove_edge (n + 1) true true = some (a2, g) ∧ P a2)
    (b : Bool) (x : Nat) (hx : x = n ∨ x = n + 1) :
    ∃ a2 g, a1.remove_edge b x true true = some (a2, g) ∧ P a2 := by
  unfold Arrangement_2.remove_edge
  rcases hx with hx | hx
  · subst hx
    rw [t1, Option.some_bind]
    split_ifs
    · exact H1
    · exact H0
  · subst hx
    rw [t2, Option.some_bind]
    split_ifs
    · exact H0
    · exact H1

/-- The curve with one unbounded end, inserted from a new vertex at infinity on the
fictitious edge `e` to a new vertex for its bounded end, and then removed through either
of its halfedges with both flags on: the split, the insertion and the removal return,
and the numbers of vertices at infinity and of vertex, halfedge and face records are
those before the insertion. -/
theorem Arrangement_2.insert_ray_then_remove {Point Curve : Type}
    (arr : Arrangement_2 Point Curve) (hl : arr.dcel.Linked) (e f : Nat)
    (ix iy : Boundary_type) (p : Point) (cv : Curve) {r1 r2 : DHalfedge Curve}
    (h1 : arr.dcel.halfedges.get e = some r1)
    (h2 : arr.dcel.halfedges.get r1.opposite = some r2)
    (hf : Halfedge.face arr.dcel e = some f) :
    ∃ (P a1 : Arrangement_2 Point Curve) (m : Nat),
      arr._split_fictitious_edge e ix iy = some (P, e) ∧
      (P._create_vertex p).1._insert_from_vertex cv e (P._create_vertex p).2
        = some (a1, m) ∧
      ∀ (b : Bool) (x : Nat), x = m ∨ x = m + 1 →
        ∃ a2 g, a1.remove_edge b x true true = some (a2, g) ∧
          a2.n_inf_verts = arr.n_inf_verts ∧
          a2.dcel.vertices.size = arr.dcel.vertices.size ∧
          a2.dcel.halfedges.size = arr.dcel.halfedges.size ∧
          a2.dcel.faces.size = arr.dcel.faces.size := by
  obtain ⟨P, k1, k2, k3, k4, k5, k6, k7, k8, k9, k10, k11, k12, k13, k14, k15, k16, k17,
    k18⟩ := Arrangement_2.split_fictitious_edge_facts arr hl e ix iy h1 h2
  have lte : e < arr.dcel.halfedges.length := Arena.get_lt h1
  obtain ⟨rp, hrp, hrpv⟩ : ∃ rp, (P._create_vertex p).1.dcel.halfedges.get e = some rp ∧
      rp.vertex = arr.dcel.vertices.length := by
    cases hrp : P.dcel.halfedges.get e with
    | none => simp [Halfedge.target, hrp] at k13
    | some rp =>
      refine ⟨rp, hrp, ?_⟩
      simpa [Halfedge.target, hrp] using k13
  have hfS : Halfedge.face (P._create_vertex p).1.dcel e = some f := by
    rw [← hf, ← k16 e lte]
    exact Halfedge.face_congr_comp e rfl rfl
  have hlS : (P._create_vertex p).1.dcel.Linked := Dcel.linked_of_halfedges_eq k2 rfl
  obtain ⟨a1, i1, i2, i3, i4, i5, i6, i7, i8⟩ := Arrangement_2.insert_from_vertex_stages
    (P._create_vertex p).1 hlS cv e f (P._create_vertex p).2 rp hrp hfS
  obtain ⟨m, hm⟩ : ∃ m, m = (P._create_vertex p).1.dcel.halfedges.length := ⟨_, rfl⟩
  have hmn : m = arr.dcel.halfedges.length + 2 := hm.trans k4
  rw [← hm] at i1 i2 i3 i4 i5 i6 i7 i8
  have hvb : (P._create_vertex p).2 = arr.dcel.vertices.length + 1 := k7
  rw [hvb] at i6 i7 i8
  rw [hrpv] at i7 i8
  have hlen : (arr.dcel.vertices.map Option.isSome).length = arr.dcel.vertices.length :=
    List.length_map _ _
  -- the state before the end vertices
  have hF : ∀ F : Arrangement_2 Point Curve, F.n_inf_verts = (P._create_vertex p).1.n_inf_verts →
      F.dcel.vertices = a1.dcel.vertices → F.dcel.same_links (P._create_vertex p).1.dcel →
      F.dcel.faces.map Option.isSome
        = (P._create_vertex p).1.dcel.faces.map Option.isSome →
      F.n_inf_verts = arr.n_inf_verts + 1 ∧
      F.dcel.same_links (arr.dcel.split_fictitious_links e r1.opposite
        arr.dcel.vertices.length r1.vertex r1.comp r2.comp).1 ∧
      F.dcel.vertices.get arr.dcel.vertices.length
        = some ⟨none, ix, iy, .halfedge (some e)⟩ ∧
      F.dcel.vertices.map Option.isSome
        = arr.dcel.vertices.map Option.isSome ++ [true] ++ [true] ∧
      F.dcel.faces.map Option.isSome = arr.dcel.faces.map Option.isSome := by
    intro F f1 f2 f3 f4
    refine ⟨f1.trans k12, f3.trans ((Dcel.same_links_of_halfedges rfl).trans k3), ?_, ?_,
      ?_⟩
    · rw [f2, i6, Arena.get_modify, if_neg (by omega)]
      show Option.map id ((P.dcel.vertices.alloc _).get _) = _
      rw [Arena.get_alloc, if_neg (by omega), k6]
      rfl
    · rw [f2, i6, Arena.shape_modify]
      show List.map Option.isSome (P.dcel.vertices.alloc _) = _
      rw [Arena.shape_alloc, k8]
    · rw [f4]
      show List.map Option.isSome P.dcel.faces = _
      rw [k10]
  refine ⟨P, a1, m, k1, i1, ?_⟩
  intro b x hx
  refine Arrangement_2.remove_edge_both_on a1 m
    (fun a2 => a2.n_inf_verts = arr.n_inf_verts ∧
      a2.dcel.vertices.size = arr.dcel.vertices.size ∧
      a2.dcel.halfedges.size = arr.dcel.halfedges.size ∧
      a2.dcel.faces.size = arr.dcel.faces.size) i2 i3 ?_ ?_ b x hx
  · obtain ⟨F, g, pa, pb, s1, s2, s3, s4, s5, s6⟩ := i7 true true
    obtain ⟨y1, y2, y3, y4, y5⟩ := hF F s2 s3 s5 s6
    obtain ⟨z1, z2, z3, z4⟩ := Arrangement_2.end_vertices_merge_second arr.dcel hl e
      arr.dcel.vertices.length r1.comp r2.comp h1 h2 F s4 y2 _ y3 rfl rfl (m + 1) pb g
      (by omega) true (arr.dcel.vertices.length + 1) m pa true true (by omega) (Or.inl rfl)
    refine ⟨_, g, s1, ?_, ?_, z2.size, ?_⟩
    · rw [z1, y1]
      rfl
    · rw [Arena.size_eq_count, z4, y4, Arena.size_eq_count]
      simp only [Bool.and_self, if_true]
      rw [← hlen]
      exact Arena.count_set_append_two
    · rw [Arena.size_eq_count, z3, y5, Arena.size_eq_count]
  · obtain ⟨F, g, pa, pb, s1, s2, s3, s4, s5, s6⟩ := i8 true true
    obtain ⟨y1, y2, y3, y4, y5⟩ := hF F s2 s3 s5 s6
    obtain ⟨z1, z2, z3, z4⟩ := Arrangement_2.end_vertices_merge_first arr.dcel hl e
      arr.dcel.vertices.length r1.comp r2.comp h1 h2 F s4 y2 _ y3 rfl rfl (m + 1) pa g
      (by omega) true (arr.dcel.vertices.length + 1) m pb true true (Or.inl rfl)
    refine ⟨_, g, s1, ?_, ?_, z2.size, ?_⟩
    · rw [z1, y1]
      rfl
    · rw [Arena.size_eq_count, z4, y4, Arena.size_eq_count]
      simp only [Bool.and_self, if_true]
      rw [← hlen]
      exact Arena.count_set_append_two_rev
    · rw [Arena.size_eq_count, z3, y5, Arena.size_eq_count]

/-! ## Insertion followed by removal: a curve from a vertex to an unbounded end -/

/-- The two end vertices of a removed edge, in either order, one of them the vertex at
infinity of a split with no other edge left at it and the other not a vertex at infinity,
neither isolated: the two pieces of the split edge are merged, the links are those before
the split, and the vertex at infinity is deleted. -/
theorem Arrangement_2.end_vertices_one_merge {Point Curve : Type}
    (d0 : Dcel Point Curve) (hd0 : d0.Linked) (e v : Nat) (c1 c2 : Halfedge_component)
    {r1 r2 : DHalfedge Curve} (h1 : d0.halfedges.get e = some r1)
    (h2 : d0.halfedges.get r1.opposite = some r2)
    (Y : Arrangement_2 Point Curve) (hY : Y.dcel.Linked)
    (hl : Y.dcel.same_links (d0.split_fictitious_links e r1.opposite v r1.vertex c1 c2).1)
    (rv : DVertex Point) (hv : Y.dcel.vertices.get v = some rv) (hp : rv.p_pt = none)
    (hi : rv.inc = .halfedge (some e)) (a : Nat) (hav : a ≠ v)
    (hfin : Vertex.is_at_infinity Y.dcel a ≠ some true)
    (x1 x2 he1 he2 p1 p2 g : Nat) (rem1 rem2 : Bool) (hhe1 : he1 ≠ e) (hhe2 : he2 ≠ e)
    (hx : (x1 = v ∧ x2 = a) ∨ (x1 = a ∧ x2 = v)) :
    ((Y._remove_edge_end_vertex x1 he1 p1 g false rem1)._remove_edge_end_vertex x2 he2 p2 g
      false rem2).n_inf_verts = Y.n_inf_verts - 1 ∧
    ((Y._remove_edge_end_vertex x1 he1 p1 g false rem1)._remove_edge_end_vertex x2 he2 p2 g
      false rem2).dcel.same_links d0 ∧
    ((Y._remove_edge_end_vertex x1 he1 p1 g false rem1)._remove_edge_end_vertex x2 he2 p2 g
      false rem2).dcel.faces.map Option.isSome = Y.dcel.faces.map Option.isSome ∧
    ((Y._remove_edge_end_vertex x1 he1 p1 g false rem1)._remove_edge_end_vertex x2 he2 p2 g
      false rem2).dcel.vertices.map Option.isSome
      = (Y.dcel.vertices.map Option.isSome).set v false := by
  rcases hx with ⟨q1, q2⟩ | ⟨q1, q2⟩
  · subst q1 q2
    obtain ⟨z1, z2, z3, z4⟩ := Arrangement_2.end_vertices_merge_first d0 hd0 e x1 c1 c2 h1 h2
      Y hY hl rv hv hp hi he1 p1 g hhe1 rem1 x2 he2 p2 false rem2 (Or.inr hfin)
    refine ⟨z1, z2, z3, ?_⟩
    rw [z4]
    rfl
  · subst q1 q2
    obtain ⟨z1, z2, z3, z4⟩ := Arrangement_2.end_vertices_merge_second d0 hd0 e x2 c1 c2 h1
      h2 Y hY hl rv hv hp hi he2 p2 g hhe2 rem2 x1 he1 p1 false rem1 hav (Or.inr hfin)
    refine ⟨z1, z2, z3, ?_⟩
    rw [z4]
    rfl

theorem Arrangement_2.insert_at_vertices_isSome {Point Curve : Type}
    (arr : Arrangement_2 Point Curve) (cv : Curve) (p1 p2 fa : Nat) (s1 s2 : DHalfedge Curve)
    (h1 : arr.dcel.halfedges.get p1 = some s1) (h2 : arr.dcel.halfedges.get p2 = some s2)
    (hfa : Halfedge.face arr.dcel p1 = some fa) (bu : Bool)
    (hok : s1.comp = s2.comp ∨ s1.is_on_hole = true ∨ s2.is_on_hole = true) :
    (arr._insert_at_vertices cv p1 p2 bu).isSome = true := by
  have hca : arr.dcel.component_face s1.comp = some fa := by
    rw [← Halfedge.face_eq_component_face _ _ _ h1]; exact hfa
  unfold Arrangement_2._insert_at_vertices
  simp only [h1, h2, Option.some_bind]
  by_cases hc : s1.comp = s2.comp
  · rw [if_pos hc, hca]
    rfl
  · rw [if_neg hc]
    rcases hok with hok | hok | hok
    · exact absurd hok hc
    · cases hs1 : s1.comp with
      | face f => rw [DHalfedge.is_on_hole, hs1] at hok; cases hok
      | hole ha => cases s2.comp <;> rfl
    · cases hs2 : s2.comp with
      | face f => rw [DHalfedge.is_on_hole, hs2] at hok; cases hok
      | hole ha => cases s1.comp <;> rfl

/-- The curve inserted between the targets of two halfedges of a state `S` in which a
fictitious edge has just been split, one target the new vertex at infinity and the other
not a vertex at infinity, and the curve then removed through either of its halfedges,
whatever the flags: the removal returns, the two pieces of the split edge are merged, the
links are those before the split, the vertex at infinity is deleted and no other vertex
or face record is created or deleted. -/
theorem Arrangement_2.insert_at_vertices_one_merge {Point Curve : Type}
    (d0 : Dcel Point Curve) (hd0 : d0.Linked) (e v : Nat) (c1 c2 : Halfedge_component)
    {r1 r2 : DHalfedge Curve} (h1 : d0.halfedges.get e = some r1)
    (h2 : d0.halfedges.get r1.opposite = some r2)
    (S : Arrangement_2 Point Curve) (hS : S.dcel.Linked)
    (hsl : S.dcel.same_links (d0.split_fictitious_links e r1.opposite v r1.vertex c1 c2).1)
    (rv : DVertex Point) (hv : S.dcel.vertices.get v = some rv) (hp : rv.p_pt = none)
    (hi : rv.inc = .halfedge (some e)) (hlt : e < S.dcel.halfedges.length)
    (cv : Curve) (p1 p2 fa fb : Nat) (s1 s2 : DHalfedge Curve)
    (g1 : S.dcel.halfedges.get p1 = some s1) (g2 : S.dcel.halfedges.get p2 = some s2)
    (hfa : Halfedge.face S.dcel p1 = some fa) (hfb : Halfedge.face S.dcel p2 = some fb)
    (hlive : (S.dcel.faces.get fa).isSome) (h12 : p1 ≠ p2)
    (a : Nat) (hav : a ≠ v) (hfin : Vertex.is_at_infinity S.dcel a ≠ some true)
    (hx : (s1.vertex = v ∧ s2.vertex = a) ∨ (s1.vertex = a ∧ s2.vertex = v))
    (bu : Bool) (hi' vi : Nat → Bool)
    (a1 : Arrangement_2 Point Curve) (e0 : Nat) (nfl : Bool)
    (hins : S._insert_at_vertices cv p1 p2 bu = some (a1, e0, nfl)) :
    e0 = S.dcel.halfedges.length ∧
    ∀ (b : Bool) (x : Nat) (_ : x = S.dcel.halfedges.length ∨ x = S.dcel.halfedges.length + 1)
      (rs rt : Bool),
      ∃ a2 g, (if nfl then a1._relocate_in_new_face hi' vi e0 else a1).remove_edge b x rs rt
          = some (a2, g) ∧
        a2.n_inf_verts = S.n_inf_verts - 1 ∧
        a2.dcel.same_links d0 ∧
        a2.dcel.faces.size = S.dcel.faces.size ∧
        a2.dcel.vertices.map Option.isSome
          = (S.dcel.vertices.map Option.isSome).set v false := by
  obtain ⟨k1, k2, k3, k4, k5, ⟨c, k6⟩, t1, t2, f1, f2, g0, g1', o1, o2, x1, x2, w1, w2, c1',
    c2', k7⟩ := Arrangement_2.insert_at_vertices_facts S hS cv p1 p2 fa fb s1 s2 g1 g2 hfa
      hfb hlive bu hi' vi a1 e0 nfl hins
  obtain ⟨m1, m2, -, -, m5, m6⟩ := Arrangement_2.remove_new_edge_stages S
    (if nfl then a1._relocate_in_new_face hi' vi e0 else a1) hS k2 p1 p2 s1.vertex s2.vertex
    (some cv) c (by rw [g1]; rfl) (by rw [g2]; rfl) k6 t1 t2 f1 f2 s2.vertex s1.vertex g0 g1'
    o1 o2 x1 x2 w1 w2 c1' c2' k3 k4 k5 (by
      rcases k7 with ⟨-, q1, q2⟩ | ⟨-, q1, q2, q3, q4, q5⟩
      · exact Or.inl ⟨q1, q2⟩
      · exact Or.inr ⟨q1, q2, q3, q4, q5⟩)
  refine ⟨k1, ?_⟩
  intro b x hx' rs rt
  refine Arrangement_2.remove_edge_either _ S.dcel.halfedges.length
    (fun a2 => a2.n_inf_verts = S.n_inf_verts - 1 ∧
      a2.dcel.same_links d0 ∧
      a2.dcel.faces.size = S.dcel.faces.size ∧
      a2.dcel.vertices.map Option.isSome
        = (S.dcel.vertices.map Option.isSome).set v false) m1 m2 ?_ ?_ b x hx' rs rt
  · intro fs ft
    obtain ⟨F, g, pa, pb, q1, q2, q3, q4, q5, q6, q7⟩ := m5 fs ft
    obtain ⟨z1, z2, z3, z4⟩ := Arrangement_2.end_vertices_one_merge d0 hd0 e v c1 c2 h1 h2 F
      q4 ((q7 h12).trans hsl) rv (by rw [q3]; exact hv) hp hi a hav
      (by rw [Vertex.is_at_infinity_congr q3]; exact hfin) s2.vertex s1.vertex
      S.dcel.halfedges.length (S.dcel.halfedges.length + 1) pa pb g ft fs (by omega)
      (by omega) (by
        rcases hx with ⟨y1, y2⟩ | ⟨y1, y2⟩
        · exact Or.inr ⟨y2, y1⟩
        · exact Or.inl ⟨y2, y1⟩)
    refine ⟨_, g, q1, by rw [z1, q2], z2, ?_, by rw [z4, q3]⟩
    rw [Arena.size_eq_count, z3, ← Arena.size_eq_count]
    exact q6
  · intro fs ft
    obtain ⟨F, g, pa, pb, q1, q2, q3, q4, q5, q6, q7⟩ := m6 fs ft
    obtain ⟨z1, z2, z3, z4⟩ := Arrangement_2.end_vertices_one_merge d0 hd0 e v c1 c2 h1 h2 F
      q4 ((q7 h12).trans hsl) rv (by rw [q3]; exact hv) hp hi a hav
      (by rw [Vertex.is_at_infinity_congr q3]; exact hfin) s1.vertex s2.vertex
      (S.dcel.halfedges.length + 1) S.dcel.halfedges.length pa pb g ft fs (by omega)
      (by omega) hx
    refine ⟨_, g, q1, by rw [z1, q2], z2, ?_, by rw [z4, q3]⟩
    rw [Arena.size_eq_count, z3, ← Arena.size_eq_count]
    exact q6

theorem DHalfedge.is_on_hole_congr {Curve : Type} {r s : DHalfedge Curve}
    (h : r.comp = s.comp) : r.is_on_hole = s.is_on_hole := by
  unfold DHalfedge.is_on_hole
  rw [h]

/-- The curve with an unbounded end, inserted from the target of `prev` (not a vertex at
infinity) to a new vertex at infinity on the fictitious edge `e`, and then removed through
the halfedge returned, whatever the flags: the split, the insertion and the removal
return, and the numbers of vertices at infinity and of vertex, halfedge and face records
are those before the insertion. -/
theorem Arrangement_2.insert_to_infinity_then_remove {Point Curve : Type}
    (arr : Arrangement_2 Point Curve) (hl : arr.dcel.Linked) (e prev fe fp : Nat)
    (ix iy : Boundary_type) (cv : Curve) {r1 r2 rp : DHalfedge Curve}
    (h1 : arr.dcel.halfedges.get e = some r1)
    (h2 : arr.dcel.halfedges.get r1.opposite = some r2)
    (hp : arr.dcel.halfedges.get prev = some rp) (hne : prev ≠ e)
    (hfe : Halfedge.face arr.dcel e = some fe) (hfp : Halfedge.face arr.dcel prev = some fp)
    (hle : (arr.dcel.faces.get fe).isSome) (hlp : (arr.dcel.faces.get fp).isSome)
    (hfin : Vertex.is_at_infinity arr.dcel rp.vertex = some false)
    (hok : rp.comp = r1.comp ∨ rp.is_on_hole = true ∨ r1.is_on_hole = true)
    (p1i : Bool) (hi vi : Nat → Bool) :
    ∃ (P a1 : Arrangement_2 Point Curve) (m : Nat),
      arr._split_fictitious_edge e ix iy = some (P, e) ∧
      P.insert_at_vertices p1i true hi vi cv prev e = some (a1, m) ∧
      ∀ (b rs rt : Bool), ∃ a2 g, a1.remove_edge b m rs rt = some (a2, g) ∧
        a2.n_inf_verts = arr.n_inf_verts ∧
        a2.dcel.vertices.size = arr.dcel.vertices.size ∧
        a2.dcel.halfedges.size = arr.dcel.halfedges.size ∧
        a2.dcel.faces.size = arr.dcel.faces.size := by
  obtain ⟨P, k1, k2, k3, k4, k5, k6, k7, k8, k9, k10, k11, k12, k13, k14, k15, k16, k17,
    k18⟩ := Arrangement_2.split_fictitious_edge_facts arr hl e ix iy h1 h2
  have lte : e < arr.dcel.halfedges.length := Arena.get_lt h1
  have ltp : prev < arr.dcel.halfedges.length := Arena.get_lt hp
  obtain ⟨se, hse, hsev, hsec⟩ : ∃ se, P.dcel.halfedges.get e = some se ∧
      se.vertex = arr.dcel.vertices.length ∧ se.comp = r1.comp := by
    have hc := k15 e lte
    cases hse : P.dcel.halfedges.get e with
    | none => simp [Halfedge.target, hse] at k13
    | some se =>
      refine ⟨se, rfl, ?_, ?_⟩
      · simpa [Halfedge.target, hse] using k13
      · simpa [hse, h1] using hc
  obtain ⟨sp, hsp, hspv, hspc⟩ : ∃ sp, P.dcel.halfedges.get prev = some sp ∧
      sp.vertex = rp.vertex ∧ sp.comp = rp.comp := by
    have hc := k15 prev ltp
    have ht := k14 prev ltp hne
    cases hsp : P.dcel.halfedges.get prev with
    | none => simp [hsp, hp] at hc
    | some sp =>
      refine ⟨sp, rfl, ?_, ?_⟩
      · simpa [Halfedge.target, hsp, hp] using ht
      · simpa [hsp, hp] using hc
  have hfe' : Halfedge.face P.dcel e = some fe := (k16 e lte).trans hfe
  have hfp' : Halfedge.face P.dcel prev = some fp := (k16 prev ltp).trans hfp
  have hle' : (P.dcel.faces.get fe).isSome := by rw [k10]; exact hle
  have hlp' : (P.dcel.faces.get fp).isSome := by rw [k10]; exact hlp
  have hav : rp.vertex ≠ arr.dcel.vertices.length := by
    intro hc
    rw [hc] at hfin
    unfold Vertex.is_at_infinity at hfin
    rw [Arena.get_eq_none_of_le _ _ (le_refl _)] at hfin
    cases hfin
  have hfin' : Vertex.is_at_infinity P.dcel rp.vertex ≠ some true := by
    rw [k9 _ hav, hfin]
    simp
  have hlt : e < P.dcel.halfedges.length := by omega
  have hlen : (arr.dcel.vertices.map Option.isSome).length = arr.dcel.vertices.length :=
    List.length_map _ _
  have fin : ∀ a2 : Arrangement_2 Point Curve, a2.n_inf_verts = P.n_inf_verts - 1 →
      a2.dcel.same_links arr.dcel → a2.dcel.faces.size = P.dcel.faces.size →
      a2.dcel.vertices.map Option.isSome
        = (P.dcel.vertices.map Option.isSome).set arr.dcel.vertices.length false →
      a2.n_inf_verts = arr.n_inf_verts ∧
      a2.dcel.vertices.size = arr.dcel.vertices.size ∧
      a2.dcel.halfedges.size = arr.dcel.halfedges.size ∧
      a2.dcel.faces.size = arr.dcel.faces.size := by
    intro a2 z1 z2 z3 z4
    refine ⟨by rw [z1, k12]; rfl, ?_, z2.size, by rw [z3, k10]⟩
    rw [Arena.size_eq_count, z4, k8, Arena.size_eq_count, ← hlen]
    exact Arena.count_set_append
  refine ⟨P, ?_⟩
  unfold Arrangement_2.insert_at_vertices
  cases p1i
  · simp only [Bool.false_eq_true, if_false]
    have hsome := Arrangement_2.insert_at_vertices_isSome P cv e prev fe se sp hse hsp hfe'
      true (by
        rw [hsec, hspc, DHalfedge.is_on_hole_congr hsec, DHalfedge.is_on_hole_congr hspc]
        rcases hok with h | h | h
        · exact Or.inl h.symm
        · exact Or.inr (Or.inr h)
        · exact Or.inr (Or.inl h))
    obtain ⟨⟨a0, e0, nfl⟩, hr⟩ := Option.isSome_iff_exists.mp hsome
    obtain ⟨j1, j2⟩ := Arrangement_2.insert_at_vertices_one_merge arr.dcel hl e
      arr.dcel.vertices.length r1.comp r2.comp h1 h2 P k2 k3 _ k6 rfl rfl hlt cv e prev fe fp
      se sp hse hsp hfe' hfp' hle' (Ne.symm hne) rp.vertex hav hfin'
      (Or.inl ⟨hsev, hspv⟩) true hi vi a0 e0 nfl hr
    rw [hr]
    refine ⟨_, _, k1, rfl, ?_⟩
    intro b rs rt
    obtain ⟨a2, g, z0, z1, z2, z3, z4⟩ := j2 b (e0 + 1) (Or.inr (by rw [j1])) rs rt
    exact ⟨a2, g, z0, fin a2 z1 z2 z3 z4⟩
  · simp only [if_true]
    have hsome := Arrangement_2.insert_at_vertices_isSome P cv prev e fp sp se hsp hse hfp'
      true (by
        rw [hsec, hspc, DHalfedge.is_on_hole_congr hsec, DHalfedge.is_on_hole_congr hspc]
        exact hok)
    obtain ⟨⟨a0, e0, nfl⟩, hr⟩ := Option.isSome_iff_exists.mp hsome
    obtain ⟨j1, j2⟩ := Arrangement_2.insert_at_vertices_one_merge arr.dcel hl e
      arr.dcel.vertices.length r1.comp r2.comp h1 h2 P k2 k3 _ k6 rfl rfl hlt cv prev e fp fe
      sp se hsp hse hfp' hfe' hlp' hne rp.vertex hav hfin'
      (Or.inr ⟨hspv, hsev⟩) true hi vi a0 e0 nfl hr
    rw [hr]
    refine ⟨_, _, k1, rfl, ?_⟩
    intro b rs rt
    obtain ⟨a2, g, z0, z1, z2, z3, z4⟩ := j2 b e0 (Or.inl j1) rs rt
    exact ⟨a2, g, z0, fin a2 z1 z2 z3 z4⟩

/-! ## Insertion followed by removal: a curve with two unbounded ends -/

/-- The twin of a live halfedge of a linked store is live. -/
theorem Dcel.Linked.twin_live {Point Curve : Type} {d : Dcel Point Curve} (hd : d.Linked)
    {h : Nat} {r : DHalfedge Curve} (hr : d.halfedges.get h = some r) :
    ∃ r2, d.halfedges.get r.opposite = some r2 := by
  have ht : Halfedge.twin d h = some r.opposite := by simp [Halfedge.twin, hr]
  obtain ⟨r2, h2, -⟩ := Halfedge.twin_eq_some.mp (hd.1 _ _ ht).1
  exact ⟨r2, h2⟩

theorem Halfedge.record_of_target_comp {Point Curve : Type} {d : Dcel Point Curve}
    {x v : Nat} {c : Halfedge_component} (ht : Halfedge.target d x = some v)
    (hc : (d.halfedges.get x).map (fun r => r.comp) = some c) :
    ∃ r, d.halfedges.get x = some r ∧ r.vertex = v ∧ r.comp = c := by
  cases hr : d.halfedges.get x with
  | none => simp [hr] at hc
  | some r =>
    refine ⟨r, rfl, ?_, ?_⟩
    · simpa [Halfedge.target, hr] using ht
    · simpa [hr] using hc

theorem Dcel.component_face_congr {Point Curve : Type} {d e : Dcel Point Curve}
    (h : d.holes = e.holes) (c : Halfedge_component) :
    d.component_face c = e.component_face c := by
  cases c <;> simp [Dcel.component_face, h]

/-- The curve with two unbounded ends, inserted between two new vertices at infinity, the
first on the fictitious edge `e1` and the second on a fictitious edge of the same
boundary (which may be one of the two pieces of `e1`), and then removed through the
halfedge returned, whatever the flags: the two splits, the insertion and the removal
return, and the numbers of vertices at infinity and of vertex, halfedge and face records
are those before the insertion. -/
theorem Arrangement_2.insert_line_then_remove {Point Curve : Type}
    (arr : Arrangement_2 Point Curve) (hl : arr.dcel.Linked) (e1 second f : Nat)
    (ix1 iy1 ix2 iy2 : Boundary_type) (cv : Curve) {r1 r2 : DHalfedge Curve}
    (h1 : arr.dcel.halfedges.get e1 = some r1)
    (h2 : arr.dcel.halfedges.get r1.opposite = some r2)
    (hsec : second = arr.dcel.halfedges.length ∨
      ∃ q1, arr.dcel.halfedges.get second = some q1 ∧ q1.comp = r1.comp)
    (hf : Halfedge.face arr.dcel e1 = some f) (hlive : (arr.dcel.faces.get f).isSome)
    (p1i : Bool) (hi vi : Nat → Bool) :
    ∃ (P1 P2 a1 : Arrangement_2 Point Curve) (fp m : Nat),
      arr._split_fictitious_edge e1 ix1 iy1 = some (P1, e1) ∧
      Halfedge.target P1.dcel e1 = some arr.dcel.vertices.length ∧
      P1._split_fictitious_edge second ix2 iy2 = some (P2, second) ∧
      Vertex.incident_halfedges P2.dcel arr.dcel.vertices.length = some fp ∧
      P2.insert_at_vertices p1i true hi vi cv fp second = some (a1, m) ∧
      ∀ (b rs rt : Bool), ∃ a2 g, a1.remove_edge b m rs rt = some (a2, g) ∧
        a2.n_inf_verts = arr.n_inf_verts ∧
        a2.dcel.vertices.size = arr.dcel.vertices.size ∧
        a2.dcel.halfedges.size = arr.dcel.halfedges.size ∧
        a2.dcel.faces.size = arr.dcel.faces.size := by
  obtain ⟨P1, k1, k2, k3, k4, k5, k6, k7, k8, k9, k10, k11, k12, k13, k14, k15, k16, k17,
    k18⟩ := Arrangement_2.split_fictitious_edge_facts arr hl e1 ix1 iy1 h1 h2
  have lte : e1 < arr.dcel.halfedges.length := Arena.get_lt h1
  -- the second fictitious edge after the first split
  obtain ⟨t1, ht1, ht1c⟩ : ∃ t1, P1.dcel.halfedges.get second = some t1 ∧
      t1.comp = r1.comp := by
    rcases hsec with hs | ⟨q1, hq1, hqc⟩
    · subst hs
      cases ht : P1.dcel.halfedges.get arr.dcel.halfedges.length with
      | none => simp [ht] at k17
      | some t1 => exact ⟨t1, rfl, by simpa [ht] using k17⟩
    · have hc := k15 second (Arena.get_lt hq1)
      cases ht : P1.dcel.halfedges.get second with
      | none => simp [ht, hq1] at hc
      | some t1 =>
        refine ⟨t1, rfl, ?_⟩
        rw [← hqc]
        simpa [ht, hq1] using hc
  obtain ⟨t2, ht2⟩ := k2.twin_live ht1
  have lts : second < P1.dcel.halfedges.length := Arena.get_lt ht1
  obtain ⟨P2, j1, j2, j3, j4, j5, j6, j7, j8, j9, j10, j11, j12, j13, j14, j15, j16, j17,
    j18⟩ := Arrangement_2.split_fictitious_edge_facts P1 k2 second ix2 iy2 ht1 ht2
  rw [k7] at j3 j5 j6 j7 j9 j13
  -- the first vertex at infinity after the second split
  obtain ⟨fp, hfp, hV⟩ : ∃ fp, (fp = P1.dcel.halfedges.length ∧
        arr.dcel.vertices.length = t1.vertex ∧ e1 = second ∨ fp = e1 ∧ e1 ≠ second) ∧
      P2.dcel.vertices.get arr.dcel.vertices.length
        = some ⟨none, ix1, iy1, .halfedge (some fp)⟩ := by
    have hg : P2.dcel.vertices.get arr.dcel.vertices.length
        = (some (⟨none, ix1, iy1, .halfedge (some e1)⟩ : DVertex Point)).map
          (if arr.dcel.vertices.length = t1.vertex then (fun x =>
            if x.inc = .halfedge (some second)
            then { x with inc := .halfedge (some P1.dcel.halfedges.length) } else x)
          else id) := by
      rw [j5, Arena.get_modify,
        if_neg (show ¬ arr.dcel.vertices.length = arr.dcel.vertices.length + 1 by omega),
        Arena.get_modify, Arena.get_alloc,
        if_neg (show ¬ arr.dcel.vertices.length = P1.dcel.vertices.length by omega), k6]
      simp
    by_cases hs : e1 = second
    · have hu : arr.dcel.vertices.length = t1.vertex := by
        subst hs
        have := k13
        simp only [Halfedge.target, ht1, Option.map_some', Option.some.injEq] at this
        exact this.symm
      refine ⟨P1.dcel.halfedges.length, Or.inl ⟨rfl, hu, hs⟩, ?_⟩
      rw [hg, if_pos hu, hs]
      simp
    · refine ⟨e1, Or.inr ⟨rfl, hs⟩, ?_⟩
      rw [hg]
      have hne : (Vertex_incidence.halfedge (some e1)) ≠ .halfedge (some second) := by
        intro hc
        injection hc with hc
        exact hs (Option.some.inj hc)
      split_ifs
      · simp [hne]
      · rfl
  have hinc : Vertex.incident_halfedges P2.dcel arr.dcel.vertices.length = some fp := by
    simp [Vertex.incident_halfedges, hV]
  -- the two halfedges after which the curve is inserted
  obtain ⟨ss, hss, hssv, hssc⟩ := Halfedge.record_of_target_comp j13
    ((j15 second lts).trans (by rw [ht1]; exact congrArg some ht1c))
  obtain ⟨sf, hsf, hsfv, hsfc⟩ : ∃ sf, P2.dcel.halfedges.get fp = some sf ∧
      sf.vertex = arr.dcel.vertices.length ∧ sf.comp = r1.comp := by
    rcases hfp with ⟨q1, q2, q3⟩ | ⟨q1, q2⟩
    · subst q1
      apply Halfedge.record_of_target_comp
      · rw [j18, q2]
      · rw [j17, ht1c]
    · subst q1
      apply Halfedge.record_of_target_comp
      · rw [j14 fp (by omega) q2]
        exact k13
      · rw [j15 fp (by omega), k15 fp lte, h1]
        rfl
  have hne : fp ≠ second := by
    rcases hfp with ⟨q1, -, -⟩ | ⟨q1, q2⟩
    · omega
    · rw [q1]; exact q2
  have hcf : arr.dcel.component_face r1.comp = some f := by
    rw [← Halfedge.face_eq_component_face _ _ _ h1]; exact hf
  have hcf2 : P2.dcel.component_face r1.comp = some f := by
    rw [Dcel.component_face_congr (j11.trans k11)]
    exact hcf
  have hff : Halfedge.face P2.dcel fp = some f := by
    rw [Halfedge.face_eq_component_face _ _ _ hsf, hsfc]
    exact hcf2
  have hfs : Halfedge.face P2.dcel second = some f := by
    rw [Halfedge.face_eq_component_face _ _ _ hss, hssc]
    exact hcf2
  have hlive2 : (P2.dcel.faces.get f).isSome := by rw [j10, k10]; exact hlive
  have hlen : (arr.dcel.vertices.map Option.isSome).length = arr.dcel.vertices.length :=
    List.length_map _ _
  -- the removal, from the stages of `_remove_edge`
  have core : ∀ (A F : Arrangement_2 Point Curve) (g he1 he2 pa pb : Nat) (rs rt : Bool)
      (x : Nat) (fx ft : Nat), P2.dcel.halfedges.length ≤ he1 →
      P2.dcel.halfedges.length ≤ he2 → Halfedge.twin A.dcel x = some ft →
      Halfedge.face A.dcel x = some fx → Halfedge.face A.dcel ft ≠ some fx →
      A._remove_edge x rs rt
        = some ((F._remove_edge_end_vertex (arr.dcel.vertices.length + 1) he1 pa g false
            rt)._remove_edge_end_vertex arr.dcel.vertices.length he2 pb g false rs, g) →
      F.n_inf_verts = P2.n_inf_verts → F.dcel.vertices = P2.dcel.vertices → F.dcel.Linked →
      F.dcel.faces.size = P2.dcel.faces.size → F.dcel.same_links P2.dcel →
      ∀ b : Bool, ∃ a2 g, A.remove_edge b x rs rt = some (a2, g) ∧
        a2.n_inf_verts = arr.n_inf_verts ∧
        a2.dcel.vertices.size = arr.dcel.vertices.size ∧
        a2.dcel.halfedges.size = arr.dcel.halfedges.size ∧
        a2.dcel.faces.size = arr.dcel.faces.size := by
    intro A F g he1 he2 pa pb rs rt x fx ft l1 l2 htw hfx hft hrem y1 y2 y3 y4 y5 b
    rw [Arrangement_2.remove_edge_other_face A x ft htw (by rw [hfx]; exact Ne.symm hft),
      hrem]
    have hV2 : F.dcel.vertices.get (arr.dcel.vertices.length + 1)
        = some ⟨none, ix2, iy2, .halfedge (some second)⟩ := by rw [y2]; exact j6
    have hn1 : he1 ≠ second := by omega
    have hn2 : he2 ≠ e1 := by omega
    obtain ⟨z1, z2, z3, z4, z5⟩ := Arrangement_2.remove_edge_end_vertex_merge P1.dcel k2
      second (arr.dcel.vertices.length + 1) t1.comp t2.comp ht1 ht2 F y3 (y5.trans j3) _
      hV2 rfl rfl he1 pa g hn1 rt
    have hV1 : (F._remove_edge_end_vertex (arr.dcel.vertices.length + 1) he1 pa g false
        rt).dcel.vertices.get arr.dcel.vertices.length
        = some ⟨none, ix1, iy1, .halfedge (some e1)⟩ := by
      rw [z4, Arena.get_free, if_neg (by omega), Arena.get_modify, y2, hV]
      rcases hfp with ⟨q1, q2, q3⟩ | ⟨q1, q2⟩
      · rw [if_pos q2, q1, q3]
        simp
      · have hne2 : (Vertex_incidence.halfedge (some fp))
            ≠ .halfedge (some P1.dcel.halfedges.length) := by
          intro hc
          injection hc with hc
          have := Option.some.inj hc
          omega
        split_ifs
        · simp only [Option.map_some']
          rw [if_neg hne2, q1]
        · simp only [Option.map_some', id_eq, q1]
    obtain ⟨w1, w2, w3, w4, w5⟩ := Arrangement_2.remove_edge_end_vertex_merge arr.dcel hl
      e1 arr.dcel.vertices.length r1.comp r2.comp h1 h2 _ z2 (z1.trans k3) _ hV1 rfl rfl he2
      pb g hn2 rs
    refine ⟨_, g, rfl, ?_, ?_, w1.size, ?_⟩
    · rw [w3, z3, y1, j12, k12]
      rfl
    · rw [Arena.size_eq_count, w4, Arena.shape_free, Arena.shape_modify, z4,
        Arena.shape_free, Arena.shape_modify, y2, j8, k8, Arena.size_eq_count, ← hlen]
      exact Arena.count_set_append_two
    · rw [Arena.size_eq_count, w5, z5, ← Arena.size_eq_count, y4, j10, k10]
  suffices main : ∃ (a1 : Arrangement_2 Point Curve) (m : Nat),
      P2.insert_at_vertices p1i true hi vi cv fp second = some (a1, m) ∧
      ∀ (b rs rt : Bool), ∃ a2 g, a1.remove_edge b m rs rt = some (a2, g) ∧
        a2.n_inf_verts = arr.n_inf_verts ∧
        a2.dcel.vertices.size = arr.dcel.vertices.size ∧
        a2.dcel.halfedges.size = arr.dcel.halfedges.size ∧
        a2.dcel.faces.size = arr.dcel.faces.size by
    obtain ⟨a1, m, x, y⟩ := main
    exact ⟨P1, P2, a1, fp, m, k1, k13, j1, hinc, x, y⟩
  unfold Arrangement_2.insert_at_vertices
  cases p1i
  · simp only [Bool.false_eq_true, if_false]
    have hsome := Arrangement_2.insert_at_vertices_isSome P2 cv second fp f ss sf hss hsf hfs
      true (Or.inl (hssc.trans hsfc.symm))
    obtain ⟨⟨a0, e0, nfl⟩, hr⟩ := Option.isSome_iff_exists.mp hsome
    obtain ⟨n1, n2, n3, n4, n5, ⟨c, n6⟩, u1, u2, f1, f2, g0, g1', o1, o2, x1, x2, w1, w2, c1',
      c2', n7⟩ := Arrangement_2.insert_at_vertices_facts P2 j2 cv second fp f f ss sf hss hsf
        hfs hff hlive2 true hi vi a0 e0 nfl hr
    obtain ⟨m1, m2, m3, m4, -, m6⟩ := Arrangement_2.remove_new_edge_stages P2
      (if nfl then a0._relocate_in_new_face hi vi e0 else a0) j2 n2 second fp ss.vertex
      sf.vertex (some cv) c (by rw [hss]; rfl) (by rw [hsf]; rfl) n6 u1 u2 f1 f2 sf.vertex
      ss.vertex g0 g1' o1 o2 x1 x2 w1 w2 c1' c2' n3 n4 n5 (by
        rcases n7 with ⟨-, q1, q2⟩ | ⟨-, q1, q2, q3, q4, q5⟩
        · exact Or.inl ⟨q1, q2⟩
        · exact Or.inr ⟨q1, q2, q3, q4, q5⟩)
    have hdiff : f1 ≠ f2 := by
      rcases n7 with ⟨q0, -, -⟩ | ⟨-, q1, -⟩
      · exact absurd (hssc.trans hsfc.symm) q0
      · exact q1
    rw [hr]
    refine ⟨_, _, rfl, ?_⟩
    intro b rs rt
    obtain ⟨F, g, pa, pb, q1, q2, q3, q4, q5, q6, q7⟩ := m6 rs rt
    rw [hssv, hsfv] at q1
    subst n1
    dsimp only
    exact core _ F g _ _ pa pb rs rt _ f2 _ (by omega) (by omega) m2 m4
      (by rw [m3]; intro hc; exact hdiff (Option.some.inj hc)) q1 q2 q3 q4 q6
      (q7 (Ne.symm hne)) b
  · simp only [if_true]
    have hsome := Arrangement_2.insert_at_vertices_isSome P2 cv fp second f sf ss hsf hss hff
      true (Or.inl (hsfc.trans hssc.symm))
    obtain ⟨⟨a0, e0, nfl⟩, hr⟩ := Option.isSome_iff_exists.mp hsome
    obtain ⟨n1, n2, n3, n4, n5, ⟨c, n6⟩, u1, u2, f1, f2, g0, g1', o1, o2, x1, x2, w1, w2, c1',
      c2', n7⟩ := Arrangement_2.insert_at_vertices_facts P2 j2 cv fp second f f sf ss hsf hss
        hff hfs hlive2 true hi vi a0 e0 nfl hr
    obtain ⟨m1, m2, m3, m4, m5, -⟩ := Arrangement_2.remove_new_edge_stages P2
      (if nfl then a0._relocate_in_new_face hi vi e0 else a0) j2 n2 fp second sf.vertex
      ss.vertex (some cv) c (by rw [hsf]; rfl) (by rw [hss]; rfl) n6 u1 u2 f1 f2 ss.vertex
      sf.vertex g0 g1' o1 o2 x1 x2 w1 w2 c1' c2' n3 n4 n5 (by
        rcases n7 with ⟨-, q1, q2⟩ | ⟨-, q1, q2, q3, q4, q5⟩
        · exact Or.inl ⟨q1, q2⟩
        · exact Or.inr ⟨q1, q2, q3, q4, q5⟩)
    have hdiff : f1 ≠ f2 := by
      rcases n7 with ⟨q0, -, -⟩ | ⟨-, q1, -⟩
      · exact absurd (hsfc.trans hssc.symm) q0
      · exact q1
    rw [hr]
    refine ⟨_, _, rfl, ?_⟩
    intro b rs rt
    obtain ⟨F, g, pa, pb, q1, q2, q3, q4, q5, q6, q7⟩ := m5 rs rt
    rw [hssv, hsfv] at q1
    subst n1
    dsimp only
    exact core _ F g _ _ pa pb rs rt _ f1 _ (by omega) (by omega) m1 m3
      (by rw [m4]; intro hc; exact hdiff (Option.some.inj hc).symm) q1 q2 q3 q4 q6
      (q7 hne) b

/-! ## Insertion followed by removal: the overloads without unbounded ends -/

/-- The removal through `remove_edge` when both sides of the edge bound the same face:
with `fs` the flag of the source of the first half of the pair and `ft` the flag of its
target, the removal through either half comes down to `_remove_edge` through one of the
two, with the flags at the same vertices. -/
theorem Arrangement_2.remove_edge_flags {Point Curve : Type}
    (a1 : Arrangement_2 Point Curve) (n : Nat) (Q : Arrangement_2 Point Curve → Prop)
    (t1 : Halfedge.twin a1.dcel n = some (n + 1))
    (t2 : Halfedge.twin a1.dcel (n + 1) = some n)
    (hf : Halfedge.face a1.dcel n = Halfedge.face a1.dcel (n + 1)) (fs ft : Bool)
    (H0 : ∃ a2 g, a1._remove_edge n fs ft = some (a2, g) ∧ Q a2)
    (H1 : ∃ a2 g, a1._remove_edge (n + 1) ft fs = some (a2, g) ∧ Q a2) (b : Bool) :
    (∃ a2 g, a1.remove_edge b n fs ft = some (a2, g) ∧ Q a2) ∧
    (∃ a2 g, a1.remove_edge b (n + 1) ft fs = some (a2, g) ∧ Q a2) := by
  rw [Arrangement_2.remove_edge_same_face a1 n (n + 1) t1 hf,
    Arrangement_2.remove_edge_same_face a1 (n + 1) n t2 hf.symm]
  cases b
  · exact ⟨H1, H0⟩
  · exact ⟨H0, H1⟩

/-- An isolated vertex taken out of its face: `_remove_isolated_vertex` returns the face,
and no vertex, halfedge, face or hole record is created or deleted; another isolated
vertex, with another isolated-vertex record, stays an isolated vertex of its face. -/
theorem Arrangement_2.remove_isolated_vertex_facts {Point Curve : Type}
    (arr : Arrangement_2 Point Curve) (v f : Nat) (hv : Vertex.face arr.dcel v = some f) :
    ∃ s : Arrangement_2 Point Curve, arr._remove_isolated_vertex v = some (s, f) ∧
      (∃ rv, arr.dcel.vertices.get v = some rv ∧ rv.is_isolated = true) ∧
      s.n_inf_verts = arr.n_inf_verts ∧ s.dcel.vertices = arr.dcel.vertices ∧
      s.dcel.halfedges = arr.dcel.halfedges ∧
      s.dcel.faces.map Option.isSome = arr.dcel.faces.map Option.isSome ∧
      s.dcel.holes = arr.dcel.holes ∧
      ∀ w g, (arr.dcel.vertices.get w).map (fun r => r.inc)
          ≠ (arr.dcel.vertices.get v).map (fun r => r.inc) →
        Vertex.face arr.dcel w = some g → Vertex.face s.dcel w = some g := by
  unfold Vertex.face at hv
  cases h1 : arr.dcel.vertices.get v with
  | none => simp [h1] at hv
  | some r =>
    cases h2 : r.inc with
    | halfedge x => simp [h1, h2] at hv
    | isolated iv =>
      cases h3 : arr.dcel.iso_verts.get iv with
      | none => simp [h1, h2, h3] at hv
      | some y =>
        simp only [h1, h2, h3, Option.some_bind, Option.map_some', Option.some.injEq] at hv
        simp only [Arrangement_2._remove_isolated_vertex, h1, h2, h3, Option.some_bind,
          Option.map_some', hv]
        refine ⟨_, rfl, ⟨r, rfl, by simp [DVertex.is_isolated, h2]⟩, rfl, rfl, rfl, ?_, rfl,
          ?_⟩
        · simp only [Arena.shape_modify]
        · intro w g hw hg
          unfold Vertex.face at hg ⊢
          cases h4 : arr.dcel.vertices.get w with
          | none => simp [h4] at hg
          | some rw =>
            cases h5 : rw.inc with
            | halfedge x => simp [h4, h5] at hg
            | isolated iw =>
              have hne : iw ≠ iv := by
                intro hc
                apply hw
                simp [h4, h5, h2, hc]
              simp only [h4, h5, Option.some_bind] at hg
              simp only [h4, h5, Option.some_bind, Arena.get_free, if_neg hne]
              exact hg

/-- The pair of `insert_in_face_interior (cv, f)` and `remove_edge` with both flags
on. -/
theorem Arrangement_2.insert_curve_round_trip {Point Curve : Type}
    (arr : Arrangement_2 Point Curve) (hl : arr.dcel.Linked) (left right : Curve → Point)
    (cv : Curve) (f : Nat) (b : Bool) :
    ∃ a2 g, (arr.insert_curve_in_face_interior left right cv f).1.remove_edge b
        (arr.insert_curve_in_face_interior left right cv f).2 true true = some (a2, g) ∧
      a2.n_inf_verts = arr.n_inf_verts ∧
      a2.dcel.vertices.size = arr.dcel.vertices.size ∧
      a2.dcel.halfedges.size = arr.dcel.halfedges.size ∧
      a2.dcel.faces.size = arr.dcel.faces.size := by
  obtain ⟨i1, i2, i3, i4, i5, i6, i7⟩ := Arrangement_2.insert_in_face_then_remove
    ((arr._create_vertex (left cv)).1._create_vertex (right cv)).1
    (Dcel.linked_of_halfedges_eq hl rfl) cv f (arr._create_vertex (left cv)).2
    ((arr._create_vertex (left cv)).1._create_vertex (right cv)).2
  have hlen : (arr.dcel.vertices.map Option.isSome).length = arr.dcel.vertices.length :=
    List.length_map _ _
  have sv : ((arr._create_vertex (left cv)).1._create_vertex (right cv)).1.dcel.vertices.map
      Option.isSome = arr.dcel.vertices.map Option.isSome ++ [true] ++ [true] := by
    simp only [Arrangement_2._create_vertex, Arena.shape_alloc]
  have v1 : (arr._create_vertex (left cv)).2 = (arr.dcel.vertices.map Option.isSome).length :=
    hlen.symm
  have v2 : ((arr._create_vertex (left cv)).1._create_vertex (right cv)).2
      = (arr.dcel.vertices.map Option.isSome).length + 1 := by
    rw [hlen]
    simp [Arrangement_2._create_vertex, Arena.length_alloc]
  refine (Arrangement_2.remove_edge_flags _ _
    (fun a2 => a2.n_inf_verts = arr.n_inf_verts ∧
      a2.dcel.vertices.size = arr.dcel.vertices.size ∧
      a2.dcel.halfedges.size = arr.dcel.halfedges.size ∧
      a2.dcel.faces.size = arr.dcel.faces.size) i2 i3 (i4.trans i5.symm) true true ?_ ?_
    b).1
  · obtain ⟨a2, g, e1, e2, e3, e4, e5⟩ := i6 true true
    refine ⟨a2, g, e1, e2, ?_, e3, ?_⟩
    · rw [Arena.size_eq_count, e5, sv, v1, v2, Arena.size_eq_count]
      exact Arena.count_set_append_two
    · rw [Arena.size_eq_count, e4, ← Arena.size_eq_count]
      rfl
  · obtain ⟨a2, g, e1, e2, e3, e4, e5⟩ := i7 true true
    refine ⟨a2, g, e1, e2, ?_, e3, ?_⟩
    · rw [Arena.size_eq_count, e5, sv, v1, v2, Arena.size_eq_count]
      exact Arena.count_set_append_two_rev
    · rw [Arena.size_eq_count, e4, ← Arena.size_eq_count]
      rfl

/-- The pair of the insertion of a curve from the target of `prev`, not a vertex at
infinity, to a new vertex for the point `p`, and `remove_edge` with the flag of the
target on. -/
theorem Arrangement_2.insert_from_vertex_round_trip {Point Curve : Type}
    (arr : Arrangement_2 Point Curve) (hl : arr.dcel.Linked) (p : Point) (cv : Curve)
    (prev f : Nat) (hf : Halfedge.face arr.dcel prev = some f)
    (hfin : (Halfedge.target arr.dcel prev).bind (Vertex.is_at_infinity arr.dcel)
      = some false) (b rs : Bool) :
    ∃ a1 e a2 g, (arr._create_vertex p).1._insert_from_vertex cv prev (arr._create_vertex p).2
        = some (a1, e) ∧
      a1.remove_edge b e rs true = some (a2, g) ∧
      a2.n_inf_verts = arr.n_inf_verts ∧
      a2.dcel.vertices.size = arr.dcel.vertices.size ∧
      a2.dcel.halfedges.size = arr.dcel.halfedges.size ∧
      a2.dcel.faces.size = arr.dcel.faces.size := by
  obtain ⟨rp, hp⟩ : ∃ rp, arr.dcel.halfedges.get prev = some rp := by
    cases hr : arr.dcel.halfedges.get prev with
    | none => simp [Halfedge.face, hr] at hf
    | some r => exact ⟨r, rfl⟩
  have hfin1 : Vertex.is_at_infinity (arr._create_vertex p).1.dcel rp.vertex ≠ some true := by
    simp only [Halfedge.target, hp, Option.map_some', Option.some_bind] at hfin
    have hlt : rp.vertex ≠ arr.dcel.vertices.length := by
      intro hc
      rw [hc] at hfin
      unfold Vertex.is_at_infinity at hfin
      rw [Arena.get_eq_none_of_le _ _ (le_refl _)] at hfin
      cases hfin
    unfold Vertex.is_at_infinity at hfin ⊢
    show Option.map _ ((arr.dcel.vertices.alloc _).get _) ≠ _
    rw [Arena.get_alloc, if_neg hlt, hfin]
    simp
  obtain ⟨a1, i1, i2, i3, i4, i5, i6, i7⟩ := Arrangement_2.insert_from_vertex_then_remove
    (arr._create_vertex p).1 (Dcel.linked_of_halfedges_eq hl rfl) cv prev f
    (arr._create_vertex p).2 rp hp hf hfin1
  have hlen : (arr.dcel.vertices.map Option.isSome).length = arr.dcel.vertices.length :=
    List.length_map _ _
  have sv : (arr._create_vertex p).1.dcel.vertices.map Option.isSome
      = arr.dcel.vertices.map Option.isSome ++ [true] := Arena.shape_alloc _ _
  have v1 : (arr._create_vertex p).2 = (arr.dcel.vertices.map Option.isSome).length :=
    hlen.symm
  have H0 : ∃ a2 g, a1._remove_edge (arr._create_vertex p).1.dcel.halfedges.length rs true
        = some (a2, g) ∧ a2.n_inf_verts = arr.n_inf_verts ∧
      a2.dcel.vertices.size = arr.dcel.vertices.size ∧
      a2.dcel.halfedges.size = arr.dcel.halfedges.size ∧
      a2.dcel.faces.size = arr.dcel.faces.size := by
    obtain ⟨a2, g, e1, e2, e3, e4, e5⟩ := i6 rs true
    refine ⟨a2, g, e1, e2, ?_, e3, ?_⟩
    · rw [Arena.size_eq_count, e5, if_pos rfl, sv, v1, Arena.size_eq_count]
      exact Arena.count_set_append
    · rw [Arena.size_eq_count, e4, ← Arena.size_eq_count]
      rfl
  have H1 : ∃ a2 g, a1._remove_edge ((arr._create_vertex p).1.dcel.halfedges.length + 1)
        true rs = some (a2, g) ∧ a2.n_inf_verts = arr.n_inf_verts ∧
      a2.dcel.vertices.size = arr.dcel.vertices.size ∧
      a2.dcel.halfedges.size = arr.dcel.halfedges.size ∧
      a2.dcel.faces.size = arr.dcel.faces.size := by
    obtain ⟨a2, g, e1, e2, e3, e4, e5⟩ := i7 true rs
    refine ⟨a2, g, e1, e2, ?_, e3, ?_⟩
    · rw [Arena.size_eq_count, e5, if_pos rfl, sv, v1, Arena.size_eq_count]
      exact Arena.count_set_append
    · rw [Arena.size_eq_count, e4, ← Arena.size_eq_count]
      rfl
  obtain ⟨a2, g, h⟩ := (Arrangement_2.remove_edge_flags a1 _
    (fun a2 => a2.n_inf_verts = arr.n_inf_verts ∧
      a2.dcel.vertices.size = arr.dcel.vertices.size ∧
      a2.dcel.halfedges.size = arr.dcel.halfedges.size ∧
      a2.dcel.faces.size = arr.dcel.faces.size) i2 i3 (i4.trans i5.symm) rs true H0 H1 b).1
  exact ⟨a1, _, a2, g, i1, h⟩

/-! ## Insertion followed by removal: curves at isolated vertices -/

/-- The pair of the insertion of a curve from the target of `prev`, not a vertex at
infinity, to an isolated vertex `v` that has left its face, and `remove_edge` with the
flag of `v` off: the vertex becomes an isolated vertex again. -/
theorem Arrangement_2.insert_to_isolated_round_trip {Point Curve : Type}
    (arr s : Arrangement_2 Point Curve) (hl : arr.dcel.Linked)
    (e1 : s.n_inf_verts = arr.n_inf_verts) (e2 : s.dcel.vertices = arr.dcel.vertices)
    (e3 : s.dcel.halfedges = arr.dcel.halfedges)
    (e4 : s.dcel.faces.map Option.isSome = arr.dcel.faces.map Option.isSome)
    (e5 : s.dcel.holes = arr.dcel.holes) (cv : Curve)
    (prev f v : Nat) (hf : Halfedge.face arr.dcel prev = some f)
    (hfin : (Halfedge.target arr.dcel prev).bind (Vertex.is_at_infinity arr.dcel)
      = some false) (b rs : Bool) :
    ∃ a1, s._insert_from_vertex cv prev v = some (a1, arr.dcel.halfedges.length) ∧
      (∃ a2 g, a1.remove_edge b arr.dcel.halfedges.length rs false = some (a2, g) ∧
        a2.n_inf_verts = arr.n_inf_verts ∧
        a2.dcel.vertices.size = arr.dcel.vertices.size ∧
        a2.dcel.halfedges.size = arr.dcel.halfedges.size ∧
        a2.dcel.faces.size = arr.dcel.faces.size) ∧
      (∃ a2 g, a1.remove_edge b (arr.dcel.halfedges.length + 1) false rs = some (a2, g) ∧
        a2.n_inf_verts = arr.n_inf_verts ∧
        a2.dcel.vertices.size = arr.dcel.vertices.size ∧
        a2.dcel.halfedges.size = arr.dcel.halfedges.size ∧
        a2.dcel.faces.size = arr.dcel.faces.size) := by
  obtain ⟨rp, hp⟩ : ∃ rp, arr.dcel.halfedges.get prev = some rp := by
    cases hr : arr.dcel.halfedges.get prev with
    | none => simp [Halfedge.face, hr] at hf
    | some r => exact ⟨r, rfl⟩
  have hfin1 : Vertex.is_at_infinity s.dcel rp.vertex ≠ some true := by
    simp only [Halfedge.target, hp, Option.map_some', Option.some_bind] at hfin
    rw [Vertex.is_at_infinity_congr e2, hfin]
    simp
  have hfs : Halfedge.face s.dcel prev = some f := by
    rw [← hf]
    exact Halfedge.face_congr_comp prev (by rw [e3]) e5
  obtain ⟨a1, i1, i2, i3, i4, i5, i6, i7⟩ := Arrangement_2.insert_from_vertex_then_remove
    s (Dcel.linked_of_halfedges_eq hl e3) cv prev f v rp (by rw [e3]; exact hp) hfs hfin1
  rw [e3] at i1 i2 i3 i4 i5 i6 i7
  have H0 : ∃ a2 g, a1._remove_edge arr.dcel.halfedges.length rs false
        = some (a2, g) ∧ a2.n_inf_verts = arr.n_inf_verts ∧
      a2.dcel.vertices.size = arr.dcel.vertices.size ∧
      a2.dcel.halfedges.size = arr.dcel.halfedges.size ∧
      a2.dcel.faces.size = arr.dcel.faces.size := by
    obtain ⟨a2, g, k1, k2, k3, k4, k5⟩ := i6 rs false
    refine ⟨a2, g, k1, k2.trans e1, ?_, k3, ?_⟩
    · rw [Arena.size_eq_count, k5, if_neg (by simp), ← Arena.size_eq_count, e2]
    · rw [Arena.size_eq_count, k4, e4, ← Arena.size_eq_count]
  have H1 : ∃ a2 g, a1._remove_edge (arr.dcel.halfedges.length + 1) false rs
        = some (a2, g) ∧ a2.n_inf_verts = arr.n_inf_verts ∧
      a2.dcel.vertices.size = arr.dcel.vertices.size ∧
      a2.dcel.halfedges.size = arr.dcel.halfedges.size ∧
      a2.dcel.faces.size = arr.dcel.faces.size := by
    obtain ⟨a2, g, k1, k2, k3, k4, k5⟩ := i7 false rs
    refine ⟨a2, g, k1, k2.trans e1, ?_, k3, ?_⟩
    · rw [Arena.size_eq_count, k5, if_neg (by simp), ← Arena.size_eq_count, e2]
    · rw [Arena.size_eq_count, k4, e4, ← Arena.size_eq_count]
  exact ⟨a1, i1, Arrangement_2.remove_edge_flags a1 _
    (fun a2 => a2.n_inf_verts = arr.n_inf_verts ∧
      a2.dcel.vertices.size = arr.dcel.vertices.size ∧
      a2.dcel.halfedges.size = arr.dcel.halfedges.size ∧
      a2.dcel.faces.size = arr.dcel.faces.size) i2 i3 (i4.trans i5.symm) rs false H0 H1 b⟩

/-- The pair of the insertion of a curve as a new hole between two vertices of a state
`S` that has the records of `arr` and perhaps new vertices, and `remove_edge` with the
flags `fa` of the first and `fb` of the second vertex. -/
theorem Arrangement_2.insert_in_face_round_trip {Point Curve : Type}
    (arr S : Arrangement_2 Point Curve) (hl : arr.dcel.Linked)
    (e1 : S.n_inf_verts = arr.n_inf_verts)
    (e3 : S.dcel.halfedges = arr.dcel.halfedges)
    (e4 : S.dcel.faces.map Option.isSome = arr.dcel.faces.map Option.isSome)
    (cv : Curve) (f v1 v2 : Nat) (fa fb : Bool)
    (c1 : ((if fa then
            (if fb then (S.dcel.vertices.map Option.isSome).set v2 false
              else S.dcel.vertices.map Option.isSome).set v1 false
          else
            (if fb then (S.dcel.vertices.map Option.isSome).set v2 false
              else S.dcel.vertices.map Option.isSome))).count true = arr.dcel.vertices.size)
    (c2 : ((if fb then
            (if fa then (S.dcel.vertices.map Option.isSome).set v1 false
              else S.dcel.vertices.map Option.isSome).set v2 false
          else
            (if fa then (S.dcel.vertices.map Option.isSome).set v1 false
              else S.dcel.vertices.map Option.isSome))).count true = arr.dcel.vertices.size)
    (b : Bool) :
    (S._insert_in_face_interior cv f v1 v2).2 = arr.dcel.halfedges.length ∧
    (∃ a2 g, (S._insert_in_face_interior cv f v1 v2).1.remove_edge b
        arr.dcel.halfedges.length fa fb = some (a2, g) ∧
      a2.n_inf_verts = arr.n_inf_verts ∧
      a2.dcel.vertices.size = arr.dcel.vertices.size ∧
      a2.dcel.halfedges.size = arr.dcel.halfedges.size ∧
      a2.dcel.faces.size = arr.dcel.faces.size) ∧
    (∃ a2 g, (S._insert_in_face_interior cv f v1 v2).1.remove_edge b
        (arr.dcel.halfedges.length + 1) fb fa = some (a2, g) ∧
      a2.n_inf_verts = arr.n_inf_verts ∧
      a2.dcel.vertices.size = arr.dcel.vertices.size ∧
      a2.dcel.halfedges.size = arr.dcel.halfedges.size ∧
      a2.dcel.faces.size = arr.dcel.faces.size) := by
  obtain ⟨i1, i2, i3, i4, i5, i6, i7⟩ := Arrangement_2.insert_in_face_then_remove S
    (Dcel.linked_of_halfedges_eq hl e3) cv f v1 v2
  rw [e3] at i1 i2 i3 i4 i5 i6 i7
  have H0 : ∃ a2 g, (S._insert_in_face_interior cv f v1 v2).1._remove_edge
        arr.dcel.halfedges.length fa fb
        = some (a2, g) ∧ a2.n_inf_verts = arr.n_inf_verts ∧
      a2.dcel.vertices.size = arr.dcel.vertices.size ∧
      a2.dcel.halfedges.size = arr.dcel.halfedges.size ∧
      a2.dcel.faces.size = arr.dcel.faces.size := by
    obtain ⟨a2, g, k1, k2, k3, k4, k5⟩ := i6 fa fb
    refine ⟨a2, g, k1, k2.trans e1, ?_, k3, ?_⟩
    · rw [Arena.size_eq_count, k5]
      exact c1
    · rw [Arena.size_eq_count, k4, e4, ← Arena.size_eq_count]
  have H1 : ∃ a2 g, (S._insert_in_face_interior cv f v1 v2).1._remove_edge
        (arr.dcel.halfedges.length + 1) fb fa
        = some (a2, g) ∧ a2.n_inf_verts = arr.n_inf_verts ∧
      a2.dcel.vertices.size = arr.dcel.vertices.size ∧
      a2.dcel.halfedges.size = arr.dcel.halfedges.size ∧
      a2.dcel.faces.size = arr.dcel.faces.size := by
    obtain ⟨a2, g, k1, k2, k3, k4, k5⟩ := i7 fb fa
    refine ⟨a2, g, k1, k2.trans e1, ?_, k3, ?_⟩
    · rw [Arena.size_eq_count, k5]
      exact c2
    · rw [Arena.size_eq_count, k4, e4, ← Arena.size_eq_count]
  exact ⟨i1, Arrangement_2.remove_edge_flags _ _
    (fun a2 => a2.n_inf_verts = arr.n_inf_verts ∧
      a2.dcel.vertices.size = arr.dcel.vertices.size ∧
      a2.dcel.halfedges.size = arr.dcel.halfedges.size ∧
      a2.dcel.faces.size = arr.dcel.faces.size) i2 i3 (i4.trans i5.symm) fa fb H0 H1 b⟩

/-! ## The states after the insertions and removals -/

theorem Arena.size_le_length {α : Type} (s : Arena α) : s.size ≤ s.length := by
  rw [← Arena.card_live]
  exact (Finset.card_filter_le _ _).trans (by simp)

/-- The walk that sets the reference of a boundary cycle is complete: in a linked store,
started at a live halfedge with as much fuel as there are halfedge slots, it sets the
reference of every halfedge of the cycle of `start` under `next`, and of no other. -/
theorem Dcel.set_component_cycle_complete {Point Curve : Type} (d : Dcel Point Curve)
    (hd : d.Linked) (c : Halfedge_component) (start : Nat)
    (hs : (d.halfedges.get start).isSome) (fuel : Nat) (hf : d.halfedges.length ≤ fuel) :
    (∀ k r, d.halfedges.get ((next_or_self d)^[k] start) = some r →
      (Dcel.set_component_cycle c start fuel start d).halfedges.get
        ((next_or_self d)^[k] start) = some { r with comp := c }) ∧
    (∀ x, (∀ k, (next_or_self d)^[k] start ≠ x) →
      (Dcel.set_component_cycle c start fuel start d).halfedges.get x
        = d.halfedges.get x) := by
  obtain ⟨n0, hn0, hle0, hper0⟩ := exists_next_period hd start hs
  have hex : ∃ n, 0 < n ∧ (next_or_self d)^[n] start = start := ⟨n0, hn0, hper0⟩
  have hfind := Nat.find_spec hex
  have hmin : ∀ j, 0 < j → j < Nat.find hex → (next_or_self d)^[j] start ≠ start :=
    fun j h1 h2 h3 => Nat.find_min hex h2 ⟨h1, h3⟩
  have hnle : Nat.find hex ≤ fuel := by
    have h1 : Nat.find hex ≤ n0 := Nat.find_min' hex ⟨hn0, hper0⟩
    have h2 := Arena.size_le_length d.halfedges
    unfold Dcel.size_of_halfedges at hle0
    omega
  have hall : ∀ i : Nat, (d.halfedges.get ((next_or_self d)^[i] start)).isSome :=
    fun i => (walk_next_eq_iterate hd start hs i).2
  -- the walk from the j-th halfedge of the cycle
  have inner : ∀ m j, j + m = Nat.find hex → 0 < m → ∀ fuel, m ≤ fuel →
      ∀ d1 : Dcel Point Curve,
      (∀ x, d1.halfedges.get x = (d.halfedges.get x).map (fun r =>
        if ∃ i, i < j ∧ (next_or_self d)^[i] start = x then { r with comp := c } else r)) →
      ∀ x, (Dcel.set_component_cycle c start fuel ((next_or_self d)^[j] start)
          d1).halfedges.get x
        = (d.halfedges.get x).map (fun r =>
          if ∃ i, i < Nat.find hex ∧ (next_or_self d)^[i] start = x
          then { r with comp := c } else r) := by
    intro m
    induction m with
    | zero => intro j _ h; omega
    | succ m ih =>
      intro j hj _ fuel hfuel d1 h1 x
      obtain ⟨fuel, rfl⟩ : ∃ f, fuel = f + 1 := ⟨fuel - 1, by omega⟩
      obtain ⟨r, hr⟩ := Option.isSome_iff_exists.mp (hall j)
      have hnext : Halfedge.next d1 ((next_or_self d)^[j] start)
          = some ((next_or_self d)^[j + 1] start) := by
        rw [Function.iterate_succ_apply']
        simp only [Halfedge.next, h1, hr, Option.map_some', next_or_self, Option.getD_some]
        split_ifs <;> rfl
      have hstep : ∀ y, (d1.set_component ((next_or_self d)^[j] start) c).halfedges.get y
          = (d.halfedges.get y).map (fun r =>
            if ∃ i, i < j + 1 ∧ (next_or_self d)^[i] start = y
            then { r with comp := c } else r) := by
        intro y
        rw [Dcel.get_set_component, h1]
        cases d.halfedges.get y with
        | none => rfl
        | some t =>
          simp only [Option.map_some', Option.some.injEq]
          by_cases hy : y = (next_or_self d)^[j] start
          · have e1 : ∃ i, i < j + 1 ∧ (next_or_self d)^[i] start = y :=
              ⟨j, by omega, hy.symm⟩
            rw [if_pos hy, if_pos e1]
            split_ifs <;> rfl
          · rw [if_neg hy]
            by_cases e0 : ∃ i, i < j ∧ (next_or_self d)^[i] start = y
            · obtain ⟨i, hi, hiy⟩ := e0
              rw [if_pos ⟨i, hi, hiy⟩, if_pos ⟨i, by omega, hiy⟩]
            · have e1 : ¬ ∃ i, i < j + 1 ∧ (next_or_self d)^[i] start = y := by
                rintro ⟨i, hi, hiy⟩
                by_cases hij : i = j
                · subst hij; exact hy hiy.symm
                · exact e0 ⟨i, by omega, hiy⟩
              rw [if_neg e0, if_neg e1]
      unfold Dcel.set_component_cycle
      rw [hnext]
      simp only
      by_cases hend : (next_or_self d)^[j + 1] start = start
      · rw [if_pos hend]
        have hjn : j + 1 = Nat.find hex := by
          by_contra hne
          exact hmin (j + 1) (by omega) (by omega) hend
        rw [hstep x, hjn]
      · rw [if_neg hend]
        have hjn : j + 1 ≠ Nat.find hex := by
          intro h
          rw [h] at hend
          exact hend hfind.2
        exact ih (j + 1) (by omega) (by omega) fuel (by omega) _ hstep x
  have key := inner (Nat.find hex) 0 (by omega) hfind.1 fuel hnle d (by
    intro x
    cases d.halfedges.get x with
    | none => rfl
    | some t => simp)
  simp only [Function.iterate_zero, id] at key
  constructor
  · intro k r hr
    rw [key, hr]
    have hmod : ∃ i, i < Nat.find hex ∧ (next_or_self d)^[i] start
        = (next_or_self d)^[k] start := by
      refine ⟨k % Nat.find hex, Nat.mod_lt _ hfind.1, ?_⟩
      have hper : ∀ q, (next_or_self d)^[Nat.find hex * q] start = start := by
        intro q
        induction q with
        | zero => rfl
        | succ q ihq =>
          rw [Nat.mul_succ, Function.iterate_add_apply, hfind.2, ihq]
      conv_rhs => rw [← Nat.mod_add_div k (Nat.find hex)]
      rw [Function.iterate_add_apply, hper]
    simp only [Option.map_some', if_pos hmod]
  · intro x hx
    rw [key]
    have hno : ¬ ∃ i, i < Nat.find hex ∧ (next_or_self d)^[i] start = x := by
      rintro ⟨i, -, hi⟩
      exact hx i hi
    cases d.halfedges.get x with
    | none => rfl
    | some t => simp only [Option.map_some', if_neg hno]

theorem Dcel.reachable_set_component_cycle {Point Curve : Type} (c : Halfedge_component)
    (start : Nat) (fuel cur : Nat) (d : Dcel Point Curve) (hd : d.Reachable) :
    (Dcel.set_component_cycle c start fuel cur d).Reachable := by
  induction fuel generalizing cur d with
  | zero => exact hd
  | succ fuel ih =>
    unfold Dcel.set_component_cycle
    split
    · split_ifs
      · exact Dcel.Reachable.set_component _ _ _ hd
      · exact ih _ _ (Dcel.Reachable.set_component _ _ _ hd)
    · exact hd

theorem Dcel.reachable_unlink_edge {Point Curve : Type} (d : Dcel Point Curve)
    (he1 he2 : Nat) (hd : d.Reachable) : (d.unlink_edge he1 he2).Reachable :=
  Dcel.Reachable.delete_edge _ _ (Dcel.Reachable.splice _ _ _ (Dcel.Reachable.splice _ _ _ hd))

theorem Arrangement_2.reachable_remove_edge_faces {Point Curve : Type}
    (arr : Arrangement_2 Point Curve) (he1 : Nat) (r1 r2 : DHalfedge Curve) (f1 f2 : Nat)
    (hd : arr.dcel.Reachable) : (arr._remove_edge_faces he1 r1 r2 f1 f2).1.dcel.Reachable := by
  unfold Arrangement_2._remove_edge_faces
  by_cases hf : f1 = f2
  · simp only [hf, ne_eq, not_true_eq_false, if_false, if_true]
    split_ifs
    all_goals first
      | exact Dcel.Reachable.edit_other_records _ _ hd rfl
      | exact Dcel.Reachable.edit_other_records _ _
          (Dcel.reachable_set_component_cycle _ _ _ _ _ hd) rfl
  · simp only [hf, ne_eq, not_false_eq_true, if_true, if_false]
    have hc := Dcel.reachable_set_component_cycle
      (if r1.is_on_hole = true then r1.comp else r2.comp) r1.prev
      arr.dcel.halfedges.length r1.prev arr.dcel hd
    cases hx : arr.dcel.faces.get (if r1.is_on_hole = true then f2 else f1) with
    | none => exact hc
    | some x =>
      dsimp only
      refine Dcel.Reachable.edit_other_records _ _ hc ?_
      show Dcel.halfedges _ = _
      rw [(Arrangement_2.foldl_move_isolated_vertex_frame _ _ _ _).2.2.1,
        (Arrangement_2.foldl_move_hole_frame _ _ _ _).2.2.1]

/-- The state after an end vertex of a removed edge is a state of the record store. -/
theorem Arrangement_2.reachable_remove_edge_end_vertex {Point Curve : Type}
    (arr : Arrangement_2 Point Curve) (hd : arr.dcel.Reachable) (v he p f : Nat)
    (isolated remove : Bool) :
    (arr._remove_edge_end_vertex v he p f isolated remove).dcel.Reachable := by
  unfold Arrangement_2._remove_edge_end_vertex
  dsimp only
  split_ifs
  · exact Dcel.Reachable.edit_other_records _ _ hd rfl
  · exact Dcel.Reachable.edit_other_records _ _ hd rfl
  · refine Arrangement_2.reachable_remove_vertex_at_infinity _ ?_ v
    exact Dcel.Reachable.edit_other_records _ _ hd rfl
  · exact Dcel.Reachable.edit_other_records _ _ hd rfl

/-- The state after `_remove_edge` is a state of the record store. -/
theorem Arrangement_2.reachable_remove_edge {Point Curve : Type}
    (arr : Arrangement_2 Point Curve) (hd : arr.dcel.Reachable) (e : Nat) (rs rt : Bool)
    (a2 : Arrangement_2 Point Curve) (g : Nat) (h : arr._remove_edge e rs rt = some (a2, g)) :
    a2.dcel.Reachable := by
  unfold Arrangement_2._remove_edge at h
  cases h1 : arr.dcel.halfedges.get e with
  | none => simp [h1] at h
  | some r1 =>
    cases h2 : arr.dcel.halfedges.get r1.opposite with
    | none => simp [h1, h2] at h
    | some r2 =>
      cases h3 : Halfedge.face arr.dcel e with
      | none => simp [h1, h2, h3] at h
      | some f1 =>
        cases h4 : Halfedge.face arr.dcel r1.opposite with
        | none => simp [h1, h2, h3, h4] at h
        | some f2 =>
          simp only [h1, h2, h3, h4, Option.some_bind, Option.map_some', Option.some.injEq,
            Prod.mk.injEq] at h
          rw [← h.1]
          have hu : ({ arr with dcel := arr.dcel.unlink_edge e r1.opposite } :
              Arrangement_2 Point Curve).dcel.Reachable :=
            Dcel.reachable_unlink_edge arr.dcel e r1.opposite hd
          exact Arrangement_2.reachable_remove_edge_end_vertex _
            (Arrangement_2.reachable_remove_edge_end_vertex _
              (Arrangement_2.reachable_remove_edge_faces _ e r1 r2 f1 f2 hu) _ _ _ _ _ _)
            _ _ _ _ _ _

/-- The state after `remove_edge` is a state of the record store. -/
theorem Arrangement_2.reachable_remove_edge_public {Point Curve : Type}
    (arr : Arrangement_2 Point Curve) (hd : arr.dcel.Reachable) (b : Bool) (e : Nat)
    (rs rt : Bool) (a2 : Arrangement_2 Point Curve) (g : Nat)
    (h : arr.remove_edge b e rs rt = some (a2, g)) : a2.dcel.Reachable := by
  unfold Arrangement_2.remove_edge at h
  cases ht : Halfedge.twin arr.dcel e with
  | none => simp [ht] at h
  | some t =>
    rw [ht, Option.some_bind] at h
    split_ifs at h
    · exact Arrangement_2.reachable_remove_edge arr hd t rt rs a2 g h
    · exact Arrangement_2.reachable_remove_edge arr hd e rs rt a2 g h

/-- The state after `_remove_isolated_vertex` is a state of the record store. -/
theorem Arrangement_2.reachable_remove_isolated_vertex_inner {Point Curve : Type}
    (arr : Arrangement_2 Point Curve) (hd : arr.dcel.Reachable) (v : Nat)
    (a2 : Arrangement_2 Point Curve) (g : Nat)
    (h : arr._remove_isolated_vertex v = some (a2, g)) : a2.dcel.Reachable := by
  unfold Arrangement_2._remove_isolated_vertex at h
  cases h1 : arr.dcel.vertices.get v with
  | none => simp [h1] at h
  | some r =>
    cases h2 : r.inc with
    | halfedge x => simp [h1, h2] at h
    | isolated iv =>
      cases h3 : arr.dcel.iso_verts.get iv with
      | none => simp [h1, h2, h3] at h
      | some y =>
        simp only [h1, h2, h3, Option.some_bind, Option.map_some', Option.some.injEq,
          Prod.mk.injEq] at h
        rw [← h.1]
        exact Dcel.Reachable.edit_other_records _ _ hd rfl

/-- The state after `remove_isolated_vertex` is a state of the record store. -/
theorem Arrangement_2.reachable_remove_isolated_vertex {Point Curve : Type}
    (arr : Arrangement_2 Point Curve) (hd : arr.dcel.Reachable) (v : Nat)
    (a2 : Arrangement_2 Point Curve) (g : Nat)
    (h : arr.remove_isolated_vertex v = some (a2, g)) : a2.dcel.Reachable := by
  unfold Arrangement_2.remove_isolated_vertex at h
  cases hr : arr._remove_isolated_vertex v with
  | none => simp [hr] at h
  | some r =>
    simp only [hr, Option.map_some', Option.some.injEq, Prod.mk.injEq] at h
    rw [← h.1]
    exact Dcel.Reachable.edit_other_records _ _
      (Arrangement_2.reachable_remove_isolated_vertex_inner arr hd v r.1 r.2 hr) rfl

/-- The state after `insert_in_face_interior (p, f)` is a state of the record store. -/
theorem Arrangement_2.reachable_insert_in_face_interior {Point Curve : Type}
    (arr : Arrangement_2 Point Curve) (hd : arr.dcel.Reachable) (p : Point) (f : Nat) :
    (arr.insert_in_face_interior p f).1.dcel.Reachable :=
  Dcel.Reachable.edit_other_records _ _ hd rfl


/-- The state after `_insert_in_face_interior` is a state of the record store. -/
theorem Arrangement_2.reachable_insert_in_face_interior_curve {Point Curve : Type}
    (arr : Arrangement_2 Point Curve) (hd : arr.dcel.Reachable) (cv : Curve) (f v1 v2 : Nat) :
    (arr._insert_in_face_interior cv f v1 v2).1.dcel.Reachable :=
  Dcel.Reachable.edit_other_records _ _ (Dcel.Reachable.new_edge _ _ _ (some cv) _ hd) rfl

/-- The state after `_insert_from_vertex` is a state of the record store. -/
theorem Arrangement_2.reachable_insert_from_vertex {Point Curve : Type}
    (arr : Arrangement_2 Point Curve) (hd : arr.dcel.Reachable) (cv : Curve) (prev v : Nat)
    (a1 : Arrangement_2 Point Curve) (e : Nat)
    (h : arr._insert_from_vertex cv prev v = some (a1, e)) : a1.dcel.Reachable := by
  unfold Arrangement_2._insert_from_vertex at h
  cases h1 : arr.dcel.halfedges.get prev with
  | none => simp [h1] at h
  | some rp =>
    simp only [h1, Option.map_some', Option.some.injEq, Prod.mk.injEq] at h
    rw [← h.1]
    exact Dcel.Reachable.edit_other_records _ _
      (Dcel.Reachable.splice _ _ _ (Dcel.Reachable.new_edge _ _ _ _ _ hd)) rfl

/-- The state after `_insert_at_vertices` is a state of the record store. -/
theorem Arrangement_2.reachable_insert_at_vertices_core {Point Curve : Type}
    (arr : Arrangement_2 Point Curve) (hd : arr.dcel.Reachable) (cv : Curve) (p1 p2 : Nat)
    (bu : Bool) (a1 : Arrangement_2 Point Curve) (e : Nat) (nfl : Bool)
    (h : arr._insert_at_vertices cv p1 p2 bu = some (a1, e, nfl)) : a1.dcel.Reachable := by
  unfold Arrangement_2._insert_at_vertices at h
  cases h1 : arr.dcel.halfedges.get p1 with
  | none => simp [h1] at h
  | some s1 =>
    cases h2 : arr.dcel.halfedges.get p2 with
    | none => simp [h1, h2] at h
    | some s2 =>
      simp only [h1, h2, Option.some_bind] at h
      have hlinks : ∀ c, (((arr.dcel.new_edge s1.vertex s2.vertex (some cv) c).1.splice p1
          (arr.dcel.halfedges.length + 1)).splice p2 arr.dcel.halfedges.length).Reachable :=
        fun c => Dcel.Reachable.splice _ _ _ (Dcel.Reachable.splice _ _ _
          (Dcel.Reachable.new_edge _ _ _ _ _ hd))
      by_cases hc : s1.comp = s2.comp
      · rw [if_pos hc] at h
        cases h3 : arr.dcel.component_face s1.comp with
        | none => simp [h3] at h
        | some f =>
          simp only [h3, Option.map_some', Option.some.injEq, Prod.mk.injEq] at h
          rw [← h.1]
          exact Dcel.Reachable.edit_other_records _ _
            (Dcel.Reachable.set_component _ _ _
              (Dcel.reachable_set_component_cycle _ _ _ _ _ (hlinks _))) rfl
      · rw [if_neg hc] at h
        cases hs1 : s1.comp with
        | face f1 =>
          cases hs2 : s2.comp with
          | face f2 => rw [hs1, hs2] at h; simp at h
          | hole ha =>
            rw [hs1, hs2] at h
            simp only [Option.some.injEq, Prod.mk.injEq] at h
            rw [← h.1]
            exact Dcel.Reachable.edit_other_records _ _
              (Dcel.reachable_set_component_cycle _ _ _ _ _ (hlinks _)) rfl
        | hole hb =>
          cases hs2 : s2.comp with
          | face f2 =>
            rw [hs1, hs2] at h
            simp only [Option.some.injEq, Prod.mk.injEq] at h
            rw [← h.1]
            exact Dcel.Reachable.edit_other_records _ _
              (Dcel.reachable_set_component_cycle _ _ _ _ _ (hlinks _)) rfl
          | hole ha =>
            rw [hs1, hs2] at h
            simp only [Option.some.injEq, Prod.mk.injEq] at h
            rw [← h.1]
            exact Dcel.Reachable.edit_other_records _ _
              (Dcel.reachable_set_component_cycle _ _ _ _ _ (hlinks _)) rfl

/-- The state after `insert_at_vertices` is a state of the record store. -/
theorem Arrangement_2.reachable_insert_at_vertices {Point Curve : Type}
    (arr : Arrangement_2 Point Curve) (hd : arr.dcel.Reachable) (inside bu : Bool)
    (hi vi : Nat → Bool) (cv : Curve) (p1 p2 : Nat) (a1 : Arrangement_2 Point Curve) (e : Nat)
    (h : arr.insert_at_vertices inside bu hi vi cv p1 p2 = some (a1, e)) :
    a1.dcel.Reachable := by
  unfold Arrangement_2.insert_at_vertices at h
  cases hc : (if inside = true then arr._insert_at_vertices cv p1 p2 bu
      else arr._insert_at_vertices cv p2 p1 bu) with
  | none => rw [hc] at h; cases h
  | some r =>
    obtain ⟨a0, e0, nfl⟩ := r
    rw [hc] at h
    simp only [Option.map_some', Option.some.injEq, Prod.mk.injEq] at h
    have h0 : a0.dcel.Reachable := by
      cases inside
      · simp only [Bool.false_eq_true, if_false] at hc
        exact Arrangement_2.reachable_insert_at_vertices_core arr hd cv p2 p1 bu a0 e0 nfl hc
      · simp only [if_true] at hc
        exact Arrangement_2.reachable_insert_at_vertices_core arr hd cv p1 p2 bu a0 e0 nfl hc
    rw [← h.1]
    cases nfl
    · exact h0
    · exact Dcel.Reachable.edit_other_records _ _ h0
        (Arrangement_2.relocate_in_new_face_frame a0 hi vi e0).2.2.1

/-- The state after `insert_from_left_vertex` is a state of the record store. -/
theorem Arrangement_2.reachable_insert_from_left_vertex {Point Curve : Type}
    (arr : Arrangement_2 Point Curve) (hd : arr.dcel.Reachable) (right : Curve → Point)
    (cv : Curve) (prev : Nat) (a1 : Arrangement_2 Point Curve) (e : Nat)
    (h : arr.insert_from_left_vertex right cv prev = some (a1, e)) : a1.dcel.Reachable :=
  Arrangement_2.reachable_insert_from_vertex (arr._create_vertex (right cv)).1
    (Dcel.Reachable.edit_other_records _ _ hd rfl) cv prev _ a1 e h

/-- The state after `insert_from_right_vertex` is a state of the record store. -/
theorem Arrangement_2.reachable_insert_from_right_vertex {Point Curve : Type}
    (arr : Arrangement_2 Point Curve) (hd : arr.dcel.Reachable) (left : Curve → Point)
    (cv : Curve) (prev : Nat) (a1 : Arrangement_2 Point Curve) (e : Nat)
    (h : arr.insert_from_right_vertex left cv prev = some (a1, e)) : a1.dcel.Reachable :=
  Arrangement_2.reachable_insert_from_vertex (arr._create_vertex (left cv)).1
    (Dcel.Reachable.edit_other_records _ _ hd rfl) cv prev _ a1 e h

/-! ## Insertion followed by removal: the overloads of the header -/

theorem Halfedge.live_of_face {Point Curve : Type} {d : Dcel Point Curve} {h f : Nat}
    (hf : Halfedge.face d h = some f) : ∃ r, d.halfedges.get h = some r := by
  cases hr : d.halfedges.get h with
  | none => simp [Halfedge.face, hr] at hf
  | some r => exact ⟨r, rfl⟩

theorem Vertex.finite_of_target {Point Curve : Type} {d : Dcel Point Curve} {h : Nat}
    {r : DHalfedge Curve} (hr : d.halfedges.get h = some r)
    (hfin : (Halfedge.target d h).bind (Vertex.is_at_infinity d) = some false) :
    Vertex.is_at_infinity d r.vertex = some false := by
  simpa [Halfedge.target, hr] using hfin

/-- The pair of `insert_at_vertices (cv, prev1, prev2)` and `remove_edge`, whatever the
flags: for two halfedges with live incident faces whose targets are not vertices at
infinity, on the same boundary or one of them on a hole, the insertion and the removal
return, and the numbers of vertices at infinity and of vertex, halfedge and face records
are those before the insertion. -/
theorem Arrangement_2.insert_at_vertices_round_trip {Point Curve : Type}
    (arr : Arrangement_2 Point Curve) (hl : arr.dcel.Linked) (p1i bu : Bool)
    (hi vi : Nat → Bool) (cv : Curve) (prev1 prev2 f1 f2 : Nat)
    (hf1 : Halfedge.face arr.dcel prev1 = some f1)
    (hf2 : Halfedge.face arr.dcel prev2 = some f2)
    (hl1 : (arr.dcel.faces.get f1).isSome) (hl2 : (arr.dcel.faces.get f2).isSome)
    (hfin1 : (Halfedge.target arr.dcel prev1).bind (Vertex.is_at_infinity arr.dcel)
      = some false)
    (hfin2 : (Halfedge.target arr.dcel prev2).bind (Vertex.is_at_infinity arr.dcel)
      = some false)
    (hok : (arr.dcel.halfedges.get prev1).map (fun r => r.comp)
        = (arr.dcel.halfedges.get prev2).map (fun r => r.comp) ∨
      (arr.dcel.halfedges.get prev1).map (fun r => r.is_on_hole) = some true ∨
      (arr.dcel.halfedges.get prev2).map (fun r => r.is_on_hole) = some true)
    (b rs rt : Bool) :
    ∃ a1 e a2 g, arr.insert_at_vertices p1i bu hi vi cv prev1 prev2 = some (a1, e) ∧
      a1.remove_edge b e rs rt = some (a2, g) ∧
      a2.n_inf_verts = arr.n_inf_verts ∧
      a2.dcel.vertices.size = arr.dcel.vertices.size ∧
      a2.dcel.halfedges.size = arr.dcel.halfedges.size ∧
      a2.dcel.faces.size = arr.dcel.faces.size := by
  obtain ⟨s1, h1⟩ := Halfedge.live_of_face hf1
  obtain ⟨s2, h2⟩ := Halfedge.live_of_face hf2
  have g1 : Vertex.is_at_infinity arr.dcel s1.vertex ≠ some true := by
    rw [Vertex.finite_of_target h1 hfin1]; simp
  have g2 : Vertex.is_at_infinity arr.dcel s2.vertex ≠ some true := by
    rw [Vertex.finite_of_target h2 hfin2]; simp
  have hok' : s1.comp = s2.comp ∨ s1.is_on_hole = true ∨ s2.is_on_hole = true := by
    simpa [h1, h2] using hok
  unfold Arrangement_2.insert_at_vertices
  cases p1i
  · simp only [Bool.false_eq_true, if_false]
    have hsome := Arrangement_2.insert_at_vertices_isSome arr cv prev2 prev1 f2 s2 s1 h2 h1
      hf2 bu (by
        rcases hok' with h | h | h
        · exact Or.inl h.symm
        · exact Or.inr (Or.inr h)
        · exact Or.inr (Or.inl h))
    obtain ⟨⟨a0, e0, nfl⟩, hr⟩ := Option.isSome_iff_exists.mp hsome
    obtain ⟨j1, j2⟩ := Arrangement_2.insert_at_vertices_then_remove arr hl cv prev2 prev1 f2
      f1 s2 s1 h2 h1 hf2 hf1 hl2 g2 g1 bu hi vi a0 e0 nfl hr
    rw [hr]
    obtain ⟨a2, g, z⟩ := j2 b (e0 + 1) (Or.inr (by rw [j1])) rs rt
    exact ⟨_, _, a2, g, rfl, z⟩
  · simp only [if_true]
    have hsome := Arrangement_2.insert_at_vertices_isSome arr cv prev1 prev2 f1 s1 s2 h1 h2
      hf1 bu hok'
    obtain ⟨⟨a0, e0, nfl⟩, hr⟩ := Option.isSome_iff_exists.mp hsome
    obtain ⟨j1, j2⟩ := Arrangement_2.insert_at_vertices_then_remove arr hl cv prev1 prev2 f1
      f2 s1 s2 h1 h2 hf1 hf2 hl1 g1 g2 bu hi vi a0 e0 nfl hr
    rw [hr]
    obtain ⟨a2, g, z⟩ := j2 b e0 (Or.inl j1) rs rt
    exact ⟨_, _, a2, g, rfl, z⟩

/-- The pair of `insert_from_left_vertex (cv, v)` or `insert_from_right_vertex (cv, v)`
at an isolated vertex `v` and `remove_edge` with the flag of `v` off and the flag of the
new vertex on. -/
theorem Arrangement_2.insert_from_isolated_round_trip {Point Curve : Type}
    (arr : Arrangement_2 Point Curve) (hl : arr.dcel.Linked) (pt : Curve → Point)
    (located : Option Nat) (cv : Curve) (v f : Nat) (hv : Vertex.face arr.dcel v = some f)
    (b : Bool) :
    (∃ a1 e a2 g, arr.insert_from_left_vertex_at_vertex pt located cv v = some (a1, e) ∧
      a1.remove_edge b e false true = some (a2, g) ∧
      a2.n_inf_verts = arr.n_inf_verts ∧
      a2.dcel.vertices.size = arr.dcel.vertices.size ∧
      a2.dcel.halfedges.size = arr.dcel.halfedges.size ∧
      a2.dcel.faces.size = arr.dcel.faces.size) ∧
    (∃ a1 e a2 g, arr.insert_from_right_vertex_at_vertex pt located cv v = some (a1, e) ∧
      a1.remove_edge b e false true = some (a2, g) ∧
      a2.n_inf_verts = arr.n_inf_verts ∧
      a2.dcel.vertices.size = arr.dcel.vertices.size ∧
      a2.dcel.halfedges.size = arr.dcel.halfedges.size ∧
      a2.dcel.faces.size = arr.dcel.faces.size) := by
  obtain ⟨s, k1, ⟨rv, k2, k3⟩, k4, k5, k6, k7, k8, -⟩ :=
    Arrangement_2.remove_isolated_vertex_facts arr v f hv
  have hlen : (arr.dcel.vertices.map Option.isSome).length = arr.dcel.vertices.length :=
    List.length_map _ _
  have sv : (s._create_vertex (pt cv)).1.dcel.vertices.map Option.isSome
      = arr.dcel.vertices.map Option.isSome ++ [true] := by
    show List.map Option.isSome (s.dcel.vertices.alloc _) = _
    rw [Arena.shape_alloc, k5]
  have v2 : (s._create_vertex (pt cv)).2 = (arr.dcel.vertices.map Option.isSome).length := by
    show s.dcel.vertices.length = _
    rw [k5, hlen]
  have cnt : ((arr.dcel.vertices.map Option.isSome ++ [true]).set
      (arr.dcel.vertices.map Option.isSome).length false).count true
      = arr.dcel.vertices.size := by
    rw [Arena.size_eq_count]
    exact Arena.count_set_append
  constructor
  · obtain ⟨i1, i2, -⟩ := Arrangement_2.insert_in_face_round_trip arr
      (s._create_vertex (pt cv)).1 hl k4 k6 k7 cv f v (s._create_vertex (pt cv)).2 false
      true (by simp only [Bool.false_eq_true, if_false, if_true]; rw [sv, v2]; exact cnt)
      (by simp only [Bool.false_eq_true, if_false, if_true]; rw [sv, v2]; exact cnt) b
    obtain ⟨a2, g, z⟩ := i2
    refine ⟨_, _, a2, g, ?_, z⟩
    simp only [Arrangement_2.insert_from_left_vertex_at_vertex, k2, k3, k1, Option.some_bind,
      if_true, Option.map_some']
    rw [← i1]
  · obtain ⟨i1, -, i3⟩ := Arrangement_2.insert_in_face_round_trip arr
      (s._create_vertex (pt cv)).1 hl k4 k6 k7 cv f (s._create_vertex (pt cv)).2 v true
      false (by simp only [Bool.false_eq_true, if_false, if_true]; rw [sv, v2]; exact cnt)
      (by simp only [Bool.false_eq_true, if_false, if_true]; rw [sv, v2]; exact cnt) b
    obtain ⟨a2, g, z⟩ := i3
    refine ⟨_, _, a2, g, ?_, z⟩
    simp only [Arrangement_2.insert_from_right_vertex_at_vertex, k2, k3, k1,
      Option.some_bind, if_true, Option.map_some']
    rw [← i1]

/-- The pair of `insert_from_left_vertex (cv, v)` or `insert_from_right_vertex (cv, v)`
at a vertex `v` with incident edges, around which the place of the curve is located
after `prev`, and `remove_edge` with the flag of the new vertex on. -/
theorem Arrangement_2.insert_from_located_round_trip {Point Curve : Type}
    (arr : Arrangement_2 Point Curve) (hl : arr.dcel.Linked) (pt : Curve → Point)
    (cv : Curve) (v prev f : Nat)
    (hv : Vertex.incident_halfedges_precondition arr.dcel v = some true)
    (hfv : Vertex.is_at_infinity arr.dcel v = some false)
    (ht : Halfedge.target arr.dcel prev = some v)
    (hf : Halfedge.face arr.dcel prev = some f) (b rs : Bool) :
    (∃ a1 e a2 g, arr.insert_from_left_vertex_at_vertex pt (some prev) cv v = some (a1, e) ∧
      a1.remove_edge b e rs true = some (a2, g) ∧
      a2.n_inf_verts = arr.n_inf_verts ∧
      a2.dcel.vertices.size = arr.dcel.vertices.size ∧
      a2.dcel.halfedges.size = arr.dcel.halfedges.size ∧
      a2.dcel.faces.size = arr.dcel.faces.size) ∧
    (∃ a1 e a2 g, arr.insert_from_right_vertex_at_vertex pt (some prev) cv v = some (a1, e) ∧
      a1.remove_edge b e rs true = some (a2, g) ∧
      a2.n_inf_verts = arr.n_inf_verts ∧
      a2.dcel.vertices.size = arr.dcel.vertices.size ∧
      a2.dcel.halfedges.size = arr.dcel.halfedges.size ∧
      a2.dcel.faces.size = arr.dcel.faces.size) := by
  obtain ⟨rv, k2, k3⟩ : ∃ rv, arr.dcel.vertices.get v = some rv ∧ rv.is_isolated = false := by
    cases hr : arr.dcel.vertices.get v with
    | none => simp [Vertex.incident_halfedges_precondition, hr] at hv
    | some rv =>
      refine ⟨rv, rfl, ?_⟩
      simpa [Vertex.incident_halfedges_precondition, hr] using hv
  have hfin : (Halfedge.target arr.dcel prev).bind (Vertex.is_at_infinity arr.dcel)
      = some false := by rw [ht]; exact hfv
  have key := Arrangement_2.insert_from_vertex_round_trip arr hl (pt cv) cv prev f hf hfin b
    rs
  constructor
  · simp only [Arrangement_2.insert_from_left_vertex_at_vertex, k2, k3, Option.some_bind,
      Bool.false_eq_true, if_false, Arrangement_2.insert_from_left_vertex]
    exact key
  · simp only [Arrangement_2.insert_from_right_vertex_at_vertex, k2, k3, Option.some_bind,
      Bool.false_eq_true, if_false, Arrangement_2.insert_from_right_vertex]
    exact key

/-- The pair of `insert_at_vertices (cv, h1, v2)` at an isolated vertex `v2` and
`remove_edge` with the flag of `v2` off, and the pairs of `insert_at_vertices (cv, v1,
v2)` with one isolated vertex and the other vertex located, with the flag of the isolated
vertex off. -/
theorem Arrangement_2.insert_at_isolated_round_trip {Point Curve : Type}
    (arr : Arrangement_2 Point Curve) (hl : arr.dcel.Linked) (p1i bu : Bool)
    (hi vi : Nat → Bool) (cv : Curve) (prev v fv f : Nat)
    (hv : Vertex.face arr.dcel v = some fv)
    (hf : Halfedge.face arr.dcel prev = some f)
    (hfin : (Halfedge.target arr.dcel prev).bind (Vertex.is_at_infinity arr.dcel)
      = some false) (b rs : Bool) :
    (∀ located2, ∃ a1 e a2 g,
      arr.insert_at_vertices_at_vertex p1i bu hi vi located2 cv prev v = some (a1, e) ∧
      a1.remove_edge b e rs false = some (a2, g) ∧
      a2.n_inf_verts = arr.n_inf_verts ∧
      a2.dcel.vertices.size = arr.dcel.vertices.size ∧
      a2.dcel.halfedges.size = arr.dcel.halfedges.size ∧
      a2.dcel.faces.size = arr.dcel.faces.size) ∧
    (∀ u located2, Vertex.incident_halfedges_precondition arr.dcel u = some true →
      ∃ a1 e a2 g,
        arr.insert_at_vertices_at_vertices p1i bu hi vi (some prev) located2 cv u v
          = some (a1, e) ∧
        a1.remove_edge b e rs false = some (a2, g) ∧
        a2.n_inf_verts = arr.n_inf_verts ∧
        a2.dcel.vertices.size = arr.dcel.vertices.size ∧
        a2.dcel.halfedges.size = arr.dcel.halfedges.size ∧
        a2.dcel.faces.size = arr.dcel.faces.size) ∧
    (∀ u located1, Vertex.incident_halfedges_precondition arr.dcel u = some true →
      ∃ a1 e a2 g,
        arr.insert_at_vertices_at_vertices p1i bu hi vi located1 (some prev) cv v u
          = some (a1, e) ∧
        a1.remove_edge b e false rs = some (a2, g) ∧
        a2.n_inf_verts = arr.n_inf_verts ∧
        a2.dcel.vertices.size = arr.dcel.vertices.size ∧
        a2.dcel.halfedges.size = arr.dcel.halfedges.size ∧
        a2.dcel.faces.size = arr.dcel.faces.size) := by
  obtain ⟨s, k1, ⟨rv, k2, k3⟩, k4, k5, k6, k7, k8, -⟩ :=
    Arrangement_2.remove_isolated_vertex_facts arr v fv hv
  obtain ⟨a1, i1, ⟨a2, g, z2⟩, ⟨a3, g3, z3⟩⟩ := Arrangement_2.insert_to_isolated_round_trip
    arr s hl k4 k5 k6 k7 k8 cv prev f v hf hfin b rs
  have live : ∀ u, Vertex.incident_halfedges_precondition arr.dcel u = some true →
      ∃ ru, arr.dcel.vertices.get u = some ru ∧ ru.is_isolated = false := by
    intro u hu
    cases hr : arr.dcel.vertices.get u with
    | none => simp [Vertex.incident_halfedges_precondition, hr] at hu
    | some ru =>
      refine ⟨ru, rfl, ?_⟩
      simpa [Vertex.incident_halfedges_precondition, hr] using hu
  refine ⟨?_, ?_, ?_⟩
  · intro located2
    refine ⟨a1, _, a2, g, ?_, z2⟩
    simp only [Arrangement_2.insert_at_vertices_at_vertex, k2, k3, k1, Option.some_bind,
      if_true, i1]
  · intro u located2 hu
    obtain ⟨ru, q1, q2⟩ := live u hu
    refine ⟨a1, _, a2, g, ?_, z2⟩
    simp only [Arrangement_2.insert_at_vertices_at_vertices, k2, k3, k1, q1, q2,
      Option.some_bind, if_true, Bool.false_eq_true, if_false, i1]
  · intro u located1 hu
    obtain ⟨ru, q1, q2⟩ := live u hu
    refine ⟨a1, _, a3, g3, ?_, z3⟩
    simp only [Arrangement_2.insert_at_vertices_at_vertices, k2, k3, k1, q1, q2,
      Option.some_bind, if_true, Bool.false_eq_true, if_false, i1, Option.map_some']

/-- The pair of `insert_at_vertices (cv, v1, v2)` at two isolated vertices, with two
isolated-vertex records, and `remove_edge` with both flags off. -/
theorem Arrangement_2.insert_between_isolated_round_trip {Point Curve : Type}
    (arr : Arrangement_2 Point Curve) (hl : arr.dcel.Linked) (p1i bu : Bool)
    (hi vi : Nat → Bool) (located1 located2 : Option Nat) (cv : Curve) (v1 v2 f1 f2 : Nat)
    (hv1 : Vertex.face arr.dcel v1 = some f1) (hv2 : Vertex.face arr.dcel v2 = some f2)
    (hne : (arr.dcel.vertices.get v2).map (fun r => r.inc)
      ≠ (arr.dcel.vertices.get v1).map (fun r => r.inc)) (b : Bool) :
    ∃ a1 e a2 g,
      arr.insert_at_vertices_at_vertices p1i bu hi vi located1 located2 cv v1 v2
        = some (a1, e) ∧
      a1.remove_edge b e false false = some (a2, g) ∧
      a2.n_inf_verts = arr.n_inf_verts ∧
      a2.dcel.vertices.size = arr.dcel.vertices.size ∧
      a2.dcel.halfedges.size = arr.dcel.halfedges.size ∧
      a2.dcel.faces.size = arr.dcel.faces.size := by
  obtain ⟨s1, k1, ⟨rv1, k2, k3⟩, k4, k5, k6, k7, k8, k9⟩ :=
    Arrangement_2.remove_isolated_vertex_facts arr v1 f1 hv1
  obtain ⟨s2, j1, -, j4, j5, j6, j7, j8, -⟩ :=
    Arrangement_2.remove_isolated_vertex_facts s1 v2 f2 (k9 v2 f2 hne hv2)
  obtain ⟨-, -, ⟨rv2, q2, q3⟩, -⟩ := Arrangement_2.remove_isolated_vertex_facts arr v2 f2 hv2
  have cnt : (s2.dcel.vertices.map Option.isSome).count true = arr.dcel.vertices.size := by
    rw [j5, k5, Arena.size_eq_count]
  obtain ⟨i1, ⟨a2, g, z⟩, -⟩ := Arrangement_2.insert_in_face_round_trip arr s2 hl
    (j4.trans k4) (j6.trans k6) (j7.trans k7) cv f1 v1 v2 false false
    (by simp only [Bool.false_eq_true, if_false]; exact cnt)
    (by simp only [Bool.false_eq_true, if_false]; exact cnt) b
  refine ⟨_, _, a2, g, ?_, z⟩
  simp only [Arrangement_2.insert_at_vertices_at_vertices, k2, k3, q2, q3, k1, j1,
    Option.some_bind, if_true, Option.map_some']
  rw [← i1]

/-- The pairs of `insert_at_vertices (cv, h1, v2)` and `insert_at_vertices (cv, v1, v2)`
at vertices with incident edges, around which the place of the curve is located, and
`remove_edge`, whatever the flags. -/
theorem Arrangement_2.insert_at_located_round_trip {Point Curve : Type}
    (arr : Arrangement_2 Point Curve) (hl : arr.dcel.Linked) (p1i bu : Bool)
    (hi vi : Nat → Bool) (cv : Curve) (prev1 prev2 v2 f1 f2 : Nat)
    (hw2 : Vertex.incident_halfedges_precondition arr.dcel v2 = some true)
    (hf1 : Halfedge.face arr.dcel prev1 = some f1)
    (hf2 : Halfedge.face arr.dcel prev2 = some f2)
    (hl1 : (arr.dcel.faces.get f1).isSome) (hl2 : (arr.dcel.faces.get f2).isSome)
    (hfin1 : (Halfedge.target arr.dcel prev1).bind (Vertex.is_at_infinity arr.dcel)
      = some false)
    (hfin2 : (Halfedge.target arr.dcel prev2).bind (Vertex.is_at_infinity arr.dcel)
      = some false)
    (hok : (arr.dcel.halfedges.get prev1).map (fun r => r.comp)
        = (arr.dcel.halfedges.get prev2).map (fun r => r.comp) ∨
      (arr.dcel.halfedges.get prev1).map (fun r => r.is_on_hole) = some true ∨
      (arr.dcel.halfedges.get prev2).map (fun r => r.is_on_hole) = some true)
    (b rs rt : Bool) :
    (∃ a1 e a2 g,
      arr.insert_at_vertices_at_vertex p1i bu hi vi (some prev2) cv prev1 v2
        = some (a1, e) ∧
      a1.remove_edge b e rs rt = some (a2, g) ∧
      a2.n_inf_verts = arr.n_inf_verts ∧
      a2.dcel.vertices.size = arr.dcel.vertices.size ∧
      a2.dcel.halfedges.size = arr.dcel.halfedges.size ∧
      a2.dcel.faces.size = arr.dcel.faces.size) ∧
    (∀ v1, Vertex.incident_halfedges_precondition arr.dcel v1 = some true →
      ∃ a1 e a2 g,
        arr.insert_at_vertices_at_vertices p1i bu hi vi (some prev1) (some prev2) cv v1 v2
          = some (a1, e) ∧
        a1.remove_edge b e rs rt = some (a2, g) ∧
        a2.n_inf_verts = arr.n_inf_verts ∧
        a2.dcel.vertices.size = arr.dcel.vertices.size ∧
        a2.dcel.halfedges.size = arr.dcel.halfedges.size ∧
        a2.dcel.faces.size = arr.dcel.faces.size) := by
  have live : ∀ u, Vertex.incident_halfedges_precondition arr.dcel u = some true →
      ∃ ru, arr.dcel.vertices.get u = some ru ∧ ru.is_isolated = false := by
    intro u hu
    cases hr : arr.dcel.vertices.get u with
    | none => simp [Vertex.incident_halfedges_precondition, hr] at hu
    | some ru =>
      refine ⟨ru, rfl, ?_⟩
      simpa [Vertex.incident_halfedges_precondition, hr] using hu
  have key := Arrangement_2.insert_at_vertices_round_trip arr hl p1i bu hi vi cv prev1
    prev2 f1 f2 hf1 hf2 hl1 hl2 hfin1 hfin2 hok b rs rt
  obtain ⟨r2, q1, q2⟩ := live v2 hw2
  constructor
  · simp only [Arrangement_2.insert_at_vertices_at_vertex, q1, q2, Option.some_bind,
      Bool.false_eq_true, if_false]
    exact key
  · intro v1 hw1
    obtain ⟨r1, p1, p2⟩ := live v1 hw1
    simp only [Arrangement_2.insert_at_vertices_at_vertices, q1, q2, p1, p2,
      Option.some_bind, Bool.false_eq_true, if_false]
    exact key

/-- The pairs of the insertions of a curve with unbounded ends and `remove_edge`. -/
theorem Arrangement_2.insert_unbounded_round_trip {Point Curve : Type}
    (arr : Arrangement_2 Point Curve) (hl : arr.dcel.Linked) (left_unbounded : Bool)
    (end_point : Curve → Point) (inf_x1 inf_y1 inf_x2 inf_y2 : Curve → Boundary_type)
    (on_second_piece prev1_inside : Bool) (hole_inside vertex_inside : Nat → Bool)
    (cv : Curve) (fict_he f : Nat) (hf : Halfedge.face arr.dcel fict_he = some f)
    (b : Bool) :
    (∃ a1 e a2 g, arr.insert_unbounded_curve_in_face_interior left_unbounded end_point
        inf_x1 inf_y1 inf_x2 inf_y2 on_second_piece prev1_inside hole_inside vertex_inside
        cv fict_he none = some (a1, e) ∧
      a1.remove_edge b e true true = some (a2, g) ∧
      a2.n_inf_verts = arr.n_inf_verts ∧
      a2.dcel.vertices.size = arr.dcel.vertices.size ∧
      a2.dcel.halfedges.size = arr.dcel.halfedges.size ∧
      a2.dcel.faces.size = arr.dcel.faces.size) ∧
    (∀ he2, (arr.dcel.faces.get f).isSome →
      (arr.dcel.halfedges.get he2).map (fun r => r.comp)
        = (arr.dcel.halfedges.get fict_he).map (fun r => r.comp) →
      ∃ a1 e a2 g, arr.insert_unbounded_curve_in_face_interior left_unbounded end_point
          inf_x1 inf_y1 inf_x2 inf_y2 on_second_piece prev1_inside hole_inside
          vertex_inside cv fict_he (some he2) = some (a1, e) ∧
        a1.remove_edge b e true true = some (a2, g) ∧
        a2.n_inf_verts = arr.n_inf_verts ∧
        a2.dcel.vertices.size = arr.dcel.vertices.size ∧
        a2.dcel.halfedges.size = arr.dcel.halfedges.size ∧
        a2.dcel.faces.size = arr.dcel.faces.size) := by
  obtain ⟨r1, h1⟩ := Halfedge.live_of_face hf
  obtain ⟨r2, h2⟩ := hl.twin_live h1
  refine ⟨?_, ?_⟩
  · obtain ⟨P, a1, m, k1, k2, k3⟩ := Arrangement_2.insert_ray_then_remove arr hl fict_he f
      (inf_x1 cv) (inf_y1 cv) (end_point cv) cv h1 h2 hf
    obtain ⟨a2, g, z⟩ := k3 b (if left_unbounded then m else m + 1) (by
      cases left_unbounded
      · exact Or.inr rfl
      · exact Or.inl rfl)
    refine ⟨a1, _, a2, g, ?_, z⟩
    simp only [Arrangement_2.insert_unbounded_curve_in_face_interior, k1, Option.some_bind,
      k2, Option.map_some']
  · intro he2 hlive hc
    have hsec : (if he2 = fict_he ∧ on_second_piece = true then arr.dcel.halfedges.length
          else he2) = arr.dcel.halfedges.length ∨
        ∃ q1, arr.dcel.halfedges.get (if he2 = fict_he ∧ on_second_piece = true
          then arr.dcel.halfedges.length else he2) = some q1 ∧ q1.comp = r1.comp := by
      split_ifs
      · exact Or.inl rfl
      · right
        rw [h1] at hc
        cases hq : arr.dcel.halfedges.get he2 with
        | none => simp [hq] at hc
        | some q1 => exact ⟨q1, rfl, by simpa [hq] using hc⟩
    obtain ⟨P1, P2, a1, fp, m, k1, k2, k3, k4, k5, k6⟩ :=
      Arrangement_2.insert_line_then_remove arr hl fict_he _ f (inf_x1 cv) (inf_y1 cv)
        (inf_x2 cv) (inf_y2 cv) cv h1 h2 hsec hf hlive prev1_inside hole_inside
        vertex_inside
    obtain ⟨a2, g, z⟩ := k6 b true true
    refine ⟨a1, m, a2, g, ?_, z⟩
    simp only [Arrangement_2.insert_unbounded_curve_in_face_interior, k1, Option.some_bind,
      k2, k3, k4, k5]

/-- The pairs of the insertions from a vertex of a curve with the other end unbounded
and `remove_edge`. -/
theorem Arrangement_2.insert_from_vertex_unbounded_round_trip {Point Curve : Type}
    (arr : Arrangement_2 Point Curve) (hl : arr.dcel.Linked)
    (inf_x1 inf_y1 : Curve → Boundary_type) (prev1_inside : Bool)
    (hole_inside vertex_inside : Nat → Bool) (cv : Curve) (fict_he f : Nat)
    (hf : Halfedge.face arr.dcel fict_he = some f) (b : Bool) :
    ∀ prev fp rs, prev ≠ fict_he → Halfedge.face arr.dcel prev = some fp →
      (arr.dcel.faces.get f).isSome → (arr.dcel.faces.get fp).isSome →
      (Halfedge.target arr.dcel prev).bind (Vertex.is_at_infinity arr.dcel) = some false →
      ((arr.dcel.halfedges.get prev).map (fun r => r.comp)
          = (arr.dcel.halfedges.get fict_he).map (fun r => r.comp) ∨
        (arr.dcel.halfedges.get prev).map (fun r => r.is_on_hole) = some true ∨
        (arr.dcel.halfedges.get fict_he).map (fun r => r.is_on_hole) = some true) →
      (∃ a1 e a2 g, arr.insert_from_left_vertex_unbounded inf_x1 inf_y1 prev1_inside
          hole_inside vertex_inside cv prev fict_he = some (a1, e) ∧
        a1.remove_edge b e rs true = some (a2, g) ∧
        a2.n_inf_verts = arr.n_inf_verts ∧
        a2.dcel.vertices.size = arr.dcel.vertices.size ∧
        a2.dcel.halfedges.size = arr.dcel.halfedges.size ∧
        a2.dcel.faces.size = arr.dcel.faces.size) ∧
      (∃ a1 e a2 g, arr.insert_from_right_vertex_unbounded inf_x1 inf_y1 prev1_inside
          hole_inside vertex_inside cv prev fict_he = some (a1, e) ∧
        a1.remove_edge b e rs true = some (a2, g) ∧
        a2.n_inf_verts = arr.n_inf_verts ∧
        a2.dcel.vertices.size = arr.dcel.vertices.size ∧
        a2.dcel.halfedges.size = arr.dcel.halfedges.size ∧
        a2.dcel.faces.size = arr.dcel.faces.size) := by
  obtain ⟨r1, h1⟩ := Halfedge.live_of_face hf
  obtain ⟨r2, h2⟩ := hl.twin_live h1
  intro prev fp rs hne hfp hlf hlp hfin hok
  obtain ⟨rp, hp⟩ := Halfedge.live_of_face hfp
  obtain ⟨P, a1, m, k1, k2, k3⟩ := Arrangement_2.insert_to_infinity_then_remove arr hl
    fict_he prev f fp (inf_x1 cv) (inf_y1 cv) cv h1 h2 hp hne hf hfp hlf hlp
    (Vertex.finite_of_target hp hfin) (by simpa [h1, hp] using hok) prev1_inside
    hole_inside vertex_inside
  obtain ⟨a2, g, z⟩ := k3 b rs true
  constructor
  · refine ⟨a1, m, a2, g, ?_, z⟩
    simp only [Arrangement_2.insert_from_left_vertex_unbounded, k1, Option.some_bind, k2]
  · refine ⟨a1, m, a2, g, ?_, z⟩
    simp only [Arrangement_2.insert_from_right_vertex_unbounded, k1, Option.some_bind, k2]

/-! ## The states after the insertions of the header -/

/-- The state after `_create_vertex` is a state of the record store. -/
theorem Arrangement_2.reachable_create_vertex {Point Curve : Type}
    (arr : Arrangement_2 Point Curve) (hd : arr.dcel.Reachable) (p : Point) :
    (arr._create_vertex p).1.dcel.Reachable :=
  Dcel.Reachable.edit_other_records _ _ hd rfl

/-- The state after the insertion of a curve with unbounded ends into the interior of a
face is a state of the record store. -/
theorem Arrangement_2.reachable_insert_unbounded_curve {Point Curve : Type}
    (arr : Arrangement_2 Point Curve) (hd : arr.dcel.Reachable) (lu : Bool)
    (ep : Curve → Point) (ix1 iy1 ix2 iy2 : Curve → Boundary_type) (osp p1i : Bool)
    (hi vi : Nat → Bool) (cv : Curve) (fh1 : Nat) (fh2 : Option Nat)
    (a1 : Arrangement_2 Point Curve) (e : Nat)
    (h : arr.insert_unbounded_curve_in_face_interior lu ep ix1 iy1 ix2 iy2 osp p1i hi vi cv
      fh1 fh2 = some (a1, e)) : a1.dcel.Reachable := by
  unfold Arrangement_2.insert_unbounded_curve_in_face_interior at h
  cases fh2 with
  | none =>
    obtain ⟨s, hs, h⟩ := Option.bind_eq_some.mp h
    obtain ⟨q, hq, h⟩ := Option.map_eq_some'.mp h
    have hP := Arrangement_2.reachable_split_fictitious_edge arr hd _ _ _ s.1 s.2 hs
    have := Arrangement_2.reachable_insert_from_vertex _
      (Arrangement_2.reachable_create_vertex s.1 hP (ep cv)) cv _ _ q.1 q.2 hq
    rw [← (Prod.mk.inj h).1]
    exact this
  | some he2 =>
    obtain ⟨s1, hs1, h⟩ := Option.bind_eq_some.mp h
    obtain ⟨v1, -, h⟩ := Option.bind_eq_some.mp h
    obtain ⟨s2, hs2, h⟩ := Option.bind_eq_some.mp h
    obtain ⟨fp, -, h⟩ := Option.bind_eq_some.mp h
    have hP1 := Arrangement_2.reachable_split_fictitious_edge arr hd _ _ _ s1.1 s1.2 hs1
    have hP2 := Arrangement_2.reachable_split_fictitious_edge s1.1 hP1 _ _ _ s2.1 s2.2 hs2
    exact Arrangement_2.reachable_insert_at_vertices s2.1 hP2 _ _ _ _ _ _ _ a1 e h

/-- The state after the insertion of a curve from a vertex to an unbounded end is a state
of the record store. -/
theorem Arrangement_2.reachable_insert_from_vertex_unbounded {Point Curve : Type}
    (arr : Arrangement_2 Point Curve) (hd : arr.dcel.Reachable)
    (ix iy : Curve → Boundary_type) (p1i : Bool) (hi vi : Nat → Bool) (cv : Curve)
    (prev fh : Nat) (a1 : Arrangement_2 Point Curve) (e : Nat) :
    (arr.insert_from_left_vertex_unbounded ix iy p1i hi vi cv prev fh = some (a1, e) →
      a1.dcel.Reachable) ∧
    (arr.insert_from_right_vertex_unbounded ix iy p1i hi vi cv prev fh = some (a1, e) →
      a1.dcel.Reachable) := by
  constructor
  · intro h
    unfold Arrangement_2.insert_from_left_vertex_unbounded at h
    obtain ⟨s, hs, h⟩ := Option.bind_eq_some.mp h
    exact Arrangement_2.reachable_insert_at_vertices s.1
      (Arrangement_2.reachable_split_fictitious_edge arr hd _ _ _ s.1 s.2 hs) _ _ _ _ _ _ _
      a1 e h
  · intro h
    unfold Arrangement_2.insert_from_right_vertex_unbounded at h
    obtain ⟨s, hs, h⟩ := Option.bind_eq_some.mp h
    exact Arrangement_2.reachable_insert_at_vertices s.1
      (Arrangement_2.reachable_split_fictitious_edge arr hd _ _ _ s.1 s.2 hs) _ _ _ _ _ _ _
      a1 e h

/-- The state after the insertion of a curve from a vertex given by its handle is a state
of the record store. -/
theorem Arrangement_2.reachable_insert_from_vertex_at_vertex {Point Curve : Type}
    (arr : Arrangement_2 Point Curve) (hd : arr.dcel.Reachable) (pt : Curve → Point)
    (located : Option Nat) (cv : Curve) (v : Nat) (a1 : Arrangement_2 Point Curve) (e : Nat) :
    (arr.insert_from_left_vertex_at_vertex pt located cv v = some (a1, e) →
      a1.dcel.Reachable) ∧
    (arr.insert_from_right_vertex_at_vertex pt located cv v = some (a1, e) →
      a1.dcel.Reachable) := by
  constructor
  · intro h
    unfold Arrangement_2.insert_from_left_vertex_at_vertex at h
    obtain ⟨rv, -, h⟩ := Option.bind_eq_some.mp h
    split_ifs at h
    · obtain ⟨s, hs, h⟩ := Option.map_eq_some'.mp h
      rw [← (Prod.mk.inj h).1]
      exact Arrangement_2.reachable_insert_in_face_interior_curve _
        (Arrangement_2.reachable_create_vertex s.1
          (Arrangement_2.reachable_remove_isolated_vertex_inner arr hd v s.1 s.2 hs) _) _ _ _ _
    · obtain ⟨prev, -, h⟩ := Option.bind_eq_some.mp h
      exact Arrangement_2.reachable_insert_from_left_vertex arr hd pt cv prev a1 e h
  · intro h
    unfold Arrangement_2.insert_from_right_vertex_at_vertex at h
    obtain ⟨rv, -, h⟩ := Option.bind_eq_some.mp h
    split_ifs at h
    · obtain ⟨s, hs, h⟩ := Option.map_eq_some'.mp h
      rw [← (Prod.mk.inj h).1]
      exact Arrangement_2.reachable_insert_in_face_interior_curve _
        (Arrangement_2.reachable_create_vertex s.1
          (Arrangement_2.reachable_remove_isolated_vertex_inner arr hd v s.1 s.2 hs) _) _ _ _ _
    · obtain ⟨prev, -, h⟩ := Option.bind_eq_some.mp h
      exact Arrangement_2.reachable_insert_from_right_vertex arr hd pt cv prev a1 e h

/-- The state after `insert_at_vertices (cv, h1, v2)` is a state of the record store. -/
theorem Arrangement_2.reachable_insert_at_vertices_at_vertex {Point Curve : Type}
    (arr : Arrangement_2 Point Curve) (hd : arr.dcel.Reachable) (p1i bu : Bool)
    (hi vi : Nat → Bool) (located2 : Option Nat) (cv : Curve) (h1 v2 : Nat)
    (a1 : Arrangement_2 Point Curve) (e : Nat)
    (h : arr.insert_at_vertices_at_vertex p1i bu hi vi located2 cv h1 v2 = some (a1, e)) :
    a1.dcel.Reachable := by
  unfold Arrangement_2.insert_at_vertices_at_vertex at h
  obtain ⟨rv, -, h⟩ := Option.bind_eq_some.mp h
  split_ifs at h
  · obtain ⟨s, hs, h⟩ := Option.bind_eq_some.mp h
    exact Arrangement_2.reachable_insert_from_vertex s.1
      (Arrangement_2.reachable_remove_isolated_vertex_inner arr hd v2 s.1 s.2 hs) cv _ _ a1 e h
  · obtain ⟨prev2, -, h⟩ := Option.bind_eq_some.mp h
    exact Arrangement_2.reachable_insert_at_vertices arr hd _ _ _ _ _ _ _ a1 e h

/-- The state after `insert_at_vertices (cv, v1, v2)` is a state of the record store. -/
theorem Arrangement_2.reachable_insert_at_vertices_at_vertices {Point Curve : Type}
    (arr : Arrangement_2 Point Curve) (hd : arr.dcel.Reachable) (p1i bu : Bool)
    (hi vi : Nat → Bool) (located1 located2 : Option Nat) (cv : Curve) (v1 v2 : Nat)
    (a1 : Arrangement_2 Point Curve) (e : Nat)
    (h : arr.insert_at_vertices_at_vertices p1i bu hi vi located1 located2 cv v1 v2
      = some (a1, e)) : a1.dcel.Reachable := by
  unfold Arrangement_2.insert_at_vertices_at_vertices at h
  obtain ⟨rv1, -, h⟩ := Option.bind_eq_some.mp h
  obtain ⟨rv2, -, h⟩ := Option.bind_eq_some.mp h
  split_ifs at h
  · obtain ⟨s1, hs1, h⟩ := Option.bind_eq_some.mp h
    obtain ⟨s2, hs2, h⟩ := Option.map_eq_some'.mp h
    rw [← (Prod.mk.inj h).1]
    exact Arrangement_2.reachable_insert_in_face_interior_curve _
      (Arrangement_2.reachable_remove_isolated_vertex_inner s1.1
        (Arrangement_2.reachable_remove_isolated_vertex_inner arr hd v1 s1.1 s1.2 hs1) v2
        s2.1 s2.2 hs2) _ _ _ _
  · obtain ⟨prev2, -, h⟩ := Option.bind_eq_some.mp h
    obtain ⟨s1, hs1, h⟩ := Option.bind_eq_some.mp h
    obtain ⟨q, hq, h⟩ := Option.map_eq_some'.mp h
    rw [← (Prod.mk.inj h).1]
    exact Arrangement_2.reachable_insert_from_vertex s1.1
      (Arrangement_2.reachable_remove_isolated_vertex_inner arr hd v1 s1.1 s1.2 hs1) cv _ _
      q.1 q.2 hq
  · obtain ⟨prev1, -, h⟩ := Option.bind_eq_some.mp h
    obtain ⟨s2, hs2, h⟩ := Option.bind_eq_some.mp h
    exact Arrangement_2.reachable_insert_from_vertex s2.1
      (Arrangement_2.reachable_remove_isolated_vertex_inner arr hd v2 s2.1 s2.2 hs2) cv _ _
      a1 e h
  · obtain ⟨prev1, -, h⟩ := Option.bind_eq_some.mp h
    obtain ⟨prev2, -, h⟩ := Option.bind_eq_some.mp h
    exact Arrangement_2.reachable_insert_at_vertices arr hd _ _ _ _ _ _ _ a1 e h

/-- C21, with the flags that make the removal the inverse of the insertion.  For every
state and every insertion followed by its inverse removal, `number_of_vertices ()`,
`number_of_edges ()` and `number_of_faces ()` after the pair equal their values before
it; the insertion and the removal return, and the state after the pair is again a state
of the structure.  The pairs are `insert_in_face_interior` of a point and
`remove_isolated_vertex` of the vertex it returns, and the insertion of a curve and
`remove_edge` of the halfedge it returns, with the flag of an end vertex on if the
insertion created that vertex and off if the vertex was an isolated vertex before the
insertion (the removal makes it an isolated vertex again); the flag of an end vertex with
other incident edges is arbitrary (`rs`, `rt`).  With both flags on, the removal after an
insertion at an isolated vertex deletes a vertex that was there before.

The insertions are all the overloads of the header: of a curve into the
interior of a face, bounded or with one or two unbounded ends on fictitious edges (of one
boundary); `insert_from_left_vertex` and `insert_from_right_vertex` at a vertex (isolated,
or with the place of the curve located after `prev`), after a halfedge, and after a
halfedge with the other end unbounded; `insert_at_vertices` at two vertices (each
isolated or located), after a halfedge and at a vertex, and after two halfedges.  A
halfedge after which the curve is inserted has an incident face (a live one where the
insertion may split it) and a target that is not a vertex at infinity, a located halfedge
ends at its vertex, two halfedges lie on the same boundary or one of them on a hole, and
two isolated end vertices are two vertices.
The answers of the geometric tests (`prev1_inside`, `both_unbounded`, `on_second_piece`,
`hole_inside`, `vertex_inside`, `e_at_hole`, and `located` at an isolated vertex) are
arbitrary. -/
theorem C21_insert_remove_counts {Point Curve : Type} (w : Nat)
    (arr : Arrangement_2 Point Curve) (hd : arr.dcel.Reachable) :
    (∀ (p : Point) (f : Nat), ∃ a2,
      (arr.insert_in_face_interior p f).1.remove_isolated_vertex
        (arr.insert_in_face_interior p f).2 = some (a2, f) ∧
      a2.number_of_vertices w = arr.number_of_vertices w ∧
      a2.number_of_edges w = arr.number_of_edges w ∧
      a2.number_of_faces w = arr.number_of_faces w ∧ a2.dcel.Reachable) ∧
    (∀ (left right : Curve → Point) (cv : Curve) (f : Nat) (e_at_hole : Bool), ∃ a2 g,
      (arr.insert_curve_in_face_interior left right cv f).1.remove_edge e_at_hole
        (arr.insert_curve_in_face_interior left right cv f).2 true true = some (a2, g) ∧
      a2.number_of_vertices w = arr.number_of_vertices w ∧
      a2.number_of_edges w = arr.number_of_edges w ∧
      a2.number_of_faces w = arr.number_of_faces w ∧ a2.dcel.Reachable) ∧
    (∀ (left_unbounded : Bool) (end_point : Curve → Point)
      (inf_x1 inf_y1 inf_x2 inf_y2 : Curve → Boundary_type)
      (on_second_piece prev1_inside : Bool) (hole_inside vertex_inside : Nat → Bool)
      (cv : Curve) (fict_he1 f : Nat) (e_at_hole : Bool),
      Halfedge.face arr.dcel fict_he1 = some f →
      ∃ a1 e a2 g, arr.insert_unbounded_curve_in_face_interior left_unbounded end_point inf_x1
          inf_y1 inf_x2 inf_y2 on_second_piece prev1_inside hole_inside vertex_inside cv
          fict_he1 none = some (a1, e) ∧
        a1.remove_edge e_at_hole e true true = some (a2, g) ∧
        a2.number_of_vertices w = arr.number_of_vertices w ∧
        a2.number_of_edges w = arr.number_of_edges w ∧
        a2.number_of_faces w = arr.number_of_faces w ∧ a2.dcel.Reachable) ∧
    (∀ (left_unbounded : Bool) (end_point : Curve → Point)
      (inf_x1 inf_y1 inf_x2 inf_y2 : Curve → Boundary_type)
      (on_second_piece prev1_inside : Bool) (hole_inside vertex_inside : Nat → Bool)
      (cv : Curve) (fict_he1 fict_he2 f : Nat) (e_at_hole : Bool),
      Halfedge.face arr.dcel fict_he1 = some f → (arr.dcel.faces.get f).isSome →
      (arr.dcel.halfedges.get fict_he2).map (fun r => r.comp)
        = (arr.dcel.halfedges.get fict_he1).map (fun r => r.comp) →
      ∃ a1 e a2 g, arr.insert_unbounded_curve_in_face_interior left_unbounded end_point inf_x1
          inf_y1 inf_x2 inf_y2 on_second_piece prev1_inside hole_inside vertex_inside cv
          fict_he1 (some fict_he2) = some (a1, e) ∧
        a1.remove_edge e_at_hole e true true = some (a2, g) ∧
        a2.number_of_vertices w = arr.number_of_vertices w ∧
        a2.number_of_edges w = arr.number_of_edges w ∧
        a2.number_of_faces w = arr.number_of_faces w ∧ a2.dcel.Reachable) ∧
    (∀ (right : Curve → Point) (located : Option Nat) (cv : Curve) (v f : Nat)
      (e_at_hole : Bool), Vertex.face arr.dcel v = some f →
      ∃ a1 e a2 g, arr.insert_from_left_vertex_at_vertex right located cv v = some (a1, e) ∧
        a1.remove_edge e_at_hole e false true = some (a2, g) ∧
        a2.number_of_vertices w = arr.number_of_vertices w ∧
        a2.number_of_edges w = arr.number_of_edges w ∧
        a2.number_of_faces w = arr.number_of_faces w ∧ a2.dcel.Reachable) ∧
    (∀ (right : Curve → Point) (cv : Curve) (v prev f : Nat) (e_at_hole rs : Bool),
      Vertex.incident_halfedges_precondition arr.dcel v = some true →
      Vertex.is_at_infinity arr.dcel v = some false →
      Halfedge.target arr.dcel prev = some v →
      Halfedge.face arr.dcel prev = some f →
      ∃ a1 e a2 g, arr.insert_from_left_vertex_at_vertex right (some prev) cv v = some (a1, e) ∧
        a1.remove_edge e_at_hole e rs true = some (a2, g) ∧
        a2.number_of_vertices w = arr.number_of_vertices w ∧
        a2.number_of_edges w = arr.number_of_edges w ∧
        a2.number_of_faces w = arr.number_of_faces w ∧ a2.dcel.Reachable) ∧
    (∀ (right : Curve → Point) (cv : Curve) (prev f : Nat) (e_at_hole rs : Bool),
      Halfedge.face arr.dcel prev = some f →
      (Halfedge.target arr.dcel prev).bind (Vertex.is_at_infinity arr.dcel) = some false →
      ∃ a1 e a2 g, arr.insert_from_left_vertex right cv prev = some (a1, e) ∧
        a1.remove_edge e_at_hole e rs true = some (a2, g) ∧
        a2.number_of_vertices w = arr.number_of_vertices w ∧
        a2.number_of_edges w = arr.number_of_edges w ∧
        a2.number_of_faces w = arr.number_of_faces w ∧ a2.dcel.Reachable) ∧
    (∀ (inf_x inf_y : Curve → Boundary_type) (prev1_inside : Bool)
      (hole_inside vertex_inside : Nat → Bool) (cv : Curve) (prev fict_he f1 f2 : Nat)
      (e_at_hole rs : Bool), prev ≠ fict_he →
      Halfedge.face arr.dcel prev = some f1 → Halfedge.face arr.dcel fict_he = some f2 →
      (arr.dcel.faces.get f1).isSome → (arr.dcel.faces.get f2).isSome →
      (Halfedge.target arr.dcel prev).bind (Vertex.is_at_infinity arr.dcel) = some false →
      ((arr.dcel.halfedges.get prev).map (fun r => r.comp)
          = (arr.dcel.halfedges.get fict_he).map (fun r => r.comp) ∨
        (arr.dcel.halfedges.get prev).map (fun r => r.is_on_hole) = some true ∨
        (arr.dcel.halfedges.get fict_he).map (fun r => r.is_on_hole) = some true) →
      ∃ a1 e a2 g, arr.insert_from_left_vertex_unbounded inf_x inf_y prev1_inside
          hole_inside vertex_inside cv prev fict_he = some (a1, e) ∧
        a1.remove_edge e_at_hole e rs true = some (a2, g) ∧
        a2.number_of_vertices w = arr.number_of_vertices w ∧
        a2.number_of_edges w = arr.number_of_edges w ∧
        a2.number_of_faces w = arr.number_of_faces w ∧ a2.dcel.Reachable) ∧
    (∀ (left : Curve → Point) (located : Option Nat) (cv : Curve) (v f : Nat)
      (e_at_hole : Bool), Vertex.face arr.dcel v = some f →
      ∃ a1 e a2 g, arr.insert_from_right_vertex_at_vertex left located cv v = some (a1, e) ∧
        a1.remove_edge e_at_hole e false true = some (a2, g) ∧
        a2.number_of_vertices w = arr.number_of_vertices w ∧
        a2.number_of_edges w = arr.number_of_edges w ∧
        a2.number_of_faces w = arr.number_of_faces w ∧ a2.dcel.Reachable) ∧
    (∀ (left : Curve → Point) (cv : Curve) (v prev f : Nat) (e_at_hole rs : Bool),
      Vertex.incident_halfedges_precondition arr.dcel v = some true →
      Vertex.is_at_infinity arr.dcel v = some false →
      Halfedge.target arr.dcel prev = some v →
      Halfedge.face arr.dcel prev = some f →
      ∃ a1 e a2 g, arr.insert_from_right_vertex_at_vertex left (some prev) cv v = some (a1, e) ∧
        a1.remove_edge e_at_hole e rs true = some (a2, g) ∧
        a2.number_of_vertices w = arr.number_of_vertices w ∧
        a2.number_of_edges w = arr.number_of_edges w ∧
        a2.number_of_faces w = arr.number_of_faces w ∧ a2.dcel.Reachable) ∧
    (∀ (left : Curve → Point) (cv : Curve) (prev f : Nat) (e_at_hole rs : Bool),
      Halfedge.face arr.dcel prev = some f →
      (Halfedge.target arr.dcel prev).bind (Vertex.is_at_infinity arr.dcel) = some false →
      ∃ a1 e a2 g, arr.insert_from_right_vertex left cv prev = some (a1, e) ∧
        a1.remove_edge e_at_hole e rs true = some (a2, g) ∧
        a2.number_of_vertices w = arr.number_of_vertices w ∧
        a2.number_of_edges w = arr.number_of_edges w ∧
        a2.number_of_faces w = arr.number_of_faces w ∧ a2.dcel.Reachable) ∧
    (∀ (inf_x inf_y : Curve → Boundary_type) (prev1_inside : Bool)
      (hole_inside vertex_inside : Nat → Bool) (cv : Curve) (prev fict_he f1 f2 : Nat)
      (e_at_hole rs : Bool), prev ≠ fict_he →
      Halfedge.face arr.dcel prev = some f1 → Halfedge.face arr.dcel fict_he = some f2 →
      (arr.dcel.faces.get f1).isSome → (arr.dcel.faces.get f2).isSome →
      (Halfedge.target arr.dcel prev).bind (Vertex.is_at_infinity arr.dcel) = some false →
      ((arr.dcel.halfedges.get prev).map (fun r => r.comp)
          = (arr.dcel.halfedges.get fict_he).map (fun r => r.comp) ∨
        (arr.dcel.halfedges.get prev).map (fun r => r.is_on_hole) = some true ∨
        (arr.dcel.halfedges.get fict_he).map (fun r => r.is_on_hole) = some true) →
      ∃ a1 e a2 g, arr.insert_from_right_vertex_unbounded inf_x inf_y prev1_inside
          hole_inside vertex_inside cv prev fict_he = some (a1, e) ∧
        a1.remove_edge e_at_hole e rs true = some (a2, g) ∧
        a2.number_of_vertices w = arr.number_of_vertices w ∧
        a2.number_of_edges w = arr.number_of_edges w ∧
        a2.number_of_faces w = arr.number_of_faces w ∧ a2.dcel.Reachable) ∧
    (∀ (prev1_inside both_unbounded : Bool) (hole_inside vertex_inside : Nat → Bool)
      (located1 located2 : Option Nat) (cv : Curve) (v1 v2 f1 f2 : Nat) (e_at_hole : Bool),
      Vertex.face arr.dcel v1 = some f1 → Vertex.face arr.dcel v2 = some f2 →
      (arr.dcel.vertices.get v2).map (fun r => r.inc)
        ≠ (arr.dcel.vertices.get v1).map (fun r => r.inc) →
      ∃ a1 e a2 g, arr.insert_at_vertices_at_vertices prev1_inside both_unbounded
          hole_inside vertex_inside located1 located2 cv v1 v2 = some (a1, e) ∧
        a1.remove_edge e_at_hole e false false = some (a2, g) ∧
        a2.number_of_vertices w = arr.number_of_vertices w ∧
        a2.number_of_edges w = arr.number_of_edges w ∧
        a2.number_of_faces w = arr.number_of_faces w ∧ a2.dcel.Reachable) ∧
    (∀ (prev1_inside both_unbounded : Bool) (hole_inside vertex_inside : Nat → Bool)
      (located1 : Option Nat) (cv : Curve) (v1 v2 prev2 f1 f2 : Nat) (e_at_hole rt : Bool),
      Vertex.face arr.dcel v1 = some f1 →
      Vertex.incident_halfedges_precondition arr.dcel v2 = some true →
      Vertex.is_at_infinity arr.dcel v2 = some false →
      Halfedge.target arr.dcel prev2 = some v2 →
      Halfedge.face arr.dcel prev2 = some f2 →
      ∃ a1 e a2 g, arr.insert_at_vertices_at_vertices prev1_inside both_unbounded
          hole_inside vertex_inside located1 (some prev2) cv v1 v2 = some (a1, e) ∧
        a1.remove_edge e_at_hole e false rt = some (a2, g) ∧
        a2.number_of_vertices w = arr.number_of_vertices w ∧
        a2.number_of_edges w = arr.number_of_edges w ∧
        a2.number_of_faces w = arr.number_of_faces w ∧ a2.dcel.Reachable) ∧
    (∀ (prev1_inside both_unbounded : Bool) (hole_inside vertex_inside : Nat → Bool)
      (located2 : Option Nat) (cv : Curve) (v1 v2 prev1 f1 f2 : Nat) (e_at_hole rs : Bool),
      Vertex.incident_halfedges_precondition arr.dcel v1 = some true →
      Vertex.is_at_infinity arr.dcel v1 = some false →
      Halfedge.target arr.dcel prev1 = some v1 →
      Halfedge.face arr.dcel prev1 = some f1 →
      Vertex.face arr.dcel v2 = some f2 →
      ∃ a1 e a2 g, arr.insert_at_vertices_at_vertices prev1_inside both_unbounded
          hole_inside vertex_inside (some prev1) located2 cv v1 v2 = some (a1, e) ∧
        a1.remove_edge e_at_hole e rs false = some (a2, g) ∧
        a2.number_of_vertices w = arr.number_of_vertices w ∧
        a2.number_of_edges w = arr.number_of_edges w ∧
        a2.number_of_faces w = arr.number_of_faces w ∧ a2.dcel.Reachable) ∧
    (∀ (prev1_inside both_unbounded : Bool) (hole_inside vertex_inside : Nat → Bool)
      (cv : Curve) (v1 v2 prev1 prev2 f1 f2 : Nat) (e_at_hole rs rt : Bool),
      Vertex.incident_halfedges_precondition arr.dcel v1 = some true →
      Vertex.is_at_infinity arr.dcel v1 = some false →
      Halfedge.target arr.dcel prev1 = some v1 →
      Vertex.incident_halfedges_precondition arr.dcel v2 = some true →
      Vertex.is_at_infinity arr.dcel v2 = some false →
      Halfedge.target arr.dcel prev2 = some v2 →
      Halfedge.face arr.dcel prev1 = some f1 → Halfedge.face arr.dcel prev2 = some f2 →
      (arr.dcel.faces.get f1).isSome → (arr.dcel.faces.get f2).isSome →
      ((arr.dcel.halfedges.get prev1).map (fun r => r.comp)
          = (arr.dcel.halfedges.get prev2).map (fun r => r.comp) ∨
        (arr.dcel.halfedges.get prev1).map (fun r => r.is_on_hole) = some true ∨
        (arr.dcel.halfedges.get prev2).map (fun r => r.is_on_hole) = some true) →
      ∃ a1 e a2 g, arr.insert_at_vertices_at_vertices prev1_inside both_unbounded
          hole_inside vertex_inside (some prev1) (some prev2) cv v1 v2 = some (a1, e) ∧
        a1.remove_edge e_at_hole e rs rt = some (a2, g) ∧
        a2.number_of_vertices w = arr.number_of_vertices w ∧
        a2.number_of_edges w = arr.number_of_edges w ∧
        a2.number_of_faces w = arr.number_of_faces w ∧ a2.dcel.Reachable) ∧
    (∀ (prev1_inside both_unbounded : Bool) (hole_inside vertex_inside : Nat → Bool)
      (located2 : Option Nat) (cv : Curve) (h1 v2 f1 f2 : Nat) (e_at_hole rs : Bool),
      Halfedge.face arr.dcel h1 = some f1 →
      (Halfedge.target arr.dcel h1).bind (Vertex.is_at_infinity arr.dcel) = some false →
      Vertex.face arr.dcel v2 = some f2 →
      ∃ a1 e a2 g, arr.insert_at_vertices_at_vertex prev1_inside both_unbounded
          hole_inside vertex_inside located2 cv h1 v2 = some (a1, e) ∧
        a1.remove_edge e_at_hole e rs false = some (a2, g) ∧
        a2.number_of_vertices w = arr.number_of_vertices w ∧
        a2.number_of_edges w = arr.number_of_edges w ∧
        a2.number_of_faces w = arr.number_of_faces w ∧ a2.dcel.Reachable) ∧
    (∀ (prev1_inside both_unbounded : Bool) (hole_inside vertex_inside : Nat → Bool)
      (cv : Curve) (h1 v2 prev2 f1 f2 : Nat) (e_at_hole rs rt : Bool),
      (Halfedge.target arr.dcel h1).bind (Vertex.is_at_infinity arr.dcel) = some false →
      Vertex.incident_halfedges_precondition arr.dcel v2 = some true →
      Vertex.is_at_infinity arr.dcel v2 = some false →
      Halfedge.target arr.dcel prev2 = some v2 →
      Halfedge.face arr.dcel h1 = some f1 → Halfedge.face arr.dcel prev2 = some f2 →
      (arr.dcel.faces.get f1).isSome → (arr.dcel.faces.get f2).isSome →
      ((arr.dcel.halfedges.get h1).map (fun r => r.comp)
          = (arr.dcel.halfedges.get prev2).map (fun r => r.comp) ∨
        (arr.dcel.halfedges.get h1).map (fun r => r.is_on_hole) = some true ∨
        (arr.dcel.halfedges.get prev2).map (fun r => r.is_on_hole) = some true) →
      ∃ a1 e a2 g, arr.insert_at_vertices_at_vertex prev1_inside both_unbounded
          hole_inside vertex_inside (some prev2) cv h1 v2 = some (a1, e) ∧
        a1.remove_edge e_at_hole e rs rt = some (a2, g) ∧
        a2.number_of_vertices w = arr.number_of_vertices w ∧
        a2.number_of_edges w = arr.number_of_edges w ∧
        a2.number_of_faces w = arr.number_of_faces w ∧ a2.dcel.Reachable) ∧
    (∀ (prev1_inside both_unbounded : Bool) (hole_inside vertex_inside : Nat → Bool)
      (cv : Curve) (prev1 prev2 f1 f2 : Nat) (e_at_hole rs rt : Bool),
      Halfedge.face arr.dcel prev1 = some f1 → Halfedge.face arr.dcel prev2 = some f2 →
      (arr.dcel.faces.get f1).isSome → (arr.dcel.faces.get f2).isSome →
      (Halfedge.target arr.dcel prev1).bind (Vertex.is_at_infinity arr.dcel) = some false →
      (Halfedge.target arr.dcel prev2).bind (Vertex.is_at_infinity arr.dcel) = some false →
      ((arr.dcel.halfedges.get prev1).map (fun r => r.comp)
          = (arr.dcel.halfedges.get prev2).map (fun r => r.comp) ∨
        (arr.dcel.halfedges.get prev1).map (fun r => r.is_on_hole) = some true ∨
        (arr.dcel.halfedges.get prev2).map (fun r => r.is_on_hole) = some true) →
      ∃ a1 e a2 g, arr.insert_at_vertices prev1_inside both_unbounded hole_inside
          vertex_inside cv prev1 prev2 = some (a1, e) ∧
        a1.remove_edge e_at_hole e rs rt = some (a2, g) ∧
        a2.number_of_vertices w = arr.number_of_vertices w ∧
        a2.number_of_edges w = arr.number_of_edges w ∧
        a2.number_of_faces w = arr.number_of_faces w ∧ a2.dcel.Reachable) := by
  have hl := hd.linked
  have fin : ∀ (a1 a2 : Arrangement_2 Point Curve) (b : Bool) (e g : Nat) (rs rt : Bool),
      a1.dcel.Reachable → a1.remove_edge b e rs rt = some (a2, g) →
      a2.n_inf_verts = arr.n_inf_verts ∧
        a2.dcel.vertices.size = arr.dcel.vertices.size ∧
        a2.dcel.halfedges.size = arr.dcel.halfedges.size ∧
        a2.dcel.faces.size = arr.dcel.faces.size →
      a2.number_of_vertices w = arr.number_of_vertices w ∧
        a2.number_of_edges w = arr.number_of_edges w ∧
        a2.number_of_faces w = arr.number_of_faces w ∧ a2.dcel.Reachable := by
    intro a1 a2 b e g rs rt h1 hr hc
    obtain ⟨c1, c2, c3, c4⟩ := hc
    obtain ⟨d1, d2, d3⟩ := Arrangement_2.counts_eq w arr a2 c1 c2 c3 c4
    exact ⟨d1, d2, d3, Arrangement_2.reachable_remove_edge_public a1 h1 b e rs rt a2 g hr⟩
  have tfin : ∀ (prev v : Nat), Vertex.is_at_infinity arr.dcel v = some false →
      Halfedge.target arr.dcel prev = some v →
      (Halfedge.target arr.dcel prev).bind (Vertex.is_at_infinity arr.dcel) = some false := by
    intro prev v h1 h2
    rw [h2]
    exact h1
  refine ⟨?_, ?_, ?_, ?_, ?_, ?_, ?_, ?_, ?_, ?_, ?_, ?_, ?_, ?_, ?_, ?_, ?_, ?_, ?_⟩
  · intro p f
    obtain ⟨a2, e1, e2, e3, e4, e5⟩ := Arrangement_2.insert_point_then_remove arr p f
    obtain ⟨c1, c2, c3⟩ := Arrangement_2.counts_eq w arr a2 e2 e3 e4 e5
    exact ⟨a2, e1, c1, c2, c3, Arrangement_2.reachable_remove_isolated_vertex _
      (Arrangement_2.reachable_insert_in_face_interior arr hd p f) _ a2 f e1⟩
  · intro left right cv f b
    obtain ⟨a2, g, j, c⟩ := Arrangement_2.insert_curve_round_trip arr hl left right cv f b
    exact ⟨a2, g, j, fin _ a2 b _ g true true
      (Arrangement_2.reachable_insert_curve_in_face_interior arr hd left right cv f) j c⟩
  · intro lu ep ix1 iy1 ix2 iy2 osp p1i hi vi cv fh f b hf
    obtain ⟨a1, e, a2, g, i, j, c⟩ := (Arrangement_2.insert_unbounded_round_trip arr hl lu
      ep ix1 iy1 ix2 iy2 osp p1i hi vi cv fh f hf b).1
    exact ⟨a1, e, a2, g, i, j, fin a1 a2 b e g _ _
      (Arrangement_2.reachable_insert_unbounded_curve arr hd _ _ _ _ _ _ _ _ _ _ _ _ _ a1 e
        i) j c⟩
  · intro lu ep ix1 iy1 ix2 iy2 osp p1i hi vi cv fh fh2 f b hf hlf hc
    obtain ⟨a1, e, a2, g, i, j, c⟩ := (Arrangement_2.insert_unbounded_round_trip arr hl lu
      ep ix1 iy1 ix2 iy2 osp p1i hi vi cv fh f hf b).2 fh2 hlf hc
    exact ⟨a1, e, a2, g, i, j, fin a1 a2 b e g _ _
      (Arrangement_2.reachable_insert_unbounded_curve arr hd _ _ _ _ _ _ _ _ _ _ _ _ _ a1 e
        i) j c⟩
  · intro pt located cv v f b hv
    obtain ⟨a1, e, a2, g, i, j, c⟩ := (Arrangement_2.insert_from_isolated_round_trip arr hl
      pt located cv v f hv b).1
    exact ⟨a1, e, a2, g, i, j, fin a1 a2 b e g _ _
      ((Arrangement_2.reachable_insert_from_vertex_at_vertex arr hd _ _ _ _ a1 e).1 i) j c⟩
  · intro pt cv v prev f b rs hv hfv ht hf
    obtain ⟨a1, e, a2, g, i, j, c⟩ := (Arrangement_2.insert_from_located_round_trip arr hl
      pt cv v prev f hv hfv ht hf b rs).1
    exact ⟨a1, e, a2, g, i, j, fin a1 a2 b e g _ _
      ((Arrangement_2.reachable_insert_from_vertex_at_vertex arr hd _ _ _ _ a1 e).1 i) j c⟩
  · intro pt cv prev f b rs hf hfin
    obtain ⟨a1, e, a2, g, i, j, c⟩ := Arrangement_2.insert_from_vertex_round_trip arr hl
      (pt cv) cv prev f hf hfin b rs
    exact ⟨a1, e, a2, g, i, j, fin a1 a2 b e g _ _
      (Arrangement_2.reachable_insert_from_left_vertex arr hd pt cv prev a1 e i) j c⟩
  · intro ix iy p1i hi vi cv prev fh f1 f2 b rs hne hf1 hf2 hl1 hl2 hfin hok
    obtain ⟨a1, e, a2, g, i, j, c⟩ := (Arrangement_2.insert_from_vertex_unbounded_round_trip
      arr hl ix iy p1i hi vi cv fh f2 hf2 b prev f1 rs hne hf1 hl2 hl1 hfin hok).1
    exact ⟨a1, e, a2, g, i, j, fin a1 a2 b e g _ _
      ((Arrangement_2.reachable_insert_from_vertex_unbounded arr hd _ _ _ _ _ _ _ _ a1
        e).1 i) j c⟩
  · intro pt located cv v f b hv
    obtain ⟨a1, e, a2, g, i, j, c⟩ := (Arrangement_2.insert_from_isolated_round_trip arr hl
      pt located cv v f hv b).2
    exact ⟨a1, e, a2, g, i, j, fin a1 a2 b e g _ _
      ((Arrangement_2.reachable_insert_from_vertex_at_vertex arr hd _ _ _ _ a1 e).2 i) j c⟩
  · intro pt cv v prev f b rs hv hfv ht hf
    obtain ⟨a1, e, a2, g, i, j, c⟩ := (Arrangement_2.insert_from_located_round_trip arr hl
      pt cv v prev f hv hfv ht hf b rs).2
    exact ⟨a1, e, a2, g, i, j, fin a1 a2 b e g _ _
      ((Arrangement_2.reachable_insert_from_vertex_at_vertex arr hd _ _ _ _ a1 e).2 i) j c⟩
  · intro pt cv prev f b rs hf hfin
    obtain ⟨a1, e, a2, g, i, j, c⟩ := Arrangement_2.insert_from_vertex_round_trip arr hl
      (pt cv) cv prev f hf hfin b rs
    exact ⟨a1, e, a2, g, i, j, fin a1 a2 b e g _ _
      (Arrangement_2.reachable_insert_from_right_vertex arr hd pt cv prev a1 e i) j c⟩
  · intro ix iy p1i hi vi cv prev fh f1 f2 b rs hne hf1 hf2 hl1 hl2 hfin hok
    obtain ⟨a1, e, a2, g, i, j, c⟩ := (Arrangement_2.insert_from_vertex_unbounded_round_trip
      arr hl ix iy p1i hi vi cv fh f2 hf2 b prev f1 rs hne hf1 hl2 hl1 hfin hok).2
    exact ⟨a1, e, a2, g, i, j, fin a1 a2 b e g _ _
      ((Arrangement_2.reachable_insert_from_vertex_unbounded arr hd _ _ _ _ _ _ _ _ a1
        e).2 i) j c⟩
  · intro p1i bu hi vi l1 l2 cv v1 v2 f1 f2 b hv1 hv2 hne
    obtain ⟨a1, e, a2, g, i, j, c⟩ := Arrangement_2.insert_between_isolated_round_trip arr
      hl p1i bu hi vi l1 l2 cv v1 v2 f1 f2 hv1 hv2 hne b
    exact ⟨a1, e, a2, g, i, j, fin a1 a2 b e g _ _
      (Arrangement_2.reachable_insert_at_vertices_at_vertices arr hd _ _ _ _ _ _ _ _ _ a1 e
        i) j c⟩
  · intro p1i bu hi vi l1 cv v1 v2 prev2 f1 f2 b rt hv1 hw2 hfv2 ht2 hf2
    obtain ⟨a1, e, a2, g, i, j, c⟩ := (Arrangement_2.insert_at_isolated_round_trip arr hl
      p1i bu hi vi cv prev2 v1 f1 f2 hv1 hf2 (tfin prev2 v2 hfv2 ht2) b rt).2.2 v2 l1 hw2
    exact ⟨a1, e, a2, g, i, j, fin a1 a2 b e g _ _
      (Arrangement_2.reachable_insert_at_vertices_at_vertices arr hd _ _ _ _ _ _ _ _ _ a1 e
        i) j c⟩
  · intro p1i bu hi vi l2 cv v1 v2 prev1 f1 f2 b rs hw1 hfv1 ht1 hf1 hv2
    obtain ⟨a1, e, a2, g, i, j, c⟩ := (Arrangement_2.insert_at_isolated_round_trip arr hl
      p1i bu hi vi cv prev1 v2 f2 f1 hv2 hf1 (tfin prev1 v1 hfv1 ht1) b rs).2.1 v1 l2 hw1
    exact ⟨a1, e, a2, g, i, j, fin a1 a2 b e g _ _
      (Arrangement_2.reachable_insert_at_vertices_at_vertices arr hd _ _ _ _ _ _ _ _ _ a1 e
        i) j c⟩
  · intro p1i bu hi vi cv v1 v2 prev1 prev2 f1 f2 b rs rt hw1 hfv1 ht1 hw2 hfv2 ht2 hf1 hf2
      hl1 hl2 hok
    obtain ⟨a1, e, a2, g, i, j, c⟩ := (Arrangement_2.insert_at_located_round_trip arr hl
      p1i bu hi vi cv prev1 prev2 v2 f1 f2 hw2 hf1 hf2 hl1 hl2 (tfin prev1 v1 hfv1 ht1)
      (tfin prev2 v2 hfv2 ht2) hok b rs rt).2 v1 hw1
    exact ⟨a1, e, a2, g, i, j, fin a1 a2 b e g _ _
      (Arrangement_2.reachable_insert_at_vertices_at_vertices arr hd _ _ _ _ _ _ _ _ _ a1 e
        i) j c⟩
  · intro p1i bu hi vi l2 cv h1 v2 f1 f2 b rs hf1 hfin hv2
    obtain ⟨a1, e, a2, g, i, j, c⟩ := (Arrangement_2.insert_at_isolated_round_trip arr hl
      p1i bu hi vi cv h1 v2 f2 f1 hv2 hf1 hfin b rs).1 l2
    exact ⟨a1, e, a2, g, i, j, fin a1 a2 b e g _ _
      (Arrangement_2.reachable_insert_at_vertices_at_vertex arr hd _ _ _ _ _ _ _ _ a1 e i)
      j c⟩
  · intro p1i bu hi vi cv h1 v2 prev2 f1 f2 b rs rt hfin hw2 hfv2 ht2 hf1 hf2 hl1 hl2 hok
    obtain ⟨a1, e, a2, g, i, j, c⟩ := (Arrangement_2.insert_at_located_round_trip arr hl
      p1i bu hi vi cv h1 prev2 v2 f1 f2 hw2 hf1 hf2 hl1 hl2 hfin (tfin prev2 v2 hfv2 ht2)
      hok b rs rt).1
    exact ⟨a1, e, a2, g, i, j, fin a1 a2 b e g _ _
      (Arrangement_2.reachable_insert_at_vertices_at_vertex arr hd _ _ _ _ _ _ _ _ a1 e i)
      j c⟩
  · intro p1i bu hi vi cv prev1 prev2 f1 f2 b rs rt hf1 hf2 hl1 hl2 hfin1 hfin2 hok
    obtain ⟨a1, e, a2, g, i, j, c⟩ := Arrangement_2.insert_at_vertices_round_trip arr hl
      p1i bu hi vi cv prev1 prev2 f1 f2 hf1 hf2 hl1 hl2 hfin1 hfin2 hok b rs rt
    exact ⟨a1, e, a2, g, i, j, fin a1 a2 b e g _ _
      (Arrangement_2.reachable_insert_at_vertices arr hd _ _ _ _ _ _ _ a1 e i) j c⟩

/-- The arrangement of the two segments is a state of the record store. -/
theorem insert_two_segments_in_empty_reachable : insert_two_segments_in_empty.dcel.Reachable := by
  have h0 : insert_segment_in_empty.1.dcel.Reachable :=
    Arrangement_2.reachable_insert_curve_in_face_interior _ Dcel.Reachable.empty _ _ _ _
  unfold insert_two_segments_in_empty
  split
  · rename_i r h
    exact Arrangement_2.reachable_insert_from_left_vertex _ h0 _ _ _ r.1 r.2 h
  · exact h0

/-- The arrangement of the two segments and the two isolated vertices is a state of the
record store. -/
theorem insert_segments_and_points_reachable : insert_segments_and_points.dcel.Reachable :=
  Arrangement_2.reachable_insert_in_face_interior _
    (Arrangement_2.reachable_insert_in_face_interior _
      insert_two_segments_in_empty_reachable _ _) _ _

/-- The pairs of C21 in the arrangement `insert_segments_and_points`,
with `Size` of 64 bits: the segments from (0,0) to (2,0) (halfedges 8 and 9, to the
vertices 5 and 4) and from (2,0) to (3,2) (halfedges 10 and 11, to the vertices 6 and 5)
and the isolated vertices 7 at (5,5) and 8 at (7,7), all in the unbounded face 1, whose
outer boundary holds the fictitious halfedges 0, 2, 4 and 6.  First the facts of that
arrangement that the hypotheses of the pairs ask for, then one pair of each kind, in the
order of the theorem: a point; a segment in the face; a ray and a line in the face; from
the left and from the right end vertex at the isolated vertex 7, at the vertex 6 located
after the halfedge 10, after the halfedge 10, and after it with the other end unbounded;
between the vertices 7 and 8, 7 and 6, 6 and 8, 4 and 6 (which closes a triangle), after
the halfedge 10 to the vertex 7, after the halfedge 9 to the vertex 6, and after the
halfedges 10 and 9. -/
theorem C21_insert_remove_counts_witness :
    insert_segments_and_points.dcel.Reachable ∧
    Halfedge.face insert_segments_and_points.dcel 6 = some 1 ∧
    Halfedge.face insert_segments_and_points.dcel 2 = some 1 ∧
    Halfedge.face insert_segments_and_points.dcel 10 = some 1 ∧
    Halfedge.face insert_segments_and_points.dcel 9 = some 1 ∧
    (insert_segments_and_points.dcel.faces.get 1).isSome = true ∧
    (insert_segments_and_points.dcel.halfedges.get 2).map (fun r => r.comp)
      = (insert_segments_and_points.dcel.halfedges.get 6).map (fun r => r.comp) ∧
    Vertex.face insert_segments_and_points.dcel 7 = some 1 ∧
    Vertex.face insert_segments_and_points.dcel 8 = some 1 ∧
    Vertex.incident_halfedges_precondition insert_segments_and_points.dcel 6 = some true ∧
    Vertex.incident_halfedges_precondition insert_segments_and_points.dcel 4 = some true ∧
    Vertex.is_at_infinity insert_segments_and_points.dcel 6 = some false ∧
    Vertex.is_at_infinity insert_segments_and_points.dcel 4 = some false ∧
    Halfedge.target insert_segments_and_points.dcel 10 = some 6 ∧
    Halfedge.target insert_segments_and_points.dcel 9 = some 4 ∧
    (insert_segments_and_points.dcel.halfedges.get 10).map (fun r => r.is_on_hole) = some true ∧
    (insert_segments_and_points.dcel.halfedges.get 10).map (fun r => r.comp)
      = (insert_segments_and_points.dcel.halfedges.get 9).map (fun r => r.comp) ∧
    (insert_segments_and_points.dcel.vertices.get 8).map (fun r => r.inc)
      ≠ (insert_segments_and_points.dcel.vertices.get 7).map (fun r => r.inc) ∧
    (∃ a2,
        (insert_segments_and_points.insert_in_face_interior (9, 9) 1).1.remove_isolated_vertex
          (insert_segments_and_points.insert_in_face_interior (9, 9) 1).2 = some (a2, 1) ∧
        a2.number_of_vertices 64 = insert_segments_and_points.number_of_vertices 64 ∧
        a2.number_of_edges 64 = insert_segments_and_points.number_of_edges 64 ∧
        a2.number_of_faces 64 = insert_segments_and_points.number_of_faces 64 ∧ a2.dcel.Reachable) ∧
    (∃ a2 g,
        (insert_segments_and_points.insert_curve_in_face_interior (fun cv => cv.1) (fun cv => cv.2)
          ((5, 6), (6, 6)) 1).1.remove_edge true
          (insert_segments_and_points.insert_curve_in_face_interior
            (fun cv => cv.1) (fun cv => cv.2)
            ((5, 6), (6, 6)) 1).2 true true = some (a2, g) ∧
        a2.number_of_vertices 64 = insert_segments_and_points.number_of_vertices 64 ∧
        a2.number_of_edges 64 = insert_segments_and_points.number_of_edges 64 ∧
        a2.number_of_faces 64 = insert_segments_and_points.number_of_faces 64 ∧ a2.dcel.Reachable) ∧
    (∃ a1 e a2 g, insert_segments_and_points.insert_unbounded_curve_in_face_interior true
          (fun cv => cv.2) (fun _ => .MINUS_INFINITY) (fun _ => .NO_BOUNDARY)
          (fun _ => .PLUS_INFINITY) (fun _ => .NO_BOUNDARY) false true
          (fun _ => false) (fun _ => false) ((0, 5), (1, 5)) 6 none = some (a1, e) ∧
        a1.remove_edge true e true true = some (a2, g) ∧
        a2.number_of_vertices 64 = insert_segments_and_points.number_of_vertices 64 ∧
        a2.number_of_edges 64 = insert_segments_and_points.number_of_edges 64 ∧
        a2.number_of_faces 64 = insert_segments_and_points.number_of_faces 64 ∧ a2.dcel.Reachable) ∧
    (∃ a1 e a2 g, insert_segments_and_points.insert_unbounded_curve_in_face_interior true
          (fun cv => cv.2) (fun _ => .MINUS_INFINITY) (fun _ => .NO_BOUNDARY)
          (fun _ => .PLUS_INFINITY) (fun _ => .NO_BOUNDARY) false true
          (fun _ => false) (fun _ => false) ((0, 5), (1, 5)) 6 (some 2) = some (a1, e) ∧
        a1.remove_edge true e true true = some (a2, g) ∧
        a2.number_of_vertices 64 = insert_segments_and_points.number_of_vertices 64 ∧
        a2.number_of_edges 64 = insert_segments_and_points.number_of_edges 64 ∧
        a2.number_of_faces 64 = insert_segments_and_points.number_of_faces 64 ∧ a2.dcel.Reachable) ∧
    (∃ a1 e a2 g, insert_segments_and_points.insert_from_left_vertex_at_vertex (fun cv => cv.2) none
          ((5, 5), (6, 5)) 7 = some (a1, e) ∧
        a1.remove_edge true e false true = some (a2, g) ∧
        a2.number_of_vertices 64 = insert_segments_and_points.number_of_vertices 64 ∧
        a2.number_of_edges 64 = insert_segments_and_points.number_of_edges 64 ∧
        a2.number_of_faces 64 = insert_segments_and_points.number_of_faces 64 ∧ a2.dcel.Reachable) ∧
    (∃ a1 e a2 g,
        insert_segments_and_points.insert_from_left_vertex_at_vertex (fun cv => cv.2) (some 10)
          ((3, 2), (4, 4)) 6 = some (a1, e) ∧
        a1.remove_edge true e false true = some (a2, g) ∧
        a2.number_of_vertices 64 = insert_segments_and_points.number_of_vertices 64 ∧
        a2.number_of_edges 64 = insert_segments_and_points.number_of_edges 64 ∧
        a2.number_of_faces 64 = insert_segments_and_points.number_of_faces 64 ∧ a2.dcel.Reachable) ∧
    (∃ a1 e a2 g, insert_segments_and_points.insert_from_left_vertex (fun cv => cv.2)
          ((3, 2), (4, 4)) 10 = some (a1, e) ∧
        a1.remove_edge true e true true = some (a2, g) ∧
        a2.number_of_vertices 64 = insert_segments_and_points.number_of_vertices 64 ∧
        a2.number_of_edges 64 = insert_segments_and_points.number_of_edges 64 ∧
        a2.number_of_faces 64 = insert_segments_and_points.number_of_faces 64 ∧ a2.dcel.Reachable) ∧
    (∃ a1 e a2 g, insert_segments_and_points.insert_from_left_vertex_unbounded
          (fun _ => .PLUS_INFINITY) (fun _ => .NO_BOUNDARY) true
          (fun _ => false) (fun _ => false) ((3, 2), (4, 4)) 10 2 = some (a1, e) ∧
        a1.remove_edge true e false true = some (a2, g) ∧
        a2.number_of_vertices 64 = insert_segments_and_points.number_of_vertices 64 ∧
        a2.number_of_edges 64 = insert_segments_and_points.number_of_edges 64 ∧
        a2.number_of_faces 64 = insert_segments_and_points.number_of_faces 64 ∧ a2.dcel.Reachable) ∧
    (∃ a1 e a2 g,
        insert_segments_and_points.insert_from_right_vertex_at_vertex (fun cv => cv.1) none
          ((4, 5), (5, 5)) 7 = some (a1, e) ∧
        a1.remove_edge true e false true = some (a2, g) ∧
        a2.number_of_vertices 64 = insert_segments_and_points.number_of_vertices 64 ∧
        a2.number_of_edges 64 = insert_segments_and_points.number_of_edges 64 ∧
        a2.number_of_faces 64 = insert_segments_and_points.number_of_faces 64 ∧ a2.dcel.Reachable) ∧
    (∃ a1 e a2 g,
        insert_segments_and_points.insert_from_right_vertex_at_vertex (fun cv => cv.1) (some 10)
          ((2, 3), (3, 2)) 6 = some (a1, e) ∧
        a1.remove_edge true e false true = some (a2, g) ∧
        a2.number_of_vertices 64 = insert_segments_and_points.number_of_vertices 64 ∧
        a2.number_of_edges 64 = insert_segments_and_points.number_of_edges 64 ∧
        a2.number_of_faces 64 = insert_segments_and_points.number_of_faces 64 ∧ a2.dcel.Reachable) ∧
    (∃ a1 e a2 g, insert_segments_and_points.insert_from_right_vertex (fun cv => cv.1)
          ((2, 3), (3, 2)) 10 = some (a1, e) ∧
        a1.remove_edge true e true true = some (a2, g) ∧
        a2.number_of_vertices 64 = insert_segments_and_points.number_of_vertices 64 ∧
        a2.number_of_edges 64 = insert_segments_and_points.number_of_edges 64 ∧
        a2.number_of_faces 64 = insert_segments_and_points.number_of_faces 64 ∧ a2.dcel.Reachable) ∧
    (∃ a1 e a2 g, insert_segments_and_points.insert_from_right_vertex_unbounded
          (fun _ => .PLUS_INFINITY) (fun _ => .NO_BOUNDARY) true
          (fun _ => false) (fun _ => false) ((2, 3), (3, 2)) 10 2 = some (a1, e) ∧
        a1.remove_edge true e false true = some (a2, g) ∧
        a2.number_of_vertices 64 = insert_segments_and_points.number_of_vertices 64 ∧
        a2.number_of_edges 64 = insert_segments_and_points.number_of_edges 64 ∧
        a2.number_of_faces 64 = insert_segments_and_points.number_of_faces 64 ∧ a2.dcel.Reachable) ∧
    (∃ a1 e a2 g,
        insert_segments_and_points.insert_at_vertices_at_vertices true false
          (fun _ => false) (fun _ => false)
          none none ((5, 5), (7, 7)) 7 8 = some (a1, e) ∧
        a1.remove_edge true e false false = some (a2, g) ∧
        a2.number_of_vertices 64 = insert_segments_and_points.number_of_vertices 64 ∧
        a2.number_of_edges 64 = insert_segments_and_points.number_of_edges 64 ∧
        a2.number_of_faces 64 = insert_segments_and_points.number_of_faces 64 ∧ a2.dcel.Reachable) ∧
    (∃ a1 e a2 g,
        insert_segments_and_points.insert_at_vertices_at_vertices true false
          (fun _ => false) (fun _ => false)
          none (some 10) ((3, 2), (5, 5)) 7 6 = some (a1, e) ∧
        a1.remove_edge true e false true = some (a2, g) ∧
        a2.number_of_vertices 64 = insert_segments_and_points.number_of_vertices 64 ∧
        a2.number_of_edges 64 = insert_segments_and_points.number_of_edges 64 ∧
        a2.number_of_faces 64 = insert_segments_and_points.number_of_faces 64 ∧ a2.dcel.Reachable) ∧
    (∃ a1 e a2 g,
        insert_segments_and_points.insert_at_vertices_at_vertices true false
          (fun _ => false) (fun _ => false)
          (some 10) none ((3, 2), (7, 7)) 6 8 = some (a1, e) ∧
        a1.remove_edge true e true false = some (a2, g) ∧
        a2.number_of_vertices 64 = insert_segments_and_points.number_of_vertices 64 ∧
        a2.number_of_edges 64 = insert_segments_and_points.number_of_edges 64 ∧
        a2.number_of_faces 64 = insert_segments_and_points.number_of_faces 64 ∧ a2.dcel.Reachable) ∧
    (∃ a1 e a2 g,
        insert_segments_and_points.insert_at_vertices_at_vertices true false
          (fun _ => false) (fun _ => false)
          (some 9) (some 10) ((0, 0), (3, 2)) 4 6 = some (a1, e) ∧
        a1.remove_edge true e true true = some (a2, g) ∧
        a2.number_of_vertices 64 = insert_segments_and_points.number_of_vertices 64 ∧
        a2.number_of_edges 64 = insert_segments_and_points.number_of_edges 64 ∧
        a2.number_of_faces 64 = insert_segments_and_points.number_of_faces 64 ∧ a2.dcel.Reachable) ∧
    (∃ a1 e a2 g,
        insert_segments_and_points.insert_at_vertices_at_vertex true false
          (fun _ => false) (fun _ => false)
          none ((3, 2), (5, 5)) 10 7 = some (a1, e) ∧
        a1.remove_edge true e true false = some (a2, g) ∧
        a2.number_of_vertices 64 = insert_segments_and_points.number_of_vertices 64 ∧
        a2.number_of_edges 64 = insert_segments_and_points.number_of_edges 64 ∧
        a2.number_of_faces 64 = insert_segments_and_points.number_of_faces 64 ∧ a2.dcel.Reachable) ∧
    (∃ a1 e a2 g,
        insert_segments_and_points.insert_at_vertices_at_vertex true false
          (fun _ => false) (fun _ => false)
          (some 10) ((0, 0), (3, 2)) 9 6 = some (a1, e) ∧
        a1.remove_edge true e false true = some (a2, g) ∧
        a2.number_of_vertices 64 = insert_segments_and_points.number_of_vertices 64 ∧
        a2.number_of_edges 64 = insert_segments_and_points.number_of_edges 64 ∧
        a2.number_of_faces 64 = insert_segments_and_points.number_of_faces 64 ∧ a2.dcel.Reachable) ∧
    (∃ a1 e a2 g,
        insert_segments_and_points.insert_at_vertices true false (fun _ => false) (fun _ => false)
          ((0, 0), (3, 2)) 10 9 = some (a1, e) ∧
        a1.remove_edge true e true true = some (a2, g) ∧
        a2.number_of_vertices 64 = insert_segments_and_points.number_of_vertices 64 ∧
        a2.number_of_edges 64 = insert_segments_and_points.number_of_edges 64 ∧
        a2.number_of_faces 64 = insert_segments_and_points.number_of_faces 64 ∧
        a2.dcel.Reachable) := by
  have f6 : Halfedge.face insert_segments_and_points.dcel 6 = some 1 := by decide
  have f2 : Halfedge.face insert_segments_and_points.dcel 2 = some 1 := by decide
  have f10 : Halfedge.face insert_segments_and_points.dcel 10 = some 1 := by decide
  have f9 : Halfedge.face insert_segments_and_points.dcel 9 = some 1 := by decide
  have l1 : (insert_segments_and_points.dcel.faces.get 1).isSome = true := by decide
  have c26 : (insert_segments_and_points.dcel.halfedges.get 2).map (fun r => r.comp)
      = (insert_segments_and_points.dcel.halfedges.get 6).map (fun r => r.comp) := by decide
  have vf7 : Vertex.face insert_segments_and_points.dcel 7 = some 1 := by decide
  have vf8 : Vertex.face insert_segments_and_points.dcel 8 = some 1 := by decide
  have p6 : Vertex.incident_halfedges_precondition insert_segments_and_points.dcel 6
      = some true := by decide
  have p4 : Vertex.incident_halfedges_precondition insert_segments_and_points.dcel 4
      = some true := by decide
  have i6 : Vertex.is_at_infinity insert_segments_and_points.dcel 6 = some false := by decide
  have i4 : Vertex.is_at_infinity insert_segments_and_points.dcel 4 = some false := by decide
  have t10 : Halfedge.target insert_segments_and_points.dcel 10 = some 6 := by decide
  have t9 : Halfedge.target insert_segments_and_points.dcel 9 = some 4 := by decide
  have o10 : (insert_segments_and_points.dcel.halfedges.get 10).map (fun r => r.is_on_hole)
      = some true := by decide
  have c109 : (insert_segments_and_points.dcel.halfedges.get 10).map (fun r => r.comp)
      = (insert_segments_and_points.dcel.halfedges.get 9).map (fun r => r.comp) := by decide
  have n87 : (insert_segments_and_points.dcel.vertices.get 8).map (fun r => r.inc)
      ≠ (insert_segments_and_points.dcel.vertices.get 7).map (fun r => r.inc) := by decide
  have b10 : (Halfedge.target insert_segments_and_points.dcel 10).bind
      (Vertex.is_at_infinity insert_segments_and_points.dcel) = some false := by decide
  have b9 : (Halfedge.target insert_segments_and_points.dcel 9).bind
      (Vertex.is_at_infinity insert_segments_and_points.dcel) = some false := by decide
  obtain ⟨t1, t2, t3, t4, t5, t6, t7, t8, u9, u10, t11, t12, t13, t14, t15, t16, t17, t18,
    t19⟩ := C21_insert_remove_counts 64 insert_segments_and_points
      insert_segments_and_points_reachable
  exact ⟨insert_segments_and_points_reachable, f6, f2, f10, f9, l1, c26, vf7, vf8, p6, p4,
    i6, i4, t10, t9, o10, c109, n87,
    t1 (9, 9) 1,
    t2 _ _ _ 1 true,
    t3 _ _ _ _ _ _ _ _ _ _ _ 6 1 true f6,
    t4 _ _ _ _ _ _ _ _ _ _ _ 6 2 1 true f6 l1 c26,
    t5 _ none _ 7 1 true vf7,
    t6 _ _ 6 10 1 true false p6 i6 t10 f10,
    t7 _ _ 10 1 true true f10 b10,
    t8 _ _ _ _ _ _ 10 2 1 1 true false (by decide) f10 f2 l1 l1 b10 (Or.inr (Or.inl o10)),
    u9 _ none _ 7 1 true vf7,
    u10 _ _ 6 10 1 true false p6 i6 t10 f10,
    t11 _ _ 10 1 true true f10 b10,
    t12 _ _ _ _ _ _ 10 2 1 1 true false (by decide) f10 f2 l1 l1 b10 (Or.inr (Or.inl o10)),
    t13 _ _ _ _ none none _ 7 8 1 1 true vf7 vf8 n87,
    t14 _ _ _ _ none _ 7 6 10 1 1 true true vf7 p6 i6 t10 f10,
    t15 _ _ _ _ none _ 6 8 10 1 1 true true p6 i6 t10 f10 vf8,
    t16 _ _ _ _ _ 4 6 9 10 1 1 true true true p4 i4 t9 p6 i6 t10 f9 f10 l1 l1
      (Or.inl c109.symm),
    t17 _ _ _ _ none _ 10 7 1 1 true true f10 b10 vf7,
    t18 _ _ _ _ _ 9 6 10 1 1 true false true b9 p6 i6 t10 f9 f10 l1 l1 (Or.inl c109.symm),
    t19 _ _ _ _ _ 10 9 1 1 true true true f10 f9 l1 l1 b10 b9 (Or.inl c109)⟩

/-- C21 fails as stated.  In the arrangement of `insert_isolated_origin_in_empty`,
whose only vertex is the isolated vertex at (0,0), `number_of_vertices ()` is 1,
`number_of_edges ()` is 0 and `number_of_faces ()` is 1 (`Size` has 64 bits).  The segment
from (0,0) to (2,0) inserted from that vertex, its left end, with
`insert_from_left_vertex (cv, v)`, gives the halfedge 8 and 2 vertices.  The removal of that
halfedge with both flags on, whatever `e_at_hole`, returns and leaves 0 vertices, not 1: it
deletes the vertex at (0,0), which was there before the insertion.  With the flag of the
source off it leaves 1 vertex, 0 edges and 1 face. -/
theorem C21_counterexample :
    (insert_isolated_origin_in_empty.1.number_of_vertices 64,
      insert_isolated_origin_in_empty.1.number_of_edges 64,
      insert_isolated_origin_in_empty.1.number_of_faces 64) = (1, 0, 1) ∧
    insert_isolated_origin_in_empty.2 = 4 ∧
    (insert_isolated_origin_in_empty.1.insert_from_left_vertex_at_vertex (fun cv => cv.2)
      none ((0, 0), (2, 0)) 4).map (fun r => (r.2, r.1.number_of_vertices 64))
      = some (8, 2) ∧
    ((insert_isolated_origin_in_empty.1.insert_from_left_vertex_at_vertex (fun cv => cv.2)
      none ((0, 0), (2, 0)) 4).bind (fun r => r.1.remove_edge true r.2 true true)).map
        (fun r => r.1.number_of_vertices 64) = some 0 ∧
    ((insert_isolated_origin_in_empty.1.insert_from_left_vertex_at_vertex (fun cv => cv.2)
      none ((0, 0), (2, 0)) 4).bind (fun r => r.1.remove_edge false r.2 true true)).map
        (fun r => r.1.number_of_vertices 64) = some 0 ∧
    ((insert_isolated_origin_in_empty.1.insert_from_left_vertex_at_vertex (fun cv => cv.2)
      none ((0, 0), (2, 0)) 4).bind (fun r => r.1.remove_edge true r.2 false true)).map
        (fun r => (r.1.number_of_vertices 64, r.1.number_of_edges 64,
          r.1.number_of_faces 64)) = some (1, 0, 1) := by
  refine ⟨?_, ?_, ?_, ?_, ?_, ?_⟩ <;> decide

end CGAL
